import Mathlib

/-!
MicroJVM: class-file loader and bytecode interpreter

A shallow embedding of `class_loader.c`, `jvm.c` and `native_methods.c`.

Conventions of the embedding

* A byte region is a `List Nat`; every byte that is read is reduced `% 256`.
* `size_t` cursor arithmetic is done in `Nat`: a cursor starts at position 0 and
  only advances after its bound check succeeded, so `pos ≤ size` holds
  throughout, and `size` is a file length (`long`) or a `uint32_t` attribute
  length; `pos + count` therefore stays far below `2 ^ 64`.
* `uint16_t`, `uint32_t` and `jint` values are reduced explicitly wherever the
  C code can leave the range.
* The content of a fresh `malloc` block is indeterminate in C; it is supplied by
  the parameter `junk` (offset to byte), over which every statement quantifies.
* The allocations of `parse_attributes` and `parse_methods` can fail: the blocks
  whose size is a `uint32_t` length prefix of the input (the payload of an
  attribute, the code of a method; see `malloc_fails`) and the arrays of records
  (see `calloc_fails`).  The answer of the allocator is the parameter `fits`
  (cursor and size to the answer), over which every statement quantifies; a
  request that the input itself backs, byte for byte or record for record, is
  taken to be granted.  The allocations of `parse_constant_pool` (an array of at
  most 65535 entries, strings of at most 65536 bytes; `class_loader.c` lines 73
  and 86) and the arrays `interfaces` and `fields` of `load_class_file`, which
  the source does not test, are taken to succeed.
-/

namespace MicroJVM

/-! ## Byte cursor (`class_loader.c`, lines 8-43) -/

/-- The structure `ClassReader` of `class_loader.h`. -/
structure ClassReader where
  data : List Nat
  size : Nat
  pos : Nat
  deriving DecidableEq, Repr

/-- The byte `reader->data[i]`. -/
def ClassReader.byte (r : ClassReader) (i : Nat) : Nat :=
  r.data.getD i 0 % 256

/-- The function `read_u1` of `class_loader.c`: value and cursor after the read. -/
def read_u1 (r : ClassReader) : Nat × ClassReader :=
  if r.pos ≥ r.size then (0, r)
  else (r.byte r.pos, { r with pos := r.pos + 1 })

/-- The function `read_u2` of `class_loader.c`. -/
def read_u2 (r : ClassReader) : Nat × ClassReader :=
  if r.pos + 1 ≥ r.size then (0, r)
  else (((r.byte r.pos <<< 8) ||| r.byte (r.pos + 1)) % 65536, { r with pos := r.pos + 2 })

/-- The function `read_u4` of `class_loader.c`. -/
def read_u4 (r : ClassReader) : Nat × ClassReader :=
  if r.pos + 3 ≥ r.size then (0, r)
  else (((r.byte r.pos <<< 24) ||| (r.byte (r.pos + 1) <<< 16) |||
          (r.byte (r.pos + 2) <<< 8) ||| r.byte (r.pos + 3)) % 4294967296,
        { r with pos := r.pos + 4 })

/-- Indices of `reader->data` that `read_u1` dereferences. -/
def read_u1_reads (r : ClassReader) : List Nat :=
  if r.pos ≥ r.size then [] else [r.pos]

/-- Indices of `reader->data` that `read_u2` dereferences. -/
def read_u2_reads (r : ClassReader) : List Nat :=
  if r.pos + 1 ≥ r.size then [] else [r.pos, r.pos + 1]

/-- Indices of `reader->data` that `read_u4` dereferences. -/
def read_u4_reads (r : ClassReader) : List Nat :=
  if r.pos + 3 ≥ r.size then [] else [r.pos, r.pos + 1, r.pos + 2, r.pos + 3]

/-- The function `read_bytes` of `class_loader.c`: `memcpy` of `count` bytes over the
front of `buffer`, or nothing at all when the bytes are not available. -/
def read_bytes (r : ClassReader) (buffer : List Nat) (count : Nat) : List Nat × ClassReader :=
  if r.pos + count > r.size then (buffer, r)
  else (((r.data.drop r.pos).take count).map (· % 256) ++ buffer.drop count,
        { r with pos := r.pos + count })

/-- A fresh `malloc` block of `n` bytes. -/
def malloc (junk : Nat → Nat) (n : Nat) : List Nat :=
  (List.range n).map (fun k => junk k % 256)

/-- The C conversion `(jint)` of an unsigned 32-bit value. -/
def toInt32 (n : Nat) : Int :=
  if n % 4294967296 < 2147483648 then (n % 4294967296 : Nat) else (n % 4294967296 : Nat) - 4294967296

/-! ## Constant pool (`jvm.h`, lines 36-71; `class_loader.c`, lines 45-140) -/

def CONST_UTF8 : Nat := 1
def CONST_INTEGER : Nat := 3
def CONST_FLOAT : Nat := 4
def CONST_LONG : Nat := 5
def CONST_DOUBLE : Nat := 6
def CONST_CLASS : Nat := 7
def CONST_STRING : Nat := 8
def CONST_FIELDREF : Nat := 9
def CONST_METHODREF : Nat := 10
def CONST_NAME_AND_TYPE : Nat := 12

/-- The structure `ConstantPoolEntry` of `jvm.h`.  The members of the C union are
kept as separate fields: every reader in the sources tests `tag` first and then
reads only members that the parser wrote for that tag, so the overlay of the
members in memory is never observed. -/
structure ConstantPoolEntry where
  tag : Nat
  /-- Member `class_info.string_index`. -/
  string_index : Nat
  /-- Member `ref_info.class_index`. -/
  class_index : Nat
  /-- Member `ref_info.name_and_type_index`. -/
  name_and_type_index : Nat
  /-- Member `integer_info.value`. -/
  integer_value : Int
  /-- Member `float_info.value`, as its IEEE-754 bit pattern. -/
  float_bits : Nat
  /-- Member `utf8_info.bytes`: the block the pointer refers to. -/
  utf8_bytes : List Nat
  /-- Member `utf8_info.bytes` when an integer was cast into the pointer (Long, Double). -/
  utf8_bytes_cast : Nat
  /-- Member `utf8_info.length`. -/
  utf8_length : Nat
  deriving DecidableEq, Repr

/-- An entry as `calloc` leaves it: all bytes zero. -/
def ConstantPoolEntry.zero : ConstantPoolEntry :=
  { tag := 0, string_index := 0, class_index := 0, name_and_type_index := 0,
    integer_value := 0, float_bits := 0, utf8_bytes := [], utf8_bytes_cast := 0,
    utf8_length := 0 }

/-- The function `read_utf8_string` of `class_loader.c`, on the two fields of
`ClassInfo` it uses.  The result is the `length` bytes copied in front of the
terminating zero byte; `none` is the null pointer. -/
def read_utf8_string (constant_pool : List ConstantPoolEntry) (constant_pool_count : Nat)
    (index : Nat) : Option (List Nat) :=
  if index = 0 ∨ index ≥ constant_pool_count then none
  else
    let entry := constant_pool.getD index ConstantPoolEntry.zero
    if entry.tag ≠ CONST_UTF8 then none
    else some (entry.utf8_bytes.take entry.utf8_length)

/-- The body of the `for` loop of `parse_constant_pool` without the loop
increment: the cursor after the entry, the entry as written, and whether the
`case` executed its own `i++` (Long and Double).  A local name such as `length`
is the pair of the value read and the cursor after the read. -/
def parse_constant_pool_entry (junk : Nat → Nat) (r : ClassReader) (entry : ConstantPoolEntry) :
    ClassReader × ConstantPoolEntry × Bool :=
  let tag := read_u1 r
  let entry := { entry with tag := tag.1 }
  if tag.1 = CONST_UTF8 then
    let length := read_u2 tag.2
    let bytes := read_bytes length.2 (malloc junk (length.1 + 1)) length.1
    (bytes.2, { entry with utf8_length := length.1, utf8_bytes := bytes.1.set length.1 0 }, false)
  else if tag.1 = CONST_INTEGER then
    let value := read_u4 tag.2
    (value.2, { entry with integer_value := toInt32 value.1 }, false)
  else if tag.1 = CONST_FLOAT then
    let bits := read_u4 tag.2
    (bits.2, { entry with float_bits := bits.1 }, false)
  else if tag.1 = CONST_LONG ∨ tag.1 = CONST_DOUBLE then
    let high := read_u4 tag.2
    let low := read_u4 high.2
    (low.2, { entry with utf8_length := high.1 % 65536, utf8_bytes_cast := low.1 }, true)
  else if tag.1 = CONST_CLASS ∨ tag.1 = CONST_STRING then
    let string_index := read_u2 tag.2
    (string_index.2, { entry with string_index := string_index.1 }, false)
  else if tag.1 = CONST_FIELDREF ∨ tag.1 = CONST_METHODREF ∨ tag.1 = CONST_NAME_AND_TYPE then
    let class_index := read_u2 tag.2
    let name_and_type_index := read_u2 class_index.2
    (name_and_type_index.2,
      { entry with class_index := class_index.1,
                   name_and_type_index := name_and_type_index.1 }, false)
  else
    ((read_u2 tag.2).2, entry, false)

/-- Result of a parsing function: `ok` is `return 0` with the data produced,
`error` is `return -1`, and `out_of_fuel` says that the loop bound of the
embedding was reached before the C loop ended. -/
inductive ParseResult (α : Type) where
  | ok (a : α)
  | error
  | out_of_fuel
  deriving DecidableEq, Repr

/-- The `for (uint16_t i = 1; i < count; i++)` loop of `parse_constant_pool`.  The
index is a `uint16_t`: both increments wrap at `65536`. -/
def parse_constant_pool_loop (junk : Nat → Nat) (count : Nat) :
    Nat → ClassReader → List ConstantPoolEntry → Nat → Option (ClassReader × List ConstantPoolEntry)
  | 0, r, pool, i => if i < count then none else some (r, pool)
  | fuel + 1, r, pool, i =>
    if i < count then
      let step := parse_constant_pool_entry junk r (pool.getD i ConstantPoolEntry.zero)
      let i1 := if step.2.2 then (i + 1) % 65536 else i
      parse_constant_pool_loop junk count fuel step.1 (pool.set i step.2.1) ((i1 + 1) % 65536)
    else some (r, pool)

/-- Loop bound that `parse_constant_pool` gives to its loop. -/
def parse_constant_pool_fuel (r : ClassReader) : Nat :=
  (r.size + 1) * 65536 + 1

/-- The function `parse_constant_pool` of `class_loader.c`: the cursor after the
pool, `constant_pool_count` and `constant_pool`. -/
def parse_constant_pool (junk : Nat → Nat) (r : ClassReader) :
    ParseResult (ClassReader × Nat × List ConstantPoolEntry) :=
  let count := read_u2 r
  if count.1 = 0 then .error
  else
    match parse_constant_pool_loop junk count.1 (parse_constant_pool_fuel count.2) count.2
        (List.replicate count.1 ConstantPoolEntry.zero) 1 with
    | none => .out_of_fuel
    | some res => .ok (res.1, count.1, res.2)

/-! ## Attributes, fields and methods (`class_loader.h`; `class_loader.c`, lines 142-231) -/

/-- The structure `AttributeInfo` of `class_loader.h`; `info` is the block the
pointer refers to, `[]` for the null pointer. -/
structure AttributeInfo where
  name_index : Nat
  length : Nat
  info : List Nat
  deriving DecidableEq, Repr

/-- The structure `FieldInfo` of `class_loader.h`. -/
structure FieldInfo where
  access_flags : Nat
  name_index : Nat
  descriptor_index : Nat
  attributes_count : Nat
  attributes : List AttributeInfo
  deriving DecidableEq, Repr

/-- The structure `LoadedMethodInfo` of `class_loader.h`; `code` is `none` for the
null pointer. -/
structure LoadedMethodInfo where
  access_flags : Nat
  name_index : Nat
  descriptor_index : Nat
  attributes_count : Nat
  attributes : List AttributeInfo
  max_stack : Nat
  max_locals : Nat
  code_length : Nat
  code : Option (List Nat)
  deriving DecidableEq, Repr

/-- The structure `LoadedClass` of `class_loader.h`. -/
structure LoadedClass where
  magic : Nat
  minor_version : Nat
  major_version : Nat
  constant_pool_count : Nat
  constant_pool : List ConstantPoolEntry
  access_flags : Nat
  this_class : Nat
  super_class : Nat
  interfaces_count : Nat
  interfaces : List Nat
  fields_count : Nat
  fields : List FieldInfo
  methods_count : Nat
  methods : List LoadedMethodInfo
  attributes_count : Nat
  attributes : List AttributeInfo
  deriving DecidableEq, Repr

def CLASS_MAGIC : Nat := 0xCAFEBABE

/-- The string `"Code"` of the definition `ATTR_CODE`. -/
def ATTR_CODE : List Nat := [67, 111, 100, 101]

/-- A C string as the string functions see it: the bytes in front of the first
zero byte. -/
def cstr (s : List Nat) : List Nat :=
  s.takeWhile (· ≠ 0)

/-- The test `strcmp(a, b) == 0`. -/
def strcmp_eq (a b : List Nat) : Bool :=
  cstr a == cstr b

/-- An attribute record as `calloc` leaves it: all bytes zero. -/
def AttributeInfo.zero : AttributeInfo := { name_index := 0, length := 0, info := [] }

/-- Whether the call `malloc(n)` returns the null pointer, for a size `n` that a
`uint32_t` length prefix of the input gives and a block that `read_bytes` is to
fill from the cursor `r`.  A block that is not larger than what remains in the
buffer of `r` is taken to be granted, like the buffer itself.  A larger block,
which the input can make as large as `2 ^ 32 - 1` bytes and into which
`read_bytes` copies nothing, is granted when `fits r n`: the answer of the
allocator may depend on the size and, through the cursor, on the moment of the
request. -/
def malloc_fails (fits : ClassReader → Nat → Bool) (r : ClassReader) (n : Nat) : Bool :=
  decide (r.pos + n > r.size) && !(fits r n)

/-- Whether the call `calloc(count, size)` returns the null pointer, for an array
of `count` records each of which takes at least `width` bytes of the input at
the cursor `r`.  An array whose records the buffer of `r` can hold is taken to
be granted; for a larger `count`, which the input chooses up to 65535, the
allocator answers through `fits`. -/
def calloc_fails (fits : ClassReader → Nat → Bool) (r : ClassReader) (count width size : Nat) :
    Bool :=
  decide (r.pos + count * width > r.size) && !(fits r (count * size))

/-- The `for (uint16_t i = 0; i < *count; i++)` loop of `parse_attributes`, for
the `n` records that remain: the cursor, the records, and whether the loop ended
in `return -1` (lines 163-166).  The records behind a failed allocation are as
`calloc` left them. -/
def parse_attributes_loop (junk : Nat → Nat) (fits : ClassReader → Nat → Bool) :
    Nat → ClassReader → ClassReader × List AttributeInfo × Bool
  | 0, r => (r, [], false)
  | n + 1, r =>
    let name_index := read_u2 r
    let length := read_u4 name_index.2
    if length.1 > 0 ∧ malloc_fails fits length.2 length.1 = true then
      (length.2, { name_index := name_index.1, length := length.1, info := [] }
          :: List.replicate n AttributeInfo.zero, true)
    else
      let info :=
        if length.1 > 0 then read_bytes length.2 (malloc junk length.1) length.1
        else ([], length.2)
      let rest := parse_attributes_loop junk fits n info.2
      (rest.1, { name_index := name_index.1, length := length.1, info := info.1 } :: rest.2.1,
        rest.2.2)

/-- The function `parse_attributes` of `class_loader.c`: cursor, `*count`,
`*attributes`, and whether it returned `-1` (lines 152-155 for the array, whose
records have 16 bytes and take at least 6 bytes of the input each, and lines
163-166). -/
def parse_attributes (junk : Nat → Nat) (fits : ClassReader → Nat → Bool) (r : ClassReader) :
    ClassReader × Nat × List AttributeInfo × Bool :=
  let count := read_u2 r
  if count.1 ≠ 0 ∧ calloc_fails fits count.2 count.1 6 16 = true then
    (count.2, count.1, [], true)
  else
    let attributes := parse_attributes_loop junk fits count.1 count.2
    (attributes.1, count.1, attributes.2.1, attributes.2.2)

/-- The body of the `for (uint16_t j ...)` loop of `parse_methods`: the method
after attribute `attr` was inspected.  When the allocation of the code fails,
`method->code` is the null pointer and the loop goes on (lines 219-222). -/
def parse_methods_code_attribute (junk : Nat → Nat) (fits : ClassReader → Nat → Bool)
    (constant_pool : List ConstantPoolEntry) (constant_pool_count : Nat)
    (method : LoadedMethodInfo) (attr : AttributeInfo) : LoadedMethodInfo :=
  match read_utf8_string constant_pool constant_pool_count attr.name_index with
  | none => method
  | some attr_name =>
    if strcmp_eq attr_name ATTR_CODE then
      let code_reader : ClassReader := { data := attr.info, size := attr.length, pos := 0 }
      let max_stack := read_u2 code_reader
      let max_locals := read_u2 max_stack.2
      let code_length := read_u4 max_locals.2
      let method := { method with
        max_stack := max_stack.1, max_locals := max_locals.1, code_length := code_length.1 }
      if code_length.1 > 0 then
        if malloc_fails fits code_length.2 code_length.1 then { method with code := none }
        else
          { method with
            code := some (read_bytes code_length.2 (malloc junk code_length.1) code_length.1).1 }
      else method
    else method

/-- One pass of the `for (uint16_t i ...)` loop of `parse_methods`: one method
record; `none` is the `return -1` that follows a failed `parse_attributes`
(lines 192-195). -/
def parse_method (junk : Nat → Nat) (fits : ClassReader → Nat → Bool) (constant_pool : List ConstantPoolEntry)
    (constant_pool_count : Nat) (r : ClassReader) : Option (ClassReader × LoadedMethodInfo) :=
  let access_flags := read_u2 r
  let name_index := read_u2 access_flags.2
  let descriptor_index := read_u2 name_index.2
  let attributes := parse_attributes junk fits descriptor_index.2
  let method : LoadedMethodInfo :=
    { access_flags := access_flags.1, name_index := name_index.1,
      descriptor_index := descriptor_index.1, attributes_count := attributes.2.1,
      attributes := attributes.2.2.1, max_stack := 0, max_locals := 0, code_length := 0,
      code := none }
  if attributes.2.2.2 then none
  else
    some (attributes.1,
      attributes.2.2.1.foldl
        (parse_methods_code_attribute junk fits constant_pool constant_pool_count) method)

/-- The `for (uint16_t i ...)` loop of `parse_methods`, for the `n` records that
remain; `none` is `return -1`. -/
def parse_methods_loop (junk : Nat → Nat) (fits : ClassReader → Nat → Bool)
    (constant_pool : List ConstantPoolEntry) (constant_pool_count : Nat) :
    Nat → ClassReader → Option (ClassReader × List LoadedMethodInfo)
  | 0, r => some (r, [])
  | n + 1, r =>
    match parse_method junk fits constant_pool constant_pool_count r with
    | none => none
    | some method =>
      match parse_methods_loop junk fits constant_pool constant_pool_count n method.1 with
      | none => none
      | some rest => some (rest.1, method.2 :: rest.2)

/-- The function `parse_methods` of `class_loader.c`: cursor, `methods_count` and
`methods`; `none` is `return -1` (lines 181-184 for the array, whose records
have 32 bytes and take at least 8 bytes of the input each, and line 193). -/
def parse_methods (junk : Nat → Nat) (fits : ClassReader → Nat → Bool)
    (constant_pool : List ConstantPoolEntry) (constant_pool_count : Nat) (r : ClassReader) :
    Option (ClassReader × Nat × List LoadedMethodInfo) :=
  let count := read_u2 r
  if count.1 ≠ 0 ∧ calloc_fails fits count.2 count.1 8 32 = true then none
  else
    match parse_methods_loop junk fits constant_pool constant_pool_count count.1 count.2 with
    | none => none
    | some methods => some (methods.1, count.1, methods.2)

/-! ## The loader (`class_loader.c`, lines 233-333) -/

/-- The interfaces loop of `load_class_file`, for the `n` indices that remain. -/
def load_interfaces_loop : Nat → ClassReader → ClassReader × List Nat
  | 0, r => (r, [])
  | n + 1, r =>
    let value := read_u2 r
    let rest := load_interfaces_loop n value.2
    (rest.1, value.1 :: rest.2)

/-- The fields loop of `load_class_file`, for the `n` records that remain; `none`
is the `return -1` that follows a failed `parse_attributes` (lines 313-317). -/
def load_fields_loop (junk : Nat → Nat) (fits : ClassReader → Nat → Bool) :
    Nat → ClassReader → Option (ClassReader × List FieldInfo)
  | 0, r => some (r, [])
  | n + 1, r =>
    let access_flags := read_u2 r
    let name_index := read_u2 access_flags.2
    let descriptor_index := read_u2 name_index.2
    let attributes := parse_attributes junk fits descriptor_index.2
    if attributes.2.2.2 then none
    else
      match load_fields_loop junk fits n attributes.1 with
      | none => none
      | some rest =>
        some (rest.1, { access_flags := access_flags.1, name_index := name_index.1,
                        descriptor_index := descriptor_index.1,
                        attributes_count := attributes.2.1,
                        attributes := attributes.2.2.1 } :: rest.2)

/-- The part of `load_class_file` that follows the constant pool (lines 290-332):
access flags, `this_class`, `super_class`, interfaces, fields, methods and class
attributes; `none` is `return -1`.  The result of the last `parse_attributes`
call is not tested: the class is returned with the records that call left. -/
def load_class_members (junk : Nat → Nat) (fits : ClassReader → Nat → Bool)
    (magic minor_version major_version : Nat) (constant_pool_count : Nat)
    (constant_pool : List ConstantPoolEntry) (reader : ClassReader) : Option LoadedClass :=
  let access_flags := read_u2 reader
  let this_class := read_u2 access_flags.2
  let super_class := read_u2 this_class.2
  let interfaces_count := read_u2 super_class.2
  let interfaces := load_interfaces_loop interfaces_count.1 interfaces_count.2
  let fields_count := read_u2 interfaces.1
  match load_fields_loop junk fits fields_count.1 fields_count.2 with
  | none => none
  | some fields =>
    match parse_methods junk fits constant_pool constant_pool_count fields.1 with
    | none => none
    | some methods =>
      let attributes := parse_attributes junk fits methods.1
      some
        { magic := magic, minor_version := minor_version, major_version := major_version,
          constant_pool_count := constant_pool_count, constant_pool := constant_pool,
          access_flags := access_flags.1, this_class := this_class.1,
          super_class := super_class.1, interfaces_count := interfaces_count.1,
          interfaces := interfaces.2, fields_count := fields_count.1, fields := fields.2,
          methods_count := methods.2.1, methods := methods.2.2,
          attributes_count := attributes.2.1, attributes := attributes.2.2.1 }

/-- The part of `load_class_file` that follows the magic check (lines 281-332). -/
def load_class_body (junk : Nat → Nat) (fits : ClassReader → Nat → Bool) (magic : Nat) (reader : ClassReader) :
    ParseResult LoadedClass :=
  let minor_version := read_u2 reader
  let major_version := read_u2 minor_version.2
  match parse_constant_pool junk major_version.2 with
  | .error => .error
  | .out_of_fuel => .out_of_fuel
  | .ok pool =>
    match load_class_members junk fits magic minor_version.1 major_version.1 pool.2.1 pool.2.2
        pool.1 with
    | none => .error
    | some loaded_class => .ok loaded_class

/-- The function `load_class_file` of `class_loader.c`, from the point where the
file content `data` is in memory (`file_size` is `data.length`). -/
def load_class_file (junk : Nat → Nat) (fits : ClassReader → Nat → Bool) (data : List Nat) :
    ParseResult LoadedClass :=
  if data.length = 0 then .error
  else
    let magic := read_u4 { data := data, size := data.length, pos := 0 }
    if magic.1 ≠ CLASS_MAGIC then .error
    else load_class_body junk fits magic.1 magic.2

/-! ## Runtime model (`jvm.h`) -/

def MAX_STACK_SIZE : Nat := 2048
def MAX_LOCALS_SIZE : Nat := 512

/-- The size in bytes of the member `heap` of `struct JVM` (`jvm.h`, line 137).  It
follows `locals_memory` in the struct, and no function reads or writes it. -/
def HEAP_SIZE : Nat := 8192

/-- The number of words behind the start of `locals_memory` that no other data of
the VM occupies: the `MAX_LOCALS_SIZE` words of the array and the words of
`heap` behind them, a `jvalue` having 8 bytes. -/
def LOCALS_REACH : Nat := MAX_LOCALS_SIZE + HEAP_SIZE / 8
def MAX_CLASSES : Nat := 32
def MAX_STRING_POOL : Nat := 256

/-- The C conversion to `jlong` of an unsigned 64-bit value. -/
def toInt64 (n : Nat) : Int :=
  if n % 18446744073709551616 < 9223372036854775808 then (n % 18446744073709551616 : Nat)
  else (n % 18446744073709551616 : Nat) - 18446744073709551616

/-- The unsigned 32-bit pattern of an integer (two's complement). -/
def bits32 (v : Int) : Nat := (v % 4294967296).toNat

/-- The unsigned 64-bit pattern of an integer (two's complement). -/
def bits64 (v : Int) : Nat := (v % 18446744073709551616).toNat

/-- The union `jvalue` of `jvm.h`: one 64-bit word.  On the little-endian LP64
targets the members `i` and `f` are the low 32 bits of the word, the members
`l`, `d` and `ref` are the whole word. -/
abbrev jvalue := Nat

/-- Read of member `i`. -/
def jvalue_i (w : jvalue) : Int := toInt32 w

/-- Write of member `i`: the high half of the word stays. -/
def jvalue_set_i (w : jvalue) (v : Int) : jvalue :=
  w / 4294967296 % 4294967296 * 4294967296 + bits32 v

/-- Read of member `l`. -/
def jvalue_l (w : jvalue) : Int := toInt64 w

/-- Write of member `l`. -/
def jvalue_set_l (v : Int) : jvalue := bits64 v

/-- Read of member `f`, as a bit pattern. -/
def jvalue_f (w : jvalue) : Nat := w % 4294967296

/-- Write of member `f`: the high half of the word stays. -/
def jvalue_set_f (w : jvalue) (bits : Nat) : jvalue :=
  w / 4294967296 % 4294967296 * 4294967296 + bits % 4294967296

/-- Read of member `d`, as a bit pattern. -/
def jvalue_d (w : jvalue) : Nat := w % 18446744073709551616

/-- Write of member `d`. -/
def jvalue_set_d (bits : Nat) : jvalue := bits % 18446744073709551616

/-- Read of member `ref`: an address, 0 for the null pointer. -/
def jvalue_ref (w : jvalue) : Nat := w % 18446744073709551616

/-- Write of member `ref`. -/
def jvalue_set_ref (p : Nat) : jvalue := p % 18446744073709551616

/-- The structure `MethodInfo` of `jvm.h`; `none` is the null pointer. -/
structure MethodInfo where
  access_flags : Nat
  name : Option (List Nat)
  descriptor : Option (List Nat)
  max_stack : Nat
  max_locals : Nat
  code_length : Nat
  code : Option (List Nat)
  deriving DecidableEq, Repr

/-- The structure `ClassInfo` of `jvm.h`. -/
structure ClassInfo where
  name : Option (List Nat)
  constant_pool_count : Nat
  constant_pool : List ConstantPoolEntry
  methods_count : Nat
  methods : List MethodInfo
  deriving DecidableEq, Repr

/-- The string `"UnknownClass"`. -/
def UnknownClass : List Nat := [85, 110, 107, 110, 111, 119, 110, 67, 108, 97, 115, 115]

/-- The method loop of `convert_to_jvm_class`: one `MethodInfo` per
`LoadedMethodInfo`. -/
def convert_method (loaded_class : LoadedClass) (src : LoadedMethodInfo) : MethodInfo :=
  { access_flags := src.access_flags,
    name := read_utf8_string loaded_class.constant_pool loaded_class.constant_pool_count
      src.name_index,
    descriptor := read_utf8_string loaded_class.constant_pool loaded_class.constant_pool_count
      src.descriptor_index,
    max_stack := src.max_stack,
    max_locals := src.max_locals,
    code_length := src.code_length,
    code := if src.code_length > 0 then src.code.map (fun c => c.take src.code_length) else none }

/-- The function `convert_to_jvm_class` of `class_loader.c`. -/
def convert_to_jvm_class (loaded_class : LoadedClass) : ClassInfo :=
  let class_entry := loaded_class.constant_pool.getD loaded_class.this_class ConstantPoolEntry.zero
  let name : Option (List Nat) :=
    if loaded_class.this_class > 0 ∧ loaded_class.this_class < loaded_class.constant_pool_count
        ∧ class_entry.tag = CONST_CLASS then
      read_utf8_string loaded_class.constant_pool loaded_class.constant_pool_count
        class_entry.string_index
    else none
  { name := some (name.getD UnknownClass),
    constant_pool_count := loaded_class.constant_pool_count,
    constant_pool := loaded_class.constant_pool,
    methods_count := loaded_class.methods_count,
    methods := (loaded_class.methods.take loaded_class.methods_count).map
      (convert_method loaded_class) }

/-- The structure `JString` of `jvm.h`; `data` is the C string in the block, `none`
for the null pointer. -/
structure JString where
  data : Option (List Nat)
  length : Nat
  capacity : Nat
  deriving DecidableEq, Repr

/-- A `JString` whose bytes are all zero. -/
def JString.zero : JString := { data := none, length := 0, capacity := 0 }

/-- The structure `StringPool` of `jvm.h`; `strings` has `MAX_STRING_POOL` slots. -/
structure StringPool where
  strings : Nat → JString
  count : Nat

/-- The host functions a `NativeMethodEntry` can point to. -/
inductive NativeMethod where
  | native_system_out_print
  | native_system_out_println
  | native_system_out_print_int
  | native_system_out_println_int
  | native_system_out_println_void
  | native_scanner_init
  | native_scanner_next_int
  | native_scanner_next_line
  deriving DecidableEq, Repr

/-- The structure `NativeMethodEntry` of `jvm.h`. -/
structure NativeMethodEntry where
  class_name : List Nat
  method_name : List Nat
  descriptor : List Nat
  function : NativeMethod
  deriving DecidableEq, Repr

/-- The structure `JVM` of `jvm.h`, without `current_frame` and `heap_used`, which
no function reads, and with the two standard streams of the process: `input`
is what is still unread, `output` what was written.  The two arrays are
functions of the index; `locals_memory k` for `k ≥ MAX_LOCALS_SIZE` is the word
`k - MAX_LOCALS_SIZE` of the member `heap`, which follows the array in the
struct (see `Machine`). -/
structure JVM where
  classes : List ClassInfo
  classes_count : Nat
  stack_memory : Nat → jvalue
  locals_memory : Nat → jvalue
  string_pool : StringPool
  native_methods : List NativeMethodEntry
  native_methods_count : Nat
  input : List Nat
  output : List Nat

/-- The structure `Frame` of `jvm.h`.  `locals` and `operand_stack` are the indices
in `locals_memory` and `stack_memory` the two pointers refer to; `pc` is the
offset of the pointer from `method->code`. -/
structure Frame where
  locals : Nat
  operand_stack : Nat
  stack_top : Nat
  pc : Int
  method : MethodInfo
  class_info : ClassInfo

/-- What the C implementation and the machine fix and the sources do not: the
IEEE-754 operations on bit patterns, the address of `string_pool.strings` and
the address `malloc` returns for a `Scanner` object. -/
structure Platform where
  strings_addr : Nat
  scanner_addr : Nat
  fadd : Nat → Nat → Nat
  fsub : Nat → Nat → Nat
  fmul : Nat → Nat → Nat
  fdiv : Nat → Nat → Nat
  fneg : Nat → Nat
  dadd : Nat → Nat → Nat
  dsub : Nat → Nat → Nat
  dmul : Nat → Nat → Nat
  ddiv : Nat → Nat → Nat
  dneg : Nat → Nat
  i2f : Int → Nat
  i2d : Int → Nat
  l2f : Int → Nat
  l2d : Int → Nat
  f2i : Nat → Int
  f2l : Nat → Int
  f2d : Nat → Nat
  d2i : Nat → Int
  d2l : Nat → Int
  d2f : Nat → Nat
  fgt : Nat → Nat → Bool
  feq : Nat → Nat → Bool
  dgt : Nat → Nat → Bool
  deq : Nat → Nat → Bool

/-- The state the interpreter works on: the VM, the frame that executes, and
`fault`, set as soon as an access goes through a pointer that refers to nothing
or to a word that is not the frame's to use; execution stops there.  C gives no
meaning to an index behind the end of an array (undefined behaviour); what the
compiled program does there depends on what lies there.  In `struct JVM` of
`jvm.h` the member `locals_memory` follows `stack_memory`, so an operand-stack
slot behind the end of `stack_memory` is a local of another frame: such an access
is a fault.  The member `heap`, which no function uses, follows `locals_memory`:
a local behind the end of `locals_memory` is a word of `heap`, the program reads
and writes it like a local in the array, and so does the embedding
(`locals_memory k` for `MAX_LOCALS_SIZE ≤ k < LOCALS_REACH` stands for that
word); the locals of the frames of nested calls, which begin 256 words apart,
lie there from the third frame on.  Behind `heap` come `heap_used` and the
string pool: an access there is a fault. -/
structure Machine where
  jvm : JVM
  frame : Frame
  fault : Bool

/-- Array `mem` after the store `mem[i] = w`. -/
def mem_set (mem : Nat → jvalue) (i : Nat) (w : jvalue) : Nat → jvalue :=
  fun j => if j = i then w else mem j

/-- The word `frame->operand_stack[k]`. -/
def Machine.stack (m : Machine) (k : Nat) : jvalue :=
  m.jvm.stack_memory (m.frame.operand_stack + k)

/-- An access to `frame->operand_stack[k]`: a fault outside `stack_memory`. -/
def Machine.touch_stack (m : Machine) (k : Nat) : Machine :=
  if m.frame.operand_stack + k < MAX_STACK_SIZE then m else { m with fault := true }

/-- The store `frame->operand_stack[k] = w`. -/
def Machine.set_stack (m : Machine) (k : Nat) (w : jvalue) : Machine :=
  { jvm := { m.jvm with
      stack_memory := mem_set m.jvm.stack_memory (m.frame.operand_stack + k) w },
    frame := m.frame,
    fault := (m.touch_stack k).fault }

/-- The word `frame->locals[k]`. -/
def Machine.locals (m : Machine) (k : Nat) : jvalue :=
  m.jvm.locals_memory (m.frame.locals + k)

/-- An access to `frame->locals[k]`: a fault behind the words of `locals_memory`
and `heap`. -/
def Machine.touch_local (m : Machine) (k : Nat) : Machine :=
  if m.frame.locals + k < LOCALS_REACH then m else { m with fault := true }

/-- The store `frame->locals[k] = w`. -/
def Machine.set_local (m : Machine) (k : Nat) (w : jvalue) : Machine :=
  { jvm := { m.jvm with
      locals_memory := mem_set m.jvm.locals_memory (m.frame.locals + k) w },
    frame := m.frame,
    fault := (m.touch_local k).fault }

/-- The assignment `frame->stack_top = t`. -/
def Machine.set_top (m : Machine) (t : Nat) : Machine :=
  { m with frame := { m.frame with stack_top := t } }

/-- The assignment `frame->pc = code + pc`. -/
def Machine.set_pc (m : Machine) (pc : Int) : Machine :=
  { m with frame := { m.frame with pc := pc } }

/-! ## Operand stack (`jvm.c`, lines 82-156) -/

/-- The function `push_int` of `jvm.c`. -/
def push_int (m : Machine) (value : Int) : Machine :=
  if m.frame.stack_top < MAX_STACK_SIZE then
    (m.set_stack m.frame.stack_top (jvalue_set_i (m.stack m.frame.stack_top) value)).set_top
      (m.frame.stack_top + 1)
  else m

/-- The function `pop_int` of `jvm.c`. -/
def pop_int (m : Machine) : Int × Machine :=
  if m.frame.stack_top > 0 then
    (jvalue_i (m.stack (m.frame.stack_top - 1)),
      (m.touch_stack (m.frame.stack_top - 1)).set_top (m.frame.stack_top - 1))
  else (0, m)

/-- The function `push_long` of `jvm.c`. -/
def push_long (m : Machine) (value : Int) : Machine :=
  if m.frame.stack_top < MAX_STACK_SIZE then
    (m.set_stack m.frame.stack_top (jvalue_set_l value)).set_top (m.frame.stack_top + 1)
  else m

/-- The function `pop_long` of `jvm.c`. -/
def pop_long (m : Machine) : Int × Machine :=
  if m.frame.stack_top > 0 then
    (jvalue_l (m.stack (m.frame.stack_top - 1)),
      (m.touch_stack (m.frame.stack_top - 1)).set_top (m.frame.stack_top - 1))
  else (0, m)

/-- The function `push_float` of `jvm.c`, on bit patterns. -/
def push_float (m : Machine) (value : Nat) : Machine :=
  if m.frame.stack_top < MAX_STACK_SIZE then
    (m.set_stack m.frame.stack_top (jvalue_set_f (m.stack m.frame.stack_top) value)).set_top
      (m.frame.stack_top + 1)
  else m

/-- The function `pop_float` of `jvm.c`, on bit patterns. -/
def pop_float (m : Machine) : Nat × Machine :=
  if m.frame.stack_top > 0 then
    (jvalue_f (m.stack (m.frame.stack_top - 1)),
      (m.touch_stack (m.frame.stack_top - 1)).set_top (m.frame.stack_top - 1))
  else (0, m)

/-- The function `push_double` of `jvm.c`, on bit patterns. -/
def push_double (m : Machine) (value : Nat) : Machine :=
  if m.frame.stack_top < MAX_STACK_SIZE then
    (m.set_stack m.frame.stack_top (jvalue_set_d value)).set_top (m.frame.stack_top + 1)
  else m

/-- The function `pop_double` of `jvm.c`, on bit patterns. -/
def pop_double (m : Machine) : Nat × Machine :=
  if m.frame.stack_top > 0 then
    (jvalue_d (m.stack (m.frame.stack_top - 1)),
      (m.touch_stack (m.frame.stack_top - 1)).set_top (m.frame.stack_top - 1))
  else (0, m)

/-- The function `push_ref` of `jvm.c`. -/
def push_ref (m : Machine) (ref : Nat) : Machine :=
  if m.frame.stack_top < MAX_STACK_SIZE then
    (m.set_stack m.frame.stack_top (jvalue_set_ref ref)).set_top (m.frame.stack_top + 1)
  else m

/-- The function `pop_ref` of `jvm.c`. -/
def pop_ref (m : Machine) : Nat × Machine :=
  if m.frame.stack_top > 0 then
    (jvalue_ref (m.stack (m.frame.stack_top - 1)),
      (m.touch_stack (m.frame.stack_top - 1)).set_top (m.frame.stack_top - 1))
  else (0, m)

/-! ## Strings and host functions (`native_methods.c`) -/

/-- The test `strstr(haystack, needle) != NULL`. -/
def strstr (haystack needle : List Nat) : Bool :=
  (cstr haystack).tails.any (fun t => (cstr needle).length ≤ t.length ∧
    t.take (cstr needle).length = cstr needle)

/-- The size of a `JString` on an LP64 target. -/
def JSTRING_SIZE : Nat := 24

/-- The function `jvm_create_string` of `native_methods.c`: the pointer returned
(0 for null) and the VM. -/
def jvm_create_string (P : Platform) (jvm : JVM) (str : List Nat) : Nat × JVM :=
  if jvm.string_pool.count ≥ MAX_STRING_POOL then (0, jvm)
  else
    let len := (cstr str).length
    let jstr : JString := { data := some (cstr str), length := len, capacity := len + 1 }
    (P.strings_addr + JSTRING_SIZE * jvm.string_pool.count,
      { jvm with string_pool :=
          { strings := fun k => if k = jvm.string_pool.count then jstr
                                else jvm.string_pool.strings k,
            count := jvm.string_pool.count + 1 } })

/-- The slot of `string_pool.strings` that the non-null pointer `p` refers to, if it
refers to one. -/
def string_slot (P : Platform) (p : Nat) : Option Nat :=
  if P.strings_addr ≤ p ∧ (p - P.strings_addr) % JSTRING_SIZE = 0
      ∧ (p - P.strings_addr) / JSTRING_SIZE < MAX_STRING_POOL then
    some ((p - P.strings_addr) / JSTRING_SIZE)
  else none

/-- Bytes appended to the standard output. -/
def Machine.print (m : Machine) (bytes : List Nat) : Machine :=
  { m with jvm := { m.jvm with output := m.jvm.output ++ bytes } }

/-- The function `jvm_print_string` of `native_methods.c`. -/
def jvm_print_string (P : Platform) (m : Machine) (str : Nat) : Machine :=
  if str = 0 then m
  else
    match string_slot P str with
    | none => { m with fault := true }
    | some k =>
      match (m.jvm.string_pool.strings k).data with
      | none => m
      | some data => m.print (cstr data)

/-- The text `printf("%d", v)` writes. -/
def decimal (v : Int) : List Nat :=
  if v < 0 then 45 :: (Nat.toDigits 10 v.natAbs).map Char.toNat
  else (Nat.toDigits 10 v.natAbs).map Char.toNat

/-- The test `isspace(c)` in the C locale. -/
def isspace (c : Nat) : Bool := c = 32 ∨ (9 ≤ c ∧ c ≤ 13)

/-- The test `isdigit(c)`. -/
def isdigit (c : Nat) : Bool := 48 ≤ c ∧ c ≤ 57

/-- The value of a run of decimal digits. -/
def digits_value (ds : List Nat) : Nat :=
  ds.foldl (fun acc d => acc * 10 + (d - 48)) 0

/-- The call `scanf("%d", &value)` of the C library: the value stored when one
item was converted, and the input that is left.  White space is skipped and a
sign is accepted; the input item is the sign with the digits that follow.  With no
digit nothing is converted, and the white space and the sign are no longer in
the input.  The number is converted as `strtol` does: a value outside the range
of `long` is replaced by the nearest bound; what is stored in the `int` are the
low 32 bits. -/
def scanf_d (input : List Nat) : Option Int × List Nat :=
  let rest := input.dropWhile isspace
  let negative := rest.head? = some 45
  let body := if rest.head? = some 45 ∨ rest.head? = some 43 then rest.drop 1 else rest
  let ds := body.takeWhile isdigit
  if ds = [] then (none, body)
  else
    let v : Int := digits_value ds
    let value : Int := if negative then -v else v
    let value : Int := max (-9223372036854775808) (min value 9223372036854775807)
    (some (toInt32 (bits32 value)), body.drop ds.length)

/-- The function `jvm_read_int` of `native_methods.c`: value and VM. -/
def jvm_read_int (jvm : JVM) : Int × JVM :=
  let res := scanf_d jvm.input
  (res.1.getD 0, { jvm with input := res.2 })

/-- The characters `fgets` stores from `input` when `k` more fit: up to and with the
first newline. -/
def fgets_take : Nat → List Nat → List Nat
  | 0, _ => []
  | _, [] => []
  | k + 1, c :: cs => if c = 10 then [c] else c :: fgets_take k cs

/-- The function `jvm_read_line` of `native_methods.c`: the line as a C string
(`none` for null) and the VM. -/
def jvm_read_line (jvm : JVM) : Option (List Nat) × JVM :=
  let taken := fgets_take 255 jvm.input
  if taken = [] then (none, jvm)
  else
    let line := cstr taken
    let line := if line.getLast? = some 10 then line.dropLast else line
    (some line, { jvm with input := jvm.input.drop taken.length })

/-- The function `native_system_out_print` of `native_methods.c`, on `args[0].ref`. -/
def native_system_out_print (P : Platform) (m : Machine) (arg : Nat) : Machine :=
  jvm_print_string P m arg

/-- The function `native_system_out_println` of `native_methods.c`, on `args[0].ref`. -/
def native_system_out_println (P : Platform) (m : Machine) (arg : Nat) : Machine :=
  (jvm_print_string P m arg).print [10]

/-- The function `native_system_out_print_int` of `native_methods.c`, on `args[0].i`. -/
def native_system_out_print_int (m : Machine) (arg : Int) : Machine :=
  m.print (decimal arg)

/-- The function `native_system_out_println_int` of `native_methods.c`, on `args[0].i`. -/
def native_system_out_println_int (m : Machine) (arg : Int) : Machine :=
  m.print (decimal arg ++ [10])

/-- The function `native_system_out_println_void` of `native_methods.c`. -/
def native_system_out_println_void (m : Machine) : Machine :=
  m.print [10]

/-- The function `native_scanner_next_int` of `native_methods.c`. -/
def native_scanner_next_int (jvm : JVM) : Int × JVM :=
  jvm_read_int jvm

/-- The function `native_scanner_next_line` of `native_methods.c`: the pointer cut to
an `int`. -/
def native_scanner_next_line (P : Platform) (jvm : JVM) : Int × JVM :=
  let line := jvm_read_line jvm
  match line.1 with
  | some text =>
    let jstr := jvm_create_string P line.2 text
    (toInt32 jstr.1, jstr.2)
  | none => (0, line.2)

/-- The function `jvm_register_native_method` of `native_methods.c`: the block holds
32 entries, a store behind it is reported by the flag. -/
def jvm_register_native_method (jvm : JVM) (entry : NativeMethodEntry) : JVM × Bool :=
  ({ jvm with native_methods := (jvm.native_methods.take jvm.native_methods_count) ++ [entry],
              native_methods_count := jvm.native_methods_count + 1 },
    decide (jvm.native_methods_count < 32))

/-! ## Interpreter helpers (`jvm.c`, lines 158-485) -/

/-- The bytes of an ASCII string literal. -/
def lit (s : String) : List Nat := s.data.map Char.toNat

/-- How `execute_bytecode` ended: it returned `result`, it stopped at a fault (see
`Machine`), or the step bound of the embedding was reached. -/
inductive Outcome where
  | returned (result : Int) (m : Machine)
  | fault
  | out_of_fuel

/-- The byte `code[k]` of the executing method. -/
def Machine.code_byte (m : Machine) (k : Int) : Nat :=
  (m.frame.method.code.getD []).getD k.toNat 0 % 256

/-- An access to `code[k]`: a fault outside the block of the code. -/
def Machine.touch_code (m : Machine) (k : Int) : Machine :=
  if 0 ≤ k ∧ k < ((m.frame.method.code.getD []).length : Int) then m
  else { m with fault := true }

/-- The entry `frame->class_info->constant_pool[i]`. -/
def Machine.pool_entry (m : Machine) (i : Nat) : ConstantPoolEntry :=
  m.frame.class_info.constant_pool.getD i ConstantPoolEntry.zero

/-- An access to `constant_pool[i]`: a fault outside the array. -/
def Machine.touch_pool (m : Machine) (i : Nat) : Machine :=
  if i < m.frame.class_info.constant_pool.length then m else { m with fault := true }

/-- The call `read_utf8_string(frame->class_info, index)`. -/
def Machine.utf8 (m : Machine) (index : Nat) : Option (List Nat) × Machine :=
  (read_utf8_string m.frame.class_info.constant_pool m.frame.class_info.constant_pool_count index,
    if index = 0 ∨ index ≥ m.frame.class_info.constant_pool_count then m
    else m.touch_pool index)

namespace Bytecode

/-- The function `read_u1` of `jvm.c`. -/
def read_u1 (m : Machine) : Nat × Machine :=
  (m.code_byte m.frame.pc, (m.touch_code m.frame.pc).set_pc (m.frame.pc + 1))

/-- The function `read_u2` of `jvm.c`. -/
def read_u2 (m : Machine) : Nat × Machine :=
  (((m.code_byte m.frame.pc <<< 8) ||| m.code_byte (m.frame.pc + 1)) % 65536,
    ((m.touch_code m.frame.pc).touch_code (m.frame.pc + 1)).set_pc (m.frame.pc + 2))

/-- The C conversion to `int16_t` of an unsigned 16-bit value. -/
def toInt16 (n : Nat) : Int :=
  if n % 65536 < 32768 then (n % 65536 : Nat) else (n % 65536 : Nat) - 65536

/-- The function `read_s2` of `jvm.c`. -/
def read_s2 (m : Machine) : Int × Machine :=
  (toInt16 ((m.code_byte m.frame.pc <<< 8) ||| m.code_byte (m.frame.pc + 1)),
    ((m.touch_code m.frame.pc).touch_code (m.frame.pc + 1)).set_pc (m.frame.pc + 2))

end Bytecode

/-- The VM of a machine replaced, the frame kept. -/
def Machine.with_jvm (m : Machine) (jvm : JVM) : Machine :=
  { m with jvm := jvm }

/-- The call `push_ref(frame, jvm_create_string(jvm, str))`. -/
def push_new_string (P : Platform) (m : Machine) (str : List Nat) : Machine :=
  push_ref (m.with_jvm (jvm_create_string P m.jvm str).2) (jvm_create_string P m.jvm str).1

/-- The function `execute_ldc_string` of `jvm.c`: result and machine. -/
def execute_ldc_string (P : Platform) (m : Machine) (string_index : Nat) : Int × Machine :=
  if string_index ≥ m.frame.class_info.constant_pool_count then (-1, m)
  else
    let string_entry := m.pool_entry string_index
    let m := m.touch_pool string_index
    if string_entry.tag = CONST_STRING then
      let str_data := m.utf8 string_entry.string_index
      match str_data.1 with
      | some text => (0, push_new_string P str_data.2 text)
      | none => (-1, str_data.2)
    else (-1, m)

/-- The first of the `count` methods that satisfies `p`, and whether the scan left
the array. -/
def scan_methods (methods : List MethodInfo) (count : Nat) (p : MethodInfo → Bool) :
    Option MethodInfo × Bool :=
  ((methods.take count).find? p,
    ((methods.take count).find? p).isNone && decide (methods.length < count))

/-- The test `s && strstr(s, needle)` on a string pointer. -/
def has_str (s : Option (List Nat)) (needle : List Nat) : Bool :=
  match s with
  | some text => strstr text needle
  | none => false

/-- The test `s && strcmp(s, other) == 0` on a string pointer. -/
def is_str (s : Option (List Nat)) (other : List Nat) : Bool :=
  match s with
  | some text => strcmp_eq text other
  | none => false

/-- The frame `execute_invokestatic` sets up for `target_method` (lines 244-251).
Nothing tests where the new frame lies.  `stack_memory` has room for the operand
stacks of four frames of 512; `locals_memory` for the locals of two frames of
256, and `heap` behind it for those of four more. -/
def invoke_frame (m : Machine) (target_method : MethodInfo) : Frame :=
  { locals := m.frame.locals + 256, operand_stack := m.frame.operand_stack + 512,
    stack_top := 0, pc := 0, method := target_method, class_info := m.frame.class_info }

/-- The block `Pass parameters` of `execute_invokestatic` (lines 253-264): the
machine on the frame of the caller after the arguments were popped, and the
machine on the new frame with the arguments in its locals. -/
def invoke_parameters (m : Machine) (target_method : MethodInfo)
    (descriptor : Option (List Nat)) : Machine × Machine :=
  if has_str descriptor (lit "(II)") then
    let param2 := pop_int m
    let param1 := pop_int param2.2
    let callee : Machine := ⟨param1.2.jvm, invoke_frame m target_method, param1.2.fault⟩
    let callee := callee.set_local 0 (jvalue_set_i (callee.locals 0) param1.1)
    (param1.2, callee.set_local 1 (jvalue_set_i (callee.locals 1) param2.1))
  else if has_str descriptor (lit "(I)") then
    let param := pop_int m
    let callee : Machine := ⟨param.2.jvm, invoke_frame m target_method, param.2.fault⟩
    (param.2, callee.set_local 0 (jvalue_set_i (callee.locals 0) param.1))
  else (m, ⟨m.jvm, invoke_frame m target_method, m.fault⟩)

/-- The part of `execute_invokestatic` that enters a method of the current class
(lines 243-302): the new frame, the parameters, the call `call` of
`execute_bytecode` and the return value.  `none` when the call ran out of
fuel. -/
def invoke_current_class (P : Platform) (call : Machine → Outcome) (m : Machine)
    (target_method : MethodInfo) (method_name descriptor : Option (List Nat)) :
    Option (Int × Machine) :=
  let has (s : List Nat) : Bool := has_str descriptor s
  let passed := invoke_parameters m target_method descriptor
  let caller := passed.1
  if passed.2.fault then some (0, { caller with fault := true })
  else
    match call passed.2 with
    | .out_of_fuel => none
    | .fault => some (0, { caller with fault := true })
    | .returned result callee =>
      let caller : Machine := { jvm := callee.jvm, frame := caller.frame, fault := callee.fault }
      if has (lit ")I") then
        if callee.frame.stack_top > 0 then
          some (0, push_int
            { caller with fault := (callee.touch_stack (callee.frame.stack_top - 1)).fault }
            (jvalue_i (callee.stack (callee.frame.stack_top - 1))))
        else some (0, push_int caller result)
      else if has (lit ")Ljava/lang/String;") then
        if is_str method_name (lit "getGrade") then
          let score := jvalue_i (callee.locals 0)
          let caller := { caller with fault := (callee.touch_local 0).fault }
          if score ≥ 90 then some (0, push_new_string P caller (lit "A"))
          else if score ≥ 80 then some (0, push_new_string P caller (lit "B"))
          else if score ≥ 70 then some (0, push_new_string P caller (lit "C"))
          else some (0, push_new_string P caller (lit "F"))
        else some (0, push_new_string P caller (lit "Unknown"))
      else some (0, caller)

/-- The part of `execute_invokestatic` for the host classes (lines 306-346). -/
def invokestatic_host (P : Platform) (m : Machine)
    (class_name method_name descriptor : Option (List Nat)) : Machine :=
  if has_str class_name (lit "System") then
    if has_str method_name (lit "print") then
      if has_str descriptor (lit "(I)") then
        let arg := pop_int m
        if has_str method_name (lit "println") then native_system_out_println_int arg.2 arg.1
        else native_system_out_print_int arg.2 arg.1
      else if has_str descriptor (lit "()V") then native_system_out_println_void m
      else if has_str descriptor (lit "String") then
        let arg := pop_ref m
        if has_str method_name (lit "println") then native_system_out_println P arg.2 arg.1
        else native_system_out_print P arg.2 arg.1
      else m
    else m
  else if has_str class_name (lit "Scanner") then
    if is_str method_name (lit "nextInt") then
      let result := native_scanner_next_int m.jvm
      push_int (m.with_jvm result.2) result.1
    else if is_str method_name (lit "nextLine") then
      let result := native_scanner_next_line P m.jvm
      push_ref (m.with_jvm result.2) (bits64 result.1)
    else m
  else m

/-- What `execute_invokestatic` and `execute_invokevirtual` resolve from the
operand of the instruction (lines 211-229 and 351-369): `none` with the machine
for `return -1`, else the three strings. -/
def resolve_method_ref (m : Machine) :
    Machine × Option (Option (List Nat) × Option (List Nat) × Option (List Nat)) :=
  let method_index := Bytecode.read_u2 m
  let m := method_index.2
  if method_index.1 ≥ m.frame.class_info.constant_pool_count then (m, none)
  else
    let method_ref := m.pool_entry method_index.1
    let m := m.touch_pool method_index.1
    if method_ref.tag ≠ CONST_METHODREF then (m, none)
    else
      let class_entry := m.pool_entry method_ref.class_index
      let name_and_type := m.pool_entry method_ref.name_and_type_index
      let m := m.touch_pool method_ref.class_index
      if class_entry.tag ≠ CONST_CLASS then (m, none)
      else
        let m := m.touch_pool method_ref.name_and_type_index
        if name_and_type.tag ≠ CONST_NAME_AND_TYPE then (m, none)
        else
          let class_name := m.utf8 class_entry.string_index
          let method_name := class_name.2.utf8 name_and_type.class_index
          let descriptor := method_name.2.utf8 name_and_type.name_and_type_index
          (descriptor.2, some (class_name.1, method_name.1, descriptor.1))

/-- The function `execute_invokestatic` of `jvm.c`; `call` is `execute_bytecode`.
`none` when the call ran out of fuel. -/
def execute_invokestatic (P : Platform) (call : Machine → Outcome) (m : Machine) :
    Option (Int × Machine) :=
  let resolved := resolve_method_ref m
  match resolved.2 with
  | none => some (-1, resolved.1)
  | some (class_name, method_name, descriptor) =>
    let m := resolved.1
    let current : Bool := match class_name, m.frame.class_info.name with
      | some c, some n => strstr c n
      | _, _ => false
    let target := scan_methods m.frame.class_info.methods m.frame.class_info.methods_count
      (fun method => match method_name, method.name with
        | some a, some b => strcmp_eq b a
        | _, _ => false)
    if current ∧ target.2 then some (0, { m with fault := true })
    else
      match (if current then target.1 else none) with
      | some target_method =>
        if target_method.code.isSome then
          invoke_current_class P call m target_method method_name descriptor
        else some (0, invokestatic_host P m class_name method_name descriptor)
      | none => some (0, invokestatic_host P m class_name method_name descriptor)

/-- The length of the text `snprintf(buffer, 32, "%d", value)` leaves in `buffer`. -/
def snprintf_d (value : Int) : List Nat := (decimal value).take 31

/-- The string-pool slot `k` replaced by `s`. -/
def Machine.set_string (m : Machine) (k : Nat) (s : JString) : Machine :=
  { m with jvm := { m.jvm with string_pool :=
      { strings := fun j => if j = k then s else m.jvm.string_pool.strings j,
        count := m.jvm.string_pool.count } } }

/-- The `StringBuilder` part of `execute_invokevirtual` (lines 401-449). -/
def invokevirtual_stringbuilder (P : Platform) (m : Machine)
    (method_name descriptor : Option (List Nat)) : Machine :=
  if has_str method_name (lit "append") then
    if has_str descriptor (lit "(I)") then
      let value := pop_int m
      let stringbuilder := pop_ref value.2
      let m := stringbuilder.2
      let buffer := snprintf_d value.1
      if stringbuilder.1 = 0 then push_new_string P m buffer
      else
        match string_slot P stringbuilder.1 with
        | none => { m with fault := true }
        | some k =>
          let current := m.jvm.string_pool.strings k
          match current.data with
          | none => push_new_string P m buffer
          | some data =>
            let m := m.set_string k
              { current with data := some (data ++ buffer),
                             length := current.length + buffer.length }
            push_ref { m with fault := m.fault || decide (current.length < data.length) }
              stringbuilder.1
    else if has_str descriptor (lit "String") then
      let str_to_append := pop_ref m
      let stringbuilder := pop_ref str_to_append.2
      let m := stringbuilder.2
      -- the two pointers, each null, a pool slot, or a pointer to nothing
      let current : Option (Option Nat) :=
        if stringbuilder.1 = 0 then some none else (string_slot P stringbuilder.1).map some
      let added : Option (Option Nat) :=
        if str_to_append.1 = 0 then some none else (string_slot P str_to_append.1).map some
      let data_of (slot : Option Nat) : Option (List Nat) :=
        match slot with
        | some k => (m.jvm.string_pool.strings k).data
        | none => none
      match current with
      | none => { m with fault := true }
      | some cur =>
        if (data_of cur).isSome ∧ added.isNone then { m with fault := true }
        else
          match cur, data_of cur, added.getD none, data_of (added.getD none) with
          | some k, some data, some j, some more =>
            let old := m.jvm.string_pool.strings k
            let m := m.set_string k
              { old with data := some (data ++ more),
                         length := old.length + (m.jvm.string_pool.strings j).length }
            let overlap : Bool := decide (k = j) ||
              decide (old.length + (m.jvm.string_pool.strings j).length
                < data.length + more.length)
            push_ref { m with fault := m.fault || overlap } stringbuilder.1
          | _, _, _, some more =>
            if added.isNone then { m with fault := true } else push_new_string P m more
          | _, _, _, none =>
            if added.isNone then { m with fault := true } else push_ref m stringbuilder.1
    else m
  else if is_str method_name (lit "toString") then
    let stringbuilder := pop_ref m
    let m := stringbuilder.2
    if stringbuilder.1 = 0 then push_new_string P m []
    else
      match string_slot P stringbuilder.1 with
      | none => { m with fault := true }
      | some k =>
        if (m.jvm.string_pool.strings k).data.isSome then push_ref m stringbuilder.1
        else push_new_string P m []
  else m

/-- The `PrintStream` part of `execute_invokevirtual` (lines 371-399). -/
def invokevirtual_printstream (P : Platform) (m : Machine)
    (method_name descriptor : Option (List Nat)) : Machine :=
  if has_str method_name (lit "print") then
    if has_str descriptor (lit "(I)") then
      let arg := pop_int m
      let receiver := pop_ref arg.2
      if has_str method_name (lit "println") then native_system_out_println_int receiver.2 arg.1
      else native_system_out_print_int receiver.2 arg.1
    else if has_str descriptor (lit "()V") then
      native_system_out_println_void (pop_ref m).2
    else if has_str descriptor (lit "String") then
      let arg := pop_ref m
      let receiver := pop_ref arg.2
      if has_str method_name (lit "println") then native_system_out_println P receiver.2 arg.1
      else native_system_out_print P receiver.2 arg.1
    else m
  else m

/-- The function `execute_invokevirtual` of `jvm.c`. -/
def execute_invokevirtual (P : Platform) (m : Machine) : Int × Machine :=
  let resolved := resolve_method_ref m
  match resolved.2 with
  | none => (-1, resolved.1)
  | some (class_name, method_name, descriptor) =>
    let m := resolved.1
    let m := if has_str class_name (lit "PrintStream")
      then invokevirtual_printstream P m method_name descriptor else m
    let m := if has_str class_name (lit "StringBuilder")
      then invokevirtual_stringbuilder P m method_name descriptor else m
    (0, m)

/-- The function `execute_new` of `jvm.c`. -/
def execute_new (P : Platform) (m : Machine) : Int × Machine :=
  let class_index := Bytecode.read_u2 m
  let m := class_index.2
  if class_index.1 ≥ m.frame.class_info.constant_pool_count then (-1, m)
  else
    let class_entry := m.pool_entry class_index.1
    let m := m.touch_pool class_index.1
    if class_entry.tag ≠ CONST_CLASS then (-1, m)
    else
      let class_name := m.utf8 class_entry.string_index
      let m := class_name.2
      if has_str class_name.1 (lit "Scanner") then (0, push_ref m P.scanner_addr)
      else if has_str class_name.1 (lit "StringBuilder") then (0, push_new_string P m [])
      else (0, push_ref m 0)

/-! ## The interpreter (`jvm.h`, lines 144-297; `jvm.c`, lines 487-1230) -/

/-- The enumerations `OpCode` and `AdditionalOpCodes` of `jvm.h`. -/
inductive OpCode where
  | NOP | ACONST_NULL | ICONST_M1 | ICONST_0 | ICONST_1 | ICONST_2 | ICONST_3 | ICONST_4
  | ICONST_5 | LCONST_0 | LCONST_1 | FCONST_0 | FCONST_1 | FCONST_2 | DCONST_0 | DCONST_1
  | BIPUSH | SIPUSH | LDC
  | ILOAD | LLOAD | FLOAD | DLOAD | ALOAD | ILOAD_0 | ILOAD_1 | ILOAD_2 | ILOAD_3
  | ALOAD_0 | ALOAD_1 | ALOAD_2 | ALOAD_3
  | ISTORE | LSTORE | FSTORE | DSTORE | ASTORE | ISTORE_0 | ISTORE_1 | ISTORE_2 | ISTORE_3
  | ASTORE_0 | ASTORE_1 | ASTORE_2 | ASTORE_3
  | DUP | POP | SWAP
  | IADD | LADD | FADD | DADD | ISUB | LSUB | FSUB | DSUB | IMUL | LMUL | FMUL | DMUL
  | IDIV | LDIV | FDIV | DDIV | IREM | LREM | FREM | DREM | INEG | LNEG | FNEG | DNEG
  | IAND | IOR | IXOR
  | I2L | I2F | I2D | L2I | L2F | L2D | F2I | F2L | F2D | D2I | D2L | D2F
  | LCMP | FCMPL | FCMPG | DCMPL | DCMPG
  | IFEQ | IFNE | IFLT | IFGE | IFGT | IFLE
  | IF_ICMPEQ | IF_ICMPNE | IF_ICMPLT | IF_ICMPGE | IF_ICMPGT | IF_ICMPLE
  | GOTO
  | IRETURN | LRETURN | FRETURN | DRETURN | ARETURN | RETURN
  | INVOKEVIRTUAL | INVOKESTATIC | NEW
  | GETSTATIC | PUTSTATIC | GETFIELD | PUTFIELD | INVOKEINTERFACE | INVOKESPECIAL
  deriving DecidableEq, Repr

/-- The values of the enumeration constants of `jvm.h`. -/
def OpCode.byte : OpCode → Nat
  | .NOP => 0x00 | .ACONST_NULL => 0x01 | .ICONST_M1 => 0x02 | .ICONST_0 => 0x03
  | .ICONST_1 => 0x04 | .ICONST_2 => 0x05 | .ICONST_3 => 0x06 | .ICONST_4 => 0x07
  | .ICONST_5 => 0x08 | .LCONST_0 => 0x09 | .LCONST_1 => 0x0a | .FCONST_0 => 0x0b
  | .FCONST_1 => 0x0c | .FCONST_2 => 0x0d | .DCONST_0 => 0x0e | .DCONST_1 => 0x0f
  | .BIPUSH => 0x10 | .SIPUSH => 0x11 | .LDC => 0x12
  | .ILOAD => 0x15 | .LLOAD => 0x16 | .FLOAD => 0x17 | .DLOAD => 0x18 | .ALOAD => 0x19
  | .ILOAD_0 => 0x1a | .ILOAD_1 => 0x1b | .ILOAD_2 => 0x1c | .ILOAD_3 => 0x1d
  | .ALOAD_0 => 0x2a | .ALOAD_1 => 0x2b | .ALOAD_2 => 0x2c | .ALOAD_3 => 0x2d
  | .ISTORE => 0x36 | .LSTORE => 0x37 | .FSTORE => 0x38 | .DSTORE => 0x39 | .ASTORE => 0x3a
  | .ISTORE_0 => 0x3b | .ISTORE_1 => 0x3c | .ISTORE_2 => 0x3d | .ISTORE_3 => 0x3e
  | .ASTORE_0 => 0x4b | .ASTORE_1 => 0x4c | .ASTORE_2 => 0x4d | .ASTORE_3 => 0x4e
  | .DUP => 0x59 | .POP => 0x57 | .SWAP => 0x5f
  | .IADD => 0x60 | .LADD => 0x61 | .FADD => 0x62 | .DADD => 0x63
  | .ISUB => 0x64 | .LSUB => 0x65 | .FSUB => 0x66 | .DSUB => 0x67
  | .IMUL => 0x68 | .LMUL => 0x69 | .FMUL => 0x6a | .DMUL => 0x6b
  | .IDIV => 0x6c | .LDIV => 0x6d | .FDIV => 0x6e | .DDIV => 0x6f
  | .IREM => 0x70 | .LREM => 0x71 | .FREM => 0x72 | .DREM => 0x73
  | .INEG => 0x74 | .LNEG => 0x75 | .FNEG => 0x76 | .DNEG => 0x77
  | .IAND => 0x7e | .IOR => 0x80 | .IXOR => 0x82
  | .I2L => 0x85 | .I2F => 0x86 | .I2D => 0x87 | .L2I => 0x88 | .L2F => 0x89 | .L2D => 0x8a
  | .F2I => 0x8b | .F2L => 0x8c | .F2D => 0x8d | .D2I => 0x8e | .D2L => 0x8f | .D2F => 0x90
  | .LCMP => 0x94 | .FCMPL => 0x95 | .FCMPG => 0x96 | .DCMPL => 0x97 | .DCMPG => 0x98
  | .IFEQ => 0x99 | .IFNE => 0x9a | .IFLT => 0x9b | .IFGE => 0x9c | .IFGT => 0x9d
  | .IFLE => 0x9e | .IF_ICMPEQ => 0x9f | .IF_ICMPNE => 0xa0 | .IF_ICMPLT => 0xa1
  | .IF_ICMPGE => 0xa2 | .IF_ICMPGT => 0xa3 | .IF_ICMPLE => 0xa4
  | .GOTO => 0xa7
  | .IRETURN => 0xac | .LRETURN => 0xad | .FRETURN => 0xae | .DRETURN => 0xaf
  | .ARETURN => 0xb0 | .RETURN => 0xb1
  | .INVOKEVIRTUAL => 0xb6 | .INVOKESTATIC => 0xb8 | .NEW => 0xbb
  | .GETSTATIC => 0xb2 | .PUTSTATIC => 0xb3 | .GETFIELD => 0xb4 | .PUTFIELD => 0xb5
  | .INVOKEINTERFACE => 0xb9 | .INVOKESPECIAL => 0xb7

/-- All enumeration constants. -/
def OpCode.all : List OpCode :=
  [OpCode.NOP, OpCode.ACONST_NULL, OpCode.ICONST_M1, OpCode.ICONST_0, OpCode.ICONST_1,
   OpCode.ICONST_2, OpCode.ICONST_3, OpCode.ICONST_4, OpCode.ICONST_5, OpCode.LCONST_0,
   OpCode.LCONST_1, OpCode.FCONST_0, OpCode.FCONST_1, OpCode.FCONST_2, OpCode.DCONST_0,
   OpCode.DCONST_1, OpCode.BIPUSH, OpCode.SIPUSH, OpCode.LDC, OpCode.ILOAD,
   OpCode.LLOAD, OpCode.FLOAD, OpCode.DLOAD, OpCode.ALOAD, OpCode.ILOAD_0,
   OpCode.ILOAD_1, OpCode.ILOAD_2, OpCode.ILOAD_3, OpCode.ALOAD_0, OpCode.ALOAD_1,
   OpCode.ALOAD_2, OpCode.ALOAD_3, OpCode.ISTORE, OpCode.LSTORE, OpCode.FSTORE,
   OpCode.DSTORE, OpCode.ASTORE, OpCode.ISTORE_0, OpCode.ISTORE_1, OpCode.ISTORE_2,
   OpCode.ISTORE_3, OpCode.ASTORE_0, OpCode.ASTORE_1, OpCode.ASTORE_2, OpCode.ASTORE_3,
   OpCode.DUP, OpCode.POP, OpCode.SWAP, OpCode.IADD, OpCode.LADD,
   OpCode.FADD, OpCode.DADD, OpCode.ISUB, OpCode.LSUB, OpCode.FSUB,
   OpCode.DSUB, OpCode.IMUL, OpCode.LMUL, OpCode.FMUL, OpCode.DMUL,
   OpCode.IDIV, OpCode.LDIV, OpCode.FDIV, OpCode.DDIV, OpCode.IREM,
   OpCode.LREM, OpCode.FREM, OpCode.DREM, OpCode.INEG, OpCode.LNEG,
   OpCode.FNEG, OpCode.DNEG, OpCode.IAND, OpCode.IOR, OpCode.IXOR,
   OpCode.I2L, OpCode.I2F, OpCode.I2D, OpCode.L2I, OpCode.L2F,
   OpCode.L2D, OpCode.F2I, OpCode.F2L, OpCode.F2D, OpCode.D2I,
   OpCode.D2L, OpCode.D2F, OpCode.LCMP, OpCode.FCMPL, OpCode.FCMPG,
   OpCode.DCMPL, OpCode.DCMPG, OpCode.IFEQ, OpCode.IFNE, OpCode.IFLT,
   OpCode.IFGE, OpCode.IFGT, OpCode.IFLE, OpCode.IF_ICMPEQ, OpCode.IF_ICMPNE,
   OpCode.IF_ICMPLT, OpCode.IF_ICMPGE, OpCode.IF_ICMPGT, OpCode.IF_ICMPLE, OpCode.GOTO,
   OpCode.IRETURN, OpCode.LRETURN, OpCode.FRETURN, OpCode.DRETURN, OpCode.ARETURN,
   OpCode.RETURN, OpCode.INVOKEVIRTUAL, OpCode.INVOKESTATIC, OpCode.NEW, OpCode.GETSTATIC,
   OpCode.PUTSTATIC, OpCode.GETFIELD, OpCode.PUTFIELD, OpCode.INVOKEINTERFACE, OpCode.INVOKESPECIAL]

/-- The enumeration constant whose value is the byte `b`, if there is one: what a
`case` label of the `switch` in `execute_bytecode` compares the opcode with. -/
def OpCode.of_byte (b : Nat) : Option OpCode :=
  OpCode.all.find? (fun op => op.byte = b)

/-- What one pass of the `switch` of `execute_bytecode` does: `break` with the
machine, `return value`, or no result because a call ran out of fuel. -/
inductive Step where
  | next (m : Machine)
  | ret (value : Int) (m : Machine)
  | out_of_fuel

/-- The C conversion to `int8_t` of an unsigned 8-bit value. -/
def toInt8 (n : Nat) : Int :=
  if n % 256 < 128 then (n % 256 : Nat) else (n % 256 : Nat) - 256

/-- The block `value2 = pop_int; value1 = pop_int; push_int(f value1 value2)`. -/
def int_binop (m : Machine) (f : Int → Int → Int) : Machine :=
  let value2 := pop_int m
  let value1 := pop_int value2.2
  push_int value1.2 (f value1.1 value2.1)

/-- The block `value2 = pop_long; value1 = pop_long; push_long(f value1 value2)`. -/
def long_binop (m : Machine) (f : Int → Int → Int) : Machine :=
  let value2 := pop_long m
  let value1 := pop_long value2.2
  push_long value1.2 (f value1.1 value2.1)

/-- The block `value2 = pop_float; value1 = pop_float; push_float(f value1 value2)`. -/
def float_binop (m : Machine) (f : Nat → Nat → Nat) : Machine :=
  let value2 := pop_float m
  let value1 := pop_float value2.2
  push_float value1.2 (f value1.1 value2.1)

/-- The block `value2 = pop_double; value1 = pop_double; push_double(f value1 value2)`. -/
def double_binop (m : Machine) (f : Nat → Nat → Nat) : Machine :=
  let value2 := pop_double m
  let value1 := pop_double value2.2
  push_double value1.2 (f value1.1 value2.1)

/-- The three-way result the comparison opcodes push. -/
def compare_result (gt eq : Bool) : Int :=
  if gt then 1 else if eq then 0 else -1

/-- The block of `IFEQ` to `IFLE`: `branch = read_s2; value = pop_int;
if (cond value) frame->pc += branch - 3`. -/
def if_cond (m : Machine) (cond : Int → Bool) : Machine :=
  let branch := Bytecode.read_s2 m
  let value := pop_int branch.2
  if cond value.1 then value.2.set_pc (value.2.frame.pc + (branch.1 - 3)) else value.2

/-- The block of `IF_ICMPEQ` to `IF_ICMPLE`. -/
def if_icmp (m : Machine) (cond : Int → Int → Bool) : Machine :=
  let branch := Bytecode.read_s2 m
  let value2 := pop_int branch.2
  let value1 := pop_int value2.2
  if cond value1.1 value2.1 then value1.2.set_pc (value1.2.frame.pc + (branch.1 - 3))
  else value1.2

/-- The load `push_int(frame, frame->locals[index].i)`. -/
def iload (m : Machine) (index : Nat) : Machine :=
  push_int (m.touch_local index) (jvalue_i (m.locals index))

/-- The load `push_ref(frame, frame->locals[index].ref)`. -/
def aload (m : Machine) (index : Nat) : Machine :=
  push_ref (m.touch_local index) (jvalue_ref (m.locals index))

/-- The store `frame->locals[index].i = pop_int(frame)`. -/
def istore (m : Machine) (index : Nat) : Machine :=
  let value := pop_int m
  value.2.set_local index (jvalue_set_i (value.2.locals index) value.1)

/-- The store `frame->locals[index].ref = pop_ref(frame)`. -/
def astore (m : Machine) (index : Nat) : Machine :=
  let value := pop_ref m
  value.2.set_local index (jvalue_set_ref value.1)

/-- The quotient `value1 / value2` of C for a divisor that is not 0; the machine
faults when the quotient is not representable in `bits` bits. -/
def checked_div (m : Machine) (bits : Nat) (value1 value2 : Int) : Int × Machine :=
  (Int.tdiv value1 value2,
    if value1 = -(2 : Int) ^ (bits - 1) ∧ value2 = -1 then { m with fault := true } else m)

/-- The `switch (opcode)` of `execute_bytecode` (lines 495-1198).  `m` is the
machine after the opcode byte was fetched, `opcode` the enumeration constant the
byte equals, `call` is `execute_bytecode` itself.  Overflow of `+`, `-`, `*` and
unary `-` on `jint` and `jlong` wraps around. -/
def execute_opcode (P : Platform) (call : Machine → Outcome) (m : Machine) :
    Option OpCode → Step
  | some .NOP => .next m
  | some .ACONST_NULL => .next (push_ref m 0)
  | some .ICONST_M1 => .next (push_int m (-1))
  | some .ICONST_0 => .next (push_int m 0)
  | some .ICONST_1 => .next (push_int m 1)
  | some .ICONST_2 => .next (push_int m 2)
  | some .ICONST_3 => .next (push_int m 3)
  | some .ICONST_4 => .next (push_int m 4)
  | some .ICONST_5 => .next (push_int m 5)
  | some .LCONST_0 => .next (push_long m 0)
  | some .LCONST_1 => .next (push_long m 1)
  | some .FCONST_0 => .next (push_float m 0)
  | some .FCONST_1 => .next (push_float m 0x3F800000)
  | some .FCONST_2 => .next (push_float m 0x40000000)
  | some .DCONST_0 => .next (push_double m 0)
  | some .DCONST_1 => .next (push_double m 0x3FF0000000000000)
  | some .BIPUSH =>
    let value := Bytecode.read_u1 m
    .next (push_int value.2 (toInt8 value.1))
  | some .SIPUSH =>
    let value := Bytecode.read_s2 m
    .next (push_int value.2 value.1)
  | some .LDC =>
    let index := Bytecode.read_u1 m
    if index.1 ≥ index.2.frame.class_info.constant_pool_count then .ret (-1) index.2
    else
      let entry := index.2.pool_entry index.1
      let m := index.2.touch_pool index.1
      if entry.tag = CONST_INTEGER then .next (push_int m entry.integer_value)
      else if entry.tag = CONST_FLOAT then .next (push_float m entry.float_bits)
      else if entry.tag = CONST_STRING then
        let res := execute_ldc_string P m index.1
        if res.1 ≠ 0 then .ret (-1) res.2 else .next res.2
      else .ret (-1) m
  | some .ILOAD =>
    let index := Bytecode.read_u1 m
    .next (iload index.2 index.1)
  | some .ILOAD_0 => .next (iload m 0)
  | some .ILOAD_1 => .next (iload m 1)
  | some .ILOAD_2 => .next (iload m 2)
  | some .ILOAD_3 => .next (iload m 3)
  | some .ALOAD_0 => .next (aload m 0)
  | some .ALOAD_1 => .next (aload m 1)
  | some .ALOAD_2 => .next (aload m 2)
  | some .ALOAD_3 => .next (aload m 3)
  | some .LLOAD =>
    let index := Bytecode.read_u1 m
    .next (push_long (index.2.touch_local index.1) (jvalue_l (index.2.locals index.1)))
  | some .FLOAD =>
    let index := Bytecode.read_u1 m
    .next (push_float (index.2.touch_local index.1) (jvalue_f (index.2.locals index.1)))
  | some .DLOAD =>
    let index := Bytecode.read_u1 m
    .next (push_double (index.2.touch_local index.1) (jvalue_d (index.2.locals index.1)))
  | some .ALOAD =>
    let index := Bytecode.read_u1 m
    .next (aload index.2 index.1)
  | some .ISTORE =>
    let index := Bytecode.read_u1 m
    .next (istore index.2 index.1)
  | some .ISTORE_0 => .next (istore m 0)
  | some .ISTORE_1 => .next (istore m 1)
  | some .ISTORE_2 => .next (istore m 2)
  | some .ISTORE_3 => .next (istore m 3)
  | some .ASTORE_0 => .next (astore m 0)
  | some .ASTORE_1 => .next (astore m 1)
  | some .ASTORE_2 => .next (astore m 2)
  | some .ASTORE_3 => .next (astore m 3)
  | some .LSTORE =>
    let index := Bytecode.read_u1 m
    let value := pop_long index.2
    .next (value.2.set_local index.1 (jvalue_set_l value.1))
  | some .FSTORE =>
    let index := Bytecode.read_u1 m
    let value := pop_float index.2
    .next (value.2.set_local index.1 (jvalue_set_f (value.2.locals index.1) value.1))
  | some .DSTORE =>
    let index := Bytecode.read_u1 m
    let value := pop_double index.2
    .next (value.2.set_local index.1 (jvalue_set_d value.1))
  | some .ASTORE =>
    let index := Bytecode.read_u1 m
    .next (astore index.2 index.1)
  | some .IADD => .next (int_binop m (fun value1 value2 => value1 + value2))
  | some .LADD => .next (long_binop m (fun value1 value2 => value1 + value2))
  | some .FADD => .next (float_binop m P.fadd)
  | some .DADD => .next (double_binop m P.dadd)
  | some .ISUB => .next (int_binop m (fun value1 value2 => value1 - value2))
  | some .LSUB => .next (long_binop m (fun value1 value2 => value1 - value2))
  | some .FSUB => .next (float_binop m P.fsub)
  | some .DSUB => .next (double_binop m P.dsub)
  | some .IMUL => .next (int_binop m (fun value1 value2 => value1 * value2))
  | some .LMUL => .next (long_binop m (fun value1 value2 => value1 * value2))
  | some .FMUL => .next (float_binop m P.fmul)
  | some .DMUL => .next (double_binop m P.dmul)
  | some .IDIV =>
    let value2 := pop_int m
    let value1 := pop_int value2.2
    if value2.1 = 0 then .ret (-1) value1.2
    else
      let q := checked_div value1.2 32 value1.1 value2.1
      .next (push_int q.2 q.1)
  | some .LDIV =>
    let value2 := pop_long m
    let value1 := pop_long value2.2
    if value2.1 = 0 then .ret (-1) value1.2
    else
      let q := checked_div value1.2 64 value1.1 value2.1
      .next (push_long q.2 q.1)
  | some .FDIV => .next (float_binop m P.fdiv)
  | some .DDIV => .next (double_binop m P.ddiv)
  | some .IREM =>
    let value2 := pop_int m
    let value1 := pop_int value2.2
    if value2.1 = 0 then .ret (-1) value1.2
    else
      let q := checked_div value1.2 32 value1.1 value2.1
      .next (push_int q.2 (Int.tmod value1.1 value2.1))
  | some .INEG =>
    let value := pop_int m
    .next (push_int value.2 (-value.1))
  | some .LNEG =>
    let value := pop_long m
    .next (push_long value.2 (-value.1))
  | some .FNEG =>
    let value := pop_float m
    .next (push_float value.2 (P.fneg value.1))
  | some .DNEG =>
    let value := pop_double m
    .next (push_double value.2 (P.dneg value.1))
  | some .IAND =>
    .next (int_binop m (fun value1 value2 => toInt32 (bits32 value1 &&& bits32 value2)))
  | some .IOR =>
    .next (int_binop m (fun value1 value2 => toInt32 (bits32 value1 ||| bits32 value2)))
  | some .IXOR =>
    .next (int_binop m (fun value1 value2 => toInt32 (bits32 value1 ^^^ bits32 value2)))
  | some .I2L =>
    let value := pop_int m
    .next (push_long value.2 value.1)
  | some .I2F =>
    let value := pop_int m
    .next (push_float value.2 (P.i2f value.1))
  | some .I2D =>
    let value := pop_int m
    .next (push_double value.2 (P.i2d value.1))
  | some .L2I =>
    let value := pop_long m
    .next (push_int value.2 (toInt32 (bits64 value.1)))
  | some .L2F =>
    let value := pop_long m
    .next (push_float value.2 (P.l2f value.1))
  | some .L2D =>
    let value := pop_long m
    .next (push_double value.2 (P.l2d value.1))
  | some .F2I =>
    let value := pop_float m
    .next (push_int value.2 (P.f2i value.1))
  | some .F2L =>
    let value := pop_float m
    .next (push_long value.2 (P.f2l value.1))
  | some .F2D =>
    let value := pop_float m
    .next (push_double value.2 (P.f2d value.1))
  | some .D2I =>
    let value := pop_double m
    .next (push_int value.2 (P.d2i value.1))
  | some .D2L =>
    let value := pop_double m
    .next (push_long value.2 (P.d2l value.1))
  | some .D2F =>
    let value := pop_double m
    .next (push_float value.2 (P.d2f value.1))
  | some .LCMP =>
    let value2 := pop_long m
    let value1 := pop_long value2.2
    .next (push_int value1.2
      (compare_result (decide (value1.1 > value2.1)) (decide (value1.1 = value2.1))))
  | some .FCMPL | some .FCMPG =>
    let value2 := pop_float m
    let value1 := pop_float value2.2
    .next (push_int value1.2
      (compare_result (P.fgt value1.1 value2.1) (P.feq value1.1 value2.1)))
  | some .DCMPL | some .DCMPG =>
    let value2 := pop_double m
    let value1 := pop_double value2.2
    .next (push_int value1.2
      (compare_result (P.dgt value1.1 value2.1) (P.deq value1.1 value2.1)))
  | some .IFEQ => .next (if_cond m (fun value => decide (value = 0)))
  | some .IFNE => .next (if_cond m (fun value => decide (value ≠ 0)))
  | some .IFLT => .next (if_cond m (fun value => decide (value < 0)))
  | some .IFGE => .next (if_cond m (fun value => decide (value ≥ 0)))
  | some .IFGT => .next (if_cond m (fun value => decide (value > 0)))
  | some .IFLE => .next (if_cond m (fun value => decide (value ≤ 0)))
  | some .IF_ICMPEQ => .next (if_icmp m (fun value1 value2 => decide (value1 = value2)))
  | some .IF_ICMPNE => .next (if_icmp m (fun value1 value2 => decide (value1 ≠ value2)))
  | some .IF_ICMPLT => .next (if_icmp m (fun value1 value2 => decide (value1 < value2)))
  | some .IF_ICMPGE => .next (if_icmp m (fun value1 value2 => decide (value1 ≥ value2)))
  | some .IF_ICMPGT => .next (if_icmp m (fun value1 value2 => decide (value1 > value2)))
  | some .IF_ICMPLE => .next (if_icmp m (fun value1 value2 => decide (value1 ≤ value2)))
  | some .GOTO =>
    let branch := Bytecode.read_s2 m
    .next (branch.2.set_pc (branch.2.frame.pc + (branch.1 - 3)))
  | some .IRETURN =>
    let value := pop_int m
    .ret value.1 value.2
  | some .LRETURN =>
    let value := pop_long m
    .ret (toInt32 (bits64 value.1)) value.2
  | some .FRETURN =>
    let value := pop_float m
    .ret (P.f2i value.1) value.2
  | some .DRETURN =>
    let value := pop_double m
    .ret (P.d2i value.1) value.2
  | some .ARETURN =>
    let value := pop_ref m
    .ret (toInt32 value.1) value.2
  | some .RETURN => .ret 0 m
  | some .DUP =>
    if m.frame.stack_top > 0 then
      let value := m.stack (m.frame.stack_top - 1)
      .next (((m.touch_stack (m.frame.stack_top - 1)).set_stack m.frame.stack_top value).set_top
        ((m.frame.stack_top + 1) % 65536))
    else .next m
  | some .POP =>
    if m.frame.stack_top > 0 then .next (m.set_top (m.frame.stack_top - 1)) else .next m
  | some .SWAP =>
    if m.frame.stack_top ≥ 2 then
      let temp := m.stack (m.frame.stack_top - 1)
      let below := m.stack (m.frame.stack_top - 2)
      .next (((m.touch_stack (m.frame.stack_top - 1)).set_stack (m.frame.stack_top - 1)
        below).set_stack (m.frame.stack_top - 2) temp)
    else .next m
  | some .INVOKESTATIC =>
    match execute_invokestatic P call m with
    | none => .out_of_fuel
    | some res => if res.1 ≠ 0 then .ret (-1) res.2 else .next res.2
  | some .INVOKEVIRTUAL =>
    let res := execute_invokevirtual P m
    if res.1 ≠ 0 then .ret (-1) res.2 else .next res.2
  | some .INVOKESPECIAL => .next (Bytecode.read_u2 m).2
  | some .NEW =>
    let res := execute_new P m
    if res.1 ≠ 0 then .ret (-1) res.2 else .next res.2
  | some .GETSTATIC => .next (push_ref (Bytecode.read_u2 m).2 1)
  | _ => .ret (-1) m

/-- The function `execute_bytecode` of `jvm.c`: at most `fuel` passes of the
`while` loop, calls of methods included. -/
def execute_bytecode (P : Platform) : Nat → Machine → Outcome
  | 0, _ => .out_of_fuel
  | fuel + 1, m =>
    if m.fault then .fault
    else if m.frame.pc < (m.frame.method.code_length : Int) then
      let opcode := Bytecode.read_u1 m
      match execute_opcode P (execute_bytecode P fuel) opcode.2 (OpCode.of_byte opcode.1) with
      | .out_of_fuel => .out_of_fuel
      | .ret value m => if m.fault then .fault else .returned value m
      | .next m => execute_bytecode P fuel m
    else .returned 0 m

/-- The function `find_class` of `jvm.c`: the class, and whether the scan went
through a null name or left the array. -/
def find_class (jvm : JVM) (name : List Nat) : Option ClassInfo × Bool :=
  let scanned := (jvm.classes.take jvm.classes_count).takeWhile
    (fun c => !(is_str c.name name))
  let found := (jvm.classes.take jvm.classes_count).find? (fun c => is_str c.name name)
  (found, scanned.any (fun c => c.name.isNone) ||
    (found.isNone && decide (jvm.classes.length < jvm.classes_count)))

/-- The function `find_method` of `jvm.c`: the method, and whether the scan went
through a null name or left the array. -/
def find_method (class_info : ClassInfo) (method_name : List Nat) : Option MethodInfo × Bool :=
  let scanned := (class_info.methods.take class_info.methods_count).takeWhile
    (fun method => !(is_str method.name method_name))
  let found := (class_info.methods.take class_info.methods_count).find?
    (fun method => is_str method.name method_name)
  (found, scanned.any (fun method => method.name.isNone) ||
    (found.isNone && decide (class_info.methods.length < class_info.methods_count)))

/-- The function `jvm_init` of `jvm.c`: all bytes of the VM zero; the standard
input of the process is `input`. -/
def jvm_init (input : List Nat) : JVM :=
  { classes := [], classes_count := 0,
    stack_memory := fun _ => 0, locals_memory := fun _ => 0,
    string_pool := { strings := fun _ => JString.zero, count := 0 },
    native_methods := [], native_methods_count := 0,
    input := input, output := [] }

/-- The function `jvm_load_class` of `jvm.c`. -/
def jvm_load_class (jvm : JVM) (class_info : ClassInfo) : Int × JVM :=
  if jvm.classes_count ≥ MAX_CLASSES then (-1, jvm)
  else (0, { jvm with classes := jvm.classes.take jvm.classes_count ++ [class_info],
                      classes_count := jvm.classes_count + 1 })

/-- The frame `jvm_execute_method` sets up: the two pointers at the start of
`locals_memory` and `stack_memory`. -/
def entry_frame (class_info : ClassInfo) (method : MethodInfo) : Frame :=
  { locals := 0, operand_stack := 0, stack_top := 0, pc := 0,
    method := method, class_info := class_info }

/-- A frame whose bytes are all zero, as `memset` leaves it. -/
def Frame.zero : Frame :=
  entry_frame ⟨none, 0, [], 0, []⟩ ⟨0, none, none, 0, 0, 0, none⟩

/-- The function `jvm_execute_method` of `jvm.c`, with the step bound `fuel` for
`execute_bytecode`.  Where the function returns before it has a frame, the
machine of the outcome holds the VM and `Frame.zero`. -/
def jvm_execute_method (P : Platform) (fuel : Nat) (jvm : JVM) (class_name method_name : List Nat) :
    Outcome :=
  if (find_class jvm class_name).2 then .fault
  else
    match (find_class jvm class_name).1 with
    | none => .returned (-1) ⟨jvm, Frame.zero, false⟩
    | some class_info =>
      let method := find_method class_info method_name
      if method.2 then .fault
      else
        match method.1 with
        | none => .returned (-1) ⟨jvm, Frame.zero, false⟩
        | some method => execute_bytecode P fuel ⟨jvm, entry_frame class_info method, false⟩

/-- The value `execute_bytecode` returned, when it returned. -/
def Outcome.result : Outcome → Option Int
  | .returned result _ => some result
  | _ => none

/-- The machine `execute_bytecode` left, when it returned. -/
def Outcome.machine : Outcome → Option Machine
  | .returned _ m => some m
  | _ => none

/-! ## Definitions used to state the properties -/

/-- Big-endian unsigned value of the `w` bytes of `data` that start at index `i`. -/
def be_value (data : List Nat) (i : Nat) : Nat → Nat
  | 0 => 0
  | w + 1 => (data.getD i 0 % 256) * 256 ^ w + be_value data (i + 1) w

/-- Cursor `b` was reached from cursor `a` by reads: same region, position not smaller. -/
def Advances (a b : ClassReader) : Prop :=
  b.data = a.data ∧ b.size = a.size ∧ a.pos ≤ b.pos

/-- The class-file header of `data` passes the magic check. -/
def valid_magic (data : List Nat) : Prop :=
  4 ≤ data.length ∧ be_value data 0 4 = 0xCAFEBABE

/-- The field `constant_pool_count` as `load_class_file` reads it from `data`, for a
header with valid magic: the `u2` at offset 8, or 0 when the input ends before
offset 10. -/
def header_pool_count (data : List Nat) : Nat :=
  if 10 ≤ data.length then be_value data 8 2 else 0

/-- The cursor `r` moved forward by `n` bytes. -/
def ClassReader.advance (r : ClassReader) (n : Nat) : ClassReader :=
  { r with pos := r.pos + n }

/-- The cursor `r` spans its whole region and the bytes from its position on are
`bytes`. -/
def ClassReader.at_bytes (r : ClassReader) (bytes : List Nat) : Prop :=
  r.size = r.data.length ∧ r.pos ≤ r.size ∧ r.data.drop r.pos = bytes

/-- The two bytes of a `u2` in the class-file format (big-endian). -/
def u2_bytes (v : Nat) : List Nat := [v / 256 % 256, v % 256]

/-- The four bytes of a `u4` in the class-file format (big-endian). -/
def u4_bytes (v : Nat) : List Nat :=
  [v / 16777216 % 256, v / 65536 % 256, v / 256 % 256, v % 256]

/-- All elements of a list are bytes. -/
def all_bytes (bs : List Nat) : Prop := ∀ b ∈ bs, b < 256

/-- A constant-pool entry as the class-file format lists it: the kind and the
payload fields. -/
inductive CpItem where
  | utf8 (bytes : List Nat)
  | integer (value : Nat)
  | float (bits : Nat)
  | long (high low : Nat)
  | double (high low : Nat)
  | class_ref (name_index : Nat)
  | string_ref (utf8_index : Nat)
  | field_ref (class_index name_and_type_index : Nat)
  | method_ref (class_index name_and_type_index : Nat)
  | name_and_type (name_index descriptor_index : Nat)
  deriving DecidableEq, Repr

/-- The bytes of an entry in a class file: the tag, then the payload. -/
def CpItem.encode : CpItem → List Nat
  | .utf8 bytes => 1 :: (u2_bytes bytes.length ++ bytes)
  | .integer value => 3 :: u4_bytes value
  | .float bits => 4 :: u4_bytes bits
  | .long high low => 5 :: (u4_bytes high ++ u4_bytes low)
  | .double high low => 6 :: (u4_bytes high ++ u4_bytes low)
  | .class_ref name_index => 7 :: u2_bytes name_index
  | .string_ref utf8_index => 8 :: u2_bytes utf8_index
  | .field_ref c n => 9 :: (u2_bytes c ++ u2_bytes n)
  | .method_ref c n => 10 :: (u2_bytes c ++ u2_bytes n)
  | .name_and_type n d => 12 :: (u2_bytes n ++ u2_bytes d)

/-- The fields of an entry fit their width in the file. -/
def CpItem.well_formed : CpItem → Prop
  | .utf8 bytes => bytes.length < 65536 ∧ all_bytes bytes
  | .integer value => value < 4294967296
  | .float bits => bits < 4294967296
  | .long high low => high < 4294967296 ∧ low < 4294967296
  | .double high low => high < 4294967296 ∧ low < 4294967296
  | .class_ref name_index => name_index < 65536
  | .string_ref utf8_index => utf8_index < 65536
  | .field_ref c n => c < 65536 ∧ n < 65536
  | .method_ref c n => c < 65536 ∧ n < 65536
  | .name_and_type n d => n < 65536 ∧ d < 65536

/-- The number of index slots an entry takes: 2 for Long and Double, else 1. -/
def CpItem.width : CpItem → Nat
  | .long _ _ => 2
  | .double _ _ => 2
  | _ => 1

/-- The decoded entry: what the slot of the entry holds after parsing. -/
def CpItem.entry : CpItem → ConstantPoolEntry
  | .utf8 bytes =>
    { ConstantPoolEntry.zero with tag := 1, utf8_length := bytes.length, utf8_bytes := bytes ++ [0] }
  | .integer value => { ConstantPoolEntry.zero with tag := 3, integer_value := toInt32 value }
  | .float bits => { ConstantPoolEntry.zero with tag := 4, float_bits := bits }
  | .long high low =>
    { ConstantPoolEntry.zero with tag := 5, utf8_length := high % 65536, utf8_bytes_cast := low }
  | .double high low =>
    { ConstantPoolEntry.zero with tag := 6, utf8_length := high % 65536, utf8_bytes_cast := low }
  | .class_ref name_index => { ConstantPoolEntry.zero with tag := 7, string_index := name_index }
  | .string_ref utf8_index => { ConstantPoolEntry.zero with tag := 8, string_index := utf8_index }
  | .field_ref c n =>
    { ConstantPoolEntry.zero with tag := 9, class_index := c, name_and_type_index := n }
  | .method_ref c n =>
    { ConstantPoolEntry.zero with tag := 10, class_index := c, name_and_type_index := n }
  | .name_and_type n d =>
    { ConstantPoolEntry.zero with tag := 12, class_index := n, name_and_type_index := d }

/-- The slots of an entry: the decoded entry, and for Long and Double one unused
slot after it. -/
def CpItem.slots (item : CpItem) : List ConstantPoolEntry :=
  if item.width = 2 then [item.entry, ConstantPoolEntry.zero] else [item.entry]

/-- The number of slots of a list of entries. -/
def slot_count (items : List CpItem) : Nat := (items.map CpItem.width).sum

/-- The bytes of a list of entries. -/
def encode_items (items : List CpItem) : List Nat := items.flatMap CpItem.encode

/-- The bytes of a constant pool in a class file: the count `N`, one more than the
number of slots, then the entries. -/
def encode_pool (items : List CpItem) : List Nat :=
  u2_bytes (1 + slot_count items) ++ encode_items items

/-- The bytes of an attribute record in a class file: name index, length, payload. -/
def AttributeInfo.encode (a : AttributeInfo) : List Nat :=
  u2_bytes a.name_index ++ (u4_bytes a.length ++ a.info)

/-- An attribute record whose fields fit their width and whose `length` is the
length of its payload. -/
def AttributeInfo.well_formed (a : AttributeInfo) : Prop :=
  a.name_index < 65536 ∧ a.length < 4294967296 ∧ a.length = a.info.length ∧ all_bytes a.info

/-- The bytes of a method record in a class file: the header, the attribute count
and the attributes. -/
def encode_method (access_flags name_index descriptor_index : Nat)
    (attributes : List AttributeInfo) : List Nat :=
  u2_bytes access_flags ++ (u2_bytes name_index ++ (u2_bytes descriptor_index ++
    (u2_bytes attributes.length ++ attributes.flatMap AttributeInfo.encode)))

/-- The name of the attribute compares equal to `"Code"` in `parse_methods`. -/
def names_code (constant_pool : List ConstantPoolEntry) (constant_pool_count : Nat)
    (a : AttributeInfo) : Bool :=
  is_str (read_utf8_string constant_pool constant_pool_count a.name_index) ATTR_CODE

/-- The header of a class file in front of the constant pool: magic and the two
version numbers. -/
def encode_header (minor_version major_version : Nat) : List Nat :=
  u4_bytes 0xCAFEBABE ++ (u2_bytes minor_version ++ u2_bytes major_version)

/-! ## Inputs of the examples -/

/-- A class file that ends right behind `constant_pool_count`. -/
def truncated_class : List Nat := [202, 254, 186, 190, 0, 0, 0, 52, 0, 1]

/-- A class file whose only constant-pool entry has the tag byte 2. -/
def unknown_tag_class : List Nat := [202, 254, 186, 190, 0, 0, 0, 52, 0, 2, 2, 170, 187]

/-- A class file whose only constant-pool entry is a ClassRef with name index 65535. -/
def dangling_index_class : List Nat := [202, 254, 186, 190, 0, 0, 0, 52, 0, 2, 7, 255, 255]

/-- A class file with one method whose Code attribute has a payload of 8 bytes and
the `code_length` 5. -/
def overrun_code_class : List Nat :=
  [202, 254, 186, 190, 0, 0, 0, 52, 0, 2, 1, 0, 4, 67, 111, 100, 101, 0, 33, 0, 0, 0, 0, 0, 0, 0, 0, 0, 1, 0, 9, 0, 1, 0, 1, 0, 1, 0, 1, 0, 0, 0, 8, 0, 2, 0, 1, 0, 0, 0, 5]

/-- A class file with one method that has two Code attributes: the first with
`max_stack` 2, `max_locals` 1 and the code `b1`, the second with `max_stack` 9,
`max_locals` 7 and the code `00`. -/
def two_code_class : List Nat :=
  [202, 254, 186, 190, 0, 0, 0, 52, 0, 2, 1, 0, 4, 67, 111, 100, 101, 0, 33, 0, 0, 0, 0, 0, 0, 0, 0, 0, 1, 0, 9, 0, 1, 0, 1, 0, 2, 0, 1, 0, 0, 0, 9, 0, 2, 0, 1, 0, 0, 0, 1, 177, 0, 1, 0, 0, 0, 9, 0, 9, 0, 7, 0, 0, 0, 1, 0, 0, 0]

/-- The code `iload_0; iload_0; imul; ireturn`. -/
def square_code : List Nat := [0x1a, 0x1a, 0x68, 0xac]

/-- A content of fresh `malloc` blocks: every byte is `0xab`. -/
def junk_ab : Nat → Nat := fun _ => 171

/-- An allocator that fails every request larger than what remains of the input. -/
def fits_none : ClassReader → Nat → Bool := fun _ _ => false

/-- An allocator that grants every request. -/
def fits_all : ClassReader → Nat → Bool := fun _ _ => true

/-- A class file with one method whose only attribute has a payload of one byte and the
length prefix `0xFFFFFFFF`. -/
def overrun_attribute_class : List Nat :=
  [202, 254, 186, 190, 0, 0, 0, 52, 0, 2, 7, 255, 255, 0, 33, 0, 0, 0, 0, 0, 0, 0, 0, 0, 1, 0, 9, 0, 1, 0, 1, 0, 1, 0, 1, 255, 255, 255, 255, 0]

/-- A constant pool with the Utf8 entry `"Code"`, a Long and an Integer. -/
def sample_items : List CpItem := [.utf8 [67, 111, 100, 101], .long 1 2, .integer 7]

/-- A cursor at the start of the bytes of `sample_items`. -/
def sample_pool_reader : ClassReader :=
  { data := encode_pool sample_items, size := (encode_pool sample_items).length, pos := 0 }

/-- A parsed constant pool whose entry 1 is the Utf8 string `"Code"`. -/
def code_name_pool : List ConstantPoolEntry :=
  [ConstantPoolEntry.zero, (CpItem.utf8 ATTR_CODE).entry]

/-- A Code attribute with `max_stack` 2, `max_locals` 1 and the code of
`square_code`. -/
def square_attribute : AttributeInfo :=
  ⟨1, 12, [0, 2, 0, 1, 0, 0, 0, 4, 26, 26, 104, 172]⟩

/-- A Code attribute with a payload of 8 bytes and the `code_length` 5. -/
def overrun_attribute : AttributeInfo := ⟨1, 8, [0, 2, 0, 1, 0, 0, 0, 5]⟩

/-- A cursor at the start of the method record with the attributes `attrs`. -/
def method_reader (attrs : List AttributeInfo) : ClassReader :=
  { data := encode_method 9 1 1 attrs, size := (encode_method 9 1 1 attrs).length, pos := 0 }

/-- A platform whose floating-point operations all return 0. -/
def stub_platform : Platform :=
  { strings_addr := 4096, scanner_addr := 8192, fadd := fun _ _ => 0, fsub := fun _ _ => 0,
    fmul := fun _ _ => 0, fdiv := fun _ _ => 0, fneg := fun _ => 0,
    dadd := fun _ _ => 0, dsub := fun _ _ => 0, dmul := fun _ _ => 0, ddiv := fun _ _ => 0,
    dneg := fun _ => 0, i2f := fun _ => 0, i2d := fun _ => 0, l2f := fun _ => 0,
    l2d := fun _ => 0, f2i := fun _ => 0, f2l := fun _ => 0, f2d := fun _ => 0,
    d2i := fun _ => 0, d2l := fun _ => 0, d2f := fun _ => 0, fgt := fun _ _ => false,
    feq := fun _ _ => false, dgt := fun _ _ => false, deq := fun _ _ => false }

/-- The parsed Utf8 entry with the text `s`. -/
def utf8_entry (s : String) : ConstantPoolEntry :=
  { ConstantPoolEntry.zero with
    tag := 1, utf8_bytes := lit s ++ [0], utf8_length := (lit s).length }

/-- The constant pool of `square_class`: entry 6 is the MethodRef `Test.sq:(I)I`. -/
def square_pool : List ConstantPoolEntry :=
  [ConstantPoolEntry.zero, utf8_entry "Test",
   { ConstantPoolEntry.zero with tag := 7, string_index := 1 },
   utf8_entry "sq", utf8_entry "(I)I",
   { ConstantPoolEntry.zero with tag := 12, class_index := 3, name_and_type_index := 4 },
   { ConstantPoolEntry.zero with tag := 10, class_index := 2, name_and_type_index := 5 }]

/-- The method `static int sq(int)` with the body `square_code`. -/
def square_method : MethodInfo :=
  ⟨9, some (lit "sq"), some (lit "(I)I"), 2, 1, 4, some square_code⟩

/-- The method `main` with the code `bipush 7; invokestatic #6; ireturn`. -/
def square_main : MethodInfo :=
  ⟨9, some (lit "main"), some (lit "()I"), 2, 1, 5, some [0x10, 7, 0xb8, 0, 6, 0xac]⟩

/-- The class `Test` with the methods `main` and `sq`. -/
def square_class : ClassInfo := ⟨some (lit "Test"), 7, square_pool, 2, [square_main, square_method]⟩

/-- The machine in `main` of `square_class` behind the opcode byte of
`invokestatic`, with 7 on the operand stack. -/
def square_caller : Machine :=
  ⟨{ jvm_init [] with stack_memory := fun k => if k = 0 then 7 else 0 },
    { entry_frame square_class square_main with stack_top := 1, pc := 3 }, false⟩

/-! ## Definitions for the interpreter properties -/

/-- The constant pool of the classes of `call_class`: entry 6 is the MethodRef
`owner.name:desc`. -/
def call_pool (owner name desc : String) : List ConstantPoolEntry :=
  [ConstantPoolEntry.zero, utf8_entry owner,
   { ConstantPoolEntry.zero with tag := 7, string_index := 1 },
   utf8_entry name, utf8_entry desc,
   { ConstantPoolEntry.zero with tag := 12, class_index := 3, name_and_type_index := 4 },
   { ConstantPoolEntry.zero with tag := 10, class_index := 2, name_and_type_index := 5 }]

/-- The method `main` with the code `main_code`. -/
def call_main (main_code : List Nat) : MethodInfo :=
  ⟨9, some (lit "main"), some (lit "()I"), 4, 1, main_code.length, some main_code⟩

/-- The static method `name` with the descriptor `desc` and the code `callee_code`. -/
def call_callee (name desc : String) (callee_code : List Nat) : MethodInfo :=
  ⟨9, some (lit name), some (lit desc), 4, 2, callee_code.length, some callee_code⟩

/-- The class `Test` with the method `main` (code `main_code`) and the static
method `name` with the descriptor `desc` (code `callee_code`); its constant-pool
entry 6 refers to the method `name` of the class `owner`. -/
def call_class (owner name desc : String) (main_code callee_code : List Nat) : ClassInfo :=
  ⟨some (lit "Test"), 7, call_pool owner name desc, 2,
    [call_main main_code, call_callee name desc callee_code]⟩

/-- The run of the method `name` of the class `class_info`, loaded into a fresh VM. -/
def run_method (class_info : ClassInfo) (name : String) : Outcome :=
  jvm_execute_method stub_platform 100 (jvm_load_class (jvm_init []) class_info).2
    (lit "Test") (lit name)

/-- The run of `main` of the class `class_info`, loaded into a fresh VM. -/
def run_main (class_info : ClassInfo) : Outcome := run_method class_info "main"

/-- A machine in the method `method` of the class `class_info`, at the offset `pc`
of its code, with the words `stack` on the operand stack. -/
def machine_in (class_info : ClassInfo) (method : MethodInfo) (stack : List Nat) (pc : Int) :
    Machine :=
  ⟨{ jvm_init [] with stack_memory := fun k => stack.getD k 0 },
    { entry_frame class_info method with stack_top := stack.length, pc := pc }, false⟩

/-- The `case` labels of the `switch` of `execute_bytecode`, in the order of the
source (lines 495-1194). -/
def OpCode.cases : List OpCode :=
  [OpCode.NOP, OpCode.ACONST_NULL, OpCode.ICONST_M1, OpCode.ICONST_0, OpCode.ICONST_1,
   OpCode.ICONST_2, OpCode.ICONST_3, OpCode.ICONST_4, OpCode.ICONST_5, OpCode.LCONST_0,
   OpCode.LCONST_1, OpCode.FCONST_0, OpCode.FCONST_1, OpCode.FCONST_2, OpCode.DCONST_0,
   OpCode.DCONST_1, OpCode.BIPUSH, OpCode.SIPUSH, OpCode.LDC, OpCode.ILOAD, OpCode.ILOAD_0,
   OpCode.ILOAD_1, OpCode.ILOAD_2, OpCode.ILOAD_3, OpCode.ALOAD_0, OpCode.ALOAD_1,
   OpCode.ALOAD_2, OpCode.ALOAD_3, OpCode.LLOAD, OpCode.FLOAD, OpCode.DLOAD, OpCode.ALOAD,
   OpCode.ISTORE, OpCode.ISTORE_0, OpCode.ISTORE_1, OpCode.ISTORE_2, OpCode.ISTORE_3,
   OpCode.ASTORE_0, OpCode.ASTORE_1, OpCode.ASTORE_2, OpCode.ASTORE_3, OpCode.LSTORE,
   OpCode.FSTORE, OpCode.DSTORE, OpCode.ASTORE, OpCode.IADD, OpCode.LADD, OpCode.FADD,
   OpCode.DADD, OpCode.ISUB, OpCode.LSUB, OpCode.FSUB, OpCode.DSUB, OpCode.IMUL, OpCode.LMUL,
   OpCode.FMUL, OpCode.DMUL, OpCode.IDIV, OpCode.LDIV, OpCode.FDIV, OpCode.DDIV, OpCode.IREM,
   OpCode.INEG, OpCode.LNEG, OpCode.FNEG, OpCode.DNEG, OpCode.IAND, OpCode.IOR, OpCode.IXOR,
   OpCode.I2L, OpCode.I2F, OpCode.I2D, OpCode.L2I, OpCode.L2F, OpCode.L2D, OpCode.F2I,
   OpCode.F2L, OpCode.F2D, OpCode.D2I, OpCode.D2L, OpCode.D2F, OpCode.LCMP, OpCode.FCMPL,
   OpCode.FCMPG, OpCode.DCMPL, OpCode.DCMPG, OpCode.IFEQ, OpCode.IFNE, OpCode.IFLT, OpCode.IFGE,
   OpCode.IFGT, OpCode.IFLE, OpCode.IF_ICMPEQ, OpCode.IF_ICMPNE, OpCode.IF_ICMPLT,
   OpCode.IF_ICMPGE, OpCode.IF_ICMPGT, OpCode.IF_ICMPLE, OpCode.GOTO, OpCode.IRETURN,
   OpCode.LRETURN, OpCode.FRETURN, OpCode.DRETURN, OpCode.ARETURN, OpCode.RETURN, OpCode.DUP,
   OpCode.POP, OpCode.SWAP, OpCode.INVOKESTATIC, OpCode.INVOKEVIRTUAL, OpCode.INVOKESPECIAL,
   OpCode.NEW, OpCode.GETSTATIC]

/-- The constant is a `case` label of the `switch` of `execute_bytecode`. -/
def OpCode.has_case (op : OpCode) : Bool := OpCode.cases.contains op

/-- The opcode byte `b` selects a `case` of the `switch` of `execute_bytecode`
rather than its `default`. -/
def implemented (b : Nat) : Bool :=
  match OpCode.of_byte b with
  | some op => op.has_case
  | none => false

/-- The mandatory opcode set of section 6 of the specification: `0x00`-`0x11`,
the loads, the stores, the stack opcodes, the arithmetic opcodes the
specification lists (`0x60`-`0x70` and `0x74`-`0x77`), the bitwise opcodes, the
conversions, the comparisons, the branches, the returns and the linkage
opcodes. -/
def mandatory_opcodes : List Nat :=
  List.range' 0x00 18 ++ List.range' 0x15 9 ++ List.range' 0x2a 4 ++ List.range' 0x36 9 ++
  List.range' 0x4b 4 ++ [0x57, 0x59, 0x5f] ++ List.range' 0x60 17 ++ List.range' 0x74 4 ++
  [0x7e, 0x80, 0x82] ++ List.range' 0x85 12 ++ List.range' 0x94 5 ++ List.range' 0x99 12 ++
  [0xa7] ++ List.range' 0xac 6 ++ [0xb2] ++ List.range' 0xb6 3 ++ [0xbb]

/-- What is compared of a step: the value of a `return`, the `pc` and the
`stack_top` it leaves; `none` when a call ran out of fuel. -/
def Step.summary : Step → Option (Option Int × Int × Nat)
  | .next m => some (none, m.frame.pc, m.frame.stack_top)
  | .ret value m => some (some value, m.frame.pc, m.frame.stack_top)
  | .out_of_fuel => none

/-- A machine in `main` of a class with a static method `f`, behind an opcode
byte at offset 0, with the ints 6 and 3 on the operand stack. -/
def probe_machine : Machine :=
  machine_in (call_class "Test" "f" "()V" [0, 0, 6, 0, 0, 0] [0xb1])
    (call_main [0, 0, 6, 0, 0, 0]) [6, 3] 1

/-- The operand of a branch instruction whose opcode byte is at the `pc` of `m`:
the two bytes behind the opcode byte as a signed 16-bit big-endian value. -/
def branch_offset (m : Machine) : Int :=
  Bytecode.toInt16 (256 * m.code_byte (m.frame.pc + 1) + m.code_byte (m.frame.pc + 2))

/-- The branches on one int with the signed comparison with 0 each of them makes. -/
def unary_branches : List (OpCode × (Int → Bool)) :=
  [(.IFEQ, fun value => decide (value = 0)), (.IFNE, fun value => decide (value ≠ 0)),
   (.IFLT, fun value => decide (value < 0)), (.IFGE, fun value => decide (value ≥ 0)),
   (.IFGT, fun value => decide (value > 0)), (.IFLE, fun value => decide (value ≤ 0))]

/-- The branches on two ints with the signed comparison of `value1` (below) and
`value2` (on top) each of them makes. -/
def binary_branches : List (OpCode × (Int → Int → Bool)) :=
  [(.IF_ICMPEQ, fun value1 value2 => decide (value1 = value2)),
   (.IF_ICMPNE, fun value1 value2 => decide (value1 ≠ value2)),
   (.IF_ICMPLT, fun value1 value2 => decide (value1 < value2)),
   (.IF_ICMPGE, fun value1 value2 => decide (value1 ≥ value2)),
   (.IF_ICMPGT, fun value1 value2 => decide (value1 > value2)),
   (.IF_ICMPLE, fun value1 value2 => decide (value1 ≤ value2))]

/-- The number of operand-stack slots the block `Pass parameters` of
`execute_invokestatic` pops for the descriptor `d` (lines 253-264). -/
def descriptor_pops (d : List Nat) : Nat :=
  if strstr d (lit "(II)") then 2 else if strstr d (lit "(I)") then 1 else 0

/-- The number of operand-stack slots the block `Handle return values` of
`execute_invokestatic` pushes for the descriptor `d` (lines 266-297). -/
def descriptor_pushes (d : List Nat) : Nat :=
  if strstr d (lit ")I") || strstr d (lit ")Ljava/lang/String;") then 1 else 0

/-- The `invokestatic` whose operand is at the `pc` of `m0` resolves to the method
`target` of the current class, found under the name `method_name` with the
descriptor `d`, and `target` has code; `m` is the machine behind the operand. -/
def enters_method (m0 m : Machine) (target : MethodInfo) (method_name : Option (List Nat))
    (d : List Nat) : Prop :=
  ∃ cn n, (resolve_method_ref m0).1 = m ∧ m.frame.class_info.name = some n ∧
    strstr cn n = true ∧
    scan_methods m.frame.class_info.methods m.frame.class_info.methods_count
      (fun method => match method_name, method.name with
        | some a, some b => strcmp_eq b a
        | _, _ => false) = (some target, false) ∧
    (resolve_method_ref m0).2 = some (some cn, method_name, some d) ∧
    target.code.isSome = true

/-- Where a frame executes: its `pc`, its method, its class and its two array
pointers; the operand-stack depth is left out. -/
def Frame.position (f : Frame) : Int × MethodInfo × ClassInfo × Nat × Nat :=
  (f.pc, f.method, f.class_info, f.locals, f.operand_stack)

/-- The method `execute_invokestatic` selects in the current class for the names it
resolved (lines 237-247): a method only if `class_name` contains the name of the
class of the frame, and then the first method with the name `method_name`; and
whether the scan leaves the array `methods`. -/
def selected_method (m : Machine) (class_name method_name : Option (List Nat)) :
    Option MethodInfo × Bool :=
  let current : Bool := match class_name, m.frame.class_info.name with
    | some c, some n => strstr c n
    | _, _ => false
  let target := scan_methods m.frame.class_info.methods m.frame.class_info.methods_count
    (fun method => match method_name, method.name with
      | some a, some b => strcmp_eq b a
      | _, _ => false)
  (if current then target.1 else none, current && target.2)

/-- The text of the string `execute_invokestatic` creates for a method that returns
`String` (lines 279-297): for a method named `getGrade` the grade of the int
`score`, else `"Unknown"`. -/
def returned_string_text (method_name : Option (List Nat)) (score : Int) : List Nat :=
  if is_str method_name (lit "getGrade") then
    if score ≥ 90 then lit "A"
    else if score ≥ 80 then lit "B"
    else if score ≥ 70 then lit "C"
    else lit "F"
  else lit "Unknown"

/-- A class whose method `f` is `iconst_1; iconst_2; ireturn` with the descriptor
`()I`, and whose `main` is `invokestatic f; ireturn`. -/
def stale_slot_class : ClassInfo :=
  call_class "Test" "f" "()I" [0xb8, 0, 6, 0xac] [0x04, 0x05, 0xac]

/-- A class whose method `f` has the descriptor `(III)V` and the code `return`, and
whose `main` is `iconst_1; iconst_2; iconst_3; invokestatic f; ireturn`. -/
def three_int_class : ClassInfo :=
  call_class "Test" "f" "(III)V" [0x04, 0x05, 0x06, 0xb8, 0, 6, 0xac] [0xb1]

/-- A class whose method `f` has the descriptor `()J` and the code
`lconst_1; lreturn`, and whose `main` is `invokestatic f; return`. -/
def long_return_class : ClassInfo :=
  call_class "Test" "f" "()J" [0xb8, 0, 6, 0xb1] [0x0a, 0xad]

/-- A class whose method `f` consists of the opcode byte `0xff`, and whose `main`
is `invokestatic f; iconst_5; ireturn`. -/
def failing_callee_class : ClassInfo :=
  call_class "Test" "f" "()V" [0xb8, 0, 6, 0x08, 0xac] [0xff]

/-- A class whose method `f` is `iconst_1; iconst_0; idiv; return`, and whose `main`
is `invokestatic f; iconst_5; ireturn`. -/
def dividing_callee_class : ClassInfo :=
  call_class "Test" "f" "()V" [0xb8, 0, 6, 0x08, 0xac] [0x04, 0x03, 0x6c, 0xb1]

/-- A class `Test` whose `main` is `iconst_5; invokestatic Other.f; ireturn`. -/
def missing_method_class : ClassInfo :=
  call_class "Other" "f" "()V" [0x08, 0xb8, 0, 6, 0xac] [0xb1]

/-- A class whose method `f` is `aconst_null; areturn` with the descriptor
`()Ljava/lang/String;`, and whose `main` is `invokestatic f; areturn`. -/
def null_string_class : ClassInfo :=
  call_class "Test" "f" "()Ljava/lang/String;" [0xb8, 0, 6, 0xb0] [0x01, 0xb0]

/-- A class whose `main` is `goto +4; nop`: the target of the branch is the end of
the code. -/
def goto_end_class : ClassInfo :=
  call_class "Test" "f" "()V" [0xa7, 0, 4, 0x00] [0xb1]

/-- A class whose `main` is `iconst_5; goto +100; ireturn`. -/
def goto_far_class : ClassInfo :=
  call_class "Test" "f" "()V" [0x08, 0xa7, 0, 100, 0xac] [0xb1]

/-- A machine at an `idiv` with `INT_MIN` below `-1` on the operand stack. -/
def idiv_overflow_machine : Machine :=
  machine_in (call_class "Test" "f" "()V" [0x6c, 0xac] [0xb1]) (call_main [0x6c, 0xac])
    [0x80000000, 0xFFFFFFFF] 0

/-- A class whose `main` is `if_icmplt +5; iconst_0; ireturn; iconst_1; ireturn`. -/
def compare_class : ClassInfo :=
  call_class "Test" "f" "()V" [0xa1, 0, 5, 0x03, 0xac, 0x04, 0xac] [0xb1]

/-! ## Definitions for the properties of the single instructions -/

/-- The operand of the `ldc` at the `pc` of `m`. -/
def ldc_index (m : Machine) : Nat := m.code_byte (m.frame.pc + 1)

/-- The constant-pool entry the `ldc` at the `pc` of `m` refers to. -/
def ldc_entry (m : Machine) : ConstantPoolEntry := m.pool_entry (ldc_index m)

/-- What the code that runs in the frame of `a` may have done when the machine is
`b`: the two array pointers of the frame are the same, the words of
`stack_memory` and `locals_memory` below them are the same, a fault of `a` is a
fault of `b`, and a depth of at most `MAX_STACK_SIZE` is still one unless `b`
is at a fault. -/
def frame_effect (a b : Machine) : Prop :=
  b.frame.locals = a.frame.locals ∧ b.frame.operand_stack = a.frame.operand_stack ∧
  (∀ j, j < a.frame.operand_stack → b.jvm.stack_memory j = a.jvm.stack_memory j) ∧
  (∀ j, j < a.frame.locals → b.jvm.locals_memory j = a.jvm.locals_memory j) ∧
  (a.fault = true → b.fault = true) ∧
  (a.frame.stack_top ≤ MAX_STACK_SIZE → b.frame.stack_top ≤ MAX_STACK_SIZE ∨ b.fault = true)

/-- The property `p` holds of the machine a pass of the `switch` ends with. -/
def Step.all (p : Machine → Prop) : Step → Prop
  | .next m => p m
  | .ret _ m => p m
  | .out_of_fuel => True

/-- The machine `r` is `c` after at most one push: the frame pointers and the locals
are the same, and so is every word of `stack_memory` except the slot at the top
of the operand stack of `c`. -/
def one_push (c r : Machine) : Prop :=
  r.frame.locals = c.frame.locals ∧ r.frame.operand_stack = c.frame.operand_stack ∧
  (∀ j, j ≠ c.frame.operand_stack + c.frame.stack_top →
    r.jvm.stack_memory j = c.jvm.stack_memory j) ∧
  r.jvm.locals_memory = c.jvm.locals_memory ∧ (c.fault = true → r.fault = true) ∧
  (c.frame.stack_top ≤ MAX_STACK_SIZE → r.frame.stack_top ≤ MAX_STACK_SIZE)

/-- The machines after each opcode that `execute_bytecode P fuel m` executes in the
frame of `m`, in the order of execution: the loop of `execute_bytecode` with the
machine recorded after every pass of the `switch`. -/
def executed (P : Platform) : Nat → Machine → List Machine
  | 0, _ => []
  | fuel + 1, m =>
    if m.fault then []
    else if m.frame.pc < (m.frame.method.code_length : Int) then
      let opcode := Bytecode.read_u1 m
      match execute_opcode P (execute_bytecode P fuel) opcode.2 (OpCode.of_byte opcode.1) with
      | .out_of_fuel => []
      | .ret _ m' => [m']
      | .next m' => m' :: executed P fuel m'
    else []

/-! ## Inputs of the examples for the single instructions -/

/-- A class whose `main` has the code `code`. -/
def code_class (code : List Nat) : ClassInfo := call_class "Test" "f" "()V" code [0xb1]

/-- A machine at the offset `pc` of the code `code` of `main`, with the words
`locals` in the local variables and the words `stack` on the operand stack. -/
def code_machine (code locals stack : List Nat) (pc : Int) : Machine :=
  ⟨{ jvm_init [] with stack_memory := fun k => stack.getD k 0,
                      locals_memory := fun k => locals.getD k 0 },
    { entry_frame (code_class code) (call_main code) with stack_top := stack.length, pc := pc },
    false⟩

/-- A machine at the start of `iload 0; istore 0` whose operand stack is full: all
`MAX_STACK_SIZE` slots hold the int 7, the local 0 holds 0. -/
def full_stack_machine : Machine :=
  ⟨{ jvm_init [] with stack_memory := fun _ => 7 },
    { entry_frame (code_class [0x15, 0, 0x36, 0]) (call_main [0x15, 0, 0x36, 0]) with
      stack_top := 2048 },
    false⟩

/-- A method with `max_stack = 1` and the code `iconst_1; iconst_2; return`. -/
def shallow_method : MethodInfo :=
  ⟨9, some (lit "main"), some (lit "()V"), 1, 1, 3, some [0x04, 0x05, 0xb1]⟩

/-- A machine at the start of `shallow_method`, with an empty operand stack. -/
def shallow_machine : Machine :=
  ⟨jvm_init [], entry_frame ⟨some (lit "Test"), 1, [ConstantPoolEntry.zero], 1, [shallow_method]⟩
    shallow_method, false⟩

/-- A class whose method `f` is `iconst_5; return` with the descriptor `()V`, and
whose `main` is `invokestatic f; return`. -/
def pushing_callee_class : ClassInfo :=
  call_class "Test" "f" "()V" [0xb8, 0, 6, 0xb1] [0x08, 0xb1]

/-- A machine at the `invokestatic` of `main` of `pushing_callee_class` whose operand
stack has the depth 514; every slot holds the int 7. -/
def deep_caller : Machine :=
  ⟨{ jvm_init [] with stack_memory := fun _ => 7 },
    { entry_frame pushing_callee_class (call_main [0xb8, 0, 6, 0xb1]) with stack_top := 514 },
    false⟩

/-- A class whose constant pool holds the Utf8 entry `text` (entry 1), a StringRef
to it (entry 2), the Integer 42 (entry 3) and a Class entry (entry 4), and whose
`main` has the code `code`. -/
def ldc_class (text code : List Nat) : ClassInfo :=
  ⟨some (lit "Test"), 5,
    [ConstantPoolEntry.zero,
     { ConstantPoolEntry.zero with tag := 1, utf8_bytes := text ++ [0],
                                   utf8_length := text.length },
     { ConstantPoolEntry.zero with tag := 8, string_index := 1 },
     { ConstantPoolEntry.zero with tag := 3, integer_value := 42 },
     { ConstantPoolEntry.zero with tag := 7, string_index := 1 }],
    1, [call_main code]⟩

/-- A machine at the start of `main` of `ldc_class text code` whose string pool
holds `count` strings. -/
def ldc_machine (text code : List Nat) (count : Nat) : Machine :=
  ⟨{ jvm_init [] with string_pool := { strings := fun _ => JString.zero, count := count } },
    entry_frame (ldc_class text code) (call_main code), false⟩

/-- A class whose constant-pool entry 6 is the MethodRef
`java/io/PrintStream.name:(I)V` and whose `main` is `invokevirtual 6; return`. -/
def print_class (name : String) : ClassInfo :=
  call_class "java/io/PrintStream" name "(I)V" [0xb6, 0, 6, 0xb1] [0xb1]

/-- A machine at the `invokevirtual` of `main` of `print_class name`, with a receiver
reference and the int `-42` on the operand stack. -/
def print_machine (name : String) : Machine :=
  machine_in (print_class name) (call_main [0xb6, 0, 6, 0xb1]) [1, 0xFFFFFFD6] 0

/-! ## Definitions for the properties of the VM as a whole -/

/-- A class whose constant-pool entry 1 is the Integer `v` and whose `main` is
`ldc 1; ireturn`. -/
def returning_class (v : Int) : ClassInfo :=
  ⟨some (lit "Test"), 2,
    [ConstantPoolEntry.zero, { ConstantPoolEntry.zero with tag := 3, integer_value := v }],
    1, [call_main [0x12, 1, 0xac]]⟩

/-- A machine at a `dup` (followed by `return`) whose operand stack is full: the
`MAX_STACK_SIZE` slots hold the int 7, the word behind them is 0. -/
def full_dup_machine : Machine :=
  ⟨{ jvm_init [] with stack_memory := fun k => if k < 2048 then 7 else 0 },
    { entry_frame (code_class [0x59, 0xb1]) (call_main [0x59, 0xb1]) with stack_top := 2048 },
    false⟩

/-- A class whose constant-pool entry 2 is the class `java/util/Scanner` and whose
entry 6 is the MethodRef `java/util/Scanner.nextInt:()I`, with the code `code`
for `main`. -/
def scanner_class (code : List Nat) : ClassInfo :=
  call_class "java/util/Scanner" "nextInt" "()I" code [0xb1]

/-- The run of `main` of `scanner_class code` with the text `42` and a newline on
the standard input. -/
def scanner_run (code : List Nat) : Outcome :=
  jvm_execute_method stub_platform 100
    (jvm_load_class (jvm_init (lit "42\n")) (scanner_class code)).2 (lit "Test") (lit "main")


/-- A class whose constant-pool entry 6 is the method `append` of
`java/lang/StringBuilder` with the descriptor of the `int` overload; its `main` is
`invokevirtual 6; return`. -/
def append_class : ClassInfo :=
  call_class "java/lang/StringBuilder" "append" "(I)Ljava/lang/StringBuilder;"
    [0xb6, 0, 6, 0xb1] [0xb1]

/-- A machine at the `invokevirtual` of `main` of `append_class`: the string pool holds
the one string `ab`, the operand stack holds the reference to it and the int `42`. -/
def append_machine : Machine :=
  ⟨(jvm_create_string stub_platform
      { jvm_init [] with stack_memory := fun k => [4096, 42].getD k 0 } (lit "ab")).2,
    { entry_frame append_class (call_main [0xb6, 0, 6, 0xb1]) with stack_top := 2 }, false⟩

/-- A fresh VM with the one class `Test` loaded, whose `main` is `return`. -/
def return_only_vm : JVM := (jvm_load_class (jvm_init []) (code_class [0xb1])).2

/-- The class `Test` with `main` (`invokestatic 6; ireturn`) and two methods named `f`:
first `f:()I` (`iconst_1; ireturn`), then `f:(I)I` (`iconst_2; ireturn`).  Its
constant-pool entry 6 is the MethodRef `Test.f:(I)I`, the later of the two. -/
def overloaded_class : ClassInfo :=
  ⟨some (lit "Test"), 7, call_pool "Test" "f" "(I)I", 3,
    [call_main [0xb8, 0, 6, 0xac], call_callee "f" "()I" [0x04, 0xac],
      call_callee "f" "(I)I" [0x05, 0xac]]⟩

/-- A fresh VM with `overloaded_class` loaded. -/
def overloaded_vm : JVM := (jvm_load_class (jvm_init []) overloaded_class).2

/-- The VM `jvm` with the registry of native methods replaced by `native_methods`
and its count by `native_methods_count`; every other member is kept. -/
def JVM.with_registry (jvm : JVM) (native_methods : List NativeMethodEntry)
    (native_methods_count : Nat) : JVM :=
  { jvm with native_methods := native_methods, native_methods_count := native_methods_count }

/-- The machine `m` with the registry of native methods of its VM replaced. -/
def Machine.with_registry (m : Machine) (native_methods : List NativeMethodEntry)
    (native_methods_count : Nat) : Machine :=
  { m with jvm := m.jvm.with_registry native_methods native_methods_count }

/-- The outcome `o` with the registry of native methods of its VM replaced. -/
def Outcome.with_registry (o : Outcome) (native_methods : List NativeMethodEntry)
    (native_methods_count : Nat) : Outcome :=
  match o with
  | .returned result m => .returned result (m.with_registry native_methods native_methods_count)
  | .fault => .fault
  | .out_of_fuel => .out_of_fuel

/-- The step `s` with the registry of native methods of its VM replaced. -/
def Step.with_registry (s : Step) (native_methods : List NativeMethodEntry)
    (native_methods_count : Nat) : Step :=
  match s with
  | .next m => .next (m.with_registry native_methods native_methods_count)
  | .ret value m => .ret value (m.with_registry native_methods native_methods_count)
  | .out_of_fuel => .out_of_fuel

/-- The entries `register_standard_native_methods` registers (`native_methods.c`,
lines 187-207), in the order of the calls. -/
def standard_native_methods : List NativeMethodEntry :=
  [⟨lit "java/lang/System", lit "out.print", lit "(Ljava/lang/String;)V",
      .native_system_out_print⟩,
   ⟨lit "java/lang/System", lit "out.println", lit "(Ljava/lang/String;)V",
      .native_system_out_println⟩,
   ⟨lit "java/lang/System", lit "out.print", lit "(I)V", .native_system_out_print_int⟩,
   ⟨lit "java/lang/System", lit "out.println", lit "(I)V", .native_system_out_println_int⟩,
   ⟨lit "java/lang/System", lit "out.println", lit "()V", .native_system_out_println_void⟩,
   ⟨lit "java/util/Scanner", lit "<init>", lit "(Ljava/io/InputStream;)V", .native_scanner_init⟩,
   ⟨lit "java/util/Scanner", lit "nextInt", lit "()I", .native_scanner_next_int⟩,
   ⟨lit "java/util/Scanner", lit "nextLine", lit "()Ljava/lang/String;",
      .native_scanner_next_line⟩]

/-- The function `register_standard_native_methods` of `native_methods.c`: the eight
calls of `jvm_register_native_method`, their results ignored as in the source. -/
def register_standard_native_methods (jvm : JVM) : JVM :=
  standard_native_methods.foldl (fun jvm entry => (jvm_register_native_method jvm entry).1) jvm

/-- A machine at the start of the code `code` of `main` whose operand stack is full:
all `MAX_STACK_SIZE` slots hold the int 7. -/
def full_machine (code : List Nat) : Machine :=
  ⟨{ jvm_init [] with stack_memory := fun _ => 7 },
    { entry_frame (code_class code) (call_main code) with stack_top := 2048 },
    false⟩

/-- The machine `ldc_machine text code count` with a full operand stack: all
`MAX_STACK_SIZE` slots hold the int 7. -/
def full_ldc_machine (text code : List Nat) (count : Nat) : Machine :=
  ⟨{ (ldc_machine text code count).jvm with stack_memory := fun _ => 7 },
    { (ldc_machine text code count).frame with stack_top := 2048 }, false⟩

/-- The machine behind the opcode byte of the `invokestatic` in `main` of
`stale_slot_class` whose operand stack is full: all `MAX_STACK_SIZE` slots hold
the int 7. -/
def full_call_machine : Machine :=
  ⟨{ jvm_init [] with stack_memory := fun _ => 7 },
    { entry_frame stale_slot_class (call_main [0xb8, 0, 6, 0xac]) with stack_top := 2048 },
    false⟩

/-- The machine at the start of `main` of `null_string_class` whose string pool holds
`MAX_STRING_POOL` strings. -/
def full_pool_call_machine : Machine :=
  ⟨{ jvm_init [] with string_pool := { strings := fun _ => JString.zero, count := 256 } },
    entry_frame null_string_class (call_main [0xb8, 0, 6, 0xb0]), false⟩

/-- A class whose method `sq` has the descriptor `(I)V` and the body `square_code`,
and whose `main` is `bipush 7; invokestatic sq; ireturn`. -/
def void_square_class : ClassInfo :=
  call_class "Test" "sq" "(I)V" [0x10, 7, 0xb8, 0, 6, 0xac] square_code

/-- A class whose method `sq` has the descriptor `(I)I` and the body `square_code`,
and whose `main` is `bipush 7; invokestatic sq; ireturn`. -/
def int_square_class : ClassInfo :=
  call_class "Test" "sq" "(I)I" [0x10, 7, 0xb8, 0, 6, 0xac] square_code

/-- A class whose method `sq` has the descriptor `(I)I` and no Code attribute (a
`native` method), and whose `main` is `bipush 7; invokestatic sq; ireturn`. -/
def native_square_class : ClassInfo :=
  ⟨some (lit "Test"), 7, call_pool "Test" "sq" "(I)I", 2,
    [call_main [0x10, 7, 0xb8, 0, 6, 0xac],
     ⟨0x109, some (lit "sq"), some (lit "(I)I"), 0, 0, 0, none⟩]⟩

/-- A class whose method `f` is `iconst_2; ireturn` with the descriptor `()I`, and
whose `main` is `invokestatic f; ireturn`. -/
def clean_return_class : ClassInfo :=
  call_class "Test" "f" "()I" [0xb8, 0, 6, 0xac] [0x05, 0xac]

/-- The machine `square_caller` on the frame of a callee: its locals begin at
`locals_memory[256]`, its operand stack at `stack_memory[512]`, so the locals of
the method it calls begin at `locals_memory[512]`. -/
def nested_square_caller : Machine :=
  ⟨{ jvm_init [] with stack_memory := fun k => if k = 512 then 7 else 0 },
    { entry_frame square_class square_main with
      locals := 256, operand_stack := 512, stack_top := 1, pc := 3 }, false⟩

/-- A class with three methods: `main` is `bipush 3; invokestatic f; ireturn`, `f`
is `iload_0; invokestatic sq; ireturn`, and `sq` is `square_code`; `f` and `sq`
have the descriptor `(I)I`.  Constant-pool entry 6 is the MethodRef `Test.sq`,
entry 9 the MethodRef `Test.f`. -/
def nested_square_class : ClassInfo :=
  ⟨some (lit "Test"), 10,
    call_pool "Test" "sq" "(I)I" ++
      [utf8_entry "f",
       { ConstantPoolEntry.zero with tag := 12, class_index := 7, name_and_type_index := 4 },
       { ConstantPoolEntry.zero with tag := 10, class_index := 2, name_and_type_index := 8 }],
    3,
    [call_main [0x10, 3, 0xb8, 0, 9, 0xac], call_callee "f" "(I)I" [0x1a, 0xb8, 0, 6, 0xac],
     call_callee "sq" "(I)I" square_code]⟩

/-! ## Theorems -/

/-! ### Byte cursor and magic check -/

theorem byte_lt (r : ClassReader) (i : Nat) : r.byte i < 256 := by
  unfold ClassReader.byte; omega

theorem or_shift8 (a b : Nat) (hb : b < 256) : (a <<< 8) ||| b = a * 256 + b := by
  rw [Nat.shiftLeft_eq, Nat.mul_comm a, show (2:Nat)^8 = 256 from rfl]
  exact (Nat.mul_add_lt_is_or (i := 8) hb a).symm

theorem u2_value (a b : Nat) (ha : a < 256) (hb : b < 256) :
    ((a <<< 8) ||| b) % 65536 = a * 256 + b := by
  rw [or_shift8 a b hb]; omega

theorem u4_value (a b c d : Nat) (ha : a < 256) (hb : b < 256) (hc : c < 256) (hd : d < 256) :
    ((a <<< 24) ||| (b <<< 16) ||| (c <<< 8) ||| d) % 4294967296
      = a * 16777216 + b * 65536 + c * 256 + d := by
  have h1 : (a <<< 24) ||| (b <<< 16) = (a * 256 + b) <<< 16 := by
    rw [Nat.shiftLeft_eq, Nat.shiftLeft_eq, Nat.shiftLeft_eq]
    have : b * 2 ^ 16 < 2 ^ 24 := by norm_num; omega
    have h := Nat.mul_add_lt_is_or (i := 24) this a
    rw [Nat.mul_comm (2^24) a] at h
    rw [← h]; ring
  have h2 : ((a * 256 + b) <<< 16) ||| (c <<< 8) = ((a * 256 + b) * 256 + c) <<< 8 := by
    rw [Nat.shiftLeft_eq, Nat.shiftLeft_eq, Nat.shiftLeft_eq]
    have : c * 2 ^ 8 < 2 ^ 16 := by norm_num; omega
    have h := Nat.mul_add_lt_is_or (i := 16) this (a * 256 + b)
    rw [Nat.mul_comm (2^16) _] at h
    rw [← h]; ring
  rw [h1, h2, or_shift8 _ _ hd]
  omega

theorem read_u1_eq (r : ClassReader) :
    read_u1 r = if r.pos + 1 ≤ r.size then (be_value r.data r.pos 1, { r with pos := r.pos + 1 })
      else (0, r) := by
  unfold read_u1
  by_cases h : r.pos + 1 ≤ r.size
  · have h2 : ¬ r.pos ≥ r.size := by omega
    simp [h, h2, be_value, ClassReader.byte]
  · have h2 : r.pos ≥ r.size := by omega
    simp [h, h2]

theorem read_u2_eq (r : ClassReader) :
    read_u2 r = if r.pos + 2 ≤ r.size then (be_value r.data r.pos 2, { r with pos := r.pos + 2 })
      else (0, r) := by
  unfold read_u2
  by_cases h : r.pos + 2 ≤ r.size
  · have h2 : ¬ r.pos + 1 ≥ r.size := by omega
    rw [if_neg h2, if_pos h, u2_value _ _ (byte_lt _ _) (byte_lt _ _)]
    simp [be_value, ClassReader.byte]
  · have h2 : r.pos + 1 ≥ r.size := by omega
    simp [h, h2]

theorem read_u4_eq (r : ClassReader) :
    read_u4 r = if r.pos + 4 ≤ r.size then (be_value r.data r.pos 4, { r with pos := r.pos + 4 })
      else (0, r) := by
  unfold read_u4
  by_cases h : r.pos + 4 ≤ r.size
  · have h2 : ¬ r.pos + 3 ≥ r.size := by omega
    rw [if_neg h2, if_pos h,
      u4_value _ _ _ _ (byte_lt _ _) (byte_lt _ _) (byte_lt _ _) (byte_lt _ _)]
    simp [be_value, ClassReader.byte]
    ring
  · have h2 : r.pos + 3 ≥ r.size := by omega
    simp [h, h2]

/-- Claim C9.  For every cursor and each width 1, 2, 4: when `pos + w ≤ size` the
read returns the big-endian unsigned value of the `w` bytes at `pos` and advances
`pos` by `w`; otherwise it returns 0 and leaves the cursor as it was.  The
indices the read dereferences are `pos .. pos + w - 1` in the first case and
none in the second, so no byte at an index `≥ size` is read. -/
theorem cursor_read_contract (r : ClassReader) :
    read_u1 r = (if r.pos + 1 ≤ r.size
      then (be_value r.data r.pos 1, { r with pos := r.pos + 1 }) else (0, r)) ∧
    read_u2 r = (if r.pos + 2 ≤ r.size
      then (be_value r.data r.pos 2, { r with pos := r.pos + 2 }) else (0, r)) ∧
    read_u4 r = (if r.pos + 4 ≤ r.size
      then (be_value r.data r.pos 4, { r with pos := r.pos + 4 }) else (0, r)) ∧
    read_u1_reads r = (if r.pos + 1 ≤ r.size then [r.pos] else []) ∧
    read_u2_reads r = (if r.pos + 2 ≤ r.size then [r.pos, r.pos + 1] else []) ∧
    read_u4_reads r = (if r.pos + 4 ≤ r.size
      then [r.pos, r.pos + 1, r.pos + 2, r.pos + 3] else []) ∧
    (∀ i ∈ read_u1_reads r ++ read_u2_reads r ++ read_u4_reads r, i < r.size) := by
  refine ⟨read_u1_eq r, read_u2_eq r, read_u4_eq r, ?_, ?_, ?_, ?_⟩
  · unfold read_u1_reads; by_cases h : r.pos + 1 ≤ r.size
    · rw [if_neg (by omega), if_pos h]
    · rw [if_pos (by omega), if_neg h]
  · unfold read_u2_reads; by_cases h : r.pos + 2 ≤ r.size
    · rw [if_neg (by omega), if_pos h]
    · rw [if_pos (by omega), if_neg h]
  · unfold read_u4_reads; by_cases h : r.pos + 4 ≤ r.size
    · rw [if_neg (by omega), if_pos h]
    · rw [if_pos (by omega), if_neg h]
  · intro i hi
    simp only [List.mem_append, read_u1_reads, read_u2_reads, read_u4_reads] at hi
    rcases hi with (hi | hi) | hi
    · split at hi <;> simp at hi; omega
    · split at hi <;> simp at hi; omega
    · split at hi <;> simp at hi; omega



theorem load_class_members_some (junk : Nat → Nat) (fits : ClassReader → Nat → Bool)
    (magic minor major count : Nat) (pool : List ConstantPoolEntry) (reader : ClassReader)
    (c : LoadedClass)
    (h : load_class_members junk fits magic minor major count pool reader = some c) :
    c.magic = magic ∧ c.constant_pool_count = count ∧ c.constant_pool = pool := by
  unfold load_class_members at h
  simp only at h
  split at h
  · cases h
  · split at h
    · cases h
    · injection h with h
      rw [← h]
      exact ⟨rfl, rfl, rfl⟩

theorem load_class_body_magic (junk : Nat → Nat) (fits : ClassReader → Nat → Bool) (magic : Nat)
    (reader : ClassReader) (c : LoadedClass)
    (h : load_class_body junk fits magic reader = .ok c) : c.magic = magic := by
  unfold load_class_body at h
  simp only at h
  split at h
  · cases h
  · cases h
  · split at h
    · cases h
    · next hc =>
      injection h with h
      rw [← h]
      exact (load_class_members_some junk fits _ _ _ _ _ _ _ hc).1

/-- Claim C1.  For every file content `data`, `load_class_file` returns the
failure when `data` has fewer than four bytes or its first four bytes read
big-endian are not `0xCAFEBABE`, and every class it returns has the field
`magic` equal to `0xCAFEBABE`. -/
theorem load_class_file_magic (junk : Nat → Nat) (fits : ClassReader → Nat → Bool) (data : List Nat) :
    ((data.length < 4 ∨ be_value data 0 4 ≠ 0xCAFEBABE) →
      load_class_file junk fits data = .error) ∧
    (∀ c, load_class_file junk fits data = .ok c → c.magic = 0xCAFEBABE) := by
  constructor
  · intro h
    unfold load_class_file
    by_cases h0 : data.length = 0
    · simp only [h0, if_true]
    · rw [if_neg h0]
      simp only [read_u4_eq]
      by_cases h4 : 0 + 4 ≤ data.length
      · have hne : be_value data 0 4 ≠ CLASS_MAGIC := by
          rcases h with h | h
          · omega
          · exact h
        simp only [h4, if_true, hne, ne_eq, not_false_eq_true]
      · simp only [h4, if_false, CLASS_MAGIC]
        rfl
  · intro c hc
    unfold load_class_file at hc
    by_cases h0 : data.length = 0
    · simp only [h0, if_true] at hc
      cases hc
    · rw [if_neg h0] at hc
      simp only at hc
      split at hc
      · cases hc
      · next hmag =>
        have := load_class_body_magic _ _ _ _ _ hc
        rw [this]
        simpa [CLASS_MAGIC] using hmag



theorem Advances.refl (a : ClassReader) : Advances a a := ⟨rfl, rfl, Nat.le_refl _⟩

theorem Advances.trans {a b c : ClassReader} (h1 : Advances a b) (h2 : Advances b c) :
    Advances a c :=
  ⟨h2.1.trans h1.1, h2.2.1.trans h1.2.1, Nat.le_trans h1.2.2 h2.2.2⟩

theorem read_u1_advances (r : ClassReader) : Advances r (read_u1 r).2 := by
  unfold read_u1; split
  · exact Advances.refl r
  · exact ⟨rfl, rfl, Nat.le_succ _⟩

theorem read_u2_advances (r : ClassReader) : Advances r (read_u2 r).2 := by
  unfold read_u2; split
  · exact Advances.refl r
  · exact ⟨rfl, rfl, Nat.le_add_right _ _⟩

theorem read_u4_advances (r : ClassReader) : Advances r (read_u4 r).2 := by
  unfold read_u4; split
  · exact Advances.refl r
  · exact ⟨rfl, rfl, Nat.le_add_right _ _⟩

theorem read_bytes_advances (r : ClassReader) (buf : List Nat) (n : Nat) :
    Advances r (read_bytes r buf n).2 := by
  unfold read_bytes; split
  · exact Advances.refl r
  · exact ⟨rfl, rfl, Nat.le_add_right _ _⟩

theorem read_u1_nonzero (r : ClassReader) (h : (read_u1 r).1 ≠ 0) :
    r.pos < r.size ∧ (read_u1 r).2.pos = r.pos + 1 := by
  unfold read_u1 at h ⊢
  by_cases hp : r.pos ≥ r.size
  · simp [hp] at h
  · rw [if_neg hp]
    exact ⟨by omega, rfl⟩

theorem parse_constant_pool_entry_advances (junk : Nat → Nat) (r : ClassReader)
    (e : ConstantPoolEntry) : Advances r (parse_constant_pool_entry junk r e).1 := by
  unfold parse_constant_pool_entry
  have h1 := read_u1_advances r
  simp only
  split_ifs
  · exact h1.trans ((read_u2_advances _).trans (read_bytes_advances _ _ _))
  · exact h1.trans (read_u4_advances _)
  · exact h1.trans (read_u4_advances _)
  · exact h1.trans ((read_u4_advances _).trans (read_u4_advances _))
  · exact h1.trans (read_u2_advances _)
  · exact h1.trans ((read_u2_advances _).trans (read_u2_advances _))
  · exact h1.trans (read_u2_advances _)

theorem parse_constant_pool_entry_wide (junk : Nat → Nat) (r : ClassReader)
    (e : ConstantPoolEntry) (h : (parse_constant_pool_entry junk r e).2.2 = true) :
    r.pos < r.size ∧ r.pos + 1 ≤ (parse_constant_pool_entry junk r e).1.pos := by
  unfold parse_constant_pool_entry at h ⊢
  simp only at h ⊢
  split_ifs at h ⊢ with h1 h2 h3 h4
  have hne : (read_u1 r).1 ≠ 0 := by
    rcases h4 with h4 | h4 <;> rw [h4] <;> decide
  obtain ⟨hlt, hpos⟩ := read_u1_nonzero r hne
  refine ⟨hlt, ?_⟩
  have := ((read_u4_advances (read_u1 r).2).trans (read_u4_advances _)).2.2
  show r.pos + 1 ≤ (read_u4 (read_u4 (read_u1 r).2).2).2.pos
  omega

theorem parse_constant_pool_loop_terminates (junk : Nat → Nat) (count : Nat)
    (hc : count ≤ 65535) :
    ∀ (fuel : Nat) (r : ClassReader) (pool : List ConstantPoolEntry) (i : Nat),
      i ≤ 65536 → (r.size - r.pos) * 65536 + (65536 - i) < fuel →
      ∃ res, parse_constant_pool_loop junk count fuel r pool i = some res ∧ Advances r res.1 := by
  intro fuel
  induction fuel with
  | zero => intro r pool i _ h; omega
  | succ fuel ih =>
    intro r pool i hi hfuel
    unfold parse_constant_pool_loop
    by_cases hlt : i < count
    · rw [if_pos hlt]
      simp only
      generalize hstep : parse_constant_pool_entry junk r (pool.getD i ConstantPoolEntry.zero) = step
      have hadv := parse_constant_pool_entry_advances junk r (pool.getD i ConstantPoolEntry.zero)
      have hwide := parse_constant_pool_entry_wide junk r (pool.getD i ConstantPoolEntry.zero)
      rw [hstep] at hadv hwide
      obtain ⟨hd, hs, hp⟩ := hadv
      have key : ∃ res, parse_constant_pool_loop junk count fuel step.1 (pool.set i step.2.1)
          (((if step.2.2 = true then (i + 1) % 65536 else i) + 1) % 65536) = some res ∧
          Advances step.1 res.1 := by
        apply ih
        · omega
        · by_cases hw : step.2.2 = true
          · obtain ⟨h1, h2⟩ := hwide hw
            rw [if_pos hw, hs]
            have h3 : (r.size - step.1.pos) + 1 ≤ r.size - r.pos := by omega
            have h4 : (r.size - step.1.pos) * 65536 + 65536 ≤ (r.size - r.pos) * 65536 := by
              nlinarith
            omega
          · rw [if_neg hw, hs]
            have h3 : (r.size - step.1.pos) ≤ r.size - r.pos := by omega
            have h4 : (r.size - step.1.pos) * 65536 ≤ (r.size - r.pos) * 65536 :=
              Nat.mul_le_mul_right _ h3
            have h5 : (i + 1) % 65536 = i + 1 := Nat.mod_eq_of_lt (by omega)
            rw [h5]
            omega
      obtain ⟨res, hres, hadv2⟩ := key
      exact ⟨res, hres, Advances.trans ⟨hd, hs, hp⟩ hadv2⟩
    · rw [if_neg hlt]
      exact ⟨(r, pool), rfl, Advances.refl r⟩


theorem read_u2_lt (r : ClassReader) : (read_u2 r).1 < 65536 := by
  unfold read_u2; split
  · exact Nat.zero_lt_succ _
  · exact Nat.mod_lt _ (by decide)

theorem parse_constant_pool_cases (junk : Nat → Nat) (r : ClassReader) :
    ((read_u2 r).1 = 0 ∧ parse_constant_pool junk r = .error) ∨
    ((read_u2 r).1 ≠ 0 ∧ ∃ r1 pool, parse_constant_pool junk r = .ok (r1, (read_u2 r).1, pool)) := by
  unfold parse_constant_pool
  simp only
  by_cases h0 : (read_u2 r).1 = 0
  · left; exact ⟨h0, by rw [if_pos h0]⟩
  · right
    refine ⟨h0, ?_⟩
    rw [if_neg h0]
    have hc : (read_u2 r).1 ≤ 65535 := by have := read_u2_lt r; omega
    obtain ⟨res, hres, -⟩ := parse_constant_pool_loop_terminates junk (read_u2 r).1 hc
      (parse_constant_pool_fuel (read_u2 r).2) (read_u2 r).2
      (List.replicate (read_u2 r).1 ConstantPoolEntry.zero) 1 (by omega)
      (by
        unfold parse_constant_pool_fuel
        have : ((read_u2 r).2.size - (read_u2 r).2.pos) * 65536 ≤ (read_u2 r).2.size * 65536 :=
          Nat.mul_le_mul_right _ (Nat.sub_le _ _)
        omega)
    rw [hres]
    exact ⟨res.1, res.2, rfl⟩





theorem malloc_granted (fits : ClassReader → Nat → Bool) (hfits : ∀ r n, fits r n = true) (r : ClassReader)
    (n : Nat) : malloc_fails fits r n = false := by
  unfold malloc_fails
  rw [hfits r n]
  simp

theorem calloc_granted (fits : ClassReader → Nat → Bool) (hfits : ∀ r n, fits r n = true)
    (r : ClassReader) (count width size : Nat) : calloc_fails fits r count width size = false := by
  unfold calloc_fails
  rw [hfits r (count * size)]
  simp

theorem parse_attributes_loop_granted (junk : Nat → Nat) (fits : ClassReader → Nat → Bool)
    (hfits : ∀ r n, fits r n = true) :
    ∀ (n : Nat) (r : ClassReader), (parse_attributes_loop junk fits n r).2.2 = false := by
  intro n
  induction n with
  | zero => intro r; rfl
  | succ n ih =>
    intro r
    unfold parse_attributes_loop
    simp only [malloc_granted fits hfits, Bool.false_eq_true, and_false, if_false]
    exact ih _

theorem parse_method_granted (junk : Nat → Nat) (fits : ClassReader → Nat → Bool)
    (hfits : ∀ r n, fits r n = true) (pool : List ConstantPoolEntry) (count : Nat)
    (r : ClassReader) : ∃ res, parse_method junk fits pool count r = some res := by
  unfold parse_method parse_attributes
  simp only [calloc_granted fits hfits, parse_attributes_loop_granted junk fits hfits,
    Bool.false_eq_true, and_false, if_false]
  exact ⟨_, rfl⟩

theorem parse_methods_loop_granted (junk : Nat → Nat) (fits : ClassReader → Nat → Bool)
    (hfits : ∀ r n, fits r n = true) (pool : List ConstantPoolEntry) (count : Nat) :
    ∀ (n : Nat) (r : ClassReader), ∃ res, parse_methods_loop junk fits pool count n r = some res := by
  intro n
  induction n with
  | zero => intro r; exact ⟨_, rfl⟩
  | succ n ih =>
    intro r
    obtain ⟨method, hm⟩ := parse_method_granted junk fits hfits pool count r
    obtain ⟨rest, hr⟩ := ih method.1
    unfold parse_methods_loop
    rw [hm]
    simp only [hr]
    exact ⟨_, rfl⟩

theorem load_fields_loop_granted (junk : Nat → Nat) (fits : ClassReader → Nat → Bool)
    (hfits : ∀ r n, fits r n = true) :
    ∀ (n : Nat) (r : ClassReader), ∃ res, load_fields_loop junk fits n r = some res := by
  intro n
  induction n with
  | zero => intro r; exact ⟨_, rfl⟩
  | succ n ih =>
    intro r
    unfold load_fields_loop parse_attributes
    simp only [calloc_granted fits hfits, parse_attributes_loop_granted junk fits hfits,
      Bool.false_eq_true, and_false, if_false]
    obtain ⟨rest, hr⟩ := ih (parse_attributes_loop junk fits
      (read_u2 (read_u2 (read_u2 (read_u2 r).2).2).2).1
      (read_u2 (read_u2 (read_u2 (read_u2 r).2).2).2).2).1
    rw [hr]
    exact ⟨_, rfl⟩

theorem load_class_members_granted (junk : Nat → Nat) (fits : ClassReader → Nat → Bool)
    (hfits : ∀ r n, fits r n = true) (magic minor major count : Nat)
    (pool : List ConstantPoolEntry) (reader : ClassReader) :
    ∃ c, load_class_members junk fits magic minor major count pool reader = some c := by
  unfold load_class_members
  simp only
  obtain ⟨fields, hfl⟩ := load_fields_loop_granted junk fits hfits
    (read_u2 (load_interfaces_loop (read_u2 (read_u2 (read_u2 (read_u2 reader).2).2).2).1
      (read_u2 (read_u2 (read_u2 (read_u2 reader).2).2).2).2).1).1
    (read_u2 (load_interfaces_loop (read_u2 (read_u2 (read_u2 (read_u2 reader).2).2).2).1
      (read_u2 (read_u2 (read_u2 (read_u2 reader).2).2).2).2).1).2
  rw [hfl]
  simp only
  obtain ⟨methods, hml⟩ := parse_methods_loop_granted junk fits hfits pool count
    (read_u2 fields.1).1 (read_u2 fields.1).2
  unfold parse_methods
  simp only [calloc_granted fits hfits, hml, Bool.false_eq_true, and_false, if_false]
  exact ⟨_, rfl⟩

theorem read_u2_at_end (r : ClassReader) (h : r.size ≤ r.pos + 1) : read_u2 r = (0, r) := by
  unfold read_u2
  rw [if_pos (by omega)]

theorem load_class_members_at_end (junk : Nat → Nat) (fits : ClassReader → Nat → Bool)
    (magic minor major count : Nat) (pool : List ConstantPoolEntry) (reader : ClassReader)
    (h : reader.size ≤ reader.pos + 1) :
    load_class_members junk fits magic minor major count pool reader
      = some { magic := magic, minor_version := minor, major_version := major,
               constant_pool_count := count, constant_pool := pool, access_flags := 0,
               this_class := 0, super_class := 0, interfaces_count := 0, interfaces := [],
               fields_count := 0, fields := [], methods_count := 0, methods := [],
               attributes_count := 0, attributes := [] } := by
  unfold load_class_members parse_methods parse_attributes
  simp only [read_u2_at_end reader h, load_interfaces_loop, load_fields_loop, parse_methods_loop,
    parse_attributes_loop, ne_eq, not_true_eq_false, false_and, if_false]

theorem load_class_body_cases (junk : Nat → Nat) (fits : ClassReader → Nat → Bool) (magic : Nat)
    (r : ClassReader) :
    ((read_u2 (read_u2 (read_u2 r).2).2).1 = 0 ∧ load_class_body junk fits magic r = .error) ∨
    ((read_u2 (read_u2 (read_u2 r).2).2).1 ≠ 0 ∧
      ∃ r1 pool, parse_constant_pool junk (read_u2 (read_u2 r).2).2
          = .ok (r1, (read_u2 (read_u2 (read_u2 r).2).2).1, pool) ∧
        load_class_body junk fits magic r
          = match load_class_members junk fits magic (read_u2 r).1 (read_u2 (read_u2 r).2).1
              (read_u2 (read_u2 (read_u2 r).2).2).1 pool r1 with
            | none => .error
            | some c => .ok c) := by
  unfold load_class_body
  simp only
  rcases parse_constant_pool_cases junk (read_u2 (read_u2 r).2).2 with ⟨h0, h⟩ | ⟨h0, r1, pool, h⟩
  · left; exact ⟨h0, by rw [h]⟩
  · right; exact ⟨h0, r1, pool, h, by rw [h]⟩

theorem header_count_eq (data : List Nat) (h4 : 4 ≤ data.length) :
    (read_u2 (read_u2 (read_u2 (read_u4
      { data := data, size := data.length, pos := 0 }).2).2).2).1 = header_pool_count data := by
  simp only [read_u4_eq, read_u2_eq, header_pool_count]
  have e4 : (0 + 4 ≤ data.length) := by omega
  simp only [e4, if_true]
  by_cases h6 : 6 ≤ data.length
  · have : 0 + 4 + 2 ≤ data.length := by omega
    simp only [this, if_true]
    by_cases h8 : 8 ≤ data.length
    · have : 0 + 4 + 2 + 2 ≤ data.length := by omega
      simp only [this, if_true]
      by_cases h10 : 10 ≤ data.length
      · have : 0 + 4 + 2 + 2 + 2 ≤ data.length := by omega
        simp only [this, if_true, h10]
      · have : ¬ 0 + 4 + 2 + 2 + 2 ≤ data.length := by omega
        simp only [this, if_false, h10]
    · have h8' : ¬ 0 + 4 + 2 + 2 ≤ data.length := by omega
      have h8'' : ¬ 0 + 4 + 2 + 2 ≤ data.length := by omega
      have h10 : ¬ 10 ≤ data.length := by omega
      simp only [h8', if_false, h10]
  · have h6' : ¬ 0 + 4 + 2 ≤ data.length := by omega
    have h10 : ¬ 10 ≤ data.length := by omega
    simp only [h6', if_false, h10, e4, if_true]

theorem load_class_file_cases (junk : Nat → Nat) (fits : ClassReader → Nat → Bool) (data : List Nat) :
    ((¬ valid_magic data ∨ header_pool_count data = 0) ∧
      load_class_file junk fits data = .error) ∨
    ((valid_magic data ∧ header_pool_count data ≠ 0) ∧
      ∃ r1 pool, parse_constant_pool junk { data := data, size := data.length, pos := 8 }
          = .ok (r1, header_pool_count data, pool) ∧
        load_class_file junk fits data
          = match load_class_members junk fits (be_value data 0 4) (be_value data 4 2)
              (be_value data 6 2) (header_pool_count data) pool r1 with
            | none => .error
            | some c => .ok c) := by
  by_cases hv : valid_magic data
  · obtain ⟨h4, hm⟩ := hv
    have h0 : data.length ≠ 0 := by omega
    have hrd : read_u4 { data := data, size := data.length, pos := 0 } =
        (be_value data 0 4, { data := data, size := data.length, pos := 0 + 4 }) := by
      rw [read_u4_eq]; simp only [show 0 + 4 ≤ data.length by omega, if_true]
    have hbody : load_class_file junk fits data = load_class_body junk fits (be_value data 0 4)
        (read_u4 { data := data, size := data.length, pos := 0 }).2 := by
      unfold load_class_file
      rw [if_neg h0]
      simp only [hrd]
      rw [if_neg (by simp [hm, CLASS_MAGIC])]
    have hcnt := header_count_eq data h4
    rcases load_class_body_cases junk fits (be_value data 0 4)
      (read_u4 { data := data, size := data.length, pos := 0 }).2
      with ⟨hz, he⟩ | ⟨hz, r1, pool, hp, hc⟩
    · left; rw [hcnt] at hz
      exact ⟨Or.inr hz, by rw [hbody, he]⟩
    · right
      rw [hcnt] at hz hp hc
      have h10 : 10 ≤ data.length := by
        by_contra hn
        apply hz
        unfold header_pool_count
        rw [if_neg hn]
      have e1 : read_u2 (read_u4 { data := data, size := data.length, pos := 0 }).2
          = (be_value data 4 2, { data := data, size := data.length, pos := 6 }) := by
        rw [hrd, read_u2_eq]
        simp only [show 0 + 4 + 2 ≤ data.length by omega, if_true]
      have e2 : read_u2 (read_u2 (read_u4 { data := data, size := data.length, pos := 0 }).2).2
          = (be_value data 6 2, { data := data, size := data.length, pos := 8 }) := by
        rw [e1, read_u2_eq]
        simp only [show 6 + 2 ≤ data.length by omega, if_true]
      rw [e2] at hp
      rw [e1] at hc
      have e3 : read_u2 { data := data, size := data.length, pos := 6 }
          = (be_value data 6 2, { data := data, size := data.length, pos := 8 }) := by
        rw [← e2, e1]
      simp only [e3] at hc
      exact ⟨⟨⟨h4, hm⟩, hz⟩, r1, pool, hp, by rw [hbody, hc]⟩
  · left
    refine ⟨Or.inl hv, ?_⟩
    have := (load_class_file_magic junk fits data).1
    apply this
    unfold valid_magic at hv
    by_cases h4 : data.length < 4
    · exact Or.inl h4
    · right; intro h; exact hv ⟨by omega, h⟩

/-! ### Well-formed input -/

theorem at_bytes_length {r : ClassReader} {bs t : List Nat} (h : r.at_bytes (bs ++ t)) :
    r.pos + bs.length ≤ r.size := by
  obtain ⟨hs, hp, hd⟩ := h
  have := congrArg List.length hd
  simp only [List.length_drop, List.length_append] at this
  omega

theorem at_bytes_cons {r : ClassReader} {b : Nat} {t : List Nat} (h : r.at_bytes (b :: t)) :
    r.pos < r.size ∧ r.data.getD r.pos 0 = b ∧ (r.advance 1).at_bytes t := by
  have hlen := @at_bytes_length r [b] t h
  obtain ⟨hs, hp, hd⟩ := h
  simp only [List.length_singleton] at hlen
  have hlt : r.pos < r.data.length := by omega
  have hcons := List.drop_eq_getElem_cons hlt
  rw [hd] at hcons
  injection hcons with h1 h2
  refine ⟨by omega, ?_, hs, ?_, h2.symm⟩
  · rw [List.getD_eq_getElem _ _ hlt, h1]
  · show r.pos + 1 ≤ r.size
    omega

theorem at_bytes_append {r : ClassReader} {bs t : List Nat} (h : r.at_bytes (bs ++ t)) :
    (r.data.drop r.pos).take bs.length = bs ∧ (r.advance bs.length).at_bytes t := by
  have hlen := at_bytes_length h
  obtain ⟨hs, hp, hd⟩ := h
  refine ⟨by rw [hd, List.take_left' rfl], hs, hlen, ?_⟩
  show r.data.drop (r.pos + bs.length) = t
  rw [← List.drop_drop, hd, List.drop_left' rfl]

theorem read_u1_at {r : ClassReader} {b : Nat} {t : List Nat} (h : r.at_bytes (b :: t))
    (hb : b < 256) : read_u1 r = (b, r.advance 1) ∧ (r.advance 1).at_bytes t := by
  obtain ⟨h1, h2, h3⟩ := at_bytes_cons h
  refine ⟨?_, h3⟩
  unfold read_u1
  rw [if_neg (by omega)]
  simp only [ClassReader.byte, h2, Nat.mod_eq_of_lt hb]
  rfl

theorem advance_advance (r : ClassReader) (a b : Nat) :
    (r.advance a).advance b = r.advance (a + b) := by
  simp only [ClassReader.advance, Nat.add_assoc]

theorem read_u2_at {r : ClassReader} {v : Nat} {t : List Nat} (h : r.at_bytes (u2_bytes v ++ t))
    (hv : v < 65536) : read_u2 r = (v, r.advance 2) ∧ (r.advance 2).at_bytes t := by
  have hlen := at_bytes_length h
  simp only [u2_bytes, List.length_cons, List.length_nil] at hlen
  obtain ⟨-, e0, h1⟩ := at_bytes_cons (b := v / 256 % 256) (t := v % 256 :: t) h
  obtain ⟨-, e1, h2⟩ := at_bytes_cons h1
  rw [advance_advance] at h2
  refine ⟨?_, h2⟩
  unfold read_u2
  rw [if_neg (by omega)]
  have e1' : r.data.getD (r.pos + 1) 0 = v % 256 := e1
  simp only [ClassReader.byte, e0, e1']
  rw [u2_value _ _ (Nat.mod_lt _ (by decide)) (Nat.mod_lt _ (by decide))]
  have : v / 256 % 256 % 256 * 256 + v % 256 % 256 = v := by omega
  rw [this]; rfl

theorem read_u4_at {r : ClassReader} {v : Nat} {t : List Nat} (h : r.at_bytes (u4_bytes v ++ t))
    (hv : v < 4294967296) : read_u4 r = (v, r.advance 4) ∧ (r.advance 4).at_bytes t := by
  have hlen := at_bytes_length h
  simp only [u4_bytes, List.length_cons, List.length_nil] at hlen
  obtain ⟨-, e0, h1⟩ := at_bytes_cons (b := v / 16777216 % 256) h
  obtain ⟨-, e1, h2⟩ := at_bytes_cons h1
  obtain ⟨-, e2, h3⟩ := at_bytes_cons h2
  obtain ⟨-, e3, h4⟩ := at_bytes_cons h3
  simp only [advance_advance] at h2 h3 h4
  refine ⟨?_, h4⟩
  unfold read_u4
  rw [if_neg (by omega)]
  have e1' : r.data.getD (r.pos + 1) 0 = v / 65536 % 256 := e1
  have e2' : r.data.getD (r.pos + 2) 0 = v / 256 % 256 := e2
  have e3' : r.data.getD (r.pos + 3) 0 = v % 256 := e3
  simp only [ClassReader.byte, e0, e1', e2', e3']
  rw [u4_value _ _ _ _ (Nat.mod_lt _ (by decide)) (Nat.mod_lt _ (by decide))
    (Nat.mod_lt _ (by decide)) (Nat.mod_lt _ (by decide))]
  have : v / 16777216 % 256 % 256 * 16777216 + v / 65536 % 256 % 256 * 65536 +
      v / 256 % 256 % 256 * 256 + v % 256 % 256 = v := by omega
  rw [this]; rfl

theorem map_mod_of_all_bytes {bs : List Nat} (h : all_bytes bs) : bs.map (· % 256) = bs := by
  induction bs with
  | nil => rfl
  | cons b t ih =>
    simp only [List.map_cons]
    rw [Nat.mod_eq_of_lt (h b (List.mem_cons_self _ _)),
      ih (fun x hx => h x (List.mem_cons_of_mem _ hx))]

theorem read_bytes_at {r : ClassReader} {bs t : List Nat} (buf : List Nat)
    (h : r.at_bytes (bs ++ t)) (hb : all_bytes bs) :
    read_bytes r buf bs.length = (bs ++ buf.drop bs.length, r.advance bs.length) ∧
      (r.advance bs.length).at_bytes t := by
  have hlen := at_bytes_length h
  obtain ⟨h1, h2⟩ := at_bytes_append h
  refine ⟨?_, h2⟩
  unfold read_bytes
  rw [if_neg (by omega), h1, map_mod_of_all_bytes hb]
  rfl

theorem malloc_length (junk : Nat → Nat) (n : Nat) : (malloc junk n).length = n := by
  simp [malloc]

theorem utf8_buffer (junk : Nat → Nat) (bytes : List Nat) :
    (bytes ++ (malloc junk (bytes.length + 1)).drop bytes.length).set bytes.length 0
      = bytes ++ [0] := by
  have hl : ((malloc junk (bytes.length + 1)).drop bytes.length).length = 1 := by
    rw [List.length_drop, malloc_length]; omega
  obtain ⟨x, hx⟩ := List.length_eq_one.mp hl
  rw [hx, List.set_append_right _ _ (Nat.le_refl _), Nat.sub_self]
  rfl

theorem parse_constant_pool_entry_at (junk : Nat → Nat) {r : ClassReader} {item : CpItem}
    {t : List Nat} (h : r.at_bytes (item.encode ++ t)) (hw : item.well_formed) :
    parse_constant_pool_entry junk r ConstantPoolEntry.zero
        = (r.advance item.encode.length, item.entry, decide (item.width = 2)) ∧
      (r.advance item.encode.length).at_bytes t := by
  cases item with
  | utf8 bytes =>
    obtain ⟨hl, hb⟩ := hw
    simp only [CpItem.encode, List.cons_append, List.append_assoc] at h
    obtain ⟨e1, h1⟩ := read_u1_at h (by decide)
    obtain ⟨e2, h2⟩ := read_u2_at h1 hl
    obtain ⟨e3, h3⟩ := read_bytes_at (malloc junk (bytes.length + 1)) h2 hb
    simp only [advance_advance] at e3 h3 h2 e2
    have hlen : (CpItem.utf8 bytes).encode.length = 1 + 2 + bytes.length := by
      simp [CpItem.encode, u2_bytes]; omega
    rw [hlen]
    refine ⟨?_, h3⟩
    unfold parse_constant_pool_entry
    simp only [e1, e2, e3, CONST_UTF8, if_true, utf8_buffer]
    rfl
  | integer v =>
    simp only [CpItem.encode, List.cons_append] at h
    obtain ⟨e1, h1⟩ := read_u1_at h (by decide)
    obtain ⟨e2, h2⟩ := read_u4_at h1 hw
    simp only [advance_advance] at h2 e2
    refine ⟨?_, h2⟩
    unfold parse_constant_pool_entry
    simp only [e1, e2, CONST_UTF8, CONST_INTEGER]
    rfl
  | float v =>
    simp only [CpItem.encode, List.cons_append] at h
    obtain ⟨e1, h1⟩ := read_u1_at h (by decide)
    obtain ⟨e2, h2⟩ := read_u4_at h1 hw
    simp only [advance_advance] at h2 e2
    refine ⟨?_, h2⟩
    unfold parse_constant_pool_entry
    simp only [e1, e2, CONST_UTF8, CONST_INTEGER, CONST_FLOAT]
    rfl
  | long hi lo =>
    simp only [CpItem.encode, List.cons_append, List.append_assoc] at h
    obtain ⟨e1, h1⟩ := read_u1_at h (by decide)
    obtain ⟨e2, h2⟩ := read_u4_at h1 hw.1
    obtain ⟨e3, h3⟩ := read_u4_at h2 hw.2
    simp only [advance_advance] at h2 e2 h3 e3
    refine ⟨?_, h3⟩
    unfold parse_constant_pool_entry
    simp only [e1, e2, e3, CONST_UTF8, CONST_INTEGER, CONST_FLOAT, CONST_LONG]
    rfl
  | double hi lo =>
    simp only [CpItem.encode, List.cons_append, List.append_assoc] at h
    obtain ⟨e1, h1⟩ := read_u1_at h (by decide)
    obtain ⟨e2, h2⟩ := read_u4_at h1 hw.1
    obtain ⟨e3, h3⟩ := read_u4_at h2 hw.2
    simp only [advance_advance] at h2 e2 h3 e3
    refine ⟨?_, h3⟩
    unfold parse_constant_pool_entry
    simp only [e1, e2, e3, CONST_UTF8, CONST_INTEGER, CONST_FLOAT, CONST_LONG, CONST_DOUBLE]
    rfl
  | class_ref v =>
    simp only [CpItem.encode, List.cons_append] at h
    obtain ⟨e1, h1⟩ := read_u1_at h (by decide)
    obtain ⟨e2, h2⟩ := read_u2_at h1 hw
    simp only [advance_advance] at h2 e2
    refine ⟨?_, h2⟩
    unfold parse_constant_pool_entry
    simp only [e1, e2, CONST_UTF8, CONST_INTEGER, CONST_FLOAT, CONST_LONG, CONST_DOUBLE,
      CONST_CLASS]
    rfl
  | string_ref v =>
    simp only [CpItem.encode, List.cons_append] at h
    obtain ⟨e1, h1⟩ := read_u1_at h (by decide)
    obtain ⟨e2, h2⟩ := read_u2_at h1 hw
    simp only [advance_advance] at h2 e2
    refine ⟨?_, h2⟩
    unfold parse_constant_pool_entry
    simp only [e1, e2, CONST_UTF8, CONST_INTEGER, CONST_FLOAT, CONST_LONG, CONST_DOUBLE,
      CONST_CLASS, CONST_STRING]
    rfl
  | field_ref c n =>
    simp only [CpItem.encode, List.cons_append, List.append_assoc] at h
    obtain ⟨e1, h1⟩ := read_u1_at h (by decide)
    obtain ⟨e2, h2⟩ := read_u2_at h1 hw.1
    obtain ⟨e3, h3⟩ := read_u2_at h2 hw.2
    simp only [advance_advance] at h2 e2 h3 e3
    refine ⟨?_, h3⟩
    unfold parse_constant_pool_entry
    simp only [e1, e2, e3, CONST_UTF8, CONST_INTEGER, CONST_FLOAT, CONST_LONG, CONST_DOUBLE,
      CONST_CLASS, CONST_STRING, CONST_FIELDREF]
    rfl
  | method_ref c n =>
    simp only [CpItem.encode, List.cons_append, List.append_assoc] at h
    obtain ⟨e1, h1⟩ := read_u1_at h (by decide)
    obtain ⟨e2, h2⟩ := read_u2_at h1 hw.1
    obtain ⟨e3, h3⟩ := read_u2_at h2 hw.2
    simp only [advance_advance] at h2 e2 h3 e3
    refine ⟨?_, h3⟩
    unfold parse_constant_pool_entry
    simp only [e1, e2, e3, CONST_UTF8, CONST_INTEGER, CONST_FLOAT, CONST_LONG, CONST_DOUBLE,
      CONST_CLASS, CONST_STRING, CONST_FIELDREF, CONST_METHODREF]
    rfl
  | name_and_type c n =>
    simp only [CpItem.encode, List.cons_append, List.append_assoc] at h
    obtain ⟨e1, h1⟩ := read_u1_at h (by decide)
    obtain ⟨e2, h2⟩ := read_u2_at h1 hw.1
    obtain ⟨e3, h3⟩ := read_u2_at h2 hw.2
    simp only [advance_advance] at h2 e2 h3 e3
    refine ⟨?_, h3⟩
    unfold parse_constant_pool_entry
    simp only [e1, e2, e3, CONST_UTF8, CONST_INTEGER, CONST_FLOAT, CONST_LONG, CONST_DOUBLE,
      CONST_CLASS, CONST_STRING, CONST_FIELDREF, CONST_METHODREF, CONST_NAME_AND_TYPE]
    rfl

theorem advance_zero (r : ClassReader) : r.advance 0 = r := rfl

theorem CpItem.width_pos (item : CpItem) : 1 ≤ item.width := by
  cases item <;> simp [CpItem.width]

theorem CpItem.width_le (item : CpItem) : item.width ≤ 2 := by
  cases item <;> simp [CpItem.width]

theorem slot_count_cons (item : CpItem) (items : List CpItem) :
    slot_count (item :: items) = item.width + slot_count items := by
  simp [slot_count]

theorem encode_items_cons (item : CpItem) (items : List CpItem) :
    encode_items (item :: items) = item.encode ++ encode_items items := by
  simp [encode_items]

theorem slots_length (item : CpItem) : item.slots.length = item.width := by
  unfold CpItem.slots
  have := item.width_pos
  have := item.width_le
  split
  · simp; omega
  · simp; omega

theorem set_slot (pre : List ConstantPoolEntry) (item : CpItem) (n : Nat)
    (hn : item.width ≤ n) :
    (pre ++ List.replicate n ConstantPoolEntry.zero).set pre.length item.entry
      = (pre ++ item.slots) ++ List.replicate (n - item.width) ConstantPoolEntry.zero := by
  have hw := item.width_pos
  have hw2 := item.width_le
  rw [List.set_append_right _ _ (Nat.le_refl _), Nat.sub_self]
  obtain ⟨k, rfl⟩ : ∃ k, n = k + 1 := ⟨n - 1, by omega⟩
  rw [List.replicate_succ, List.set_cons_zero, List.append_assoc]
  congr 1
  unfold CpItem.slots
  by_cases h2 : item.width = 2
  · rw [if_pos h2]
    obtain ⟨j, rfl⟩ : ∃ j, k = j + 1 := ⟨k - 1, by omega⟩
    rw [List.replicate_succ, h2]
    simp
  · rw [if_neg h2]
    have : item.width = 1 := by omega
    rw [this]
    simp

theorem parse_constant_pool_loop_at (junk : Nat → Nat) (count : Nat) (hc : count ≤ 65535) :
    ∀ (items : List CpItem) (fuel : Nat) (r : ClassReader) (t : List Nat)
      (pre : List ConstantPoolEntry),
      items.length ≤ fuel → r.at_bytes (encode_items items ++ t) →
      (∀ item ∈ items, item.well_formed) → pre.length + slot_count items = count →
      parse_constant_pool_loop junk count fuel r
          (pre ++ List.replicate (slot_count items) ConstantPoolEntry.zero) pre.length
        = some (r.advance (encode_items items).length, pre ++ items.flatMap CpItem.slots) ∧
      (r.advance (encode_items items).length).at_bytes t := by
  intro items
  induction items with
  | nil =>
    intro fuel r t pre _ hat _ hcount
    simp only [slot_count, List.map_nil, List.sum_nil, Nat.add_zero] at hcount
    simp only [encode_items, List.flatMap_nil, List.nil_append, List.length_nil] at hat ⊢
    refine ⟨?_, hat⟩
    cases fuel <;>
      simp [parse_constant_pool_loop, hcount, slot_count, advance_zero]
  | cons item rest ih =>
    intro fuel r t pre hfuel hat hwf hcount
    obtain ⟨f, rfl⟩ : ∃ f, fuel = f + 1 := ⟨fuel - 1, by simp at hfuel; omega⟩
    rw [slot_count_cons] at hcount
    rw [encode_items_cons, List.append_assoc] at hat
    have hw := item.width_pos
    have hw2 := item.width_le
    obtain ⟨estep, hat1⟩ := parse_constant_pool_entry_at junk hat
      (hwf item (List.mem_cons_self _ _))
    have hget : (pre ++ List.replicate (slot_count (item :: rest)) ConstantPoolEntry.zero).getD
        pre.length ConstantPoolEntry.zero = ConstantPoolEntry.zero := by
      rw [List.getD_eq_getElem?_getD, List.getElem?_append_right (Nat.le_refl _), Nat.sub_self]
      rw [slot_count_cons]
      obtain ⟨k, hk⟩ : ∃ k, item.width + slot_count rest = k + 1 :=
        ⟨item.width + slot_count rest - 1, by omega⟩
      rw [hk, List.replicate_succ]
      simp
    have hnext : ((if decide (item.width = 2) = true then (pre.length + 1) % 65536
        else pre.length) + 1) % 65536 = (pre ++ item.slots).length := by
      rw [List.length_append, slots_length]
      by_cases h2 : item.width = 2
      · simp only [h2, decide_True, if_true]
        omega
      · simp only [h2, decide_False, if_false, Bool.false_eq_true]
        omega
    have hrec := ih f (r.advance item.encode.length) t (pre ++ item.slots)
      (by simp at hfuel; omega) hat1 (fun x hx => hwf x (List.mem_cons_of_mem _ hx))
      (by rw [List.length_append, slots_length]; omega)
    rw [advance_advance] at hrec
    have hlen : (encode_items (item :: rest)).length
        = item.encode.length + (encode_items rest).length := by
      rw [encode_items_cons, List.length_append]
    rw [hlen]
    refine ⟨?_, hrec.2⟩
    unfold parse_constant_pool_loop
    rw [if_pos (by omega)]
    simp only [hget, estep, hnext]
    rw [slot_count_cons, set_slot pre item _ (by omega), Nat.add_sub_cancel_left, hrec.1]
    simp [List.flatMap_cons]

theorem flatMap_slots_drop : ∀ (items : List CpItem) (k : Nat) (hk : k < items.length),
    (items.flatMap CpItem.slots).drop (slot_count (items.take k))
      = items[k].slots ++ (items.drop (k + 1)).flatMap CpItem.slots := by
  intro items
  induction items with
  | nil => intro k hk; simp at hk
  | cons item rest ih =>
    intro k hk
    cases k with
    | zero => simp [slot_count, List.flatMap_cons]
    | succ k =>
      have hk2 : k < rest.length := by simpa using hk
      have := ih k hk2
      simp only [List.take_succ_cons, slot_count_cons, List.flatMap_cons, List.drop_succ_cons,
        List.getElem_cons_succ]
      rw [← this, ← List.drop_drop, List.drop_left' (slots_length item)]

theorem slots_head (item : CpItem) : item.slots[0]? = some item.entry := by
  unfold CpItem.slots; split <;> rfl

theorem slots_second (item : CpItem) (h : item.width = 2) :
    item.slots[1]? = some ConstantPoolEntry.zero := by
  unfold CpItem.slots; rw [if_pos h]; rfl

theorem flatMap_slots_length (items : List CpItem) :
    (items.flatMap CpItem.slots).length = slot_count items := by
  induction items with
  | nil => rfl
  | cons item rest ih =>
    rw [List.flatMap_cons, List.length_append, slots_length, ih, slot_count_cons]

theorem length_le_slot_count (items : List CpItem) : items.length ≤ slot_count items := by
  induction items with
  | nil => simp
  | cons item rest ih =>
    rw [slot_count_cons, List.length_cons]
    have := item.width_pos
    omega

theorem encode_pool_length (items : List CpItem) :
    (encode_pool items).length = 2 + (encode_items items).length := by
  simp [encode_pool, u2_bytes]
  omega

theorem parse_constant_pool_at (junk : Nat → Nat) (items : List CpItem) (r : ClassReader)
    (t : List Nat) (hwf : ∀ item ∈ items, item.well_formed)
    (hN : 1 + slot_count items ≤ 65535) (hat : r.at_bytes (encode_pool items ++ t)) :
    parse_constant_pool junk r
        = .ok (r.advance (encode_pool items).length, 1 + slot_count items,
            ConstantPoolEntry.zero :: items.flatMap CpItem.slots) ∧
      (r.advance (encode_pool items).length).at_bytes t := by
  unfold encode_pool at hat
  rw [List.append_assoc] at hat
  obtain ⟨e1, h1⟩ := read_u2_at hat (by omega)
  have hlen := encode_pool_length items
  have hfuel : items.length ≤ parse_constant_pool_fuel (r.advance 2) := by
    have h1 := length_le_slot_count items
    unfold parse_constant_pool_fuel
    omega
  obtain ⟨e2, h2⟩ := parse_constant_pool_loop_at junk (1 + slot_count items) hN items
    (parse_constant_pool_fuel (r.advance 2)) (r.advance 2) t [ConstantPoolEntry.zero]
    hfuel h1 hwf (by simp)
  rw [advance_advance] at e2 h2
  rw [hlen]
  refine ⟨?_, h2⟩
  unfold parse_constant_pool
  simp only [e1]
  rw [if_neg (by omega)]
  have hrep : List.replicate (1 + slot_count items) ConstantPoolEntry.zero
      = [ConstantPoolEntry.zero] ++ List.replicate (slot_count items) ConstantPoolEntry.zero := by
    rw [Nat.add_comm, List.replicate_succ]; rfl
  rw [hrep]
  have e2' := e2
  simp only [List.length_singleton] at e2'
  rw [e2']
  rfl

theorem layout_index (items : List CpItem) (k : Nat) (hk : k < items.length) (j : Nat) :
    (ConstantPoolEntry.zero :: items.flatMap CpItem.slots)[1 + slot_count (items.take k) + j]?
      = (items[k].slots ++ (items.drop (k + 1)).flatMap CpItem.slots)[j]? := by
  rw [← flatMap_slots_drop items k hk, List.getElem?_drop]
  have : 1 + slot_count (List.take k items) + j = (slot_count (List.take k items) + j) + 1 := by
    omega
  rw [this, List.getElem?_cons_succ]

theorem layout_entry (items : List CpItem) (k : Nat) (hk : k < items.length) :
    (ConstantPoolEntry.zero :: items.flatMap CpItem.slots)[1 + slot_count (items.take k)]?
      = some items[k].entry := by
  have := layout_index items k hk 0
  rw [Nat.add_zero] at this
  rw [this, List.getElem?_append_left (by rw [slots_length]; exact items[k].width_pos)]
  exact slots_head _

/-- Claim C3.  For a well-formed constant pool (entries `items`, declared count
`N = 1 + slot_count items`, at most 65535), `parse_constant_pool` succeeds, has
consumed exactly the bytes of the count and of the entries, and returns `N`
slots: slot 0 is unused, entry `k` is stored at index 1 plus the sum of the
widths of the entries before it (2 for Long and Double, else 1), and the slot
behind a Long or Double is an unused entry (tag 0) for which no byte was read. -/
theorem parse_constant_pool_layout (junk : Nat → Nat) (items : List CpItem) (r : ClassReader)
    (t : List Nat) (hwf : ∀ item ∈ items, item.well_formed)
    (hN : 1 + slot_count items ≤ 65535) (hat : r.at_bytes (encode_pool items ++ t)) :
    ∃ pool, parse_constant_pool junk r
        = .ok (r.advance (encode_pool items).length, 1 + slot_count items, pool) ∧
      pool.length = 1 + slot_count items ∧
      pool[0]? = some ConstantPoolEntry.zero ∧
      ∀ (k : Nat) (hk : k < items.length),
        pool[1 + slot_count (items.take k)]? = some items[k].entry ∧
        (items[k].width = 2 →
          pool[1 + slot_count (items.take k) + 1]? = some ConstantPoolEntry.zero) := by
  refine ⟨ConstantPoolEntry.zero :: items.flatMap CpItem.slots,
    (parse_constant_pool_at junk items r t hwf hN hat).1, ?_, by simp, ?_⟩
  · rw [List.length_cons, flatMap_slots_length]; omega
  · intro k hk
    refine ⟨layout_entry items k hk, ?_⟩
    intro h2
    rw [layout_index items k hk 1, List.getElem?_append_left (by rw [slots_length]; omega)]
    exact slots_second _ h2

/-- Claim C4.  Round trip of Utf8 constants: after parsing a well-formed constant
pool, `read_utf8_string` at the index of a Utf8 entry returns the bytes of that
entry; and on every pool `read_utf8_string` returns the null pointer for index
0, for an index `≥ constant_pool_count`, and for an entry whose tag is not 1. -/
theorem utf8_round_trip (junk : Nat → Nat) (items : List CpItem) (r : ClassReader)
    (t : List Nat) (hwf : ∀ item ∈ items, item.well_formed)
    (hN : 1 + slot_count items ≤ 65535) (hat : r.at_bytes (encode_pool items ++ t)) :
    (∃ r1 count pool, parse_constant_pool junk r = .ok (r1, count, pool) ∧
      ∀ (k : Nat) (hk : k < items.length) (bytes : List Nat), items[k] = CpItem.utf8 bytes →
        read_utf8_string pool count (1 + slot_count (items.take k)) = some bytes) ∧
    (∀ (pool : List ConstantPoolEntry) (count index : Nat),
      (index = 0 ∨ index ≥ count ∨ (pool.getD index ConstantPoolEntry.zero).tag ≠ 1) →
        read_utf8_string pool count index = none) := by
  constructor
  · refine ⟨_, _, _, (parse_constant_pool_at junk items r t hwf hN hat).1, ?_⟩
    intro k hk bytes hbytes
    have hentry := layout_entry items k hk
    have hlt : 1 + slot_count (items.take k) <
        (ConstantPoolEntry.zero :: items.flatMap CpItem.slots).length := by
      by_contra hc
      rw [List.getElem?_eq_none (by omega)] at hentry
      cases hentry
    rw [List.length_cons, flatMap_slots_length] at hlt
    unfold read_utf8_string
    rw [if_neg (by omega)]
    simp only [List.getD_eq_getElem?_getD, hentry, Option.getD_some, hbytes, CpItem.entry,
      CONST_UTF8]
    simp
  · intro pool count index h
    unfold read_utf8_string
    by_cases h1 : index = 0 ∨ index ≥ count
    · rw [if_pos h1]
    · rw [if_neg h1]
      have h2 : (pool.getD index ConstantPoolEntry.zero).tag ≠ 1 := by
        rcases h with h | h | h
        · exact absurd (Or.inl h) h1
        · exact absurd (Or.inr h) h1
        · exact h
      simp only [CONST_UTF8, h2, ne_eq, not_false_eq_true, if_true]

theorem malloc_backed (fits : ClassReader → Nat → Bool) {r : ClassReader} {bs t : List Nat}
    (h : r.at_bytes (bs ++ t)) : malloc_fails fits r bs.length = false := by
  have hlen := at_bytes_length h
  unfold malloc_fails
  rw [decide_eq_false (by omega), Bool.false_and]

theorem parse_attributes_loop_at (junk : Nat → Nat) (fits : ClassReader → Nat → Bool) :
    ∀ (attrs : List AttributeInfo) (r : ClassReader) (t : List Nat),
      r.at_bytes (attrs.flatMap AttributeInfo.encode ++ t) →
      (∀ a ∈ attrs, a.well_formed) →
      parse_attributes_loop junk fits attrs.length r
        = (r.advance (attrs.flatMap AttributeInfo.encode).length, attrs, false) ∧
      (r.advance (attrs.flatMap AttributeInfo.encode).length).at_bytes t := by
  intro attrs
  induction attrs with
  | nil =>
    intro r t hat _
    simp only [List.flatMap_nil, List.nil_append, List.length_nil] at hat ⊢
    exact ⟨rfl, hat⟩
  | cons a rest ih =>
    intro r t hat hwf
    obtain ⟨hn, hl, hlen, hb⟩ := hwf a (List.mem_cons_self _ _)
    simp only [List.flatMap_cons, AttributeInfo.encode, List.append_assoc] at hat
    obtain ⟨e1, h1⟩ := read_u2_at hat hn
    obtain ⟨e2, h2⟩ := read_u4_at h1 hl
    rw [advance_advance] at e2 h2
    have elen : ((a :: rest).flatMap AttributeInfo.encode).length
        = 2 + 4 + a.info.length + (rest.flatMap AttributeInfo.encode).length := by
      simp [List.flatMap_cons, AttributeInfo.encode, u2_bytes, u4_bytes]
      omega
    rw [elen]
    by_cases h0 : a.length > 0
    · have hm := malloc_backed fits h2
      obtain ⟨e3, h3⟩ := read_bytes_at (malloc junk a.info.length) h2 hb
      rw [advance_advance] at e3 h3
      obtain ⟨e4, h4⟩ := ih _ t h3 (fun x hx => hwf x (List.mem_cons_of_mem _ hx))
      rw [advance_advance] at e4 h4
      refine ⟨?_, h4⟩
      rw [List.length_cons]
      unfold parse_attributes_loop
      simp only [e1, e2, h0, if_true, true_and]
      rw [hlen, hm, if_neg (by decide), e3]
      simp only [e4]
      congr 2
      have : (malloc junk a.info.length).drop a.info.length = [] := by
        rw [List.drop_eq_nil_of_le (by rw [malloc_length])]
      rw [this, List.append_nil]
      cases a
      simp only at hlen ⊢
      rw [hlen]
    · have hz : a.length = 0 := by omega
      have hi : a.info = [] := by
        apply List.eq_nil_of_length_eq_zero; omega
      rw [hi, List.nil_append] at h2
      obtain ⟨e4, h4⟩ := ih _ t h2 (fun x hx => hwf x (List.mem_cons_of_mem _ hx))
      rw [advance_advance] at e4 h4
      rw [hi, List.length_nil, Nat.add_zero]
      refine ⟨?_, h4⟩
      rw [List.length_cons]
      unfold parse_attributes_loop
      simp only [e1, e2, h0, if_false, false_and]
      simp only [e4]
      congr 2
      cases a
      simp only at hz hi ⊢
      rw [hz, hi]

theorem encode_attributes_length (attrs : List AttributeInfo) :
    attrs.length * 6 ≤ (attrs.flatMap AttributeInfo.encode).length := by
  induction attrs with
  | nil => simp
  | cons a rest ih =>
    simp only [List.flatMap_cons, List.length_cons, List.length_append, AttributeInfo.encode,
      u2_bytes, u4_bytes]
    omega

theorem calloc_backed (fits : ClassReader → Nat → Bool) {r : ClassReader} {bs t : List Nat}
    (count width size : Nat) (h : r.at_bytes (bs ++ t)) (hc : count * width ≤ bs.length) :
    calloc_fails fits r count width size = false := by
  have hlen := at_bytes_length h
  unfold calloc_fails
  rw [decide_eq_false (by omega), Bool.false_and]

theorem encode_method_length (af ni di : Nat) (attrs : List AttributeInfo) :
    (encode_method af ni di attrs).length = 8 + (attrs.flatMap AttributeInfo.encode).length := by
  simp [encode_method, u2_bytes]
  omega

theorem parse_method_at (junk : Nat → Nat) (fits : ClassReader → Nat → Bool) (pool : List ConstantPoolEntry)
    (count : Nat)
    (af ni di : Nat) (attrs : List AttributeInfo) (r : ClassReader) (t : List Nat)
    (haf : af < 65536) (hni : ni < 65536) (hdi : di < 65536) (hcount : attrs.length < 65536)
    (hwf : ∀ a ∈ attrs, a.well_formed) (hat : r.at_bytes (encode_method af ni di attrs ++ t)) :
    parse_method junk fits pool count r
      = some (r.advance (encode_method af ni di attrs).length,
          attrs.foldl (parse_methods_code_attribute junk fits pool count)
            { access_flags := af, name_index := ni, descriptor_index := di,
              attributes_count := attrs.length, attributes := attrs, max_stack := 0,
              max_locals := 0, code_length := 0, code := none }) ∧
      (r.advance (encode_method af ni di attrs).length).at_bytes t := by
  simp only [encode_method, List.append_assoc] at hat
  obtain ⟨e1, h1⟩ := read_u2_at hat haf
  obtain ⟨e2, h2⟩ := read_u2_at h1 hni
  obtain ⟨e3, h3⟩ := read_u2_at h2 hdi
  obtain ⟨e4, h4⟩ := read_u2_at h3 hcount
  simp only [advance_advance] at e2 h2 e3 h3 e4 h4
  have hc := calloc_backed fits attrs.length 6 16 h4 (encode_attributes_length attrs)
  obtain ⟨e5, h5⟩ := parse_attributes_loop_at junk fits attrs _ t h4 hwf
  rw [advance_advance] at e5 h5
  rw [encode_method_length]
  refine ⟨?_, h5⟩
  unfold parse_method parse_attributes
  simp only [e1, e2, e3, e4, hc, e5, Bool.false_eq_true, and_false, if_false]

/-! ### Code attributes -/

theorem code_attribute_skip (junk : Nat → Nat) (fits : ClassReader → Nat → Bool)
    (pool : List ConstantPoolEntry) (count : Nat)
    (method : LoadedMethodInfo) (a : AttributeInfo) (h : names_code pool count a = false) :
    parse_methods_code_attribute junk fits pool count method a = method := by
  unfold parse_methods_code_attribute
  unfold names_code is_str at h
  split
  · rfl
  · next attr_name hn =>
    rw [hn] at h
    simp only at h
    rw [h]
    rfl

theorem code_attribute_fold_skip (junk : Nat → Nat) (fits : ClassReader → Nat → Bool)
    (pool : List ConstantPoolEntry) (count : Nat) :
    ∀ (post : List AttributeInfo) (method : LoadedMethodInfo),
      (∀ b ∈ post, names_code pool count b = false) →
      post.foldl (parse_methods_code_attribute junk fits pool count) method = method := by
  intro post
  induction post with
  | nil => intro method _; rfl
  | cons b rest ih =>
    intro method h
    rw [List.foldl_cons, code_attribute_skip junk fits pool count method b
      (h b (List.mem_cons_self _ _))]
    exact ih method (fun x hx => h x (List.mem_cons_of_mem _ hx))

theorem code_attribute_decode (junk : Nat → Nat) (fits : ClassReader → Nat → Bool)
    (pool : List ConstantPoolEntry) (count : Nat)
    (method : LoadedMethodInfo) (a : AttributeInfo)
    (hname : read_utf8_string pool count a.name_index = some ATTR_CODE)
    (hlen : a.length = a.info.length) (h8 : 8 ≤ a.info.length) :
    parse_methods_code_attribute junk fits pool count method a
      = { method with
          max_stack := be_value a.info 0 2, max_locals := be_value a.info 2 2,
          code_length := be_value a.info 4 4,
          code := if be_value a.info 4 4 > 0 then
              if malloc_fails fits { data := a.info, size := a.length, pos := 8 }
                  (be_value a.info 4 4) then none
              else
                some (read_bytes { data := a.info, size := a.length, pos := 8 }
                  (malloc junk (be_value a.info 4 4)) (be_value a.info 4 4)).1
            else method.code } := by
  unfold parse_methods_code_attribute
  rw [hname]
  simp only
  have hs : strcmp_eq ATTR_CODE ATTR_CODE = true := by decide
  rw [if_pos hs]
  simp only [read_u2_eq, read_u4_eq]
  have h2 : 0 + 2 ≤ a.length := by omega
  have h4 : 0 + 2 + 2 ≤ a.length := by omega
  have h8' : 0 + 2 + 2 + 4 ≤ a.length := by omega
  simp only [h2, h4, h8', if_true]
  split
  · split <;> rfl
  · rfl

theorem read_bytes_overrun (r : ClassReader) (buf : List Nat) (n : Nat)
    (h : r.size < r.pos + n) : read_bytes r buf n = (buf, r) := by
  unfold read_bytes
  rw [if_pos (by omega)]

theorem read_bytes_payload (junk : Nat → Nat) (info : List Nat) (n : Nat)
    (hb : all_bytes info) (h : 8 + n ≤ info.length) :
    (read_bytes { data := info, size := info.length, pos := 8 } (malloc junk n) n).1
      = (info.drop 8).take n := by
  unfold read_bytes
  simp only
  rw [if_neg (by omega)]
  simp only
  have hd : (malloc junk n).drop n = [] := List.drop_eq_nil_of_le (by rw [malloc_length])
  rw [hd, List.append_nil]
  apply map_mod_of_all_bytes
  intro b hbm
  exact hb b (List.mem_of_mem_drop (List.mem_of_mem_take hbm))

theorem parse_method_last_code (junk : Nat → Nat) (fits : ClassReader → Nat → Bool)
    (pool : List ConstantPoolEntry) (count : Nat)
    (af ni di : Nat) (attrs : List AttributeInfo) (r : ClassReader) (t : List Nat)
    (pre post : List AttributeInfo) (a : AttributeInfo)
    (haf : af < 65536) (hni : ni < 65536) (hdi : di < 65536) (hcount : attrs.length < 65536)
    (hwf : ∀ b ∈ attrs, b.well_formed) (hat : r.at_bytes (encode_method af ni di attrs ++ t))
    (hsplit : attrs = pre ++ a :: post)
    (hname : read_utf8_string pool count a.name_index = some ATTR_CODE)
    (hlast : ∀ b ∈ post, names_code pool count b = false)
    (h8 : 8 ≤ a.info.length) :
    ∃ method, parse_method junk fits pool count r
        = some (r.advance (encode_method af ni di attrs).length, method) ∧
      method.max_stack = be_value a.info 0 2 ∧
      method.max_locals = be_value a.info 2 2 ∧
      method.code_length = be_value a.info 4 4 ∧
      (0 < be_value a.info 4 4 → method.code
        = if malloc_fails fits { data := a.info, size := a.info.length, pos := 8 }
            (be_value a.info 4 4) then none
          else
            some (read_bytes { data := a.info, size := a.info.length, pos := 8 }
              (malloc junk (be_value a.info 4 4)) (be_value a.info 4 4)).1) := by
  have hlen : a.length = a.info.length :=
    (hwf a (by rw [hsplit]; simp)).2.2.1
  refine ⟨_, (parse_method_at junk fits pool count af ni di attrs r t haf hni hdi hcount hwf
    hat).1, ?_⟩
  rw [hsplit, List.foldl_append, List.foldl_cons,
    code_attribute_fold_skip junk fits pool count post _ hlast,
    code_attribute_decode junk fits pool count _ a hname hlen h8]
  refine ⟨rfl, rfl, rfl, ?_⟩
  intro hpos
  simp only [gt_iff_lt, hpos, if_true, hlen]

/-- Claim C2, amended: the last Code attribute of the method decides.  For a
well-formed method record with the attributes `pre ++ a :: post`, where the name
index of `a` resolves to the Utf8 string `"Code"`, no attribute of `post` does,
and the payload of `a` holds at least `8 + code_length` bytes: `parse_method`
returns a method, whatever the allocator answers for sizes the input does not
hold; its `max_stack`, `max_locals` and `code_length` are the big-endian u2, u2
and u4 at the payload offsets 0, 2 and 4 of `a`, and the first `code_length`
bytes of its code are the payload bytes from offset 8 on (for `code_length > 0`
the code is exactly these bytes). -/
theorem last_code_attribute_decoded (junk : Nat → Nat) (fits : ClassReader → Nat → Bool)
    (pool : List ConstantPoolEntry)
    (count : Nat) (af ni di : Nat) (attrs : List AttributeInfo) (r : ClassReader) (t : List Nat)
    (pre post : List AttributeInfo) (a : AttributeInfo)
    (haf : af < 65536) (hni : ni < 65536) (hdi : di < 65536) (hcount : attrs.length < 65536)
    (hwf : ∀ b ∈ attrs, b.well_formed) (hat : r.at_bytes (encode_method af ni di attrs ++ t))
    (hsplit : attrs = pre ++ a :: post)
    (hname : read_utf8_string pool count a.name_index = some ATTR_CODE)
    (hlast : ∀ b ∈ post, names_code pool count b = false)
    (hpayload : 8 + be_value a.info 4 4 ≤ a.info.length) :
    (parse_method junk fits pool count r).map (fun res => res.2.max_stack)
      = some (be_value a.info 0 2) ∧
    (parse_method junk fits pool count r).map (fun res => res.2.max_locals)
      = some (be_value a.info 2 2) ∧
    (parse_method junk fits pool count r).map (fun res => res.2.code_length)
      = some (be_value a.info 4 4) ∧
    (0 < be_value a.info 4 4 →
      (parse_method junk fits pool count r).map (fun res => res.2.code)
        = some (some ((a.info.drop 8).take (be_value a.info 4 4)))) ∧
    (parse_method junk fits pool count r).map
        (fun res => (res.2.code.getD []).take res.2.code_length)
      = some ((a.info.drop 8).take (be_value a.info 4 4)) := by
  obtain ⟨method, hm, h1, h2, h3, h4⟩ := parse_method_last_code junk fits pool count af ni di
    attrs r t pre post a haf hni hdi hcount hwf hat hsplit hname hlast (by omega)
  have hb : all_bytes a.info := (hwf a (by rw [hsplit]; simp)).2.2.2
  have hfit : malloc_fails fits { data := a.info, size := a.info.length, pos := 8 }
      (be_value a.info 4 4) = false := by
    unfold malloc_fails
    rw [decide_eq_false (by simp only; omega), Bool.false_and]
  have hcode : 0 < be_value a.info 4 4 →
      method.code = some ((a.info.drop 8).take (be_value a.info 4 4)) := by
    intro hpos
    rw [h4 hpos, hfit, if_neg (by decide), read_bytes_payload junk a.info _ hb hpayload]
  rw [hm]
  refine ⟨congrArg some h1, congrArg some h2, congrArg some h3,
    fun hpos => congrArg some (hcode hpos), congrArg some ?_⟩
  show (method.code.getD []).take method.code_length = _
  rw [h3]
  by_cases hpos : 0 < be_value a.info 4 4
  · rw [hcode hpos, Option.getD_some, List.take_take, Nat.min_self]
  · have : be_value a.info 4 4 = 0 := by omega
    rw [this]
    simp

/-- Claim C8, amended: an overrunning `code_length` is accepted.  For a well-formed
method record whose last Code attribute `a` has a payload of at least 8 bytes
and a `code_length` larger than the payload length minus 8, `parse_method`
returns a method that records that `code_length`.  Its code is the null pointer
when the allocation of `code_length` bytes fails, and otherwise the fresh block
of `code_length` bytes as `malloc` left it: `read_bytes` copies no payload byte
into it and leaves the cursor where it was. -/
theorem code_length_overrun_accepted (junk : Nat → Nat) (fits : ClassReader → Nat → Bool)
    (pool : List ConstantPoolEntry)
    (count : Nat) (af ni di : Nat) (attrs : List AttributeInfo) (r : ClassReader) (t : List Nat)
    (pre post : List AttributeInfo) (a : AttributeInfo)
    (haf : af < 65536) (hni : ni < 65536) (hdi : di < 65536) (hcount : attrs.length < 65536)
    (hwf : ∀ b ∈ attrs, b.well_formed) (hat : r.at_bytes (encode_method af ni di attrs ++ t))
    (hsplit : attrs = pre ++ a :: post)
    (hname : read_utf8_string pool count a.name_index = some ATTR_CODE)
    (hlast : ∀ b ∈ post, names_code pool count b = false)
    (h8 : 8 ≤ a.info.length) (hover : a.info.length < 8 + be_value a.info 4 4) :
    (parse_method junk fits pool count r).map (fun res => res.2.code_length)
      = some (be_value a.info 4 4) ∧
    (parse_method junk fits pool count r).map (fun res => res.2.code)
      = some (if fits { data := a.info, size := a.info.length, pos := 8 } (be_value a.info 4 4) then some (malloc junk (be_value a.info 4 4))
          else none) ∧
    read_bytes { data := a.info, size := a.info.length, pos := 8 }
        (malloc junk (be_value a.info 4 4)) (be_value a.info 4 4)
      = (malloc junk (be_value a.info 4 4), { data := a.info, size := a.info.length, pos := 8 }) := by
  obtain ⟨method, hm, -, -, h3, h4⟩ := parse_method_last_code junk fits pool count af ni di
    attrs r t pre post a haf hni hdi hcount hwf hat hsplit hname hlast h8
  have hrb := read_bytes_overrun { data := a.info, size := a.info.length, pos := 8 }
    (malloc junk (be_value a.info 4 4)) (be_value a.info 4 4) (by simpa using hover)
  have hfail : malloc_fails fits { data := a.info, size := a.info.length, pos := 8 }
      (be_value a.info 4 4) = !(fits { data := a.info, size := a.info.length, pos := 8 } (be_value a.info 4 4)) := by
    unfold malloc_fails
    rw [decide_eq_true (by simp only; omega), Bool.true_and]
  rw [hm]
  refine ⟨congrArg some h3, congrArg some ?_, hrb⟩
  show method.code = _
  rw [h4 (by omega), hfail, hrb]
  cases fits { data := a.info, size := a.info.length, pos := 8 } (be_value a.info 4 4) <;> rfl

/-! ### Inputs the parser accepts -/

/-- Claim C7, amended: a truncated input is rejected only where the
`constant_pool_count` is read as 0.  With valid magic, an input shorter than 10
bytes fails (the count is read as 0 there), and so does every input whose u2 at
offset 8 is 0.  Every other input, however early it ends, yields a class when
no allocation fails; and when at most one byte is left behind the constant pool
it yields a class with that constant pool and no interfaces, fields, methods and
attributes, whatever the allocator answers. -/
theorem truncated_input_outcome (junk : Nat → Nat) (fits : ClassReader → Nat → Bool) (data : List Nat)
    (hm : valid_magic data) :
    (data.length < 10 → load_class_file junk fits data = .error) ∧
    (header_pool_count data = 0 → load_class_file junk fits data = .error) ∧
    (header_pool_count data ≠ 0 → (∀ r n, fits r n = true) →
      ∃ c, load_class_file junk fits data = .ok c) ∧
    (∀ (r1 : ClassReader) (pool : List ConstantPoolEntry), header_pool_count data ≠ 0 →
      parse_constant_pool junk { data := data, size := data.length, pos := 8 }
        = .ok (r1, header_pool_count data, pool) →
      r1.size ≤ r1.pos + 1 →
      ∃ c, load_class_file junk fits data = .ok c ∧ c.constant_pool = pool ∧
        c.interfaces_count = 0 ∧ c.fields_count = 0 ∧ c.methods_count = 0 ∧
        c.attributes_count = 0) := by
  have hzero : header_pool_count data = 0 → load_class_file junk fits data = .error := by
    intro hz
    rcases load_class_file_cases junk fits data with ⟨-, h2⟩ | ⟨⟨-, h1⟩, -⟩
    · exact h2
    · exact absurd hz h1
  refine ⟨?_, hzero, ?_, ?_⟩
  · intro hlt
    apply hzero
    unfold header_pool_count
    rw [if_neg (by omega)]
  · intro hc hfits
    rcases load_class_file_cases junk fits data with ⟨h1, -⟩ | ⟨-, r1, pool, -, h2⟩
    · rcases h1 with h1 | h1
      · exact absurd hm h1
      · exact absurd h1 hc
    · obtain ⟨c, hmem⟩ := load_class_members_granted junk fits hfits (be_value data 0 4)
        (be_value data 4 2) (be_value data 6 2) (header_pool_count data) pool r1
      rw [hmem] at h2
      exact ⟨c, h2⟩
  · intro r1 pool hc hp hend
    rcases load_class_file_cases junk fits data with ⟨h1, -⟩ | ⟨-, r2, pool2, hp2, h2⟩
    · rcases h1 with h1 | h1
      · exact absurd hm h1
      · exact absurd h1 hc
    · rw [hp] at hp2
      injection hp2 with hp2
      injection hp2 with hr hpool
      injection hpool with _ hpool
      subst hr
      subst hpool
      rw [load_class_members_at_end junk fits _ _ _ _ _ r1 hend] at h2
      exact ⟨_, h2, rfl, rfl, rfl, rfl, rfl⟩

/-- Claim C5, amended: an unknown tag is skipped.  When the tag byte at the cursor
is not one of 1, 3, 4, 5, 6, 7, 8, 9, 10, 12, `parse_constant_pool_entry` stores
the tag, passes over one u2 and does not fail; and the loop of
`parse_constant_pool` goes on with the next index. -/
theorem unknown_tag_skipped (junk : Nat → Nat) (r : ClassReader) (entry : ConstantPoolEntry)
    (h : (read_u1 r).1 ∉ [1, 3, 4, 5, 6, 7, 8, 9, 10, 12]) :
    parse_constant_pool_entry junk r entry
      = ((read_u2 (read_u1 r).2).2, { entry with tag := (read_u1 r).1 }, false) ∧
    (∀ (count fuel i : Nat) (pool : List ConstantPoolEntry), i < count → i < 65535 →
      parse_constant_pool_loop junk count (fuel + 1) r pool i
        = parse_constant_pool_loop junk count fuel (read_u2 (read_u1 r).2).2
            (pool.set i { pool.getD i ConstantPoolEntry.zero with tag := (read_u1 r).1 })
            (i + 1)) := by
  have key : ∀ e : ConstantPoolEntry, parse_constant_pool_entry junk r e
      = ((read_u2 (read_u1 r).2).2, { e with tag := (read_u1 r).1 }, false) := by
    intro e
    simp only [List.mem_cons, List.mem_singleton, List.not_mem_nil, or_false, not_or] at h
    obtain ⟨h1, h3, h4, h5, h6, h7, h8, h9, h10, h12⟩ := h
    unfold parse_constant_pool_entry
    simp only [CONST_UTF8, CONST_INTEGER, CONST_FLOAT, CONST_LONG, CONST_DOUBLE, CONST_CLASS,
      CONST_STRING, CONST_FIELDREF, CONST_METHODREF, CONST_NAME_AND_TYPE, h1, h3, h4, h5, h6,
      h7, h8, h9, h10, h12, or_self, if_false]
  refine ⟨key entry, ?_⟩
  intro count fuel i pool hi h65
  conv => lhs; unfold parse_constant_pool_loop
  rw [if_pos hi]
  simp only [key, Bool.false_eq_true, if_false]
  rw [Nat.mod_eq_of_lt (by omega)]

theorem at_bytes_start (data : List Nat) :
    ({ data := data, size := data.length, pos := 0 } : ClassReader).at_bytes data :=
  ⟨rfl, Nat.zero_le _, rfl⟩

theorem load_class_file_at (junk : Nat → Nat) (fits : ClassReader → Nat → Bool) (minor major : Nat)
    (items : List CpItem)
    (t data : List Nat) (hminor : minor < 65536) (hmajor : major < 65536)
    (hwf : ∀ item ∈ items, item.well_formed) (hN : 1 + slot_count items ≤ 65535)
    (hdata : data = encode_header minor major ++ (encode_pool items ++ t)) :
    ∃ rd, rd.at_bytes t ∧ load_class_file junk fits data
      = match load_class_members junk fits 3405691582 minor major (1 + slot_count items)
          (ConstantPoolEntry.zero :: items.flatMap CpItem.slots) rd with
        | none => .error
        | some c => .ok c := by
  have hat : (ClassReader.mk data data.length 0).at_bytes
      (u4_bytes 3405691582 ++ (u2_bytes minor ++ (u2_bytes major ++ (encode_pool items ++ t)))) := by
    have := at_bytes_start data
    rw [hdata] at this ⊢
    simpa only [encode_header, List.append_assoc] using this
  obtain ⟨e1, h1⟩ := read_u4_at hat (by decide)
  obtain ⟨e2, h2⟩ := read_u2_at h1 hminor
  obtain ⟨e3, h3⟩ := read_u2_at h2 hmajor
  obtain ⟨e4, h4⟩ := parse_constant_pool_at junk items _ t hwf hN h3
  have hne : data.length ≠ 0 := by
    rw [hdata]; simp [encode_header, u4_bytes]
  unfold load_class_file
  rw [if_neg hne]
  simp only [e1]
  rw [if_neg (by simp [CLASS_MAGIC])]
  unfold load_class_body
  simp only [e2, e3, e4]
  refine ⟨_, h4, ?_⟩
  with_reducible rfl

/-- Claim C6, amended: the indices stored in constant-pool entries are not
checked.  For every sequence of well-formed entries, whatever the values (below
65536) of the indices in them, and whatever follows the constant pool: every
class `load_class_file` returns has the constant pool with the entries as they
stand in the file; a class is returned when no allocation fails, and also, for
every answer of the allocator, when at most one byte follows the constant
pool. -/
theorem cross_indices_unchecked (junk : Nat → Nat) (fits : ClassReader → Nat → Bool) (minor major : Nat)
    (items : List CpItem)
    (t : List Nat) (hminor : minor < 65536) (hmajor : major < 65536)
    (hwf : ∀ item ∈ items, item.well_formed) (hN : 1 + slot_count items ≤ 65535) :
    (∀ c, load_class_file junk fits (encode_header minor major ++ (encode_pool items ++ t))
        = .ok c →
      c.constant_pool_count = 1 + slot_count items ∧
      c.constant_pool = ConstantPoolEntry.zero :: items.flatMap CpItem.slots ∧
      ∀ (k : Nat) (hk : k < items.length),
        c.constant_pool[1 + slot_count (items.take k)]? = some items[k].entry) ∧
    ((∀ r n, fits r n = true) →
      ∃ c, load_class_file junk fits (encode_header minor major ++ (encode_pool items ++ t))
        = .ok c) ∧
    (t.length ≤ 1 →
      ∃ c, load_class_file junk fits (encode_header minor major ++ (encode_pool items ++ t))
        = .ok c) := by
  obtain ⟨rd, hrd, h⟩ := load_class_file_at junk fits minor major items t _ hminor hmajor hwf hN
    rfl
  refine ⟨?_, ?_, ?_⟩
  · intro c hc
    rw [h] at hc
    split at hc
    · cases hc
    · next c2 hmem =>
      injection hc with hc
      subst hc
      obtain ⟨-, h2, h3⟩ := load_class_members_some junk fits _ _ _ _ _ _ _ hmem
      refine ⟨h2, h3, fun k hk => ?_⟩
      rw [h3]
      exact layout_entry items k hk
  · intro hfits
    obtain ⟨c, hmem⟩ := load_class_members_granted junk fits hfits 3405691582 minor major
      (1 + slot_count items) (ConstantPoolEntry.zero :: items.flatMap CpItem.slots) rd
    rw [hmem] at h
    exact ⟨c, h⟩
  · intro ht
    have hend : rd.size ≤ rd.pos + 1 := by
      obtain ⟨hs, hp, hd⟩ := hrd
      have := congrArg List.length hd
      simp only [List.length_drop] at this
      omega
    rw [load_class_members_at_end junk fits _ _ _ _ _ rd hend] at h
    exact ⟨_, h⟩

/-! ### Static calls -/

theorem jvalue_i_set_i (w : jvalue) (v : Int) : jvalue_i (jvalue_set_i w v) = toInt32 (bits32 v) := by
  unfold jvalue_i jvalue_set_i toInt32 bits32
  have h : (v % 4294967296).toNat < 4294967296 := by
    have h1 : 0 ≤ v % 4294967296 := Int.emod_nonneg _ (by decide)
    have h2 : v % 4294967296 < 4294967296 := Int.emod_lt_of_pos _ (by decide)
    exact (Int.toNat_lt h1).mpr h2
  generalize (v % 4294967296).toNat = x at h ⊢
  have : (w / 4294967296 % 4294967296 * 4294967296 + x) % 4294967296 = x := by
    rw [Nat.mul_add_mod', Nat.mod_eq_of_lt h]
  rw [this, Nat.mod_eq_of_lt h]

theorem toInt32_bits32 (n : Nat) : toInt32 (bits32 (toInt32 n)) = toInt32 n := by
  unfold toInt32 bits32
  split_ifs <;> omega

theorem jvalue_i_bits32 (w : jvalue) : toInt32 (bits32 (jvalue_i w)) = jvalue_i w :=
  toInt32_bits32 w

theorem execute_bytecode_succ (P : Platform) (fuel : Nat) (m : Machine) :
    execute_bytecode P (fuel + 1) m =
      if m.fault then .fault
      else if m.frame.pc < (m.frame.method.code_length : Int) then
        match execute_opcode P (execute_bytecode P fuel) (Bytecode.read_u1 m).2
            (OpCode.of_byte (Bytecode.read_u1 m).1) with
        | .out_of_fuel => .out_of_fuel
        | .ret value m => if m.fault then .fault else .returned value m
        | .next m => execute_bytecode P fuel m
      else .returned 0 m := rfl


theorem LOCALS_REACH_eq : LOCALS_REACH = 1536 := rfl

theorem square_body (P : Platform) (fuel : Nat) (mc : Machine) (hf : mc.fault = false)
    (hpc : mc.frame.pc = 0) (htop : mc.frame.stack_top = 0)
    (hcode : mc.frame.method.code = some square_code) (hlen : mc.frame.method.code_length = 4)
    (hl : mc.frame.locals < 1536) (hs : mc.frame.operand_stack + 1 < 2048) :
    ∃ mc', execute_bytecode P (fuel + 4) mc
        = .returned (toInt32 (bits32 (jvalue_i (mc.locals 0) * jvalue_i (mc.locals 0)))) mc' ∧
      mc'.frame.stack_top = 0 ∧ mc'.fault = false ∧
      ∀ j, j ≠ mc.frame.operand_stack → j ≠ mc.frame.operand_stack + 1 →
        mc'.jvm.stack_memory j = mc.jvm.stack_memory j := by
  obtain ⟨jvm, frame, fault⟩ := mc
  obtain ⟨locals, operand_stack, stack_top, pc, method, class_info⟩ := frame
  simp only at hf hpc htop hcode hlen hl hs
  subst hf hpc htop
  have o1 : OpCode.of_byte 26 = some .ILOAD_0 := rfl
  have o2 : OpCode.of_byte 104 = some .IMUL := rfl
  have o3 : OpCode.of_byte 172 = some .IRETURN := rfl
  have x1 : ∀ call m, execute_opcode P call m (some .ILOAD_0) = .next (iload m 0) := fun _ _ => rfl
  have x2 : ∀ call m, execute_opcode P call m (some .IMUL)
      = .next (int_binop m (fun value1 value2 => value1 * value2)) := fun _ _ => rfl
  have x3 : ∀ call m, execute_opcode P call m (some .IRETURN)
      = .ret (pop_int m).1 (pop_int m).2 := fun _ _ => rfl
  have hs0 : operand_stack < 2048 := by omega
  rw [execute_bytecode_succ P (fuel + 3)]
  simp [Bytecode.read_u1, Machine.code_byte, Machine.touch_code, Machine.set_pc, hcode, hlen, square_code, o1, o2, o3, x1, x2, x3, iload, int_binop, pop_int, push_int, Machine.touch_local, Machine.set_stack, Machine.set_top, Machine.touch_stack, Machine.stack, Machine.locals, MAX_STACK_SIZE, LOCALS_REACH_eq, hl, hs0, hs, mem_set, jvalue_i_set_i, jvalue_i_bits32]
  rw [execute_bytecode_succ P (fuel + 2)]
  simp [Bytecode.read_u1, Machine.code_byte, Machine.touch_code, Machine.set_pc, hcode, hlen, square_code, o1, o2, o3, x1, x2, x3, iload, int_binop, pop_int, push_int, Machine.touch_local, Machine.set_stack, Machine.set_top, Machine.touch_stack, Machine.stack, Machine.locals, MAX_STACK_SIZE, LOCALS_REACH_eq, hl, hs0, hs, mem_set, jvalue_i_set_i, jvalue_i_bits32]
  rw [execute_bytecode_succ P (fuel + 1)]
  simp [Bytecode.read_u1, Machine.code_byte, Machine.touch_code, Machine.set_pc, hcode, hlen, square_code, o1, o2, o3, x1, x2, x3, iload, int_binop, pop_int, push_int, Machine.touch_local, Machine.set_stack, Machine.set_top, Machine.touch_stack, Machine.stack, Machine.locals, MAX_STACK_SIZE, LOCALS_REACH_eq, hl, hs0, hs, mem_set, jvalue_i_set_i, jvalue_i_bits32]
  rw [execute_bytecode_succ P fuel]
  simp [Bytecode.read_u1, Machine.code_byte, Machine.touch_code, Machine.set_pc, hcode, hlen, square_code, o1, o2, o3, x1, x2, x3, iload, int_binop, pop_int, push_int, Machine.touch_local, Machine.set_stack, Machine.set_top, Machine.touch_stack, Machine.stack, Machine.locals, MAX_STACK_SIZE, LOCALS_REACH_eq, hl, hs0, hs, mem_set, jvalue_i_set_i, jvalue_i_bits32]
  intro j h0 h1
  simp [h0, h1]

theorem invoke_parameters_two (m : Machine) (target : MethodInfo) (d : List Nat)
    (hf : m.fault = false) (hs : m.frame.operand_stack + 514 ≤ MAX_STACK_SIZE)
    (hl : m.frame.locals + 258 ≤ LOCALS_REACH) (htop : m.frame.operand_stack + m.frame.stack_top ≤ MAX_STACK_SIZE)
    (h2 : strstr d (lit "(II)") = true) (hargs : 2 ≤ m.frame.stack_top) :
    (invoke_parameters m target (some d)).1.frame.stack_top = m.frame.stack_top - 2 ∧
    (invoke_parameters m target (some d)).1.fault = false ∧
    (invoke_parameters m target (some d)).2.frame.stack_top = 0 ∧
    (invoke_parameters m target (some d)).2.frame.pc = 0 ∧
    (invoke_parameters m target (some d)).2.frame.method = target ∧
    (invoke_parameters m target (some d)).2.fault = false ∧
    jvalue_i ((invoke_parameters m target (some d)).2.locals 0)
      = jvalue_i (m.stack (m.frame.stack_top - 2)) ∧
    jvalue_i ((invoke_parameters m target (some d)).2.locals 1)
      = jvalue_i (m.stack (m.frame.stack_top - 1)) := by
  obtain ⟨jvm, frame, fault⟩ := m
  obtain ⟨locals, operand_stack, stack_top, pc, method, class_info⟩ := frame
  simp only [MAX_STACK_SIZE, LOCALS_REACH_eq] at hf hs hl htop hargs
  subst hf
  have a1 : 0 < stack_top := by omega
  have a2 : 0 < stack_top - 1 := by omega
  have a3 : operand_stack + (stack_top - 1) < 2048 := by omega
  have a4 : operand_stack + (stack_top - 1 - 1) < 2048 := by omega
  have a5 : locals + 256 < 1536 := by omega
  have a6 : locals + 256 + 1 < 1536 := by omega
  have a7 : stack_top - 1 - 1 = stack_top - 2 := by omega
  have a8 : operand_stack + (stack_top - 2) < 2048 := by omega
  have a9 : 1 < stack_top := by omega
  simp [invoke_parameters, has_str, h2, pop_int, invoke_frame, Machine.set_local, Machine.touch_local,
    Machine.touch_stack, Machine.set_top, Machine.stack, Machine.locals, MAX_STACK_SIZE,
    LOCALS_REACH_eq, mem_set, jvalue_i_set_i, jvalue_i_bits32, a1, a2, a3, a4, a5, a6, a7, a8, a9]

theorem invoke_parameters_one (m : Machine) (target : MethodInfo) (d : List Nat)
    (hf : m.fault = false) (hs : m.frame.operand_stack + 514 ≤ MAX_STACK_SIZE)
    (hl : m.frame.locals + 258 ≤ LOCALS_REACH) (htop : m.frame.operand_stack + m.frame.stack_top ≤ MAX_STACK_SIZE)
    (h2 : strstr d (lit "(II)") = false) (h1 : strstr d (lit "(I)") = true)
    (hargs : 1 ≤ m.frame.stack_top) :
    (invoke_parameters m target (some d)).1.frame.stack_top = m.frame.stack_top - 1 ∧
    (invoke_parameters m target (some d)).1.fault = false ∧
    (invoke_parameters m target (some d)).2.frame.stack_top = 0 ∧
    (invoke_parameters m target (some d)).2.frame.pc = 0 ∧
    (invoke_parameters m target (some d)).2.frame.method = target ∧
    (invoke_parameters m target (some d)).2.fault = false ∧
    jvalue_i ((invoke_parameters m target (some d)).2.locals 0)
      = jvalue_i (m.stack (m.frame.stack_top - 1)) := by
  obtain ⟨jvm, frame, fault⟩ := m
  obtain ⟨locals, operand_stack, stack_top, pc, method, class_info⟩ := frame
  simp only [MAX_STACK_SIZE, LOCALS_REACH_eq] at hf hs hl htop hargs
  subst hf
  have a1 : 0 < stack_top := by omega
  have a3 : operand_stack + (stack_top - 1) < 2048 := by omega
  have a5 : locals + 256 < 1536 := by omega
  simp [invoke_parameters, has_str, h2, h1, pop_int, invoke_frame, Machine.set_local,
    Machine.touch_local, Machine.touch_stack, Machine.set_top, Machine.stack, Machine.locals,
    MAX_STACK_SIZE, LOCALS_REACH_eq, mem_set, jvalue_i_set_i, jvalue_i_bits32, a1, a3, a5]

theorem invoke_parameters_two_values (m : Machine) (target : MethodInfo) (d : List Nat)
    (h2 : strstr d (lit "(II)") = true) (hargs : 2 ≤ m.frame.stack_top) :
    (invoke_parameters m target (some d)).1.frame.stack_top = m.frame.stack_top - 2 ∧
    (invoke_parameters m target (some d)).2.frame.stack_top = 0 ∧
    (invoke_parameters m target (some d)).2.frame.pc = 0 ∧
    (invoke_parameters m target (some d)).2.frame.method = target ∧
    jvalue_i ((invoke_parameters m target (some d)).2.locals 0)
      = jvalue_i (m.stack (m.frame.stack_top - 2)) ∧
    jvalue_i ((invoke_parameters m target (some d)).2.locals 1)
      = jvalue_i (m.stack (m.frame.stack_top - 1)) := by
  obtain ⟨jvm, frame, fault⟩ := m
  obtain ⟨locals, operand_stack, stack_top, pc, method, class_info⟩ := frame
  simp only at hargs
  have a1 : 0 < stack_top := by omega
  have a2 : 0 < stack_top - 1 := by omega
  have a7 : stack_top - 1 - 1 = stack_top - 2 := by omega
  have a9 : 1 < stack_top := by omega
  simp only [invoke_parameters, has_str, h2, pop_int, invoke_frame, Machine.set_local,
    Machine.touch_local, Machine.touch_stack, Machine.set_top, Machine.stack, Machine.locals,
    if_true, if_false, Bool.false_eq_true, gt_iff_lt, a1]
  split_ifs <;>
    simp [mem_set, jvalue_i_set_i, jvalue_i_bits32, a1, a2, a7, a9]

theorem invoke_parameters_one_values (m : Machine) (target : MethodInfo) (d : List Nat)
    (h2 : strstr d (lit "(II)") = false) (h1 : strstr d (lit "(I)") = true)
    (hargs : 1 ≤ m.frame.stack_top) :
    (invoke_parameters m target (some d)).1.frame.stack_top = m.frame.stack_top - 1 ∧
    (invoke_parameters m target (some d)).2.frame.stack_top = 0 ∧
    (invoke_parameters m target (some d)).2.frame.pc = 0 ∧
    (invoke_parameters m target (some d)).2.frame.method = target ∧
    jvalue_i ((invoke_parameters m target (some d)).2.locals 0)
      = jvalue_i (m.stack (m.frame.stack_top - 1)) := by
  obtain ⟨jvm, frame, fault⟩ := m
  obtain ⟨locals, operand_stack, stack_top, pc, method, class_info⟩ := frame
  simp only at hargs
  have a1 : 0 < stack_top := by omega
  simp only [invoke_parameters, has_str, h2, h1, pop_int, invoke_frame, Machine.set_local,
    Machine.touch_local, Machine.touch_stack, Machine.set_top, Machine.stack, Machine.locals,
    if_true, if_false, Bool.false_eq_true, gt_iff_lt, a1]
  split_ifs <;>
    simp [mem_set, jvalue_i_set_i, jvalue_i_bits32, a1]

theorem invoke_parameters_one_frames (m : Machine) (target : MethodInfo) (d : List Nat)
    (hf : m.fault = false) (hs : m.frame.operand_stack + 514 ≤ MAX_STACK_SIZE)
    (htop : m.frame.operand_stack + m.frame.stack_top ≤ MAX_STACK_SIZE)
    (h2 : strstr d (lit "(II)") = false) (h1 : strstr d (lit "(I)") = true)
    (hargs : 1 ≤ m.frame.stack_top) :
    (invoke_parameters m target (some d)).1.frame
      = { m.frame with stack_top := m.frame.stack_top - 1 } ∧
    (invoke_parameters m target (some d)).2.frame.locals = m.frame.locals + 256 ∧
    (invoke_parameters m target (some d)).2.frame.operand_stack = m.frame.operand_stack + 512 ∧
    (invoke_parameters m target (some d)).2.jvm.stack_memory = m.jvm.stack_memory := by
  obtain ⟨jvm, frame, fault⟩ := m
  obtain ⟨locals, operand_stack, stack_top, pc, method, class_info⟩ := frame
  simp only [MAX_STACK_SIZE, LOCALS_REACH_eq] at hf hs htop hargs
  subst hf
  have a1 : 0 < stack_top := by omega
  have a3 : operand_stack + (stack_top - 1) < 2048 := by omega
  simp [invoke_parameters, has_str, h2, h1, pop_int, invoke_frame, Machine.set_local,
    Machine.touch_local, Machine.touch_stack, Machine.set_top, Machine.stack, Machine.locals,
    MAX_STACK_SIZE, LOCALS_REACH_eq, a1, a3]

theorem invoke_current_class_square (P : Platform) (fuel : Nat) (m : Machine)
    (target : MethodInfo) (method_name : Option (List Nat)) (d : List Nat)
    (hf : m.fault = false) (hs : m.frame.operand_stack + 514 ≤ MAX_STACK_SIZE)
    (hl : m.frame.locals + 258 ≤ LOCALS_REACH) (htop : m.frame.operand_stack + m.frame.stack_top ≤ MAX_STACK_SIZE)
    (h2 : strstr d (lit "(II)") = false) (h1 : strstr d (lit "(I)") = true)
    (hr : strstr d (lit ")I") = true) (hargs : 1 ≤ m.frame.stack_top)
    (hcode : target.code = some square_code) (hlen : target.code_length = 4) :
    ∃ m', invoke_current_class P (execute_bytecode P (fuel + 4)) m target method_name (some d)
        = some (0, m') ∧
      m'.fault = false ∧ m'.frame = m.frame ∧
      jvalue_i (m'.stack (m.frame.stack_top - 1))
        = toInt32 (bits32 (jvalue_i (m.stack (m.frame.stack_top - 1))
            * jvalue_i (m.stack (m.frame.stack_top - 1)))) ∧
      ∀ k, k < m.frame.stack_top - 1 → k ≠ 512 → k ≠ 513 → m'.stack k = m.stack k := by
  obtain ⟨q1, q2, q3, q4, q5, q6, q7⟩ := invoke_parameters_one m target d hf hs hl htop h2 h1 hargs
  obtain ⟨r1, r2, r3, r4⟩ := invoke_parameters_one_frames m target d hf hs htop h2 h1 hargs
  simp only [MAX_STACK_SIZE, LOCALS_REACH_eq] at hs hl htop
  obtain ⟨mc, b1, b2, b3, b4⟩ := square_body P fuel (invoke_parameters m target (some d)).2 q6 q4 q3
    (by rw [q5]; exact hcode) (by rw [q5]; exact hlen) (by rw [r2]; omega) (by rw [r3]; omega)
  rw [q7] at b1
  rw [r3, r4] at b4
  unfold invoke_current_class
  simp only [q6, b1, has_str, hr, b2]
  clear q3 q4 q5 q6 q7 r2 r3 r4 hl
  generalize (invoke_parameters m target (some d)).1 = caller at *
  obtain ⟨cjvm, cframe, cfault⟩ := caller
  obtain ⟨jvm, frame, fault⟩ := m
  obtain ⟨locals, operand_stack, stack_top, pc, method, class_info⟩ := frame
  obtain ⟨mjvm, mframe, mfault⟩ := mc
  simp only at hf r1 q1 q2 htop hargs b3 b4 hs
  subst hf r1 b3
  have a1 : stack_top - 1 < 2048 := by omega
  have a3 : operand_stack + (stack_top - 1) < 2048 := by omega
  have a4 : stack_top - 1 + 1 = stack_top := by omega
  simp [push_int, Machine.set_stack, Machine.touch_stack, Machine.set_top, Machine.stack,
    MAX_STACK_SIZE, mem_set, jvalue_i_set_i, jvalue_i_bits32, a1, a3, a4]
  refine ⟨toInt32_bits32 _, ?_⟩
  intro k hk k1 k2
  rw [if_neg (by omega)]
  exact b4 _ (by omega) (by omega)

theorem execute_invokestatic_current (P : Platform) (call : Machine → Outcome) (m0 m : Machine)
    (target : MethodInfo) (cn n : List Nat) (method_name : Option (List Nat)) (d : List Nat)
    (hm : (resolve_method_ref m0).1 = m)
    (hname : m.frame.class_info.name = some n) (hcur : strstr cn n = true)
    (hscan : scan_methods m.frame.class_info.methods m.frame.class_info.methods_count
      (fun method => match method_name, method.name with
        | some a, some b => strcmp_eq b a
        | _, _ => false) = (some target, false))
    (hres : (resolve_method_ref m0).2 = some (some cn, method_name, some d))
    (hcode : target.code.isSome = true) :
    execute_invokestatic P call m0 = invoke_current_class P call m target method_name (some d) := by
  subst hm
  unfold execute_invokestatic
  simp only [hres, hname, hcur]
  erw [hscan]
  simp [hcode]

/-- Claim C10, amended.  Let `invokestatic` resolve to the method `target` of the
current class, which has code, with the descriptor `d`.  Then
`execute_invokestatic` is the call of `target` on the frame built by
`invoke_parameters`.  In every frame: for a descriptor that contains `(II)` two
values are popped, the top one being the second argument, and the callee starts
with the first argument in local 0, the second in local 1, an empty operand
stack and `pc` at offset 0 of the code of `target`; for one that contains `(I)`
one value is popped into local 0.  The new frame begins 256 locals and 512 slots
behind the caller's.  When the caller's operand stack and the first two
operand-stack slots of the new frame lie inside `stack_memory`, and the first
two locals of the new frame in front of the end of `heap` (`LOCALS_REACH`), which
is so for calls nested up to three deep, no access is a fault, and with the body
`iload_0; iload_0; imul; ireturn` and a descriptor `(I)...` that contains `)I`
the call returns and the caller ends without a fault, on the same frame (same
`stack_top`), with `x * x` reduced to 32 bits in the slot that held `x`; the
slots below keep their words, apart from the slots 512 and 513 of the caller,
where the operand stack of the callee begins. -/
theorem invokestatic_int_arguments (P : Platform) (fuel : Nat) (m0 m : Machine)
    (target : MethodInfo) (cn n : List Nat) (method_name : Option (List Nat)) (d : List Nat)
    (hm : (resolve_method_ref m0).1 = m)
    (hname : m.frame.class_info.name = some n) (hcur : strstr cn n = true)
    (hscan : scan_methods m.frame.class_info.methods m.frame.class_info.methods_count
      (fun method => match method_name, method.name with
        | some a, some b => strcmp_eq b a
        | _, _ => false) = (some target, false))
    (hres : (resolve_method_ref m0).2 = some (some cn, method_name, some d))
    (hcode : target.code.isSome = true) :
    (∀ call, execute_invokestatic P call m0
        = invoke_current_class P call m target method_name (some d)) ∧
    (strstr d (lit "(II)") = true → 2 ≤ m.frame.stack_top →
      (invoke_parameters m target (some d)).1.frame.stack_top = m.frame.stack_top - 2 ∧
      (invoke_parameters m target (some d)).2.frame.stack_top = 0 ∧
      (invoke_parameters m target (some d)).2.frame.pc = 0 ∧
      (invoke_parameters m target (some d)).2.frame.method = target ∧
      jvalue_i ((invoke_parameters m target (some d)).2.locals 0)
        = jvalue_i (m.stack (m.frame.stack_top - 2)) ∧
      jvalue_i ((invoke_parameters m target (some d)).2.locals 1)
        = jvalue_i (m.stack (m.frame.stack_top - 1)) ∧
      (m.fault = false → m.frame.operand_stack + m.frame.stack_top ≤ MAX_STACK_SIZE →
        m.frame.operand_stack + 514 ≤ MAX_STACK_SIZE →
        m.frame.locals + 258 ≤ LOCALS_REACH →
        (invoke_parameters m target (some d)).1.fault = false ∧
        (invoke_parameters m target (some d)).2.fault = false)) ∧
    (strstr d (lit "(II)") = false → strstr d (lit "(I)") = true → 1 ≤ m.frame.stack_top →
      (invoke_parameters m target (some d)).1.frame.stack_top = m.frame.stack_top - 1 ∧
      (invoke_parameters m target (some d)).2.frame.stack_top = 0 ∧
      (invoke_parameters m target (some d)).2.frame.pc = 0 ∧
      (invoke_parameters m target (some d)).2.frame.method = target ∧
      jvalue_i ((invoke_parameters m target (some d)).2.locals 0)
        = jvalue_i (m.stack (m.frame.stack_top - 1)) ∧
      (m.fault = false → m.frame.operand_stack + m.frame.stack_top ≤ MAX_STACK_SIZE →
        m.frame.operand_stack + 514 ≤ MAX_STACK_SIZE →
        m.frame.locals + 258 ≤ LOCALS_REACH →
        (invoke_parameters m target (some d)).1.fault = false ∧
        (invoke_parameters m target (some d)).2.fault = false)) ∧
    (strstr d (lit "(II)") = false → strstr d (lit "(I)") = true →
      strstr d (lit ")I") = true → 1 ≤ m.frame.stack_top →
      target.code = some square_code → target.code_length = 4 →
      m.fault = false → m.frame.operand_stack + m.frame.stack_top ≤ MAX_STACK_SIZE →
      m.frame.operand_stack + 514 ≤ MAX_STACK_SIZE →
      m.frame.locals + 258 ≤ LOCALS_REACH →
      ∃ m', execute_invokestatic P (execute_bytecode P (fuel + 4)) m0 = some (0, m') ∧
        m'.fault = false ∧ m'.frame = m.frame ∧
        jvalue_i (m'.stack (m.frame.stack_top - 1))
          = toInt32 (bits32 (jvalue_i (m.stack (m.frame.stack_top - 1))
              * jvalue_i (m.stack (m.frame.stack_top - 1)))) ∧
        ∀ k, k < m.frame.stack_top - 1 → k ≠ 512 → k ≠ 513 → m'.stack k = m.stack k) := by
  refine ⟨fun call => execute_invokestatic_current P call m0 m target cn n method_name d hm hname
    hcur hscan hres hcode, ?_, ?_, ?_⟩
  · intro h2 hargs
    obtain ⟨q1, q2, q3, q4, q5, q6⟩ := invoke_parameters_two_values m target d h2 hargs
    refine ⟨q1, q2, q3, q4, q5, q6, fun hf htop hs hl => ?_⟩
    obtain ⟨_, r2, _, _, _, r6, _⟩ := invoke_parameters_two m target d hf hs hl htop h2 hargs
    exact ⟨r2, r6⟩
  · intro h2 h1 hargs
    obtain ⟨q1, q2, q3, q4, q5⟩ := invoke_parameters_one_values m target d h2 h1 hargs
    refine ⟨q1, q2, q3, q4, q5, fun hf htop hs hl => ?_⟩
    obtain ⟨_, r2, _, _, _, r6, _⟩ := invoke_parameters_one m target d hf hs hl htop h2 h1 hargs
    exact ⟨r2, r6⟩
  · intro h2 h1 hr hargs hsq hlen hf htop hs hl
    rw [execute_invokestatic_current P _ m0 m target cn n method_name d hm hname hcur hscan hres
      hcode]
    exact invoke_current_class_square P fuel m target method_name d hf hs hl htop h2 h1 hr hargs
      hsq hlen

/-- The call of `sq` in `square_class` with 7 on the operand stack leaves 49 in
its place, also when the caller is itself a callee: `sq` then starts with the 7
in its local 0, which is the word 512 behind the start of `locals_memory`.  The
program `nested_square_class`, in which `main` calls `f` with 3 and `f` calls
`sq`, returns 9. -/
theorem invokestatic_int_arguments_witness :
    (∃ m', execute_invokestatic stub_platform (execute_bytecode stub_platform 4) square_caller
        = some (0, m') ∧ m'.fault = false ∧ m'.frame.stack_top = 1 ∧
        jvalue_i (m'.stack 0) = 49) ∧
    (invoke_parameters (resolve_method_ref nested_square_caller).1 square_method
      (some (lit "(I)I"))).2.frame.locals = 512 ∧
    jvalue_i ((invoke_parameters (resolve_method_ref nested_square_caller).1 square_method
      (some (lit "(I)I"))).2.locals 0) = 7 ∧
    (∃ m', execute_invokestatic stub_platform (execute_bytecode stub_platform 4)
        nested_square_caller = some (0, m') ∧ m'.fault = false ∧ m'.frame.stack_top = 1 ∧
        jvalue_i (m'.stack 0) = 49) ∧
    (run_main nested_square_class).result = some 9 := by
  refine ⟨?_, by decide, ?_, ?_, by decide⟩
  · obtain ⟨m', h1, h2, h3, h4, _⟩ := (invokestatic_int_arguments stub_platform 0 square_caller
      (resolve_method_ref square_caller).1 square_method (lit "Test") (lit "Test")
      (some (lit "sq")) (lit "(I)I") rfl (by decide) (by decide) (by decide) (by decide)
      (by decide)).2.2.2
      (by decide) (by decide) (by decide) (by decide) (by decide) (by decide)
      (by decide) (by decide) (by decide) (by decide)
    exact ⟨m', h1, h2, (congrArg Frame.stack_top h3).trans (by decide), h4.trans (by decide)⟩
  · exact ((invokestatic_int_arguments stub_platform 0 nested_square_caller
      (resolve_method_ref nested_square_caller).1 square_method (lit "Test") (lit "Test")
      (some (lit "sq")) (lit "(I)I") rfl (by decide) (by decide) (by decide) (by decide)
      (by decide)).2.2.1 (by decide) (by decide) (by decide)).2.2.2.2.1.trans (by decide)
  · obtain ⟨m', h1, h2, h3, h4, _⟩ := (invokestatic_int_arguments stub_platform 0
      nested_square_caller
      (resolve_method_ref nested_square_caller).1 square_method (lit "Test") (lit "Test")
      (some (lit "sq")) (lit "(I)I") rfl (by decide) (by decide) (by decide) (by decide)
      (by decide)).2.2.2
      (by decide) (by decide) (by decide) (by decide) (by decide) (by decide)
      (by decide) (by decide) (by decide) (by decide)
    exact ⟨m', h1, h2, (congrArg Frame.stack_top h3).trans (by decide), h4.trans (by decide)⟩

/-! ### Examples -/

/-- Counterexample to claim C7 as stated: a class file that ends right behind
`constant_pool_count` is accepted, also by an allocator that grants nothing the
input does not hold. -/
theorem truncated_class_accepted :
    valid_magic truncated_class ∧ truncated_class.length = 10 ∧
    ∃ c, load_class_file junk_ab fits_none truncated_class = .ok c ∧
      c.constant_pool_count = 1 ∧ c.methods_count = 0 ∧ c.methods = [] :=
  ⟨⟨by decide, by decide⟩, by decide, _, rfl, by decide, by decide, by decide⟩

/-- Counterexample to claim C5 as stated: a class file whose constant-pool entry
has the tag byte 2 is accepted, and the entry keeps the tag 2. -/
theorem unknown_tag_class_accepted :
    valid_magic unknown_tag_class ∧
    ∃ c, load_class_file junk_ab fits_none unknown_tag_class = .ok c ∧
      c.constant_pool_count = 2 ∧ (c.constant_pool.map (fun e => e.tag)) = [0, 2] :=
  ⟨⟨by decide, by decide⟩, _, rfl, by decide, by decide⟩

/-- Counterexample to claim C6 as stated: a class file whose ClassRef entry has the
name index 65535, with `constant_pool_count` 2, is accepted. -/
theorem dangling_index_class_accepted :
    ∃ c, load_class_file junk_ab fits_none dangling_index_class = .ok c ∧
      c.constant_pool_count = 2 ∧
      (c.constant_pool.map (fun e => (e.tag, e.string_index))) = [(0, 0), (7, 65535)] :=
  ⟨_, rfl, by decide, by decide⟩

/-- Counterexample to claim C8 as stated: a Code attribute with a payload of 8 bytes
and `code_length` 5 is accepted.  The method records `code_length` 5; its code
holds no payload byte when the block is granted, and is the null pointer when it
is not. -/
theorem overrun_code_class_accepted :
    (∃ c, load_class_file junk_ab fits_all overrun_code_class = .ok c ∧
      c.methods.map (fun m => (m.attributes.map (fun a => (a.length, a.info.length)),
          m.code_length, m.code))
        = [([(8, 8)], 5, some [171, 171, 171, 171, 171])]) ∧
    (∃ c, load_class_file junk_ab fits_none overrun_code_class = .ok c ∧
      c.methods.map (fun m => (m.attributes.map (fun a => (a.length, a.info.length)),
          m.code_length, m.code))
        = [([(8, 8)], 5, none)]) :=
  ⟨⟨_, rfl, by decide⟩, ⟨_, rfl, by decide⟩⟩

/-- Counterexample to claim C2 as stated: the first attribute of the method
resolves to `"Code"` and its payload holds `8 + code_length` bytes, with
`max_stack` 2, `max_locals` 1 and the code `b1`, but the parsed method has the
values of the second Code attribute. -/
theorem two_code_class_last_wins :
    ∃ c, load_class_file junk_ab fits_none two_code_class = .ok c ∧
      read_utf8_string c.constant_pool c.constant_pool_count 1 = some ATTR_CODE ∧
      c.methods.map (fun m => m.attributes)
        = [[⟨1, 9, [0, 2, 0, 1, 0, 0, 0, 1, 177]⟩, ⟨1, 9, [0, 9, 0, 7, 0, 0, 0, 1, 0]⟩]] ∧
      c.methods.map (fun m => (m.max_stack, m.max_locals, m.code_length, m.code))
        = [(9, 7, 1, some [0])] :=
  ⟨_, rfl, by decide, by decide, by decide⟩

/-- A class file whose method has an attribute with the length prefix `0xFFFFFFFF`
is rejected when the allocator does not grant the block; without the one byte of
payload, and with an allocator that grants everything, it yields a class. -/
theorem overrun_attribute_class_outcome :
    load_class_file junk_ab fits_none overrun_attribute_class = .error ∧
    ∃ c, load_class_file junk_ab fits_all (overrun_attribute_class.take 39) = .ok c ∧
      c.methods_count = 1 :=
  ⟨rfl, _, rfl, by decide⟩

/-- The pool `sample_items` is parsed into five slots: the Utf8 entry at index 1,
the Long at 2, an unused slot at 3 and the Integer at 4. -/
theorem parse_constant_pool_layout_witness :
    ∃ pool, parse_constant_pool junk_ab sample_pool_reader
        = .ok (sample_pool_reader.advance (encode_pool sample_items).length,
            1 + slot_count sample_items, pool) ∧
      (encode_pool sample_items).length = 23 ∧ pool.length = 5 ∧
      pool[1]? = some (CpItem.utf8 [67, 111, 100, 101]).entry ∧
      pool[2]? = some (CpItem.long 1 2).entry ∧
      pool[3]? = some ConstantPoolEntry.zero ∧
      pool[4]? = some (CpItem.integer 7).entry := by
  obtain ⟨pool, h1, h2, _, h4⟩ := parse_constant_pool_layout junk_ab sample_items
    sample_pool_reader [] (by simp [sample_items, CpItem.well_formed, all_bytes]) (by decide)
    ⟨rfl, by decide, by simp [sample_pool_reader]⟩
  exact ⟨pool, h1, by decide, h2, (h4 0 (by decide)).1, (h4 1 (by decide)).1,
    (h4 1 (by decide)).2 (by decide), (h4 2 (by decide)).1⟩

/-- The Utf8 entry of `sample_items` is read back from index 1 as `"Code"`. -/
theorem utf8_round_trip_witness :
    ∃ r1 count pool, parse_constant_pool junk_ab sample_pool_reader = .ok (r1, count, pool) ∧
      read_utf8_string pool count 1 = some [67, 111, 100, 101] := by
  obtain ⟨r1, count, pool, h1, h2⟩ := (utf8_round_trip junk_ab sample_items
    sample_pool_reader [] (by simp [sample_items, CpItem.well_formed, all_bytes]) (by decide)
    ⟨rfl, by decide, by simp [sample_pool_reader]⟩).1
  exact ⟨r1, count, pool, h1, h2 0 (by decide) _ rfl⟩

/-- A method with the one attribute `square_attribute` is parsed with `max_stack` 2,
`max_locals` 1 and the four code bytes of the payload, also by an allocator that
grants nothing the input does not hold. -/
theorem last_code_attribute_decoded_witness :
    (parse_method junk_ab fits_none code_name_pool 2 (method_reader [square_attribute])).map
        (fun res => res.2.max_stack) = some 2 ∧
    (parse_method junk_ab fits_none code_name_pool 2 (method_reader [square_attribute])).map
        (fun res => res.2.max_locals) = some 1 ∧
    (parse_method junk_ab fits_none code_name_pool 2 (method_reader [square_attribute])).map
        (fun res => res.2.code_length) = some 4 ∧
    (parse_method junk_ab fits_none code_name_pool 2 (method_reader [square_attribute])).map
        (fun res => res.2.code) = some (some square_code) := by
  obtain ⟨h1, h2, h3, h4, _⟩ := last_code_attribute_decoded junk_ab fits_none code_name_pool 2
    9 1 1
    [square_attribute] (method_reader [square_attribute]) [] [] [] square_attribute
    (by decide) (by decide) (by decide) (by decide)
    (by simp [square_attribute, AttributeInfo.well_formed, all_bytes])
    ⟨rfl, by decide, by simp [method_reader]⟩ rfl (by decide) (by simp) (by decide)
  exact ⟨h1, h2, h3, h4 (by decide)⟩

/-- A method with the one attribute `overrun_attribute` is parsed with `code_length`
5; its code is the null pointer when the allocator does not grant the block. -/
theorem code_length_overrun_accepted_witness :
    (parse_method junk_ab fits_none code_name_pool 2 (method_reader [overrun_attribute])).map
        (fun res => res.2.code_length) = some 5 ∧
    (parse_method junk_ab fits_none code_name_pool 2 (method_reader [overrun_attribute])).map
        (fun res => res.2.code) = some none := by
  obtain ⟨h1, h2, _⟩ := code_length_overrun_accepted junk_ab fits_none code_name_pool 2 9 1 1
    [overrun_attribute] (method_reader [overrun_attribute]) [] [] [] overrun_attribute
    (by decide) (by decide) (by decide) (by decide)
    (by simp [overrun_attribute, AttributeInfo.well_formed, all_bytes])
    ⟨rfl, by decide, by simp [method_reader]⟩ rfl (by decide) (by simp) (by decide) (by decide)
  exact ⟨h1, h2⟩

/-- The ten bytes of `truncated_class` yield a class; its first nine bytes are
rejected. -/
theorem truncated_input_outcome_witness :
    (∃ c, load_class_file junk_ab fits_all truncated_class = .ok c) ∧
    load_class_file junk_ab fits_all (truncated_class.take 9) = .error := by
  have h := truncated_input_outcome junk_ab fits_all truncated_class ⟨by decide, by decide⟩
  have k := truncated_input_outcome junk_ab fits_all (truncated_class.take 9)
    ⟨by decide, by decide⟩
  exact ⟨h.2.2.1 (by decide) (fun _ _ => rfl), k.1 (by decide)⟩

/-- An entry with the tag byte 2 is passed over together with the two bytes behind
the tag. -/
theorem unknown_tag_skipped_witness :
    parse_constant_pool_entry junk_ab ⟨[2, 170, 187], 3, 0⟩ ConstantPoolEntry.zero
      = (⟨[2, 170, 187], 3, 3⟩, { ConstantPoolEntry.zero with tag := 2 }, false) :=
  (unknown_tag_skipped junk_ab ⟨[2, 170, 187], 3, 0⟩ ConstantPoolEntry.zero (by decide)).1

/-- A class file whose pool is one ClassRef with the name index 65535 is parsed,
and the entry keeps that index. -/
theorem cross_indices_unchecked_witness :
    ∃ c, load_class_file junk_ab fits_none
        (encode_header 0 52 ++ (encode_pool [.class_ref 65535] ++ [])) = .ok c ∧
      c.constant_pool_count = 2 ∧
      c.constant_pool = [ConstantPoolEntry.zero, (CpItem.class_ref 65535).entry] := by
  obtain ⟨h1, _, h3⟩ := cross_indices_unchecked junk_ab fits_none 0 52 [.class_ref 65535] []
    (by decide) (by decide) (by simp [CpItem.well_formed]) (by decide)
  obtain ⟨c, hc⟩ := h3 (by decide)
  exact ⟨c, hc, (h1 c hc).1, (h1 c hc).2.1⟩

/-! ### Fetch and dispatch -/

theorem execute_opcode_none (P : Platform) (call : Machine → Outcome) (m : Machine) :
    execute_opcode P call m none = .ret (-1) m := rfl

theorem execute_opcode_no_case (P : Platform) (call : Machine → Outcome) (m : Machine)
    (op : OpCode) (h : op.has_case = false) :
    execute_opcode P call m (some op) = .ret (-1) m := by
  cases op <;> first | rfl | exact absurd h (by decide)

theorem execute_opcode_not_implemented (P : Platform) (call : Machine → Outcome) (m : Machine)
    (b : Nat) (h : implemented b = false) :
    execute_opcode P call m (OpCode.of_byte b) = .ret (-1) m := by
  unfold implemented at h
  cases hb : OpCode.of_byte b with
  | none => rfl
  | some op =>
    rw [hb] at h
    exact execute_opcode_no_case P call m op h

theorem fetch_in_code (m : Machine) (h0 : 0 ≤ m.frame.pc)
    (hblock : m.frame.pc < ((m.frame.method.code.getD []).length : Int)) :
    Bytecode.read_u1 m = (m.code_byte m.frame.pc, m.set_pc (m.frame.pc + 1)) := by
  unfold Bytecode.read_u1 Machine.touch_code
  rw [if_pos ⟨h0, hblock⟩]

theorem execute_bytecode_next (P : Platform) (fuel : Nat) (m m' : Machine) (hf : m.fault = false)
    (h0 : 0 ≤ m.frame.pc) (hlen : m.frame.pc < (m.frame.method.code_length : Int))
    (hblock : m.frame.pc < ((m.frame.method.code.getD []).length : Int))
    (hstep : execute_opcode P (execute_bytecode P fuel) (m.set_pc (m.frame.pc + 1))
      (OpCode.of_byte (m.code_byte m.frame.pc)) = .next m') :
    execute_bytecode P (fuel + 1) m = execute_bytecode P fuel m' := by
  rw [execute_bytecode_succ, fetch_in_code m h0 hblock]
  simp only [hf, if_pos hlen, hstep]
  rfl

theorem execute_bytecode_ret (P : Platform) (fuel : Nat) (m m' : Machine) (value : Int)
    (hf : m.fault = false)
    (h0 : 0 ≤ m.frame.pc) (hlen : m.frame.pc < (m.frame.method.code_length : Int))
    (hblock : m.frame.pc < ((m.frame.method.code.getD []).length : Int))
    (hstep : execute_opcode P (execute_bytecode P fuel) (m.set_pc (m.frame.pc + 1))
      (OpCode.of_byte (m.code_byte m.frame.pc)) = .ret value m') :
    execute_bytecode P (fuel + 1) m = if m'.fault then .fault else .returned value m' := by
  rw [execute_bytecode_succ, fetch_in_code m h0 hblock]
  simp only [hf, if_pos hlen, hstep]
  rfl

theorem execute_bytecode_end (P : Platform) (fuel : Nat) (m : Machine) (hf : m.fault = false)
    (hlen : (m.frame.method.code_length : Int) ≤ m.frame.pc) :
    execute_bytecode P (fuel + 1) m = .returned 0 m := by
  rw [execute_bytecode_succ]
  simp [hf, not_lt.mpr hlen]

/-- Claim C20.  When the opcode byte at `pc` (inside the code) is not one the
`switch` of `execute_bytecode` has a `case` for, `execute_bytecode` returns `-1`;
the machine it leaves differs from the one before the fetch only in `pc`, which
is behind the opcode byte: the VM (locals, operand stack, strings, output) and
the other fields of the frame are unchanged. -/
theorem unknown_opcode_fatal (P : Platform) (fuel : Nat) (m : Machine) (hf : m.fault = false)
    (h0 : 0 ≤ m.frame.pc) (hlen : m.frame.pc < (m.frame.method.code_length : Int))
    (hblock : m.frame.pc < ((m.frame.method.code.getD []).length : Int))
    (hop : implemented (m.code_byte m.frame.pc) = false) :
    ∃ m', execute_bytecode P (fuel + 1) m = .returned (-1) m' ∧
      m'.jvm = m.jvm ∧ m'.frame = { m.frame with pc := m.frame.pc + 1 } ∧ m'.fault = false := by
  refine ⟨m.set_pc (m.frame.pc + 1), ?_, rfl, rfl, hf⟩
  rw [execute_bytecode_ret P fuel m _ (-1) hf h0 hlen hblock
    (execute_opcode_not_implemented P _ _ _ hop)]
  simp [Machine.set_pc, hf]

set_option maxRecDepth 100000 in
theorem cases_not_default :
    ∀ op ∈ OpCode.cases,
      (execute_opcode stub_platform (fun _ => .out_of_fuel) probe_machine (some op)).summary
        ≠ (Step.ret (-1) probe_machine).summary := by
  decide

set_option maxRecDepth 100000 in
theorem mandatory_have_case :
    ∀ b ∈ mandatory_opcodes,
      (OpCode.of_byte b).any (fun op => decide (op.byte = b) && op.has_case) = true := by
  decide

/-- Claim C19.  Every byte of the mandatory opcode set is the value of an
enumeration constant that is a `case` label of the `switch` of
`execute_bytecode`.  On `probe_machine` every `case` label gives a step other
than the step of the `default` branch, which for each byte without a `case`
returns `-1` and leaves the machine as it is. -/
theorem mandatory_opcodes_dispatched :
    (∀ b ∈ mandatory_opcodes,
      ∃ op, OpCode.of_byte b = some op ∧ op.byte = b ∧ op ∈ OpCode.cases) ∧
    (∀ op ∈ OpCode.cases,
      (execute_opcode stub_platform (fun _ => .out_of_fuel) probe_machine (some op)).summary
        ≠ (Step.ret (-1) probe_machine).summary) ∧
    (∀ (P : Platform) (call : Machine → Outcome) (m : Machine) (b : Nat),
      implemented b = false → execute_opcode P call m (OpCode.of_byte b) = .ret (-1) m) := by
  refine ⟨?_, cases_not_default, execute_opcode_not_implemented⟩
  intro b hb
  have h := mandatory_have_case b hb
  cases hop : OpCode.of_byte b with
  | none => rw [hop] at h; simp at h
  | some op =>
    rw [hop] at h
    simp only [Option.any_some, Bool.and_eq_true, decide_eq_true_eq, OpCode.has_case] at h
    exact ⟨op, rfl, h.1, List.elem_iff.mp h.2⟩

/-! ### Branches -/

theorem code_byte_lt (m : Machine) (k : Int) : m.code_byte k < 256 := by
  unfold Machine.code_byte; omega

theorem read_s2_in_code (m : Machine) (h0 : 0 ≤ m.frame.pc)
    (hblock : m.frame.pc + 1 < ((m.frame.method.code.getD []).length : Int)) :
    Bytecode.read_s2 m
      = (Bytecode.toInt16 (256 * m.code_byte m.frame.pc + m.code_byte (m.frame.pc + 1)),
          m.set_pc (m.frame.pc + 2)) := by
  have t1 : m.touch_code m.frame.pc = m := by
    unfold Machine.touch_code
    rw [if_pos ⟨h0, by omega⟩]
  have t2 : m.touch_code (m.frame.pc + 1) = m := by
    unfold Machine.touch_code
    rw [if_pos ⟨by omega, hblock⟩]
  unfold Bytecode.read_s2
  rw [t1, t2, or_shift8 _ _ (code_byte_lt m _), Nat.mul_comm]

theorem goto_step (P : Platform) (call : Machine → Outcome) (m : Machine)
    (h0 : 0 ≤ m.frame.pc)
    (hblock : m.frame.pc + 1 < ((m.frame.method.code.getD []).length : Int)) :
    execute_opcode P call m (some .GOTO)
      = .next (m.set_pc (m.frame.pc - 1 +
          Bytecode.toInt16 (256 * m.code_byte m.frame.pc + m.code_byte (m.frame.pc + 1)))) := by
  show Step.next ((Bytecode.read_s2 m).2.set_pc
    ((Bytecode.read_s2 m).2.frame.pc + ((Bytecode.read_s2 m).1 - 3))) = _
  rw [read_s2_in_code m h0 hblock]
  simp only [Machine.set_pc]
  congr 3
  omega

theorem if_cond_step (m : Machine) (cond : Int → Bool) (hf : m.fault = false)
    (h0 : 0 ≤ m.frame.pc)
    (hblock : m.frame.pc + 1 < ((m.frame.method.code.getD []).length : Int))
    (htop : 1 ≤ m.frame.stack_top)
    (hs : m.frame.operand_stack + m.frame.stack_top ≤ MAX_STACK_SIZE) :
    if_cond m cond = (m.set_top (m.frame.stack_top - 1)).set_pc (m.frame.pc - 1 +
      if cond (jvalue_i (m.stack (m.frame.stack_top - 1))) then
        Bytecode.toInt16 (256 * m.code_byte m.frame.pc + m.code_byte (m.frame.pc + 1))
      else 3) := by
  unfold if_cond
  rw [read_s2_in_code m h0 hblock]
  obtain ⟨jvm, frame, fault⟩ := m
  obtain ⟨locals, operand_stack, stack_top, pc, method, class_info⟩ := frame
  simp only [MAX_STACK_SIZE] at hf hs htop
  subst hf
  have a1 : 0 < stack_top := by omega
  have a2 : operand_stack + (stack_top - 1) < 2048 := by omega
  simp only [pop_int, Machine.set_pc, Machine.set_top, Machine.touch_stack, Machine.stack,
    MAX_STACK_SIZE, a1, a2, gt_iff_lt, if_true]
  split_ifs <;> simp <;> omega

theorem if_icmp_step (m : Machine) (cond : Int → Int → Bool) (hf : m.fault = false)
    (h0 : 0 ≤ m.frame.pc)
    (hblock : m.frame.pc + 1 < ((m.frame.method.code.getD []).length : Int))
    (htop : 2 ≤ m.frame.stack_top)
    (hs : m.frame.operand_stack + m.frame.stack_top ≤ MAX_STACK_SIZE) :
    if_icmp m cond = (m.set_top (m.frame.stack_top - 2)).set_pc (m.frame.pc - 1 +
      if cond (jvalue_i (m.stack (m.frame.stack_top - 2)))
          (jvalue_i (m.stack (m.frame.stack_top - 1))) then
        Bytecode.toInt16 (256 * m.code_byte m.frame.pc + m.code_byte (m.frame.pc + 1))
      else 3) := by
  unfold if_icmp
  rw [read_s2_in_code m h0 hblock]
  obtain ⟨jvm, frame, fault⟩ := m
  obtain ⟨locals, operand_stack, stack_top, pc, method, class_info⟩ := frame
  simp only [MAX_STACK_SIZE] at hf hs htop
  subst hf
  have a1 : 0 < stack_top := by omega
  have a2 : operand_stack + (stack_top - 1) < 2048 := by omega
  have a3 : 0 < stack_top - 1 := by omega
  have a4 : operand_stack + (stack_top - 1 - 1) < 2048 := by omega
  have a5 : stack_top - 1 - 1 = stack_top - 2 := by omega
  simp only [pop_int, Machine.set_pc, Machine.set_top, Machine.touch_stack, Machine.stack,
    MAX_STACK_SIZE, a1, a2, a3, a4, a5, gt_iff_lt, if_true]
  split_ifs <;> simp <;> omega

theorem of_byte_byte (op : OpCode) : OpCode.of_byte op.byte = some op := by
  cases op <;> rfl

theorem unary_branch_opcode (P : Platform) (call : Machine → Outcome) (m : Machine)
    (op : OpCode) (cond : Int → Bool) (h : (op, cond) ∈ unary_branches) :
    execute_opcode P call m (some op) = .next (if_cond m cond) := by
  simp only [unary_branches, List.mem_cons, Prod.mk.injEq, List.mem_singleton,
    List.not_mem_nil, or_false] at h
  rcases h with ⟨rfl, rfl⟩ | ⟨rfl, rfl⟩ | ⟨rfl, rfl⟩ | ⟨rfl, rfl⟩ | ⟨rfl, rfl⟩ | ⟨rfl, rfl⟩ <;> rfl

theorem binary_branch_opcode (P : Platform) (call : Machine → Outcome) (m : Machine)
    (op : OpCode) (cond : Int → Int → Bool) (h : (op, cond) ∈ binary_branches) :
    execute_opcode P call m (some op) = .next (if_icmp m cond) := by
  simp only [binary_branches, List.mem_cons, Prod.mk.injEq, List.mem_singleton,
    List.not_mem_nil, or_false] at h
  rcases h with ⟨rfl, rfl⟩ | ⟨rfl, rfl⟩ | ⟨rfl, rfl⟩ | ⟨rfl, rfl⟩ | ⟨rfl, rfl⟩ | ⟨rfl, rfl⟩ <;> rfl

theorem goto_run (P : Platform) (fuel : Nat) (m : Machine) (hf : m.fault = false)
    (h0 : 0 ≤ m.frame.pc) (hlen : m.frame.pc < (m.frame.method.code_length : Int))
    (hblock : m.frame.pc + 2 < ((m.frame.method.code.getD []).length : Int))
    (hbyte : m.code_byte m.frame.pc = OpCode.GOTO.byte) :
    execute_bytecode P (fuel + 1) m
      = execute_bytecode P fuel (m.set_pc (m.frame.pc + branch_offset m)) := by
  have hm0 : 0 ≤ (m.set_pc (m.frame.pc + 1)).frame.pc := by
    show 0 ≤ m.frame.pc + 1
    omega
  have hmb : (m.set_pc (m.frame.pc + 1)).frame.pc + 1
      < (((m.set_pc (m.frame.pc + 1)).frame.method.code.getD []).length : Int) := by
    show m.frame.pc + 1 + 1 < ((m.frame.method.code.getD []).length : Int)
    omega
  have e1 : m.frame.pc + 1 + 1 = m.frame.pc + 2 := by omega
  have e2 : ∀ x : Int, m.frame.pc + 1 - 1 + x = m.frame.pc + x := fun x => by omega
  apply execute_bytecode_next P fuel m _ hf h0 hlen (by omega)
  rw [hbyte, of_byte_byte, goto_step P _ (m.set_pc (m.frame.pc + 1)) hm0 hmb]
  simp only [Machine.set_pc, Machine.code_byte, branch_offset, e1, e2]

theorem unary_branch_run (P : Platform) (fuel : Nat) (m : Machine) (hf : m.fault = false)
    (h0 : 0 ≤ m.frame.pc) (hlen : m.frame.pc < (m.frame.method.code_length : Int))
    (hblock : m.frame.pc + 2 < ((m.frame.method.code.getD []).length : Int))
    (hs : m.frame.operand_stack + m.frame.stack_top ≤ MAX_STACK_SIZE)
    (op : OpCode) (cond : Int → Bool) (hmem : (op, cond) ∈ unary_branches)
    (hbyte : m.code_byte m.frame.pc = op.byte) (htop : 1 ≤ m.frame.stack_top) :
    execute_bytecode P (fuel + 1) m
      = execute_bytecode P fuel ((m.set_top (m.frame.stack_top - 1)).set_pc (m.frame.pc +
          if cond (jvalue_i (m.stack (m.frame.stack_top - 1))) then branch_offset m else 3)) := by
  have hm0 : 0 ≤ (m.set_pc (m.frame.pc + 1)).frame.pc := by
    show 0 ≤ m.frame.pc + 1
    omega
  have hmb : (m.set_pc (m.frame.pc + 1)).frame.pc + 1
      < (((m.set_pc (m.frame.pc + 1)).frame.method.code.getD []).length : Int) := by
    show m.frame.pc + 1 + 1 < ((m.frame.method.code.getD []).length : Int)
    omega
  have e1 : m.frame.pc + 1 + 1 = m.frame.pc + 2 := by omega
  have e2 : ∀ x : Int, m.frame.pc + 1 - 1 + x = m.frame.pc + x := fun x => by omega
  apply execute_bytecode_next P fuel m _ hf h0 hlen (by omega)
  rw [hbyte, of_byte_byte, unary_branch_opcode P _ _ op cond hmem,
    if_cond_step (m.set_pc (m.frame.pc + 1)) cond hf hm0 hmb htop hs]
  simp only [Machine.set_pc, Machine.set_top, Machine.stack, Machine.code_byte, branch_offset,
    e1, e2]

theorem binary_branch_run (P : Platform) (fuel : Nat) (m : Machine) (hf : m.fault = false)
    (h0 : 0 ≤ m.frame.pc) (hlen : m.frame.pc < (m.frame.method.code_length : Int))
    (hblock : m.frame.pc + 2 < ((m.frame.method.code.getD []).length : Int))
    (hs : m.frame.operand_stack + m.frame.stack_top ≤ MAX_STACK_SIZE)
    (op : OpCode) (cond : Int → Int → Bool) (hmem : (op, cond) ∈ binary_branches)
    (hbyte : m.code_byte m.frame.pc = op.byte) (htop : 2 ≤ m.frame.stack_top) :
    execute_bytecode P (fuel + 1) m
      = execute_bytecode P fuel ((m.set_top (m.frame.stack_top - 2)).set_pc (m.frame.pc +
          if cond (jvalue_i (m.stack (m.frame.stack_top - 2)))
              (jvalue_i (m.stack (m.frame.stack_top - 1))) then branch_offset m else 3)) := by
  have hm0 : 0 ≤ (m.set_pc (m.frame.pc + 1)).frame.pc := by
    show 0 ≤ m.frame.pc + 1
    omega
  have hmb : (m.set_pc (m.frame.pc + 1)).frame.pc + 1
      < (((m.set_pc (m.frame.pc + 1)).frame.method.code.getD []).length : Int) := by
    show m.frame.pc + 1 + 1 < ((m.frame.method.code.getD []).length : Int)
    omega
  have e1 : m.frame.pc + 1 + 1 = m.frame.pc + 2 := by omega
  have e2 : ∀ x : Int, m.frame.pc + 1 - 1 + x = m.frame.pc + x := fun x => by omega
  apply execute_bytecode_next P fuel m _ hf h0 hlen (by omega)
  rw [hbyte, of_byte_byte, binary_branch_opcode P _ _ op cond hmem,
    if_icmp_step (m.set_pc (m.frame.pc + 1)) cond hf hm0 hmb htop hs]
  simp only [Machine.set_pc, Machine.set_top, Machine.stack, Machine.code_byte, branch_offset,
    e1, e2]

/-- Claim C16.  Let the opcode byte at `pc = p` be followed by two operand bytes
inside the code, with `d = branch_offset m` their signed 16-bit big-endian
value.  For `goto` the next `pc` is `p + d`.  For `ifeq` ... `ifle` one int is
popped and the next `pc` is `p + d` when its signed comparison with 0 holds, else
`p + 3`.  For `if_icmpeq` ... `if_icmple` two ints are popped, `value2` from the
top and `value1` beneath, and the next `pc` is `p + d` when the signed
comparison of `value1` with `value2` holds, else `p + 3`.  Nothing else of the
machine changes. -/
theorem branch_next_pc (P : Platform) (fuel : Nat) (m : Machine) (hf : m.fault = false)
    (h0 : 0 ≤ m.frame.pc) (hlen : m.frame.pc < (m.frame.method.code_length : Int))
    (hblock : m.frame.pc + 2 < ((m.frame.method.code.getD []).length : Int))
    (hs : m.frame.operand_stack + m.frame.stack_top ≤ MAX_STACK_SIZE) :
    (m.code_byte m.frame.pc = OpCode.GOTO.byte →
      execute_bytecode P (fuel + 1) m
        = execute_bytecode P fuel (m.set_pc (m.frame.pc + branch_offset m))) ∧
    (∀ op cond, (op, cond) ∈ unary_branches → m.code_byte m.frame.pc = op.byte →
      1 ≤ m.frame.stack_top →
      execute_bytecode P (fuel + 1) m
        = execute_bytecode P fuel ((m.set_top (m.frame.stack_top - 1)).set_pc (m.frame.pc +
            if cond (jvalue_i (m.stack (m.frame.stack_top - 1))) then branch_offset m else 3))) ∧
    (∀ op cond, (op, cond) ∈ binary_branches → m.code_byte m.frame.pc = op.byte →
      2 ≤ m.frame.stack_top →
      execute_bytecode P (fuel + 1) m
        = execute_bytecode P fuel ((m.set_top (m.frame.stack_top - 2)).set_pc (m.frame.pc +
            if cond (jvalue_i (m.stack (m.frame.stack_top - 2)))
                (jvalue_i (m.stack (m.frame.stack_top - 1))) then branch_offset m else 3))) :=
  ⟨goto_run P fuel m hf h0 hlen hblock,
    fun op cond hmem hbyte htop => unary_branch_run P fuel m hf h0 hlen hblock hs op cond hmem
      hbyte htop,
    fun op cond hmem hbyte htop => binary_branch_run P fuel m hf h0 hlen hblock hs op cond hmem
      hbyte htop⟩

/-- Claim C17, amended: a branch beyond the end of the code ends the method
without an error.  For a `goto`, and for a conditional branch whose comparison
holds, with a target `p + d` that is `code_length` or more, `execute_bytecode`
returns 0 with the operands popped and `pc` at the target; no check of the target
is made. -/
theorem branch_past_end_returns (P : Platform) (fuel : Nat) (m : Machine) (hf : m.fault = false)
    (h0 : 0 ≤ m.frame.pc) (hlen : m.frame.pc < (m.frame.method.code_length : Int))
    (hblock : m.frame.pc + 2 < ((m.frame.method.code.getD []).length : Int))
    (hs : m.frame.operand_stack + m.frame.stack_top ≤ MAX_STACK_SIZE)
    (hend : (m.frame.method.code_length : Int) ≤ m.frame.pc + branch_offset m) :
    (m.code_byte m.frame.pc = OpCode.GOTO.byte →
      execute_bytecode P (fuel + 2) m
        = .returned 0 (m.set_pc (m.frame.pc + branch_offset m))) ∧
    (∀ op cond, (op, cond) ∈ unary_branches → m.code_byte m.frame.pc = op.byte →
      1 ≤ m.frame.stack_top → cond (jvalue_i (m.stack (m.frame.stack_top - 1))) = true →
      execute_bytecode P (fuel + 2) m
        = .returned 0 ((m.set_top (m.frame.stack_top - 1)).set_pc
            (m.frame.pc + branch_offset m))) ∧
    (∀ op cond, (op, cond) ∈ binary_branches → m.code_byte m.frame.pc = op.byte →
      2 ≤ m.frame.stack_top →
      cond (jvalue_i (m.stack (m.frame.stack_top - 2)))
        (jvalue_i (m.stack (m.frame.stack_top - 1))) = true →
      execute_bytecode P (fuel + 2) m
        = .returned 0 ((m.set_top (m.frame.stack_top - 2)).set_pc
            (m.frame.pc + branch_offset m))) := by
  refine ⟨?_, ?_, ?_⟩
  · intro hbyte
    rw [goto_run P (fuel + 1) m hf h0 hlen hblock hbyte]
    exact execute_bytecode_end P fuel _ hf hend
  · intro op cond hmem hbyte htop hc
    rw [unary_branch_run P (fuel + 1) m hf h0 hlen hblock hs op cond hmem hbyte htop, hc]
    exact execute_bytecode_end P fuel _ hf hend
  · intro op cond hmem hbyte htop hc
    rw [binary_branch_run P (fuel + 1) m hf h0 hlen hblock hs op cond hmem hbyte htop, hc]
    exact execute_bytecode_end P fuel _ hf hend

/-! ### Static calls: parameters and return values -/

theorem execute_invokestatic_enters (P : Platform) (call : Machine → Outcome) (m0 m : Machine)
    (target : MethodInfo) (method_name : Option (List Nat)) (d : List Nat)
    (h : enters_method m0 m target method_name d) :
    execute_invokestatic P call m0 = invoke_current_class P call m target method_name (some d) := by
  obtain ⟨cn, n, hm, hname, hcur, hscan, hres, hcode⟩ := h
  subst hm
  unfold execute_invokestatic
  simp only [hres, hname, hcur]
  erw [hscan]
  simp [hcode]

theorem invoke_parameters_caller (m : Machine) (target : MethodInfo) (d : List Nat)
    (hf : m.fault = false) (hs : m.frame.operand_stack + 514 ≤ MAX_STACK_SIZE)
    (hl : m.frame.locals + 258 ≤ LOCALS_REACH)
    (htop : m.frame.operand_stack + m.frame.stack_top ≤ MAX_STACK_SIZE)
    (hargs : descriptor_pops d ≤ m.frame.stack_top) :
    (invoke_parameters m target (some d)).1 = m.set_top (m.frame.stack_top - descriptor_pops d) ∧
    (invoke_parameters m target (some d)).2.fault = false ∧
    (invoke_parameters m target (some d)).2.jvm.stack_memory = m.jvm.stack_memory := by
  obtain ⟨jvm, frame, fault⟩ := m
  obtain ⟨locals, operand_stack, stack_top, pc, method, class_info⟩ := frame
  simp only [MAX_STACK_SIZE, LOCALS_REACH_eq] at hf hs hl htop hargs
  subst hf
  have a5 : locals + 256 < 1536 := by omega
  have a6 : locals + 256 + 1 < 1536 := by omega
  unfold descriptor_pops at hargs ⊢
  by_cases h2 : strstr d (lit "(II)") = true
  · rw [if_pos h2] at hargs
    have a1 : 0 < stack_top := by omega
    have a2 : 0 < stack_top - 1 := by omega
    have a3 : operand_stack + (stack_top - 1) < 2048 := by omega
    have a4 : operand_stack + (stack_top - 1 - 1) < 2048 := by omega
    have a7 : stack_top - 1 - 1 = stack_top - 2 := by omega
    have a8 : operand_stack + (stack_top - 2) < 2048 := by omega
    have a9 : 1 < stack_top := by omega
    simp [invoke_parameters, has_str, h2, pop_int, invoke_frame, Machine.set_local,
      Machine.touch_local, Machine.touch_stack, Machine.set_top, Machine.stack, Machine.locals,
      MAX_STACK_SIZE, LOCALS_REACH_eq, a1, a2, a3, a4, a5, a6, a7, a8, a9]
  · by_cases h1 : strstr d (lit "(I)") = true
    · rw [if_neg h2, if_pos h1] at hargs
      have a1 : 0 < stack_top := by omega
      have a3 : operand_stack + (stack_top - 1) < 2048 := by omega
      simp [invoke_parameters, has_str, h2, h1, pop_int, invoke_frame, Machine.set_local,
        Machine.touch_local, Machine.touch_stack, Machine.set_top, Machine.stack,
        Machine.locals, MAX_STACK_SIZE, LOCALS_REACH_eq, a1, a3, a5]
    · simp [invoke_parameters, has_str, h2, h1, invoke_frame, Machine.set_top]

theorem push_int_frame (m : Machine) (value : Int) (h : m.frame.stack_top < MAX_STACK_SIZE) :
    (push_int m value).frame = { m.frame with stack_top := m.frame.stack_top + 1 } := by
  unfold push_int
  rw [if_pos h]
  rfl

theorem push_ref_frame (m : Machine) (ref : Nat) (h : m.frame.stack_top < MAX_STACK_SIZE) :
    (push_ref m ref).frame = { m.frame with stack_top := m.frame.stack_top + 1 } := by
  unfold push_ref
  rw [if_pos h]
  rfl

theorem push_new_string_frame (P : Platform) (m : Machine) (str : List Nat)
    (h : m.frame.stack_top < MAX_STACK_SIZE) :
    (push_new_string P m str).frame = { m.frame with stack_top := m.frame.stack_top + 1 } := by
  unfold push_new_string
  rw [push_ref_frame _ _ (by exact h)]
  rfl

theorem pop_int_position (m : Machine) : (pop_int m).2.frame.position = m.frame.position := by
  unfold pop_int Machine.touch_stack Machine.set_top
  split_ifs <;> rfl

theorem push_int_position (m : Machine) (value : Int) :
    (push_int m value).frame.position = m.frame.position := by
  unfold push_int
  split_ifs <;> rfl

theorem push_ref_position (m : Machine) (ref : Nat) :
    (push_ref m ref).frame.position = m.frame.position := by
  unfold push_ref
  split_ifs <;> rfl

theorem push_new_string_position (P : Platform) (m : Machine) (str : List Nat) :
    (push_new_string P m str).frame.position = m.frame.position := by
  unfold push_new_string
  rw [push_ref_position]
  rfl

theorem invoke_parameters_position (m : Machine) (target : MethodInfo)
    (descriptor : Option (List Nat)) :
    (invoke_parameters m target descriptor).1.frame.position = m.frame.position := by
  unfold invoke_parameters
  split_ifs
  · show (pop_int (pop_int m).2).2.frame.position = _
    rw [pop_int_position, pop_int_position]
  · show (pop_int m).2.frame.position = _
    rw [pop_int_position]
  · rfl

theorem invoke_current_class_position (P : Platform) (call : Machine → Outcome) (m : Machine)
    (target : MethodInfo) (method_name descriptor : Option (List Nat)) (r : Int)
    (callee : Machine)
    (hcall : call (invoke_parameters m target descriptor).2 = .returned r callee) :
    ∃ m', invoke_current_class P call m target method_name descriptor = some (0, m') ∧
      m'.frame.position = m.frame.position := by
  have hpos := invoke_parameters_position m target descriptor
  unfold invoke_current_class
  simp only [hcall]
  split_ifs
  all_goals first
    | exact ⟨_, rfl, hpos⟩
    | exact ⟨_, rfl, (push_int_position _ _).trans hpos⟩
    | exact ⟨_, rfl, (push_new_string_position P _ _).trans hpos⟩

theorem read_u2_in_code (m : Machine) (h0 : 0 ≤ m.frame.pc)
    (hblock : m.frame.pc + 1 < ((m.frame.method.code.getD []).length : Int)) :
    Bytecode.read_u2 m
      = (256 * m.code_byte m.frame.pc + m.code_byte (m.frame.pc + 1),
          m.set_pc (m.frame.pc + 2)) := by
  have t1 : m.touch_code m.frame.pc = m := by
    unfold Machine.touch_code
    rw [if_pos ⟨h0, by omega⟩]
  have t2 : m.touch_code (m.frame.pc + 1) = m := by
    unfold Machine.touch_code
    rw [if_pos ⟨by omega, hblock⟩]
  unfold Bytecode.read_u2
  rw [t1, t2, u2_value _ _ (code_byte_lt m _) (code_byte_lt m _), Nat.mul_comm]

theorem touch_pool_position (m : Machine) (i : Nat) :
    (m.touch_pool i).frame = m.frame ∧ (m.touch_pool i).jvm = m.jvm := by
  unfold Machine.touch_pool
  split_ifs <;> exact ⟨rfl, rfl⟩

theorem utf8_position (m : Machine) (i : Nat) :
    (m.utf8 i).2.frame = m.frame ∧ (m.utf8 i).2.jvm = m.jvm := by
  unfold Machine.utf8
  split_ifs
  · exact ⟨rfl, rfl⟩
  · exact touch_pool_position m i

theorem resolve_method_ref_position (m : Machine) :
    (resolve_method_ref m).1.frame = (Bytecode.read_u2 m).2.frame ∧
    (resolve_method_ref m).1.jvm = (Bytecode.read_u2 m).2.jvm := by
  unfold resolve_method_ref
  simp only []
  split_ifs
  all_goals simp only [touch_pool_position, utf8_position, and_self]

theorem execute_opcode_invokestatic (P : Platform) (call : Machine → Outcome) (m m' : Machine)
    (h : execute_invokestatic P call m = some (0, m')) :
    execute_opcode P call m (some .INVOKESTATIC) = .next m' := by
  show (match execute_invokestatic P call m with
    | none => Step.out_of_fuel
    | some res => if res.1 ≠ 0 then Step.ret (-1) res.2 else Step.next res.2) = _
  rw [h]
  simp

theorem enters_method_position (m0 m : Machine) (target : MethodInfo)
    (method_name : Option (List Nat)) (d : List Nat)
    (h : enters_method m0 m target method_name d) (h0 : 0 ≤ m0.frame.pc)
    (hblock : m0.frame.pc + 1 < ((m0.frame.method.code.getD []).length : Int)) :
    m.frame = { m0.frame with pc := m0.frame.pc + 2 } ∧ m.jvm = m0.jvm := by
  obtain ⟨cn, n, hm, -⟩ := h
  subst hm
  obtain ⟨e1, e2⟩ := resolve_method_ref_position m0
  rw [e1, e2, read_u2_in_code m0 h0 hblock]
  exact ⟨rfl, rfl⟩

/-- Claim C13, amended: the result of the callee is not checked.  When the
`invokestatic` at `pc` enters a method of the current class and the
`execute_bytecode` of the callee returns any `r`, also the error result `-1`,
the caller goes on with the instruction behind the `invokestatic` (at `pc + 3`),
in the same method and class. -/
theorem callee_failure_ignored (P : Platform) (fuel : Nat) (m0 m : Machine)
    (target : MethodInfo) (method_name : Option (List Nat)) (d : List Nat) (r : Int)
    (callee : Machine) (hf : m0.fault = false) (h0 : 0 ≤ m0.frame.pc)
    (hlen : m0.frame.pc < (m0.frame.method.code_length : Int))
    (hblock : m0.frame.pc + 2 < ((m0.frame.method.code.getD []).length : Int))
    (hbyte : m0.code_byte m0.frame.pc = OpCode.INVOKESTATIC.byte)
    (h : enters_method (m0.set_pc (m0.frame.pc + 1)) m target method_name d)
    (hcall : execute_bytecode P fuel (invoke_parameters m target (some d)).2
      = .returned r callee) :
    ∃ m', execute_bytecode P (fuel + 1) m0 = execute_bytecode P fuel m' ∧
      m'.frame.position = { m0.frame with pc := m0.frame.pc + 3 }.position := by
  obtain ⟨m', e1, e2⟩ := invoke_current_class_position P (execute_bytecode P fuel) m target
    method_name (some d) r callee hcall
  have hpos := (enters_method_position _ m target method_name d h
    (show (0 : Int) ≤ m0.frame.pc + 1 by omega)
    (show m0.frame.pc + 1 + 1 < ((m0.frame.method.code.getD []).length : Int) by omega)).1
  refine ⟨m', ?_, ?_⟩
  · apply execute_bytecode_next P fuel m0 m' hf h0 hlen (by omega)
    rw [hbyte, of_byte_byte]
    apply execute_opcode_invokestatic
    rw [execute_invokestatic_enters P _ _ m target method_name d h, e1]
  · rw [e2, hpos]
    simp only [Frame.position, Machine.set_pc, Prod.mk.injEq, and_true]
    omega

theorem pop_int_in_bounds (m : Machine) (hf : m.fault = false) (htop : 1 ≤ m.frame.stack_top)
    (hs : m.frame.operand_stack + m.frame.stack_top ≤ MAX_STACK_SIZE) :
    pop_int m = (jvalue_i (m.stack (m.frame.stack_top - 1)),
      m.set_top (m.frame.stack_top - 1)) := by
  obtain ⟨jvm, frame, fault⟩ := m
  obtain ⟨locals, operand_stack, stack_top, pc, method, class_info⟩ := frame
  simp only [MAX_STACK_SIZE] at hf hs htop
  subst hf
  have a1 : 0 < stack_top := by omega
  have a2 : operand_stack + (stack_top - 1) < 2048 := by omega
  simp only [pop_int, Machine.set_top, Machine.touch_stack, Machine.stack, MAX_STACK_SIZE, a1,
    a2, gt_iff_lt, if_true]

theorem push_int_in_bounds (m : Machine) (value : Int) (hf : m.fault = false)
    (hs : m.frame.operand_stack + m.frame.stack_top < MAX_STACK_SIZE) :
    (push_int m value).fault = false ∧
    (push_int m value).frame = { m.frame with stack_top := m.frame.stack_top + 1 } ∧
    jvalue_i ((push_int m value).stack m.frame.stack_top) = toInt32 (bits32 value) ∧
    (∀ k, k ≠ m.frame.stack_top → (push_int m value).stack k = m.stack k) ∧
    (push_int m value).jvm.locals_memory = m.jvm.locals_memory := by
  obtain ⟨jvm, frame, fault⟩ := m
  obtain ⟨locals, operand_stack, stack_top, pc, method, class_info⟩ := frame
  simp only [MAX_STACK_SIZE] at hf hs
  subst hf
  have a1 : stack_top < 2048 := by omega
  simp only [push_int, Machine.set_stack, Machine.set_top, Machine.touch_stack, Machine.stack,
    MAX_STACK_SIZE, a1, hs, if_true, mem_set, jvalue_i_set_i, true_and]
  refine ⟨?_, trivial⟩
  intro k hk
  rw [if_neg (by omega)]

theorem ireturn_step (P : Platform) (fuel : Nat) (mc : Machine) (hf : mc.fault = false)
    (h0 : 0 ≤ mc.frame.pc) (hlen : mc.frame.pc < (mc.frame.method.code_length : Int))
    (hblock : mc.frame.pc < ((mc.frame.method.code.getD []).length : Int))
    (hbyte : mc.code_byte mc.frame.pc = OpCode.IRETURN.byte)
    (htop : 1 ≤ mc.frame.stack_top)
    (hs : mc.frame.operand_stack + mc.frame.stack_top ≤ MAX_STACK_SIZE) :
    execute_bytecode P (fuel + 1) mc
      = .returned (jvalue_i (mc.stack (mc.frame.stack_top - 1)))
          ((mc.set_pc (mc.frame.pc + 1)).set_top (mc.frame.stack_top - 1)) := by
  have hstep : execute_opcode P (execute_bytecode P fuel) (mc.set_pc (mc.frame.pc + 1))
      (OpCode.of_byte (mc.code_byte mc.frame.pc))
      = .ret (jvalue_i (mc.stack (mc.frame.stack_top - 1)))
          ((mc.set_pc (mc.frame.pc + 1)).set_top (mc.frame.stack_top - 1)) := by
    rw [hbyte, of_byte_byte]
    show Step.ret (pop_int (mc.set_pc (mc.frame.pc + 1))).1
      (pop_int (mc.set_pc (mc.frame.pc + 1))).2 = _
    rw [pop_int_in_bounds (mc.set_pc (mc.frame.pc + 1)) hf htop hs]
    rfl
  rw [execute_bytecode_ret P fuel mc _ _ hf h0 hlen hblock hstep]
  simp [Machine.set_pc, Machine.set_top, hf]

theorem invoke_current_class_int (P : Platform) (call : Machine → Outcome) (m : Machine)
    (target : MethodInfo) (method_name : Option (List Nat)) (d : List Nat) (v : Int)
    (callee : Machine) (hf : m.fault = false)
    (hs : m.frame.operand_stack + 514 ≤ MAX_STACK_SIZE)
    (hl : m.frame.locals + 258 ≤ LOCALS_REACH)
    (htop : m.frame.operand_stack + m.frame.stack_top ≤ MAX_STACK_SIZE)
    (hargs : descriptor_pops d ≤ m.frame.stack_top)
    (hroom : m.frame.operand_stack + (m.frame.stack_top - descriptor_pops d) < MAX_STACK_SIZE)
    (hi : strstr d (lit ")I") = true)
    (hcall : call (invoke_parameters m target (some d)).2 = .returned v callee)
    (hcf : callee.fault = false)
    (hcs : callee.frame.operand_stack + callee.frame.stack_top ≤ MAX_STACK_SIZE) :
    ∃ m', invoke_current_class P call m target method_name (some d) = some (0, m') ∧
      m'.fault = false ∧
      m'.frame.stack_top = m.frame.stack_top - descriptor_pops d + 1 ∧
      jvalue_i (m'.stack (m.frame.stack_top - descriptor_pops d))
        = if callee.frame.stack_top = 0 then toInt32 (bits32 v)
          else jvalue_i (callee.stack (callee.frame.stack_top - 1)) := by
  obtain ⟨c1, c2, _⟩ := invoke_parameters_caller m target d hf hs hl htop hargs
  unfold invoke_current_class
  simp only [c2, hcall, has_str, hi, Bool.false_eq_true, if_false, if_true, c1]
  by_cases ht : callee.frame.stack_top > 0
  · have hne : callee.frame.stack_top ≠ 0 := by omega
    have htouch : (callee.touch_stack (callee.frame.stack_top - 1)).fault = false := by
      unfold Machine.touch_stack
      rw [if_pos (by omega)]
      exact hcf
    rw [if_pos ht, if_neg hne, htouch]
    obtain ⟨p1, p2, p3, _⟩ := push_int_in_bounds
      ⟨callee.jvm, (m.set_top (m.frame.stack_top - descriptor_pops d)).frame, false⟩
      (jvalue_i (callee.stack (callee.frame.stack_top - 1))) rfl hroom
    refine ⟨_, rfl, p1, ?_, ?_⟩
    · rw [p2]; rfl
    · exact p3.trans (jvalue_i_bits32 _)
  · have he : callee.frame.stack_top = 0 := by omega
    rw [if_neg ht, if_pos he]
    obtain ⟨p1, p2, p3, _⟩ := push_int_in_bounds
      ⟨callee.jvm, (m.set_top (m.frame.stack_top - descriptor_pops d)).frame, callee.fault⟩
      v hcf hroom
    refine ⟨_, rfl, p1, ?_, p3⟩
    rw [p2]; rfl

/-- What `execute_invokestatic` pushes for a descriptor with `)I`, in frames without
a fault: an `ireturn` pops the top value `v` and returns it; when the callee
returned `v`, the int pushed is `v` if the operand stack of the callee is empty
then, and else the int in the top slot the callee left. -/
theorem int_return_value (P : Platform) (call : Machine → Outcome) (m0 m : Machine)
    (target : MethodInfo) (method_name : Option (List Nat)) (d : List Nat) (v : Int)
    (callee : Machine) (h : enters_method m0 m target method_name d)
    (hf : m.fault = false) (hs : m.frame.operand_stack + 514 ≤ MAX_STACK_SIZE)
    (hl : m.frame.locals + 258 ≤ LOCALS_REACH)
    (htop : m.frame.operand_stack + m.frame.stack_top ≤ MAX_STACK_SIZE)
    (hargs : descriptor_pops d ≤ m.frame.stack_top)
    (hroom : m.frame.operand_stack + (m.frame.stack_top - descriptor_pops d) < MAX_STACK_SIZE)
    (hi : strstr d (lit ")I") = true)
    (hcall : call (invoke_parameters m target (some d)).2 = .returned v callee)
    (hcf : callee.fault = false)
    (hcs : callee.frame.operand_stack + callee.frame.stack_top ≤ MAX_STACK_SIZE) :
    (∀ (fuel : Nat) (mc : Machine), mc.fault = false → 0 ≤ mc.frame.pc →
      mc.frame.pc < (mc.frame.method.code_length : Int) →
      mc.frame.pc < ((mc.frame.method.code.getD []).length : Int) →
      mc.code_byte mc.frame.pc = OpCode.IRETURN.byte → 1 ≤ mc.frame.stack_top →
      mc.frame.operand_stack + mc.frame.stack_top ≤ MAX_STACK_SIZE →
      execute_bytecode P (fuel + 1) mc
        = .returned (jvalue_i (mc.stack (mc.frame.stack_top - 1)))
            ((mc.set_pc (mc.frame.pc + 1)).set_top (mc.frame.stack_top - 1))) ∧
    ∃ m', execute_invokestatic P call m0 = some (0, m') ∧ m'.fault = false ∧
      m'.frame.stack_top = m.frame.stack_top - descriptor_pops d + 1 ∧
      jvalue_i (m'.stack (m.frame.stack_top - descriptor_pops d))
        = if callee.frame.stack_top = 0 then toInt32 (bits32 v)
          else jvalue_i (callee.stack (callee.frame.stack_top - 1)) := by
  refine ⟨fun fuel mc a b c e f g i => ireturn_step P fuel mc a b c e f g i, ?_⟩
  rw [execute_invokestatic_enters P call m0 m target method_name d h]
  exact invoke_current_class_int P call m target method_name d v callee hf hs hl htop hargs
    hroom hi hcall hcf hcs

theorem invokestatic_host_other (P : Platform) (m : Machine)
    (class_name method_name descriptor : Option (List Nat))
    (hsys : has_str class_name (lit "System") = false)
    (hscanner : has_str class_name (lit "Scanner") = false) :
    invokestatic_host P m class_name method_name descriptor = m := by
  unfold invokestatic_host
  simp only [hsys, hscanner, Bool.false_eq_true, if_false]

theorem execute_invokestatic_host (P : Platform) (call : Machine → Outcome) (m0 : Machine)
    (class_name method_name descriptor : Option (List Nat))
    (hres : (resolve_method_ref m0).2 = some (class_name, method_name, descriptor))
    (hscan : (selected_method (resolve_method_ref m0).1 class_name method_name).2 = false)
    (hnone : ∀ t, (selected_method (resolve_method_ref m0).1 class_name method_name).1 = some t →
      t.code = none) :
    execute_invokestatic P call m0
      = some (0, invokestatic_host P (resolve_method_ref m0).1 class_name method_name
          descriptor) := by
  unfold selected_method at hscan hnone
  simp only [Bool.and_eq_false_imp] at hscan
  unfold execute_invokestatic
  simp only [hres]
  split
  · rename_i hboth
    have h2 := hscan hboth.1
    exact absurd (h2.symm.trans hboth.2) (by decide)
  · split
    · rename_i t heq
      have hcode := hnone t heq
      simp [hcode]
    · rfl

theorem selected_method_class (a b : Machine) (class_name method_name : Option (List Nat))
    (h : a.frame.class_info = b.frame.class_info) :
    selected_method a class_name method_name = selected_method b class_name method_name := by
  unfold selected_method
  rw [h]

theorem resolve_method_ref_machine (m : Machine) (hf : m.fault = false) (h0 : 0 ≤ m.frame.pc)
    (hblock : m.frame.pc + 1 < ((m.frame.method.code.getD []).length : Int))
    (hpool : (resolve_method_ref m).1.fault = false) :
    (resolve_method_ref m).1 = m.set_pc (m.frame.pc + 2) := by
  obtain ⟨e1, e2⟩ := resolve_method_ref_position m
  rw [read_u2_in_code m h0 hblock] at e1 e2
  have eta : (resolve_method_ref m).1
      = ⟨(resolve_method_ref m).1.jvm, (resolve_method_ref m).1.frame,
          (resolve_method_ref m).1.fault⟩ := rfl
  rw [eta, e1, e2, hpool]
  simp only [Machine.set_pc, hf]

/-- Claim C14, amended: an `invokestatic` whose names select no method with code
in the current class, and whose class name contains neither `System` nor
`Scanner`, is passed over.  Execution continues behind the instruction (at
`pc + 3`) with the operand stack, the locals and the rest of the VM unchanged;
no error is returned. -/
theorem unknown_static_method_ignored (P : Platform) (fuel : Nat) (m0 : Machine)
    (class_name method_name descriptor : Option (List Nat))
    (hf : m0.fault = false) (h0 : 0 ≤ m0.frame.pc)
    (hlen : m0.frame.pc < (m0.frame.method.code_length : Int))
    (hblock : m0.frame.pc + 2 < ((m0.frame.method.code.getD []).length : Int))
    (hbyte : m0.code_byte m0.frame.pc = OpCode.INVOKESTATIC.byte)
    (hres : (resolve_method_ref (m0.set_pc (m0.frame.pc + 1))).2
      = some (class_name, method_name, descriptor))
    (hpool : (resolve_method_ref (m0.set_pc (m0.frame.pc + 1))).1.fault = false)
    (hscan : (selected_method m0 class_name method_name).2 = false)
    (hnone : ∀ t, (selected_method m0 class_name method_name).1 = some t → t.code = none)
    (hsys : has_str class_name (lit "System") = false)
    (hscanner : has_str class_name (lit "Scanner") = false) :
    execute_bytecode P (fuel + 1) m0 = execute_bytecode P fuel (m0.set_pc (m0.frame.pc + 3)) := by
  have hm := resolve_method_ref_machine (m0.set_pc (m0.frame.pc + 1)) hf
    (show (0 : Int) ≤ m0.frame.pc + 1 by omega)
    (show m0.frame.pc + 1 + 1 < ((m0.frame.method.code.getD []).length : Int) by omega) hpool
  have hsel : selected_method (resolve_method_ref (m0.set_pc (m0.frame.pc + 1))).1 class_name
      method_name = selected_method m0 class_name method_name :=
    selected_method_class _ _ _ _ (by rw [hm]; rfl)
  apply execute_bytecode_next P fuel m0 _ hf h0 hlen (by omega)
  rw [hbyte, of_byte_byte]
  apply execute_opcode_invokestatic
  rw [execute_invokestatic_host P _ _ class_name method_name descriptor hres
    (by rw [hsel]; exact hscan) (by rw [hsel]; exact hnone),
    invokestatic_host_other P _ _ _ _ hsys hscanner, hm]
  simp only [Machine.set_pc]
  congr 4
  omega

/-! ### Integer division -/

theorem toInt32_range (n : Nat) : -2147483648 ≤ toInt32 n ∧ toInt32 n < 2147483648 := by
  unfold toInt32
  split_ifs <;> omega

theorem toInt32_bits32_of_range (v : Int) (h1 : -2147483648 ≤ v) (h2 : v < 2147483648) :
    toInt32 (bits32 v) = v := by
  unfold toInt32 bits32
  split_ifs <;> omega

theorem tdiv_in_range (a b : Int) (h1 : -2147483648 ≤ a) (h2 : a < 2147483648) (hb : b ≠ 0)
    (hov : ¬(a = -2147483648 ∧ b = -1)) :
    -2147483648 ≤ a.tdiv b ∧ a.tdiv b < 2147483648 := by
  by_cases hb1 : b = 1
  · subst hb1
    rw [Int.tdiv_one]
    exact ⟨h1, h2⟩
  · by_cases hbm : b = -1
    · subst hbm
      rw [Int.tdiv_neg, Int.tdiv_one]
      omega
    · have hq := Int.natAbs_tdiv a b
      have hb2 : 2 ≤ b.natAbs := by omega
      have hle : (a.natAbs).div (b.natAbs) ≤ a.natAbs / 2 :=
        Nat.div_le_div_left hb2 (by decide)
      have ha : a.natAbs ≤ 2147483648 := by omega
      have : (a.tdiv b).natAbs ≤ 1073741824 := by
        rw [hq]
        omega
      omega

theorem push_int_fault (m : Machine) (value : Int) (h : m.fault = true) :
    (push_int m value).fault = true := by
  unfold push_int Machine.set_stack Machine.set_top Machine.touch_stack
  split_ifs <;> first | rfl | exact h

theorem pop_two_ints (m : Machine) (hf : m.fault = false) (htop : 2 ≤ m.frame.stack_top)
    (hs : m.frame.operand_stack + m.frame.stack_top ≤ MAX_STACK_SIZE) :
    pop_int m = (jvalue_i (m.stack (m.frame.stack_top - 1)),
      m.set_top (m.frame.stack_top - 1)) ∧
    pop_int (pop_int m).2 = (jvalue_i (m.stack (m.frame.stack_top - 2)),
      m.set_top (m.frame.stack_top - 2)) := by
  have p1 := pop_int_in_bounds m hf (by omega) hs
  refine ⟨p1, ?_⟩
  rw [p1]
  have p2 := pop_int_in_bounds (m.set_top (m.frame.stack_top - 1)) hf
    (show 1 ≤ m.frame.stack_top - 1 by omega)
    (show m.frame.operand_stack + (m.frame.stack_top - 1) ≤ MAX_STACK_SIZE by omega)
  rw [p2]
  simp only [Machine.set_top, Machine.stack, Nat.sub_sub]

theorem idiv_irem_zero (P : Platform) (fuel : Nat) (m : Machine) (hf : m.fault = false)
    (h0 : 0 ≤ m.frame.pc) (hlen : m.frame.pc < (m.frame.method.code_length : Int))
    (hblock : m.frame.pc < ((m.frame.method.code.getD []).length : Int))
    (hs : m.frame.operand_stack + m.frame.stack_top ≤ MAX_STACK_SIZE)
    (htop : 2 ≤ m.frame.stack_top)
    (hbyte : m.code_byte m.frame.pc = OpCode.IDIV.byte ∨ m.code_byte m.frame.pc = OpCode.IREM.byte)
    (hb : jvalue_i (m.stack (m.frame.stack_top - 1)) = 0) :
    execute_bytecode P (fuel + 1) m
      = .returned (-1) ((m.set_pc (m.frame.pc + 1)).set_top (m.frame.stack_top - 2)) := by
  obtain ⟨p1, p2⟩ := pop_two_ints (m.set_pc (m.frame.pc + 1)) hf htop hs
  have hstep : execute_opcode P (execute_bytecode P fuel) (m.set_pc (m.frame.pc + 1))
      (OpCode.of_byte (m.code_byte m.frame.pc))
      = .ret (-1) ((m.set_pc (m.frame.pc + 1)).set_top (m.frame.stack_top - 2)) := by
    rcases hbyte with hbyte | hbyte
    · rw [hbyte, of_byte_byte]
      show (if (pop_int (m.set_pc (m.frame.pc + 1))).1 = 0
        then Step.ret (-1) (pop_int (pop_int (m.set_pc (m.frame.pc + 1))).2).2 else _) = _
      rw [p2, p1]
      exact if_pos hb
    · rw [hbyte, of_byte_byte]
      show (if (pop_int (m.set_pc (m.frame.pc + 1))).1 = 0
        then Step.ret (-1) (pop_int (pop_int (m.set_pc (m.frame.pc + 1))).2).2 else _) = _
      rw [p2, p1]
      exact if_pos hb
  rw [execute_bytecode_ret P fuel m _ _ hf h0 hlen hblock hstep]
  simp [Machine.set_pc, Machine.set_top, hf]

theorem idiv_step (P : Platform) (call : Machine → Outcome) (m : Machine) (hf : m.fault = false)
    (hs : m.frame.operand_stack + m.frame.stack_top ≤ MAX_STACK_SIZE)
    (htop : 2 ≤ m.frame.stack_top)
    (hb : jvalue_i (m.stack (m.frame.stack_top - 1)) ≠ 0) :
    execute_opcode P call m (some .IDIV)
      = .next (push_int
          (checked_div (m.set_top (m.frame.stack_top - 2)) 32
            (jvalue_i (m.stack (m.frame.stack_top - 2)))
            (jvalue_i (m.stack (m.frame.stack_top - 1)))).2
          (Int.tdiv (jvalue_i (m.stack (m.frame.stack_top - 2)))
            (jvalue_i (m.stack (m.frame.stack_top - 1))))) := by
  obtain ⟨p1, p2⟩ := pop_two_ints m hf htop hs
  show (if (pop_int m).1 = 0 then Step.ret (-1) (pop_int (pop_int m).2).2
    else Step.next (push_int
      (checked_div (pop_int (pop_int m).2).2 32 (pop_int (pop_int m).2).1 (pop_int m).1).2
      (checked_div (pop_int (pop_int m).2).2 32 (pop_int (pop_int m).2).1 (pop_int m).1).1)) = _
  rw [p2, p1]
  exact if_neg hb

theorem idiv_quotient (P : Platform) (fuel : Nat) (m : Machine) (hf : m.fault = false)
    (h0 : 0 ≤ m.frame.pc) (hlen : m.frame.pc < (m.frame.method.code_length : Int))
    (hblock : m.frame.pc < ((m.frame.method.code.getD []).length : Int))
    (hs : m.frame.operand_stack + m.frame.stack_top ≤ MAX_STACK_SIZE)
    (htop : 2 ≤ m.frame.stack_top)
    (hbyte : m.code_byte m.frame.pc = OpCode.IDIV.byte)
    (hb : jvalue_i (m.stack (m.frame.stack_top - 1)) ≠ 0)
    (hov : ¬(jvalue_i (m.stack (m.frame.stack_top - 2)) = -2147483648 ∧
      jvalue_i (m.stack (m.frame.stack_top - 1)) = -1)) :
    ∃ m', execute_bytecode P (fuel + 1) m = execute_bytecode P fuel m' ∧ m'.fault = false ∧
      m'.frame = { m.frame with pc := m.frame.pc + 1, stack_top := m.frame.stack_top - 1 } ∧
      jvalue_i (m'.stack (m.frame.stack_top - 2))
        = Int.tdiv (jvalue_i (m.stack (m.frame.stack_top - 2)))
            (jvalue_i (m.stack (m.frame.stack_top - 1))) ∧
      (∀ k, k ≠ m.frame.stack_top - 2 → m'.stack k = m.stack k) ∧
      m'.jvm.locals_memory = m.jvm.locals_memory := by
  have hc : (checked_div ((m.set_pc (m.frame.pc + 1)).set_top (m.frame.stack_top - 2)) 32
      (jvalue_i (m.stack (m.frame.stack_top - 2)))
      (jvalue_i (m.stack (m.frame.stack_top - 1)))).2
      = (m.set_pc (m.frame.pc + 1)).set_top (m.frame.stack_top - 2) := by
    unfold checked_div
    have e : -(2 : Int) ^ (32 - 1) = -2147483648 := by norm_num
    rw [e, if_neg hov]
  obtain ⟨q1, q2, q3, q4, q5⟩ := push_int_in_bounds
    ((m.set_pc (m.frame.pc + 1)).set_top (m.frame.stack_top - 2))
    (Int.tdiv (jvalue_i (m.stack (m.frame.stack_top - 2)))
      (jvalue_i (m.stack (m.frame.stack_top - 1)))) hf
    (show m.frame.operand_stack + (m.frame.stack_top - 2) < MAX_STACK_SIZE by omega)
  obtain ⟨r1, r2⟩ := tdiv_in_range _ _ (toInt32_range (m.stack (m.frame.stack_top - 2))).1
    (toInt32_range (m.stack (m.frame.stack_top - 2))).2 hb hov
  refine ⟨_, execute_bytecode_next P fuel m _ hf h0 hlen hblock ?_, q1, ?_, ?_, ?_, q5⟩
  · rw [hbyte, of_byte_byte]
    have hst := idiv_step P (execute_bytecode P fuel) (m.set_pc (m.frame.pc + 1)) hf hs htop hb
    rw [hst]
    exact congrArg Step.next (congrArg (fun x => push_int x _) hc)
  · rw [q2]
    simp only [Machine.set_pc, Machine.set_top]
    congr 1
    omega
  · exact q3.trans (toInt32_bits32_of_range _ r1 r2)
  · exact q4

theorem idiv_overflow_fault (P : Platform) (fuel : Nat) (m : Machine) (hf : m.fault = false)
    (h0 : 0 ≤ m.frame.pc) (hlen : m.frame.pc < (m.frame.method.code_length : Int))
    (hblock : m.frame.pc < ((m.frame.method.code.getD []).length : Int))
    (hs : m.frame.operand_stack + m.frame.stack_top ≤ MAX_STACK_SIZE)
    (htop : 2 ≤ m.frame.stack_top)
    (hbyte : m.code_byte m.frame.pc = OpCode.IDIV.byte)
    (ha : jvalue_i (m.stack (m.frame.stack_top - 2)) = -2147483648)
    (hb : jvalue_i (m.stack (m.frame.stack_top - 1)) = -1) :
    execute_bytecode P (fuel + 2) m = .fault := by
  have hb0 : jvalue_i (m.stack (m.frame.stack_top - 1)) ≠ 0 := by rw [hb]; decide
  have hst := idiv_step P (execute_bytecode P (fuel + 1)) (m.set_pc (m.frame.pc + 1)) hf hs
    htop hb0
  rw [execute_bytecode_next P (fuel + 1) m _ hf h0 hlen hblock
    (by rw [hbyte, of_byte_byte]; exact hst)]
  have hfault : (push_int
      (checked_div ((m.set_pc (m.frame.pc + 1)).set_top
        ((m.set_pc (m.frame.pc + 1)).frame.stack_top - 2)) 32
        (jvalue_i ((m.set_pc (m.frame.pc + 1)).stack
          ((m.set_pc (m.frame.pc + 1)).frame.stack_top - 2)))
        (jvalue_i ((m.set_pc (m.frame.pc + 1)).stack
          ((m.set_pc (m.frame.pc + 1)).frame.stack_top - 1)))).2
      (Int.tdiv (jvalue_i ((m.set_pc (m.frame.pc + 1)).stack
          ((m.set_pc (m.frame.pc + 1)).frame.stack_top - 2)))
        (jvalue_i ((m.set_pc (m.frame.pc + 1)).stack
          ((m.set_pc (m.frame.pc + 1)).frame.stack_top - 1))))).fault = true := by
    apply push_int_fault
    unfold checked_div
    have e : -(2 : Int) ^ (32 - 1) = -2147483648 := by norm_num
    rw [e, if_pos ⟨ha, hb⟩]
  rw [execute_bytecode_succ, if_pos hfault]

/-! ### Examples for the interpreter -/

/-- Claim C11 at the input `f = iconst_1; iconst_2; ireturn` (descriptor `()I`),
`main = invokestatic f; ireturn`: `f` executes `ireturn` with 2 on top of 1 and
returns 2, but `main` receives 1.  The block `Handle return values` of
`execute_invokestatic` reads the top slot the callee left, which is the slot
beneath the value `ireturn` has already popped; only when the callee left
nothing it pushes the value that was returned, as for `f = iconst_2; ireturn`,
where `main` receives 2. -/
theorem stale_slot_returned :
    (run_method stale_slot_class "f").result = some 2 ∧
    (run_main stale_slot_class).result = some 1 ∧
    (run_method clean_return_class "f").result = some 2 ∧
    (run_main clean_return_class).result = some 2 := by
  decide

/-- Counterexample to claim C12 as stated: after `invokestatic` of a method with
the descriptor `(III)V` the three ints are still on the stack of `main` (it
returns the 3 on top, and the depth after its `ireturn` is 2); after
`invokestatic` of a method with the descriptor `()J` nothing was pushed; and on
a full operand stack the int a method with the descriptor `()I` returned is not
pushed (`main` returns the 7 that was on top, from the depth 2048). -/
theorem three_ints_not_popped :
    (run_main three_int_class).result = some 3 ∧
    (run_main three_int_class).machine.map (fun m => m.frame.stack_top) = some 2 ∧
    (run_main long_return_class).machine.map (fun m => m.frame.stack_top) = some 0 ∧
    full_call_machine.frame.stack_top = MAX_STACK_SIZE ∧
    (execute_bytecode stub_platform 6 full_call_machine).result = some 7 ∧
    (execute_bytecode stub_platform 6 full_call_machine).machine.map
      (fun m => (m.frame.stack_top, m.fault)) = some (2047, false) := by
  decide

/-- Counterexample to claim C13 as stated: `f` fails with `-1` (unknown opcode, and
`idiv` by zero), yet `main` goes on behind `invokestatic f` and returns 5. -/
theorem caller_continues_after_failure :
    (run_method failing_callee_class "f").result = some (-1) ∧
    (run_main failing_callee_class).result = some 5 ∧
    (run_method dividing_callee_class "f").result = some (-1) ∧
    (run_main dividing_callee_class).result = some 5 := by
  decide

/-- Counterexample to claim C14 as stated: `invokestatic Other.f` in a VM that has
no such method does not fail; `main` returns the 5 it pushed before. -/
theorem missing_method_continues :
    (run_main missing_method_class).result = some 5 ∧
    (run_main missing_method_class).machine.map (fun m => m.fault) = some false := by
  decide

/-- Counterexample to claim C15 as stated: `f` returns the null reference with
`areturn`, and `main` receives the reference 4096 to a new string; with 256
strings in the pool `main` receives the null reference and no string is
created. -/
theorem null_return_replaced :
    (run_method null_string_class "f").result = some 0 ∧
    (run_main null_string_class).result = some 4096 ∧
    (execute_bytecode stub_platform 6 full_pool_call_machine).result = some 0 ∧
    (execute_bytecode stub_platform 6 full_pool_call_machine).machine.map
      (fun m => (m.jvm.string_pool.count, m.fault)) = some (256, false) := by
  decide

/-- Counterexample to claim C17 as stated: a `goto` to the offset `code_length`,
and a `goto` to an offset far behind the code, end `main` with the result 0. -/
theorem goto_past_end_returns_zero :
    (run_main goto_end_class).result = some 0 ∧
    (run_main goto_far_class).result = some 0 := by
  decide

/-- Claim C18 at the input `INT_MIN / -1`: `idiv` evaluates the C expression
`value1 / value2`, whose quotient is not representable in `jint`, which is
undefined behaviour in C (`Outcome.fault`); no `INT_MIN` is pushed. -/
theorem idiv_int_min_undefined :
    jvalue_i (idiv_overflow_machine.stack 0) = -2147483648 ∧
    jvalue_i (idiv_overflow_machine.stack 1) = -1 ∧
    execute_bytecode stub_platform 2 idiv_overflow_machine = .fault :=
  ⟨by decide, by decide, idiv_overflow_fault stub_platform 0 idiv_overflow_machine rfl
    (by decide) (by decide) (by decide) (by decide) (by decide) (by decide) (by decide)
    (by decide)⟩

/-- Counterexample to claim C10 as stated.  A method `sq` with the descriptor `(I)V`
and the body `iload_0; iload_0; imul; ireturn` returns `x * x` to
`execute_invokestatic`, which pushes nothing for this descriptor: `main`
(`bipush 7; invokestatic sq; ireturn`) ends with an empty operand stack and the
result 0, where the same code with the descriptor `(I)I` gives 49.  And a method
`sq` of the current class without a Code attribute is not entered: the argument
is not popped, and `main` returns the 7 it pushed. -/
theorem square_not_pushed :
    (run_method void_square_class "sq").result = some 0 ∧
    (execute_bytecode stub_platform 4
      (machine_in void_square_class (call_callee "sq" "(I)V" square_code) [] 0)).result
      = some 0 ∧
    (run_main void_square_class).result = some 0 ∧
    (run_main void_square_class).machine.map (fun m => (m.frame.stack_top, m.fault))
      = some (0, false) ∧
    (run_main int_square_class).result = some 49 ∧
    (run_main native_square_class).result = some 7 ∧
    (run_main native_square_class).machine.map (fun m => (m.frame.stack_top, m.fault))
      = some (0, false) := by
  decide

/-- A method that consists of the byte `0xff` returns `-1` behind that byte. -/
theorem unknown_opcode_fatal_witness :
    ∃ m', execute_bytecode stub_platform (0 + 1)
        (machine_in failing_callee_class (call_callee "f" "()V" [0xff]) [] 0)
        = .returned (-1) m' ∧ m'.frame.pc = 1 ∧ m'.frame.stack_top = 0 := by
  obtain ⟨m', h1, _, h3, _⟩ := unknown_opcode_fatal stub_platform 0
    (machine_in failing_callee_class (call_callee "f" "()V" [0xff]) [] 0) rfl (by decide)
    (by decide) (by decide) (by decide)
  exact ⟨m', h1, by rw [h3]; rfl, by rw [h3]; rfl⟩

/-- The branch `if_icmplt +5` on 3 and 7 is taken: the run continues at offset 5
with an empty stack and returns 1. -/
theorem branch_next_pc_witness :
    execute_bytecode stub_platform (2 + 1)
        (machine_in compare_class (call_main [0xa1, 0, 5, 0x03, 0xac, 0x04, 0xac]) [3, 7] 0)
      = execute_bytecode stub_platform 2
          (((machine_in compare_class (call_main [0xa1, 0, 5, 0x03, 0xac, 0x04, 0xac]) [3, 7]
            0).set_top 0).set_pc 5) ∧
    (execute_bytecode stub_platform (2 + 1)
        (machine_in compare_class (call_main [0xa1, 0, 5, 0x03, 0xac, 0x04, 0xac]) [3, 7]
          0)).result = some 1 := by
  have h := (branch_next_pc stub_platform 2
    (machine_in compare_class (call_main [0xa1, 0, 5, 0x03, 0xac, 0x04, 0xac]) [3, 7] 0) rfl
    (by decide) (by decide) (by decide) (by decide)).2.2 .IF_ICMPLT
    (fun value1 value2 => decide (value1 < value2))
    (List.Mem.tail _ (List.Mem.tail _ (List.Mem.head _))) (by decide) (by decide)
  exact ⟨h, by rw [h]; decide⟩

/-- The code `goto +4; nop` returns 0. -/
theorem branch_past_end_returns_witness :
    (execute_bytecode stub_platform (0 + 2)
      (machine_in goto_end_class (call_main [0xa7, 0, 4, 0x00]) [] 0)).result = some 0 := by
  rw [(branch_past_end_returns stub_platform 0
    (machine_in goto_end_class (call_main [0xa7, 0, 4, 0x00]) [] 0) rfl (by decide) (by decide)
    (by decide) (by decide) (by decide)).1 (by decide)]
  rfl

/-- The run of `iconst_5; invokestatic Other.f; ireturn` from the `invokestatic`
on returns 5. -/
theorem unknown_static_method_ignored_witness :
    (execute_bytecode stub_platform (3 + 1)
      (machine_in missing_method_class (call_main [0x08, 0xb8, 0, 6, 0xac]) [5] 1)).result
      = some 5 := by
  rw [unknown_static_method_ignored stub_platform 3
    (machine_in missing_method_class (call_main [0x08, 0xb8, 0, 6, 0xac]) [5] 1)
    (some (lit "Other")) (some (lit "f")) (some (lit "()V")) rfl (by decide) (by decide)
    (by decide) (by decide) (by decide) (by decide) (by decide) (by decide) (by decide)
    (by decide)]
  decide

/-- After the `invokestatic` of a method that consists of the byte `0xff`, the run
continues at offset 3. -/
theorem callee_failure_ignored_witness :
    ∃ m', execute_bytecode stub_platform (3 + 1)
        (machine_in failing_callee_class (call_main [0xb8, 0, 6, 0x08, 0xac]) [] 0)
        = execute_bytecode stub_platform 3 m' ∧ m'.frame.pc = 3 := by
  obtain ⟨m', h1, h2⟩ := callee_failure_ignored stub_platform 3
    (machine_in failing_callee_class (call_main [0xb8, 0, 6, 0x08, 0xac]) [] 0)
    (resolve_method_ref ((machine_in failing_callee_class
      (call_main [0xb8, 0, 6, 0x08, 0xac]) [] 0).set_pc 1)).1
    (call_callee "f" "()V" [0xff]) (some (lit "f")) (lit "()V") (-1) _ rfl (by decide)
    (by decide) (by decide) (by decide)
    ⟨lit "Test", lit "Test", rfl, by decide, by decide, by decide, by decide, by decide⟩ rfl
  exact ⟨m', h1, congrArg Prod.fst h2⟩

/-- The `invokestatic` of `iconst_1; iconst_2; ireturn` pushes 1. -/
theorem int_return_value_example :
    ∃ m', execute_invokestatic stub_platform (execute_bytecode stub_platform 5)
        (machine_in stale_slot_class (call_main [0xb8, 0, 6, 0xac]) [] 1)
        = some (0, m') ∧ m'.frame.stack_top = 1 ∧ jvalue_i (m'.stack 0) = 1 := by
  obtain ⟨m', h1, _, h3, h4⟩ := (int_return_value stub_platform
    (execute_bytecode stub_platform 5)
    (machine_in stale_slot_class (call_main [0xb8, 0, 6, 0xac]) [] 1)
    (resolve_method_ref (machine_in stale_slot_class (call_main [0xb8, 0, 6, 0xac]) [] 1)).1
    (call_callee "f" "()I" [0x04, 0x05, 0xac]) (some (lit "f")) (lit "()I") 2 _
    ⟨lit "Test", lit "Test", rfl, by decide, by decide, by decide, by decide, by decide⟩
    (by decide) (by decide) (by decide) (by decide) (by decide) (by decide) (by decide) rfl
    (by decide) (by decide)).2
  exact ⟨m', h1, h3.trans (by decide), h4.trans (by decide)⟩

/-! ### Constants from the code: `bipush` and `sipush` -/

theorem toInt8_value (b : Nat) (hb : b < 256) :
    toInt8 b = if b < 128 then (b : Int) else (b : Int) - 256 := by
  unfold toInt8
  rw [Nat.mod_eq_of_lt hb]

theorem toInt16_value (u : Nat) (hu : u < 65536) :
    Bytecode.toInt16 u = if u < 32768 then (u : Int) else (u : Int) - 65536 := by
  unfold Bytecode.toInt16
  rw [Nat.mod_eq_of_lt hu]

theorem set_pc_twice (m : Machine) (a b : Int) : (m.set_pc a).set_pc b = m.set_pc b := rfl

theorem push_int_full (m : Machine) (value : Int) (h : MAX_STACK_SIZE ≤ m.frame.stack_top) :
    push_int m value = m := by
  unfold push_int
  rw [if_neg (by omega)]

theorem push_int_word (m : Machine) (value : Int) (h : m.frame.stack_top < MAX_STACK_SIZE) :
    (push_int m value).frame = { m.frame with stack_top := m.frame.stack_top + 1 } ∧
    jvalue_i ((push_int m value).stack m.frame.stack_top) = toInt32 (bits32 value) ∧
    (∀ k, k ≠ m.frame.stack_top → (push_int m value).stack k = m.stack k) := by
  obtain ⟨jvm, frame, fault⟩ := m
  obtain ⟨locals, operand_stack, stack_top, pc, method, class_info⟩ := frame
  simp only [MAX_STACK_SIZE] at h
  simp only [push_int, Machine.set_stack, Machine.set_top, Machine.stack, MAX_STACK_SIZE, h,
    if_true, mem_set, jvalue_i_set_i, true_and]
  intro k hk
  rw [if_neg (by omega)]

/-- Claim C29, amended: on a full operand stack nothing is pushed.  The run goes on
2 bytes behind `bipush` with `push_int` of `b` read as a signed 8-bit value,
where `b` is the operand byte (`b` for `b < 128`, else `b - 256`, so `0xFF`
gives `-1`), and 3 bytes behind `sipush` with `push_int` of the signed 16-bit
value of the operand bytes `b1 b2` (`u = 256 * b1 + b2` for `u < 32768`, else
`u - 65536`).  When the frame holds fewer than `MAX_STACK_SIZE` values, the
value is on top of the stack afterwards, the depth has grown by one and the
other slots are unchanged; when moreover the free slot lies inside
`stack_memory`, there is no fault and the locals are unchanged.  When the frame
holds `MAX_STACK_SIZE` values nothing is pushed and only `pc` has changed. -/
theorem bipush_sipush_value (P : Platform) (fuel : Nat) (m : Machine) (hf : m.fault = false)
    (h0 : 0 ≤ m.frame.pc) (hlen : m.frame.pc < (m.frame.method.code_length : Int)) :
    (m.code_byte m.frame.pc = OpCode.BIPUSH.byte →
      m.frame.pc + 1 < ((m.frame.method.code.getD []).length : Int) →
      execute_bytecode P (fuel + 1) m
        = execute_bytecode P fuel
            (push_int (m.set_pc (m.frame.pc + 2)) (toInt8 (m.code_byte (m.frame.pc + 1)))) ∧
      toInt8 (m.code_byte (m.frame.pc + 1))
        = (if m.code_byte (m.frame.pc + 1) < 128 then (m.code_byte (m.frame.pc + 1) : Int)
           else (m.code_byte (m.frame.pc + 1) : Int) - 256) ∧
      (m.frame.stack_top < MAX_STACK_SIZE →
        (push_int (m.set_pc (m.frame.pc + 2)) (toInt8 (m.code_byte (m.frame.pc + 1)))).frame
          = { m.frame with pc := m.frame.pc + 2, stack_top := m.frame.stack_top + 1 } ∧
        jvalue_i ((push_int (m.set_pc (m.frame.pc + 2))
            (toInt8 (m.code_byte (m.frame.pc + 1)))).stack m.frame.stack_top)
          = toInt8 (m.code_byte (m.frame.pc + 1)) ∧
        (∀ k, k ≠ m.frame.stack_top →
          (push_int (m.set_pc (m.frame.pc + 2)) (toInt8 (m.code_byte (m.frame.pc + 1)))).stack k
            = m.stack k)) ∧
      (m.frame.operand_stack + m.frame.stack_top < MAX_STACK_SIZE →
        (push_int (m.set_pc (m.frame.pc + 2)) (toInt8 (m.code_byte (m.frame.pc + 1)))).fault
          = false ∧
        (push_int (m.set_pc (m.frame.pc + 2))
            (toInt8 (m.code_byte (m.frame.pc + 1)))).jvm.locals_memory = m.jvm.locals_memory) ∧
      (MAX_STACK_SIZE ≤ m.frame.stack_top →
        push_int (m.set_pc (m.frame.pc + 2)) (toInt8 (m.code_byte (m.frame.pc + 1)))
          = m.set_pc (m.frame.pc + 2))) ∧
    (m.code_byte m.frame.pc = OpCode.SIPUSH.byte →
      m.frame.pc + 2 < ((m.frame.method.code.getD []).length : Int) →
      execute_bytecode P (fuel + 1) m
        = execute_bytecode P fuel
            (push_int (m.set_pc (m.frame.pc + 3))
              (Bytecode.toInt16
                (256 * m.code_byte (m.frame.pc + 1) + m.code_byte (m.frame.pc + 2)))) ∧
      Bytecode.toInt16 (256 * m.code_byte (m.frame.pc + 1) + m.code_byte (m.frame.pc + 2))
        = (if 256 * m.code_byte (m.frame.pc + 1) + m.code_byte (m.frame.pc + 2) < 32768
           then ((256 * m.code_byte (m.frame.pc + 1) + m.code_byte (m.frame.pc + 2) : Nat) : Int)
           else ((256 * m.code_byte (m.frame.pc + 1) + m.code_byte (m.frame.pc + 2) : Nat) : Int)
             - 65536) ∧
      (m.frame.stack_top < MAX_STACK_SIZE →
        (push_int (m.set_pc (m.frame.pc + 3)) (Bytecode.toInt16
          (256 * m.code_byte (m.frame.pc + 1) + m.code_byte (m.frame.pc + 2)))).frame
          = { m.frame with pc := m.frame.pc + 3, stack_top := m.frame.stack_top + 1 } ∧
        jvalue_i ((push_int (m.set_pc (m.frame.pc + 3)) (Bytecode.toInt16
            (256 * m.code_byte (m.frame.pc + 1) + m.code_byte (m.frame.pc + 2)))).stack
              m.frame.stack_top)
          = Bytecode.toInt16 (256 * m.code_byte (m.frame.pc + 1) + m.code_byte (m.frame.pc + 2)) ∧
        (∀ k, k ≠ m.frame.stack_top →
          (push_int (m.set_pc (m.frame.pc + 3)) (Bytecode.toInt16
            (256 * m.code_byte (m.frame.pc + 1) + m.code_byte (m.frame.pc + 2)))).stack k
            = m.stack k)) ∧
      (m.frame.operand_stack + m.frame.stack_top < MAX_STACK_SIZE →
        (push_int (m.set_pc (m.frame.pc + 3)) (Bytecode.toInt16
          (256 * m.code_byte (m.frame.pc + 1) + m.code_byte (m.frame.pc + 2)))).fault = false ∧
        (push_int (m.set_pc (m.frame.pc + 3)) (Bytecode.toInt16
          (256 * m.code_byte (m.frame.pc + 1) + m.code_byte (m.frame.pc + 2)))).jvm.locals_memory
          = m.jvm.locals_memory) ∧
      (MAX_STACK_SIZE ≤ m.frame.stack_top →
        push_int (m.set_pc (m.frame.pc + 3)) (Bytecode.toInt16
          (256 * m.code_byte (m.frame.pc + 1) + m.code_byte (m.frame.pc + 2)))
          = m.set_pc (m.frame.pc + 3))) := by
  have b1 := code_byte_lt m (m.frame.pc + 1)
  have b2 := code_byte_lt m (m.frame.pc + 2)
  constructor
  · intro hbyte hblock
    have hv := toInt8_value _ b1
    refine ⟨execute_bytecode_next P fuel m _ hf h0 hlen (by omega) ?_, hv, ?_, ?_, ?_⟩
    · rw [hbyte, of_byte_byte]
      show Step.next (push_int (Bytecode.read_u1 (m.set_pc (m.frame.pc + 1))).2
        (toInt8 (Bytecode.read_u1 (m.set_pc (m.frame.pc + 1))).1)) = _
      rw [fetch_in_code (m.set_pc (m.frame.pc + 1)) (show (0 : Int) ≤ m.frame.pc + 1 by omega)
        hblock]
      show Step.next (push_int (m.set_pc (m.frame.pc + 1 + 1)) _) = _
      rw [show m.frame.pc + 1 + 1 = m.frame.pc + 2 by ring]
      rfl
    · intro hroom
      obtain ⟨q2, q3, q4⟩ := push_int_word (m.set_pc (m.frame.pc + 2))
        (toInt8 (m.code_byte (m.frame.pc + 1))) hroom
      refine ⟨q2, q3.trans (toInt32_bits32_of_range _ ?_ ?_), q4⟩
      · rw [hv]; split_ifs <;> omega
      · rw [hv]; split_ifs <;> omega
    · intro hs
      obtain ⟨q1, _, _, _, q5⟩ := push_int_in_bounds (m.set_pc (m.frame.pc + 2))
        (toInt8 (m.code_byte (m.frame.pc + 1))) hf hs
      exact ⟨q1, q5⟩
    · intro hfull
      exact push_int_full _ _ hfull
  · intro hbyte hblock
    have hv := toInt16_value (256 * m.code_byte (m.frame.pc + 1) + m.code_byte (m.frame.pc + 2))
      (by omega)
    refine ⟨execute_bytecode_next P fuel m _ hf h0 hlen (by omega) ?_, hv, ?_, ?_, ?_⟩
    · rw [hbyte, of_byte_byte]
      show Step.next (push_int (Bytecode.read_s2 (m.set_pc (m.frame.pc + 1))).2
        (Bytecode.read_s2 (m.set_pc (m.frame.pc + 1))).1) = _
      rw [read_s2_in_code (m.set_pc (m.frame.pc + 1)) (show (0 : Int) ≤ m.frame.pc + 1 by omega)
        (show m.frame.pc + 1 + 1 < ((m.frame.method.code.getD []).length : Int) by omega)]
      show Step.next (push_int (m.set_pc (m.frame.pc + 1 + 2))
        (Bytecode.toInt16 (256 * m.code_byte (m.frame.pc + 1) + m.code_byte (m.frame.pc + 1 + 1))))
        = _
      rw [show m.frame.pc + 1 + 2 = m.frame.pc + 3 by ring,
        show m.frame.pc + 1 + 1 = m.frame.pc + 2 by ring]
    · intro hroom
      obtain ⟨q2, q3, q4⟩ := push_int_word (m.set_pc (m.frame.pc + 3))
        (Bytecode.toInt16 (256 * m.code_byte (m.frame.pc + 1) + m.code_byte (m.frame.pc + 2)))
        hroom
      refine ⟨q2, q3.trans (toInt32_bits32_of_range _ ?_ ?_), q4⟩
      · rw [hv]; split_ifs <;> omega
      · rw [hv]; split_ifs <;> omega
    · intro hs
      obtain ⟨q1, _, _, _, q5⟩ := push_int_in_bounds (m.set_pc (m.frame.pc + 3))
        (Bytecode.toInt16 (256 * m.code_byte (m.frame.pc + 1) + m.code_byte (m.frame.pc + 2)))
        hf hs
      exact ⟨q1, q5⟩
    · intro hfull
      exact push_int_full _ _ hfull

/-! ### Conversions between `int` and `long` -/

theorem pop_long_in_bounds (m : Machine) (hf : m.fault = false) (htop : 1 ≤ m.frame.stack_top)
    (hs : m.frame.operand_stack + m.frame.stack_top ≤ MAX_STACK_SIZE) :
    pop_long m = (jvalue_l (m.stack (m.frame.stack_top - 1)),
      m.set_top (m.frame.stack_top - 1)) := by
  obtain ⟨jvm, frame, fault⟩ := m
  obtain ⟨locals, operand_stack, stack_top, pc, method, class_info⟩ := frame
  simp only [MAX_STACK_SIZE] at hf hs htop
  subst hf
  have a1 : 0 < stack_top := by omega
  have a2 : operand_stack + (stack_top - 1) < 2048 := by omega
  simp only [pop_long, Machine.set_top, Machine.touch_stack, Machine.stack, MAX_STACK_SIZE, a1,
    a2, gt_iff_lt, if_true]

theorem push_long_in_bounds (m : Machine) (value : Int) (hf : m.fault = false)
    (hs : m.frame.operand_stack + m.frame.stack_top < MAX_STACK_SIZE) :
    (push_long m value).fault = false ∧
    (push_long m value).frame = { m.frame with stack_top := m.frame.stack_top + 1 } ∧
    (push_long m value).stack m.frame.stack_top = bits64 value ∧
    (∀ k, k ≠ m.frame.stack_top → (push_long m value).stack k = m.stack k) ∧
    (push_long m value).jvm.locals_memory = m.jvm.locals_memory := by
  obtain ⟨jvm, frame, fault⟩ := m
  obtain ⟨locals, operand_stack, stack_top, pc, method, class_info⟩ := frame
  simp only [MAX_STACK_SIZE] at hf hs
  subst hf
  have a1 : stack_top < 2048 := by omega
  simp only [push_long, Machine.set_stack, Machine.set_top, Machine.touch_stack, Machine.stack,
    MAX_STACK_SIZE, a1, hs, if_true, mem_set, jvalue_set_l, true_and]
  refine ⟨?_, trivial⟩
  intro k hk
  rw [if_neg (by omega)]

theorem toInt64_bits64_of_range (v : Int) (h1 : -9223372036854775808 ≤ v)
    (h2 : v < 9223372036854775808) : toInt64 (bits64 v) = v := by
  unfold toInt64 bits64
  split_ifs <;> omega

theorem toInt32_bits64_of_range (v : Int) (h1 : -2147483648 ≤ v) (h2 : v < 2147483648) :
    toInt32 (bits64 v) = v := by
  unfold toInt32 bits64
  split_ifs <;> omega

theorem toInt32_low_bits (w : Nat) : toInt32 (bits64 (toInt64 w)) = toInt32 w := by
  unfold toInt32 bits64 toInt64
  split_ifs <;> omega

theorem low_bits_of_long (w : Nat) :
    toInt32 ((toInt64 w % 4294967296).toNat) = toInt32 w := by
  unfold toInt32 toInt64
  split_ifs <;> omega

theorem top_frame (m : Machine) (next_pc : Int) (htop : 1 ≤ m.frame.stack_top) :
    ({ ((m.set_pc next_pc).set_top (m.frame.stack_top - 1)).frame with
        stack_top := ((m.set_pc next_pc).set_top (m.frame.stack_top - 1)).frame.stack_top + 1 }
      : Frame) = { m.frame with pc := next_pc } := by
  obtain ⟨jvm, frame, fault⟩ := m
  obtain ⟨locals, operand_stack, stack_top, pc, method, class_info⟩ := frame
  simp only [Machine.set_pc, Machine.set_top, Frame.mk.injEq, and_true, true_and]
  simp only at htop
  omega

theorem i2l_step (P : Platform) (fuel : Nat) (m : Machine) (hf : m.fault = false)
    (h0 : 0 ≤ m.frame.pc) (hlen : m.frame.pc < (m.frame.method.code_length : Int))
    (hblock : m.frame.pc < ((m.frame.method.code.getD []).length : Int))
    (htop : 1 ≤ m.frame.stack_top)
    (hs : m.frame.operand_stack + m.frame.stack_top ≤ MAX_STACK_SIZE)
    (hbyte : m.code_byte m.frame.pc = OpCode.I2L.byte) :
    execute_bytecode P (fuel + 1) m
      = execute_bytecode P fuel
          (push_long ((m.set_pc (m.frame.pc + 1)).set_top (m.frame.stack_top - 1))
            (jvalue_i (m.stack (m.frame.stack_top - 1)))) := by
  have p1 := pop_int_in_bounds (m.set_pc (m.frame.pc + 1)) hf htop hs
  refine execute_bytecode_next P fuel m _ hf h0 hlen hblock ?_
  rw [hbyte, of_byte_byte]
  show Step.next (push_long (pop_int (m.set_pc (m.frame.pc + 1))).2
    (pop_int (m.set_pc (m.frame.pc + 1))).1) = _
  rw [p1]
  rfl

theorem l2i_step (P : Platform) (fuel : Nat) (m : Machine) (hf : m.fault = false)
    (h0 : 0 ≤ m.frame.pc) (hlen : m.frame.pc < (m.frame.method.code_length : Int))
    (hblock : m.frame.pc < ((m.frame.method.code.getD []).length : Int))
    (htop : 1 ≤ m.frame.stack_top)
    (hs : m.frame.operand_stack + m.frame.stack_top ≤ MAX_STACK_SIZE)
    (hbyte : m.code_byte m.frame.pc = OpCode.L2I.byte) :
    execute_bytecode P (fuel + 1) m
      = execute_bytecode P fuel
          (push_int ((m.set_pc (m.frame.pc + 1)).set_top (m.frame.stack_top - 1))
            (toInt32 (bits64 (jvalue_l (m.stack (m.frame.stack_top - 1)))))) := by
  have p1 := pop_long_in_bounds (m.set_pc (m.frame.pc + 1)) hf htop hs
  refine execute_bytecode_next P fuel m _ hf h0 hlen hblock ?_
  rw [hbyte, of_byte_byte]
  show Step.next (push_int (pop_long (m.set_pc (m.frame.pc + 1))).2
    (toInt32 (bits64 (pop_long (m.set_pc (m.frame.pc + 1))).1))) = _
  rw [p1]
  rfl

/-- Claim C28.  Let the top slot of the operand stack hold the int `x` (its low
half) and the long `v` (the whole word).  The run goes on behind `i2l` with `x`
popped and the long `x` pushed: the slot holds the 64-bit two's-complement
pattern of `x`.  The run goes on behind `l2i` with `v` popped and the int
`(jint) v` pushed, which is the signed value of the low 32 bits of `v`.  The run
goes on behind `i2l; l2i` with the int `x` on top of the stack.  Nothing else of
the frame changes. -/
theorem i2l_l2i_conversions (P : Platform) (fuel : Nat) (m : Machine) (x v : Int)
    (hf : m.fault = false)
    (h0 : 0 ≤ m.frame.pc) (hlen : m.frame.pc < (m.frame.method.code_length : Int))
    (hblock : m.frame.pc < ((m.frame.method.code.getD []).length : Int))
    (htop : 1 ≤ m.frame.stack_top)
    (hs : m.frame.operand_stack + m.frame.stack_top ≤ MAX_STACK_SIZE)
    (hx : jvalue_i (m.stack (m.frame.stack_top - 1)) = x)
    (hv : jvalue_l (m.stack (m.frame.stack_top - 1)) = v) :
    (m.code_byte m.frame.pc = OpCode.I2L.byte →
      execute_bytecode P (fuel + 1) m
        = execute_bytecode P fuel
            (push_long ((m.set_pc (m.frame.pc + 1)).set_top (m.frame.stack_top - 1)) x) ∧
      (push_long ((m.set_pc (m.frame.pc + 1)).set_top (m.frame.stack_top - 1)) x).fault
        = false ∧
      (push_long ((m.set_pc (m.frame.pc + 1)).set_top (m.frame.stack_top - 1)) x).frame
        = { m.frame with pc := m.frame.pc + 1 } ∧
      jvalue_l ((push_long ((m.set_pc (m.frame.pc + 1)).set_top (m.frame.stack_top - 1)) x).stack
          (m.frame.stack_top - 1)) = x ∧
      (push_long ((m.set_pc (m.frame.pc + 1)).set_top (m.frame.stack_top - 1)) x).stack
          (m.frame.stack_top - 1) = (x % 2 ^ 64).toNat ∧
      (∀ k, k ≠ m.frame.stack_top - 1 →
        (push_long ((m.set_pc (m.frame.pc + 1)).set_top (m.frame.stack_top - 1)) x).stack k
          = m.stack k) ∧
      (push_long ((m.set_pc (m.frame.pc + 1)).set_top (m.frame.stack_top - 1)) x).jvm.locals_memory
        = m.jvm.locals_memory) ∧
    (m.code_byte m.frame.pc = OpCode.L2I.byte →
      execute_bytecode P (fuel + 1) m
        = execute_bytecode P fuel
            (push_int ((m.set_pc (m.frame.pc + 1)).set_top (m.frame.stack_top - 1))
              (toInt32 (bits64 v))) ∧
      toInt32 (bits64 v) = toInt32 ((v % 2 ^ 32).toNat) ∧
      (push_int ((m.set_pc (m.frame.pc + 1)).set_top (m.frame.stack_top - 1))
          (toInt32 (bits64 v))).fault = false ∧
      (push_int ((m.set_pc (m.frame.pc + 1)).set_top (m.frame.stack_top - 1))
          (toInt32 (bits64 v))).frame = { m.frame with pc := m.frame.pc + 1 } ∧
      jvalue_i ((push_int ((m.set_pc (m.frame.pc + 1)).set_top (m.frame.stack_top - 1))
          (toInt32 (bits64 v))).stack (m.frame.stack_top - 1))
        = toInt32 ((v % 2 ^ 32).toNat) ∧
      (∀ k, k ≠ m.frame.stack_top - 1 →
        (push_int ((m.set_pc (m.frame.pc + 1)).set_top (m.frame.stack_top - 1))
          (toInt32 (bits64 v))).stack k = m.stack k) ∧
      (push_int ((m.set_pc (m.frame.pc + 1)).set_top (m.frame.stack_top - 1))
          (toInt32 (bits64 v))).jvm.locals_memory = m.jvm.locals_memory) ∧
    (m.code_byte m.frame.pc = OpCode.I2L.byte → m.code_byte (m.frame.pc + 1) = OpCode.L2I.byte →
      m.frame.pc + 1 < (m.frame.method.code_length : Int) →
      m.frame.pc + 1 < ((m.frame.method.code.getD []).length : Int) →
      execute_bytecode P (fuel + 2) m
        = execute_bytecode P fuel
            (push_int
              (((push_long ((m.set_pc (m.frame.pc + 1)).set_top (m.frame.stack_top - 1))
                x).set_pc (m.frame.pc + 2)).set_top (m.frame.stack_top - 1)) x) ∧
      (push_int
          (((push_long ((m.set_pc (m.frame.pc + 1)).set_top (m.frame.stack_top - 1))
            x).set_pc (m.frame.pc + 2)).set_top (m.frame.stack_top - 1)) x).fault = false ∧
      (push_int
          (((push_long ((m.set_pc (m.frame.pc + 1)).set_top (m.frame.stack_top - 1))
            x).set_pc (m.frame.pc + 2)).set_top (m.frame.stack_top - 1)) x).frame
        = { m.frame with pc := m.frame.pc + 2 } ∧
      jvalue_i ((push_int
          (((push_long ((m.set_pc (m.frame.pc + 1)).set_top (m.frame.stack_top - 1))
            x).set_pc (m.frame.pc + 2)).set_top (m.frame.stack_top - 1)) x).stack
          (m.frame.stack_top - 1)) = x ∧
      (∀ k, k ≠ m.frame.stack_top - 1 →
        (push_int
          (((push_long ((m.set_pc (m.frame.pc + 1)).set_top (m.frame.stack_top - 1))
            x).set_pc (m.frame.pc + 2)).set_top (m.frame.stack_top - 1)) x).stack k
          = m.stack k) ∧
      (push_int
          (((push_long ((m.set_pc (m.frame.pc + 1)).set_top (m.frame.stack_top - 1))
            x).set_pc (m.frame.pc + 2)).set_top (m.frame.stack_top - 1)) x).jvm.locals_memory
        = m.jvm.locals_memory) := by
  have r32 := toInt32_range (m.stack (m.frame.stack_top - 1))
  have hx1 : -2147483648 ≤ x := by rw [← hx]; unfold jvalue_i; omega
  have hx2 : x < 2147483648 := by rw [← hx]; unfold jvalue_i; omega
  obtain ⟨q1, q2, q3, q4, q5⟩ := push_long_in_bounds
    ((m.set_pc (m.frame.pc + 1)).set_top (m.frame.stack_top - 1)) x hf
    (show m.frame.operand_stack + (m.frame.stack_top - 1) < MAX_STACK_SIZE by omega)
  have q2' := q2.trans (top_frame m (m.frame.pc + 1) htop)
  replace q3 : (push_long ((m.set_pc (m.frame.pc + 1)).set_top (m.frame.stack_top - 1)) x).stack
      (m.frame.stack_top - 1) = bits64 x := q3
  refine ⟨fun hbyte => ?_, fun hbyte => ?_, fun hbyte hbyte2 hlen2 hblock2 => ?_⟩
  · refine ⟨?_, q1, q2', ?_, ?_, q4, q5⟩
    · rw [← hx]; exact i2l_step P fuel m hf h0 hlen hblock htop hs hbyte
    · show toInt64 _ = x
      rw [q3]
      exact toInt64_bits64_of_range _ (by omega) (by omega)
    · exact q3
  · obtain ⟨p1, p2, p3, p4, p5⟩ := push_int_in_bounds
      ((m.set_pc (m.frame.pc + 1)).set_top (m.frame.stack_top - 1)) (toInt32 (bits64 v)) hf
      (show m.frame.operand_stack + (m.frame.stack_top - 1) < MAX_STACK_SIZE by omega)
    have hlow : toInt32 (bits64 v) = toInt32 ((v % 2 ^ 32).toNat) := by
      unfold toInt32 bits64
      split_ifs <;> omega
    replace p3 : jvalue_i ((push_int ((m.set_pc (m.frame.pc + 1)).set_top
        (m.frame.stack_top - 1)) (toInt32 (bits64 v))).stack (m.frame.stack_top - 1))
        = toInt32 (bits32 (toInt32 (bits64 v))) := p3
    refine ⟨?_, hlow, p1, p2.trans (top_frame m (m.frame.pc + 1) htop), ?_, p4, p5⟩
    · rw [← hv]; exact l2i_step P fuel m hf h0 hlen hblock htop hs hbyte
    · rw [p3, toInt32_bits32, hlow]
  · have f1 : (push_long ((m.set_pc (m.frame.pc + 1)).set_top (m.frame.stack_top - 1))
        x).frame.pc = m.frame.pc + 1 := by rw [q2']
    have f2 : (push_long ((m.set_pc (m.frame.pc + 1)).set_top (m.frame.stack_top - 1))
        x).frame.stack_top = m.frame.stack_top := by rw [q2']
    have f3 : (push_long ((m.set_pc (m.frame.pc + 1)).set_top (m.frame.stack_top - 1))
        x).frame.method = m.frame.method := by rw [q2']
    have f4 : (push_long ((m.set_pc (m.frame.pc + 1)).set_top (m.frame.stack_top - 1))
        x).frame.operand_stack = m.frame.operand_stack := by rw [q2']
    have f5 : (push_long ((m.set_pc (m.frame.pc + 1)).set_top (m.frame.stack_top - 1))
        x).code_byte (push_long ((m.set_pc (m.frame.pc + 1)).set_top (m.frame.stack_top - 1))
          x).frame.pc = OpCode.L2I.byte := by
      unfold Machine.code_byte
      rw [f3, f1]
      exact hbyte2
    have e1 := i2l_step P (fuel + 1) m hf h0 hlen hblock htop hs hbyte
    rw [hx] at e1
    have g1 := l2i_step P fuel _ q1 (by rw [f1]; omega)
      (by rw [f1, f3]; exact hlen2) (by rw [f1, f3]; exact hblock2) (by rw [f2]; exact htop)
      (by rw [f2, f4]; exact hs) f5
    have hval : toInt32 (bits64 (jvalue_l ((push_long
        ((m.set_pc (m.frame.pc + 1)).set_top (m.frame.stack_top - 1)) x).stack
          (m.frame.stack_top - 1)))) = x := by
      show toInt32 (bits64 (toInt64 _)) = x
      rw [q3, toInt64_bits64_of_range _ (by omega) (by omega)]
      exact toInt32_bits64_of_range _ hx1 hx2
    rw [f1, f2, hval, show m.frame.pc + 1 + 1 = m.frame.pc + 2 by ring] at g1
    obtain ⟨p1, p2, p3, p4, p5⟩ := push_int_in_bounds
      (((push_long ((m.set_pc (m.frame.pc + 1)).set_top (m.frame.stack_top - 1))
        x).set_pc (m.frame.pc + 2)).set_top (m.frame.stack_top - 1)) x q1
      (by
        show (push_long ((m.set_pc (m.frame.pc + 1)).set_top (m.frame.stack_top - 1))
          x).frame.operand_stack + (m.frame.stack_top - 1) < MAX_STACK_SIZE
        rw [f4]
        omega)
    refine ⟨e1.trans g1, p1, ?_, ?_, fun k hk => (p4 k hk).trans (q4 k hk), p5.trans q5⟩
    · rw [p2]
      show ({ (push_long ((m.set_pc (m.frame.pc + 1)).set_top (m.frame.stack_top - 1))
        x).frame with pc := m.frame.pc + 2, stack_top := m.frame.stack_top - 1 + 1 } : Frame) = _
      rw [q2', show m.frame.stack_top - 1 + 1 = m.frame.stack_top by omega]
    · exact p3.trans (toInt32_bits32_of_range _ hx1 (by omega))

/-! ### Integer addition and subtraction -/

theorem int_binop_in_bounds (m : Machine) (f : Int → Int → Int) (hf : m.fault = false)
    (htop : 2 ≤ m.frame.stack_top)
    (hs : m.frame.operand_stack + m.frame.stack_top ≤ MAX_STACK_SIZE) :
    (int_binop m f).fault = false ∧
    (int_binop m f).frame = { m.frame with stack_top := m.frame.stack_top - 1 } ∧
    jvalue_i ((int_binop m f).stack (m.frame.stack_top - 2))
      = toInt32 (bits32 (f (jvalue_i (m.stack (m.frame.stack_top - 2)))
          (jvalue_i (m.stack (m.frame.stack_top - 1))))) ∧
    (∀ k, k ≠ m.frame.stack_top - 2 → (int_binop m f).stack k = m.stack k) ∧
    (int_binop m f).jvm.locals_memory = m.jvm.locals_memory := by
  obtain ⟨p1, p2⟩ := pop_two_ints m hf htop hs
  obtain ⟨q1, q2, q3, q4, q5⟩ := push_int_in_bounds (m.set_top (m.frame.stack_top - 2))
    (f (jvalue_i (m.stack (m.frame.stack_top - 2))) (jvalue_i (m.stack (m.frame.stack_top - 1))))
    hf (show m.frame.operand_stack + (m.frame.stack_top - 2) < MAX_STACK_SIZE by omega)
  have e : int_binop m f = push_int (m.set_top (m.frame.stack_top - 2))
      (f (jvalue_i (m.stack (m.frame.stack_top - 2)))
        (jvalue_i (m.stack (m.frame.stack_top - 1)))) := by
    show push_int (pop_int (pop_int m).2).2 (f (pop_int (pop_int m).2).1 (pop_int m).1) = _
    rw [p2, p1]
  rw [e]
  refine ⟨q1, q2.trans ?_, q3, q4, q5⟩
  obtain ⟨jvm, frame, fault⟩ := m
  obtain ⟨locals, operand_stack, stack_top, pc, method, class_info⟩ := frame
  simp only [Machine.set_top, Frame.mk.injEq, and_true, true_and]
  simp only at htop
  omega

theorem wrap_add_comm (a b : Int) : toInt32 (bits32 (a + b)) = toInt32 (bits32 (b + a)) := by
  rw [Int.add_comm]

theorem wrap_sub_neg (a b : Int) :
    toInt32 (bits32 (a - b)) = toInt32 (bits32 (-toInt32 (bits32 (b - a)))) := by
  unfold toInt32 bits32
  split_ifs <;> omega

theorem wrap_low_bits (v : Int) : bits32 (toInt32 (bits32 v)) = (v % 2 ^ 32).toNat := by
  unfold toInt32 bits32
  split_ifs <;> omega

theorem int_binop_push (m : Machine) (f : Int → Int → Int) (hf : m.fault = false)
    (htop : 2 ≤ m.frame.stack_top)
    (hs : m.frame.operand_stack + m.frame.stack_top ≤ MAX_STACK_SIZE) :
    int_binop m f = push_int (m.set_top (m.frame.stack_top - 2))
      (f (jvalue_i (m.stack (m.frame.stack_top - 2)))
        (jvalue_i (m.stack (m.frame.stack_top - 1)))) := by
  obtain ⟨p1, p2⟩ := pop_two_ints m hf htop hs
  show push_int (pop_int (pop_int m).2).2 (f (pop_int (pop_int m).2).1 (pop_int m).1) = _
  rw [p2, p1]

theorem int_binop_step (P : Platform) (fuel : Nat) (m : Machine) (f : Int → Int → Int)
    (hf : m.fault = false) (h0 : 0 ≤ m.frame.pc)
    (hlen : m.frame.pc < (m.frame.method.code_length : Int))
    (hblock : m.frame.pc < ((m.frame.method.code.getD []).length : Int))
    (htop : 2 ≤ m.frame.stack_top)
    (hs : m.frame.operand_stack + m.frame.stack_top ≤ MAX_STACK_SIZE)
    (hstep : execute_opcode P (execute_bytecode P fuel) (m.set_pc (m.frame.pc + 1))
      (OpCode.of_byte (m.code_byte m.frame.pc)) = .next (int_binop (m.set_pc (m.frame.pc + 1)) f)) :
    execute_bytecode P (fuel + 1) m
      = execute_bytecode P fuel
          (push_int ((m.set_pc (m.frame.pc + 1)).set_top (m.frame.stack_top - 2))
            (f (jvalue_i (m.stack (m.frame.stack_top - 2)))
              (jvalue_i (m.stack (m.frame.stack_top - 1))))) ∧
    (push_int ((m.set_pc (m.frame.pc + 1)).set_top (m.frame.stack_top - 2))
        (f (jvalue_i (m.stack (m.frame.stack_top - 2)))
          (jvalue_i (m.stack (m.frame.stack_top - 1))))).fault = false ∧
    (push_int ((m.set_pc (m.frame.pc + 1)).set_top (m.frame.stack_top - 2))
        (f (jvalue_i (m.stack (m.frame.stack_top - 2)))
          (jvalue_i (m.stack (m.frame.stack_top - 1))))).frame
      = { m.frame with pc := m.frame.pc + 1, stack_top := m.frame.stack_top - 1 } ∧
    jvalue_i ((push_int ((m.set_pc (m.frame.pc + 1)).set_top (m.frame.stack_top - 2))
        (f (jvalue_i (m.stack (m.frame.stack_top - 2)))
          (jvalue_i (m.stack (m.frame.stack_top - 1))))).stack (m.frame.stack_top - 2))
      = toInt32 (bits32 (f (jvalue_i (m.stack (m.frame.stack_top - 2)))
          (jvalue_i (m.stack (m.frame.stack_top - 1))))) ∧
    (∀ k, k ≠ m.frame.stack_top - 2 →
      (push_int ((m.set_pc (m.frame.pc + 1)).set_top (m.frame.stack_top - 2))
        (f (jvalue_i (m.stack (m.frame.stack_top - 2)))
          (jvalue_i (m.stack (m.frame.stack_top - 1))))).stack k = m.stack k) ∧
    (push_int ((m.set_pc (m.frame.pc + 1)).set_top (m.frame.stack_top - 2))
        (f (jvalue_i (m.stack (m.frame.stack_top - 2)))
          (jvalue_i (m.stack (m.frame.stack_top - 1))))).jvm.locals_memory
      = m.jvm.locals_memory := by
  have e := int_binop_push (m.set_pc (m.frame.pc + 1)) f hf htop hs
  obtain ⟨q1, q2, q3, q4, q5⟩ := int_binop_in_bounds (m.set_pc (m.frame.pc + 1)) f hf htop hs
  rw [e] at q1 q2 q3 q4 q5
  refine ⟨execute_bytecode_next P fuel m _ hf h0 hlen hblock (hstep.trans ?_), q1, q2, q3, q4, q5⟩
  rw [e]
  rfl

/-- Claim C27.  Let `m` hold the ints `a` beneath `b` on top of its operand stack,
and `n` hold `b` beneath `a`.  The run of `m` goes on behind `iadd` with the two
ints popped and `a + b` pushed, the run of `n` with `b + a` pushed; the int on
top has the 32-bit pattern `(a + b) mod 2^32` and is the same for both.  The run
goes on behind `isub` with `a - b` pushed for `m` and `b - a` for `n`; the int on
top of `m` has the pattern `(a - b) mod 2^32` and is the 32-bit two's-complement
negation of the int on top of `n`.  Nothing else of the frame changes. -/
theorem iadd_isub_algebra (P : Platform) (fuel : Nat) (m n : Machine) (a b : Int)
    (hf : m.fault = false) (h0 : 0 ≤ m.frame.pc)
    (hlen : m.frame.pc < (m.frame.method.code_length : Int))
    (hblock : m.frame.pc < ((m.frame.method.code.getD []).length : Int))
    (htop : 2 ≤ m.frame.stack_top)
    (hs : m.frame.operand_stack + m.frame.stack_top ≤ MAX_STACK_SIZE)
    (hf2 : n.fault = false) (h02 : 0 ≤ n.frame.pc)
    (hlen2 : n.frame.pc < (n.frame.method.code_length : Int))
    (hblock2 : n.frame.pc < ((n.frame.method.code.getD []).length : Int))
    (htop2 : 2 ≤ n.frame.stack_top)
    (hs2 : n.frame.operand_stack + n.frame.stack_top ≤ MAX_STACK_SIZE)
    (hma : jvalue_i (m.stack (m.frame.stack_top - 2)) = a)
    (hmb : jvalue_i (m.stack (m.frame.stack_top - 1)) = b)
    (hnb : jvalue_i (n.stack (n.frame.stack_top - 2)) = b)
    (hna : jvalue_i (n.stack (n.frame.stack_top - 1)) = a) :
    (m.code_byte m.frame.pc = OpCode.IADD.byte → n.code_byte n.frame.pc = OpCode.IADD.byte →
      execute_bytecode P (fuel + 1) m
        = execute_bytecode P fuel
            (push_int ((m.set_pc (m.frame.pc + 1)).set_top (m.frame.stack_top - 2)) (a + b)) ∧
      execute_bytecode P (fuel + 1) n
        = execute_bytecode P fuel
            (push_int ((n.set_pc (n.frame.pc + 1)).set_top (n.frame.stack_top - 2)) (b + a)) ∧
      (push_int ((m.set_pc (m.frame.pc + 1)).set_top (m.frame.stack_top - 2)) (a + b)).fault
        = false ∧
      (push_int ((m.set_pc (m.frame.pc + 1)).set_top (m.frame.stack_top - 2)) (a + b)).frame
        = { m.frame with pc := m.frame.pc + 1, stack_top := m.frame.stack_top - 1 } ∧
      bits32 (jvalue_i ((push_int ((m.set_pc (m.frame.pc + 1)).set_top (m.frame.stack_top - 2))
          (a + b)).stack (m.frame.stack_top - 2))) = ((a + b) % 2 ^ 32).toNat ∧
      jvalue_i ((push_int ((m.set_pc (m.frame.pc + 1)).set_top (m.frame.stack_top - 2))
          (a + b)).stack (m.frame.stack_top - 2))
        = jvalue_i ((push_int ((n.set_pc (n.frame.pc + 1)).set_top (n.frame.stack_top - 2))
          (b + a)).stack (n.frame.stack_top - 2)) ∧
      (∀ k, k ≠ m.frame.stack_top - 2 →
        (push_int ((m.set_pc (m.frame.pc + 1)).set_top (m.frame.stack_top - 2)) (a + b)).stack k
          = m.stack k) ∧
      (push_int ((m.set_pc (m.frame.pc + 1)).set_top (m.frame.stack_top - 2))
          (a + b)).jvm.locals_memory = m.jvm.locals_memory) ∧
    (m.code_byte m.frame.pc = OpCode.ISUB.byte → n.code_byte n.frame.pc = OpCode.ISUB.byte →
      execute_bytecode P (fuel + 1) m
        = execute_bytecode P fuel
            (push_int ((m.set_pc (m.frame.pc + 1)).set_top (m.frame.stack_top - 2)) (a - b)) ∧
      execute_bytecode P (fuel + 1) n
        = execute_bytecode P fuel
            (push_int ((n.set_pc (n.frame.pc + 1)).set_top (n.frame.stack_top - 2)) (b - a)) ∧
      (push_int ((m.set_pc (m.frame.pc + 1)).set_top (m.frame.stack_top - 2)) (a - b)).fault
        = false ∧
      (push_int ((m.set_pc (m.frame.pc + 1)).set_top (m.frame.stack_top - 2)) (a - b)).frame
        = { m.frame with pc := m.frame.pc + 1, stack_top := m.frame.stack_top - 1 } ∧
      bits32 (jvalue_i ((push_int ((m.set_pc (m.frame.pc + 1)).set_top (m.frame.stack_top - 2))
          (a - b)).stack (m.frame.stack_top - 2))) = ((a - b) % 2 ^ 32).toNat ∧
      jvalue_i ((push_int ((m.set_pc (m.frame.pc + 1)).set_top (m.frame.stack_top - 2))
          (a - b)).stack (m.frame.stack_top - 2))
        = toInt32 (bits32 (-jvalue_i ((push_int
            ((n.set_pc (n.frame.pc + 1)).set_top (n.frame.stack_top - 2)) (b - a)).stack
              (n.frame.stack_top - 2)))) ∧
      (∀ k, k ≠ m.frame.stack_top - 2 →
        (push_int ((m.set_pc (m.frame.pc + 1)).set_top (m.frame.stack_top - 2)) (a - b)).stack k
          = m.stack k) ∧
      (push_int ((m.set_pc (m.frame.pc + 1)).set_top (m.frame.stack_top - 2))
          (a - b)).jvm.locals_memory = m.jvm.locals_memory) := by
  subst hma hmb
  constructor
  · intro hbyte hbyte2
    obtain ⟨e1, e2, e3, e4, e5, e6⟩ := int_binop_step P fuel m
      (fun value1 value2 => value1 + value2) hf h0 hlen hblock htop hs
      (by rw [hbyte, of_byte_byte]; rfl)
    obtain ⟨g1, _, _, g4, _, _⟩ := int_binop_step P fuel n
      (fun value1 value2 => value1 + value2) hf2 h02 hlen2 hblock2 htop2 hs2
      (by rw [hbyte2, of_byte_byte]; rfl)
    simp only [hnb, hna] at g1 g4
    refine ⟨e1, g1, e2, e3, ?_, ?_, e5, e6⟩
    · rw [e4]; exact wrap_low_bits _
    · rw [e4, g4]; exact wrap_add_comm _ _
  · intro hbyte hbyte2
    obtain ⟨e1, e2, e3, e4, e5, e6⟩ := int_binop_step P fuel m
      (fun value1 value2 => value1 - value2) hf h0 hlen hblock htop hs
      (by rw [hbyte, of_byte_byte]; rfl)
    obtain ⟨g1, _, _, g4, _, _⟩ := int_binop_step P fuel n
      (fun value1 value2 => value1 - value2) hf2 h02 hlen2 hblock2 htop2 hs2
      (by rw [hbyte2, of_byte_byte]; rfl)
    simp only [hnb, hna] at g1 g4
    refine ⟨e1, g1, e2, e3, ?_, ?_, e5, e6⟩
    · rw [e4]; exact wrap_low_bits _
    · rw [e4, g4]; exact wrap_sub_neg _ _

/-! ### The stack opcodes `swap` and `dup` -/

theorem swap_opcode (P : Platform) (call : Machine → Outcome) (x : Machine)
    (hf : x.fault = false)
    (hs : x.frame.operand_stack + x.frame.stack_top ≤ MAX_STACK_SIZE) :
    execute_opcode P call x (some .SWAP)
      = .next (if 2 ≤ x.frame.stack_top then
          x.with_jvm { x.jvm with
            stack_memory :=
              mem_set (mem_set x.jvm.stack_memory
                  (x.frame.operand_stack + (x.frame.stack_top - 1))
                  (x.stack (x.frame.stack_top - 2)))
                (x.frame.operand_stack + (x.frame.stack_top - 2))
                (x.stack (x.frame.stack_top - 1)) }
        else x) := by
  obtain ⟨jvm, frame, fault⟩ := x
  obtain ⟨locals, operand_stack, stack_top, pc, method, class_info⟩ := frame
  simp only [MAX_STACK_SIZE] at hf hs
  subst hf
  show (if stack_top ≥ 2 then _ else _) = _
  by_cases h2 : 2 ≤ stack_top
  · have a1 : operand_stack + (stack_top - 1) < 2048 := by omega
    have a2 : operand_stack + (stack_top - 2) < 2048 := by omega
    simp only [ge_iff_le, h2, if_true, Machine.set_stack, Machine.touch_stack, Machine.stack,
      MAX_STACK_SIZE, a1, a2, Machine.with_jvm]
  · simp only [ge_iff_le, h2, if_false]

theorem mem_set_swap_swap (mem : Nat → jvalue) (i j : Nat) (hij : i ≠ j) :
    mem_set (mem_set (mem_set (mem_set mem i (mem j)) j (mem i)) i
        (mem_set (mem_set mem i (mem j)) j (mem i) j)) j
        (mem_set (mem_set mem i (mem j)) j (mem i) i) = mem := by
  funext k
  unfold mem_set
  by_cases hi : k = i
  · by_cases hj : k = j
    · omega
    · simp [hi, hj, hij, hij.symm]
  · by_cases hj : k = j
    · simp [hi, hj, hij, hij.symm]
    · simp [hi, hj, hij, hij.symm]

theorem swap_swap_opcode (P : Platform) (call call2 : Machine → Outcome) (x x1 : Machine)
    (pc : Int)
    (hf : x.fault = false)
    (hs : x.frame.operand_stack + x.frame.stack_top ≤ MAX_STACK_SIZE)
    (h1 : execute_opcode P call x (some .SWAP) = .next x1) :
    x1.fault = false ∧ x1.frame = x.frame ∧
    execute_opcode P call2 (x1.set_pc pc) (some .SWAP) = .next (x.set_pc pc) := by
  rw [swap_opcode P call x hf hs] at h1
  injection h1 with h1
  subst h1
  obtain ⟨jvm, frame, fault⟩ := x
  obtain ⟨locals, operand_stack, stack_top, pc0, method, class_info⟩ := frame
  simp only [MAX_STACK_SIZE] at hf hs
  subst hf
  by_cases h2 : 2 ≤ stack_top
  · simp only [h2, if_true]
    refine ⟨by trivial, by trivial, ?_⟩
    rw [swap_opcode P call2 _ rfl hs]
    simp only [Machine.set_pc, h2, if_true, Machine.stack, Machine.with_jvm]
    rw [mem_set_swap_swap jvm.stack_memory (operand_stack + (stack_top - 1))
      (operand_stack + (stack_top - 2)) (by omega)]
  · simp only [h2, if_false]
    refine ⟨by trivial, by trivial, ?_⟩
    rw [swap_opcode P call2 _ rfl hs]
    simp only [Machine.set_pc, h2, if_false]

/-- Claim C26.  `swap; swap` leaves the machine as it was apart from `pc`, which is
behind the two opcodes: the depth, every operand-stack slot and the locals are
unchanged.  (With fewer than two values on the stack each `swap` does
nothing.) -/
theorem swap_twice_identity (P : Platform) (fuel : Nat) (m : Machine) (hf : m.fault = false)
    (h0 : 0 ≤ m.frame.pc) (hlen : m.frame.pc + 1 < (m.frame.method.code_length : Int))
    (hblock : m.frame.pc + 1 < ((m.frame.method.code.getD []).length : Int))
    (hs : m.frame.operand_stack + m.frame.stack_top ≤ MAX_STACK_SIZE)
    (hbyte1 : m.code_byte m.frame.pc = OpCode.SWAP.byte)
    (hbyte2 : m.code_byte (m.frame.pc + 1) = OpCode.SWAP.byte) :
    execute_bytecode P (fuel + 2) m = execute_bytecode P fuel (m.set_pc (m.frame.pc + 2)) := by
  obtain ⟨x1, e1⟩ : ∃ x1, execute_opcode P (execute_bytecode P (fuel + 1))
      (m.set_pc (m.frame.pc + 1)) (some .SWAP) = .next x1 :=
    ⟨_, swap_opcode P _ (m.set_pc (m.frame.pc + 1)) hf hs⟩
  obtain ⟨g1, g2, g3⟩ := swap_swap_opcode P _ (execute_bytecode P fuel)
    (m.set_pc (m.frame.pc + 1)) x1 (m.frame.pc + 2) hf hs e1
  have f1 : x1.frame.pc = m.frame.pc + 1 := by rw [g2]; rfl
  have f3 : x1.frame.method = m.frame.method := by rw [g2]; rfl
  rw [execute_bytecode_next P (fuel + 1) m x1 hf h0 (by omega) (by omega)
    (by rw [hbyte1, of_byte_byte]; exact e1)]
  refine execute_bytecode_next P fuel x1 _ g1 (by rw [f1]; omega) (by rw [f1, f3]; exact hlen)
    (by rw [f1, f3]; exact hblock) ?_
  have f5 : x1.code_byte x1.frame.pc = OpCode.SWAP.byte := by
    unfold Machine.code_byte
    rw [f3, f1]
    exact hbyte2
  rw [f5, of_byte_byte, f1, show m.frame.pc + 1 + 1 = m.frame.pc + 2 by ring]
  exact g3

theorem dup_opcode (P : Platform) (call : Machine → Outcome) (x : Machine)
    (hf : x.fault = false) (htop : 1 ≤ x.frame.stack_top)
    (hs : x.frame.operand_stack + x.frame.stack_top < MAX_STACK_SIZE) :
    ∃ x', execute_opcode P call x (some .DUP) = .next x' ∧ x'.fault = false ∧
      x'.frame = { x.frame with stack_top := x.frame.stack_top + 1 } ∧
      x'.stack x.frame.stack_top = x.stack (x.frame.stack_top - 1) ∧
      (∀ k, k ≠ x.frame.stack_top → x'.stack k = x.stack k) ∧
      x'.jvm.locals_memory = x.jvm.locals_memory := by
  obtain ⟨jvm, frame, fault⟩ := x
  obtain ⟨locals, operand_stack, stack_top, pc, method, class_info⟩ := frame
  simp only [MAX_STACK_SIZE] at hf hs htop
  subst hf
  have a1 : 0 < stack_top := by omega
  have a2 : operand_stack + (stack_top - 1) < 2048 := by omega
  have a3 : (stack_top + 1) % 65536 = stack_top + 1 := Nat.mod_eq_of_lt (by omega)
  refine ⟨_, if_pos a1, ?_⟩
  simp only [Machine.set_stack, Machine.set_top, Machine.touch_stack, Machine.stack,
    MAX_STACK_SIZE, a2, hs, if_true, mem_set, a3, true_and]
  refine ⟨?_, trivial⟩
  intro k hk
  rw [if_neg (by omega)]

theorem bits32_toInt32 (w : Nat) : bits32 (toInt32 w) = w % 4294967296 := by
  unfold toInt32 bits32
  split_ifs <;> omega

theorem jvalue_set_i_same (w : Nat) :
    jvalue_set_i w (jvalue_i w) % 18446744073709551616 = w % 18446744073709551616 := by
  have h : ∀ a : Nat, (a / 4294967296 % 4294967296 * 4294967296 + a % 4294967296)
      % 18446744073709551616 = a % 18446744073709551616 := by
    intro a
    omega
  unfold jvalue_set_i jvalue_i
  rw [bits32_toInt32]
  exact h w

theorem iload_in_bounds (x : Machine) (v : Nat) (hf : x.fault = false)
    (hs : x.frame.operand_stack + x.frame.stack_top < MAX_STACK_SIZE)
    (hl : x.frame.locals + v < LOCALS_REACH) :
    (iload x v).fault = false ∧
    (iload x v).frame = { x.frame with stack_top := x.frame.stack_top + 1 } ∧
    jvalue_i ((iload x v).stack x.frame.stack_top) = jvalue_i (x.locals v) ∧
    (∀ k, k ≠ x.frame.stack_top → (iload x v).stack k = x.stack k) ∧
    (iload x v).jvm.locals_memory = x.jvm.locals_memory := by
  have t : x.touch_local v = x := by
    unfold Machine.touch_local
    rw [if_pos hl]
  obtain ⟨q1, q2, q3, q4, q5⟩ := push_int_in_bounds x (jvalue_i (x.locals v)) hf hs
  unfold iload
  rw [t]
  exact ⟨q1, q2, q3.trans (jvalue_i_bits32 _), q4, q5⟩

theorem istore_in_bounds (x : Machine) (v : Nat) (hf : x.fault = false)
    (htop : 1 ≤ x.frame.stack_top)
    (hs : x.frame.operand_stack + x.frame.stack_top ≤ MAX_STACK_SIZE)
    (hl : x.frame.locals + v < LOCALS_REACH) :
    (istore x v).fault = false ∧
    (istore x v).frame = { x.frame with stack_top := x.frame.stack_top - 1 } ∧
    (istore x v).jvm.locals_memory = mem_set x.jvm.locals_memory (x.frame.locals + v)
      (jvalue_set_i (x.locals v) (jvalue_i (x.stack (x.frame.stack_top - 1)))) ∧
    (istore x v).jvm.stack_memory = x.jvm.stack_memory := by
  have p := pop_int_in_bounds x hf htop hs
  unfold istore
  simp only [p]
  obtain ⟨jvm, frame, fault⟩ := x
  obtain ⟨locals, operand_stack, stack_top, pc, method, class_info⟩ := frame
  simp only [LOCALS_REACH_eq] at hf hl
  subst hf
  simp only [Machine.set_local, Machine.set_top, Machine.touch_local, Machine.locals,
    Machine.stack, LOCALS_REACH_eq, hl, if_true, and_self]

theorem iload_run (P : Platform) (fuel : Nat) (m : Machine) (hf : m.fault = false)
    (h0 : 0 ≤ m.frame.pc) (hlen : m.frame.pc < (m.frame.method.code_length : Int))
    (hblock : m.frame.pc + 1 < ((m.frame.method.code.getD []).length : Int))
    (hbyte : m.code_byte m.frame.pc = OpCode.ILOAD.byte) :
    execute_bytecode P (fuel + 1) m
      = execute_bytecode P fuel (iload (m.set_pc (m.frame.pc + 2)) (m.code_byte (m.frame.pc + 1)))
    := by
  refine execute_bytecode_next P fuel m _ hf h0 hlen (by omega) ?_
  rw [hbyte, of_byte_byte]
  show Step.next (iload (Bytecode.read_u1 (m.set_pc (m.frame.pc + 1))).2
    (Bytecode.read_u1 (m.set_pc (m.frame.pc + 1))).1) = _
  rw [fetch_in_code (m.set_pc (m.frame.pc + 1)) (show (0 : Int) ≤ m.frame.pc + 1 by omega) hblock]
  show Step.next (iload (m.set_pc (m.frame.pc + 1 + 1)) (m.code_byte (m.frame.pc + 1))) = _
  rw [show m.frame.pc + 1 + 1 = m.frame.pc + 2 by ring]

theorem istore_run (P : Platform) (fuel : Nat) (m : Machine) (hf : m.fault = false)
    (h0 : 0 ≤ m.frame.pc) (hlen : m.frame.pc < (m.frame.method.code_length : Int))
    (hblock : m.frame.pc + 1 < ((m.frame.method.code.getD []).length : Int))
    (hbyte : m.code_byte m.frame.pc = OpCode.ISTORE.byte) :
    execute_bytecode P (fuel + 1) m
      = execute_bytecode P fuel
          (istore (m.set_pc (m.frame.pc + 2)) (m.code_byte (m.frame.pc + 1))) := by
  refine execute_bytecode_next P fuel m _ hf h0 hlen (by omega) ?_
  rw [hbyte, of_byte_byte]
  show Step.next (istore (Bytecode.read_u1 (m.set_pc (m.frame.pc + 1))).2
    (Bytecode.read_u1 (m.set_pc (m.frame.pc + 1))).1) = _
  rw [fetch_in_code (m.set_pc (m.frame.pc + 1)) (show (0 : Int) ≤ m.frame.pc + 1 by omega) hblock]
  show Step.next (istore (m.set_pc (m.frame.pc + 1 + 1)) (m.code_byte (m.frame.pc + 1))) = _
  rw [show m.frame.pc + 1 + 1 = m.frame.pc + 2 by ring]

/-- Claim C24, amended: the operand stack must have room for one more value.  In a
frame whose depth is below `MAX_STACK_SIZE`, with the stack and local `v` inside
their arrays, `iload v; istore v` ends without a fault on the same frame with the
same depth and `pc` behind the four bytes; every local other than `v` keeps its
word, local `v` keeps its 64-bit word, and no operand-stack slot changes except
the free slot above the top. -/
theorem iload_istore_restores (P : Platform) (fuel : Nat) (m : Machine) (hf : m.fault = false)
    (h0 : 0 ≤ m.frame.pc) (hlen : m.frame.pc + 2 < (m.frame.method.code_length : Int))
    (hblock : m.frame.pc + 3 < ((m.frame.method.code.getD []).length : Int))
    (hs : m.frame.operand_stack + m.frame.stack_top < MAX_STACK_SIZE)
    (hl : m.frame.locals + m.code_byte (m.frame.pc + 1) < MAX_LOCALS_SIZE)
    (hb1 : m.code_byte m.frame.pc = OpCode.ILOAD.byte)
    (hb2 : m.code_byte (m.frame.pc + 2) = OpCode.ISTORE.byte)
    (hb3 : m.code_byte (m.frame.pc + 3) = m.code_byte (m.frame.pc + 1)) :
    ∃ m', execute_bytecode P (fuel + 2) m = execute_bytecode P fuel m' ∧ m'.fault = false ∧
      m'.frame = { m.frame with pc := m.frame.pc + 4 } ∧
      (∀ k, m'.jvm.locals_memory k % 2 ^ 64 = m.jvm.locals_memory k % 2 ^ 64) ∧
      (∀ k, k ≠ m.frame.locals + m.code_byte (m.frame.pc + 1) →
        m'.jvm.locals_memory k = m.jvm.locals_memory k) ∧
      (∀ k, k ≠ m.frame.stack_top → m'.stack k = m.stack k) := by
  obtain ⟨a1, a2, a3, a4, a5⟩ := iload_in_bounds (m.set_pc (m.frame.pc + 2))
    (m.code_byte (m.frame.pc + 1)) hf hs (lt_of_lt_of_le hl (by decide))
  generalize hm1 : iload (m.set_pc (m.frame.pc + 2)) (m.code_byte (m.frame.pc + 1)) = m1
    at a1 a2 a3 a4 a5
  have e1 := iload_run P (fuel + 1) m hf h0 (by omega) (by omega) hb1
  rw [hm1] at e1
  have f1 : m1.frame.pc = m.frame.pc + 2 := by rw [a2]; rfl
  have f2 : m1.frame.stack_top = m.frame.stack_top + 1 := by rw [a2]; rfl
  have f3 : m1.frame.method = m.frame.method := by rw [a2]; rfl
  have f4 : m1.frame.operand_stack = m.frame.operand_stack := by rw [a2]; rfl
  have f5 : m1.frame.locals = m.frame.locals := by rw [a2]; rfl
  have c1 : ∀ k, m1.code_byte k = m.code_byte k := by
    intro k
    unfold Machine.code_byte
    rw [f3]
  have e2 := istore_run P fuel m1 a1 (by rw [f1]; omega) (by rw [f1, f3]; exact hlen)
    (by rw [f1, f3]; omega) (by rw [c1, f1]; exact hb2)
  rw [c1, f1, show m.frame.pc + 2 + 1 = m.frame.pc + 3 by ring,
    show m.frame.pc + 2 + 2 = m.frame.pc + 4 by ring, hb3] at e2
  obtain ⟨b1, b2, b3, b4⟩ := istore_in_bounds (m1.set_pc (m.frame.pc + 4))
    (m.code_byte (m.frame.pc + 1)) a1
    (show 1 ≤ m1.frame.stack_top by omega)
    (show m1.frame.operand_stack + m1.frame.stack_top ≤ MAX_STACK_SIZE by omega)
    (lt_of_lt_of_le
      (show m1.frame.locals + m.code_byte (m.frame.pc + 1) < MAX_LOCALS_SIZE by omega)
      (by decide))
  have top1 : (m1.set_pc (m.frame.pc + 4)).frame.stack_top - 1 = m.frame.stack_top := by
    show m1.frame.stack_top - 1 = m.frame.stack_top
    omega
  have val : jvalue_i ((m1.set_pc (m.frame.pc + 4)).stack
      ((m1.set_pc (m.frame.pc + 4)).frame.stack_top - 1))
      = jvalue_i (m.jvm.locals_memory (m.frame.locals + m.code_byte (m.frame.pc + 1))) := by
    rw [top1]
    exact a3
  have loc : (m1.set_pc (m.frame.pc + 4)).locals (m.code_byte (m.frame.pc + 1))
      = m.jvm.locals_memory (m.frame.locals + m.code_byte (m.frame.pc + 1)) := by
    show m1.jvm.locals_memory (m1.frame.locals + _) = _
    rw [a5, f5]
    rfl
  rw [val, loc] at b3
  have b3' : (istore (m1.set_pc (m.frame.pc + 4)) (m.code_byte (m.frame.pc + 1))).jvm.locals_memory
      = mem_set m.jvm.locals_memory (m.frame.locals + m.code_byte (m.frame.pc + 1))
          (jvalue_set_i (m.jvm.locals_memory (m.frame.locals + m.code_byte (m.frame.pc + 1)))
            (jvalue_i (m.jvm.locals_memory (m.frame.locals + m.code_byte (m.frame.pc + 1))))) := by
    rw [b3]
    show mem_set m1.jvm.locals_memory (m1.frame.locals + _) _ = _
    rw [a5, f5]
    rfl
  refine ⟨_, e1.trans e2, b1, ?_, ?_, ?_, ?_⟩
  · rw [b2, top1]
    show ({ m1.frame with pc := m.frame.pc + 4, stack_top := m.frame.stack_top } : Frame) = _
    rw [a2]
    rfl
  · intro k
    rw [b3']
    unfold mem_set
    split_ifs with hk
    · rw [hk]
      exact jvalue_set_i_same _
    · rfl
  · intro k hk
    rw [b3']
    unfold mem_set
    rw [if_neg hk]
  · intro k hk
    have h2 : (istore (m1.set_pc (m.frame.pc + 4)) (m.code_byte (m.frame.pc + 1))).frame.operand_stack
        = m1.frame.operand_stack := by rw [b2]; rfl
    show (istore (m1.set_pc (m.frame.pc + 4)) _).jvm.stack_memory
      ((istore (m1.set_pc (m.frame.pc + 4)) _).frame.operand_stack + k) = _
    rw [b4, h2]
    exact a4 k hk

/-! ### Printing an `int` through `invokevirtual` -/

theorem pop_ref_in_bounds (m : Machine) (hf : m.fault = false) (htop : 1 ≤ m.frame.stack_top)
    (hs : m.frame.operand_stack + m.frame.stack_top ≤ MAX_STACK_SIZE) :
    pop_ref m = (jvalue_ref (m.stack (m.frame.stack_top - 1)),
      m.set_top (m.frame.stack_top - 1)) := by
  obtain ⟨jvm, frame, fault⟩ := m
  obtain ⟨locals, operand_stack, stack_top, pc, method, class_info⟩ := frame
  simp only [MAX_STACK_SIZE] at hf hs htop
  subst hf
  have a1 : 0 < stack_top := by omega
  have a2 : operand_stack + (stack_top - 1) < 2048 := by omega
  simp only [pop_ref, Machine.set_top, Machine.touch_stack, Machine.stack, MAX_STACK_SIZE, a1,
    a2, gt_iff_lt, if_true]

theorem pop_int_pop_ref (m : Machine) (hf : m.fault = false) (htop : 2 ≤ m.frame.stack_top)
    (hs : m.frame.operand_stack + m.frame.stack_top ≤ MAX_STACK_SIZE) :
    pop_int m = (jvalue_i (m.stack (m.frame.stack_top - 1)),
      m.set_top (m.frame.stack_top - 1)) ∧
    pop_ref (pop_int m).2 = (jvalue_ref (m.stack (m.frame.stack_top - 2)),
      m.set_top (m.frame.stack_top - 2)) := by
  have p1 := pop_int_in_bounds m hf (by omega) hs
  refine ⟨p1, ?_⟩
  rw [p1]
  have p2 := pop_ref_in_bounds (m.set_top (m.frame.stack_top - 1)) hf
    (show 1 ≤ m.frame.stack_top - 1 by omega)
    (show m.frame.operand_stack + (m.frame.stack_top - 1) ≤ MAX_STACK_SIZE by omega)
  rw [p2]
  simp only [Machine.set_top, Machine.stack, Nat.sub_sub]

theorem stringbuilder_other_method (P : Platform) (m : Machine)
    (method_name descriptor : Option (List Nat))
    (h1 : has_str method_name (lit "append") = false)
    (h2 : is_str method_name (lit "toString") = false) :
    invokevirtual_stringbuilder P m method_name descriptor = m := by
  unfold invokevirtual_stringbuilder
  simp only [h1, h2, Bool.false_eq_true, if_false]

theorem printstream_int (P : Platform) (m : Machine) (method_name : Option (List Nat))
    (hf : m.fault = false) (htop : 2 ≤ m.frame.stack_top)
    (hs : m.frame.operand_stack + m.frame.stack_top ≤ MAX_STACK_SIZE)
    (h1 : has_str method_name (lit "print") = true) :
    invokevirtual_printstream P m method_name (some (lit "(I)V"))
      = (m.set_top (m.frame.stack_top - 2)).print
          (decimal (jvalue_i (m.stack (m.frame.stack_top - 1)))
            ++ if has_str method_name (lit "println") then [10] else []) := by
  obtain ⟨p1, p2⟩ := pop_int_pop_ref m hf htop hs
  have d : has_str (some (lit "(I)V")) (lit "(I)") = true := by decide
  rw [p1] at p2
  simp only at p2
  unfold invokevirtual_printstream
  simp only [h1, d, if_true, p1, p2]
  split_ifs
  · rfl
  · simp only [native_system_out_print_int, List.append_nil]

theorem execute_invokevirtual_print_int (P : Platform) (m : Machine)
    (class_name method_name : Option (List Nat))
    (hres : (resolve_method_ref m).2 = some (class_name, method_name, some (lit "(I)V")))
    (hf : (resolve_method_ref m).1.fault = false)
    (htop : 2 ≤ (resolve_method_ref m).1.frame.stack_top)
    (hs : (resolve_method_ref m).1.frame.operand_stack + (resolve_method_ref m).1.frame.stack_top
      ≤ MAX_STACK_SIZE)
    (hclass : has_str class_name (lit "PrintStream") = true)
    (h1 : has_str method_name (lit "print") = true)
    (h2 : has_str method_name (lit "append") = false)
    (h3 : is_str method_name (lit "toString") = false) :
    execute_invokevirtual P m
      = (0, ((resolve_method_ref m).1.set_top ((resolve_method_ref m).1.frame.stack_top - 2)).print
          (decimal (jvalue_i ((resolve_method_ref m).1.stack
              ((resolve_method_ref m).1.frame.stack_top - 1)))
            ++ if has_str method_name (lit "println") then [10] else [])) := by
  unfold execute_invokevirtual
  simp only [hres, hclass, if_true, printstream_int P _ method_name hf htop hs h1,
    stringbuilder_other_method P _ method_name _ h2 h3, ite_self]

theorem invokevirtual_print_run (P : Platform) (fuel : Nat) (m : Machine)
    (class_name method_name : Option (List Nat)) (hf : m.fault = false)
    (h0 : 0 ≤ m.frame.pc) (hlen : m.frame.pc < (m.frame.method.code_length : Int))
    (hblock : m.frame.pc + 2 < ((m.frame.method.code.getD []).length : Int))
    (hbyte : m.code_byte m.frame.pc = OpCode.INVOKEVIRTUAL.byte)
    (htop : 2 ≤ m.frame.stack_top)
    (hs : m.frame.operand_stack + m.frame.stack_top ≤ MAX_STACK_SIZE)
    (hpool : (resolve_method_ref (m.set_pc (m.frame.pc + 1))).1.fault = false)
    (hclass : has_str class_name (lit "PrintStream") = true)
    (hres : (resolve_method_ref (m.set_pc (m.frame.pc + 1))).2
      = some (class_name, method_name, some (lit "(I)V")))
    (h1 : has_str method_name (lit "print") = true)
    (h2 : has_str method_name (lit "append") = false)
    (h3 : is_str method_name (lit "toString") = false) :
    execute_bytecode P (fuel + 1) m
      = execute_bytecode P fuel (((m.set_pc (m.frame.pc + 3)).set_top (m.frame.stack_top - 2)).print
          (decimal (jvalue_i (m.stack (m.frame.stack_top - 1)))
            ++ if has_str method_name (lit "println") then [10] else [])) := by
  have hm := resolve_method_ref_machine (m.set_pc (m.frame.pc + 1)) hf
    (show (0 : Int) ≤ m.frame.pc + 1 by omega)
    (show m.frame.pc + 1 + 1 < ((m.frame.method.code.getD []).length : Int) by omega) hpool
  have hm2 : (resolve_method_ref (m.set_pc (m.frame.pc + 1))).1 = m.set_pc (m.frame.pc + 3) := by
    rw [hm]
    show m.set_pc (m.frame.pc + 1 + 2) = _
    rw [show m.frame.pc + 1 + 2 = m.frame.pc + 3 by ring]
  have e := execute_invokevirtual_print_int P (m.set_pc (m.frame.pc + 1)) class_name method_name
    hres hpool (by rw [hm2]; exact htop) (by rw [hm2]; exact hs) hclass h1 h2 h3
  rw [hm2] at e
  refine execute_bytecode_next P fuel m _ hf h0 hlen (by omega) ?_
  rw [hbyte, of_byte_byte]
  show (if (execute_invokevirtual P (m.set_pc (m.frame.pc + 1))).1 ≠ 0
    then Step.ret (-1) (execute_invokevirtual P (m.set_pc (m.frame.pc + 1))).2
    else Step.next (execute_invokevirtual P (m.set_pc (m.frame.pc + 1))).2) = _
  rw [e]
  rfl

/-- Claim C30.  Let the `invokevirtual` at `pc` resolve to a method of a class
whose name contains `PrintStream`, with the descriptor `(I)V`, in a frame that
holds an int `n` on top of a receiver reference.  For the method name `println`
the run goes on behind the instruction with the int and then the receiver
popped and the decimal text of `n` followed by a newline appended to the
output; for the name `print` the newline is left out.  Nothing else of the
machine changes. -/
theorem invokevirtual_prints_int (P : Platform) (fuel : Nat) (m : Machine)
    (class_name : Option (List Nat)) (hf : m.fault = false)
    (h0 : 0 ≤ m.frame.pc) (hlen : m.frame.pc < (m.frame.method.code_length : Int))
    (hblock : m.frame.pc + 2 < ((m.frame.method.code.getD []).length : Int))
    (hbyte : m.code_byte m.frame.pc = OpCode.INVOKEVIRTUAL.byte)
    (htop : 2 ≤ m.frame.stack_top)
    (hs : m.frame.operand_stack + m.frame.stack_top ≤ MAX_STACK_SIZE)
    (hpool : (resolve_method_ref (m.set_pc (m.frame.pc + 1))).1.fault = false)
    (hclass : has_str class_name (lit "PrintStream") = true) :
    ((resolve_method_ref (m.set_pc (m.frame.pc + 1))).2
        = some (class_name, some (lit "println"), some (lit "(I)V")) →
      execute_bytecode P (fuel + 1) m
        = execute_bytecode P fuel
            (((m.set_pc (m.frame.pc + 3)).set_top (m.frame.stack_top - 2)).print
              (decimal (jvalue_i (m.stack (m.frame.stack_top - 1))) ++ [10]))) ∧
    ((resolve_method_ref (m.set_pc (m.frame.pc + 1))).2
        = some (class_name, some (lit "print"), some (lit "(I)V")) →
      execute_bytecode P (fuel + 1) m
        = execute_bytecode P fuel
            (((m.set_pc (m.frame.pc + 3)).set_top (m.frame.stack_top - 2)).print
              (decimal (jvalue_i (m.stack (m.frame.stack_top - 1)))))) := by
  constructor
  · intro hres
    exact invokevirtual_print_run P fuel m class_name (some (lit "println")) hf h0 hlen hblock
      hbyte htop hs hpool hclass hres (by decide) (by decide) (by decide)
  · intro hres
    have e := invokevirtual_print_run P fuel m class_name (some (lit "print")) hf h0 hlen hblock
      hbyte htop hs hpool hclass hres (by decide) (by decide) (by decide)
    rw [e]
    have d : has_str (some (lit "print")) (lit "println") = false := by decide
    simp only [d, Bool.false_eq_true, if_false, List.append_nil]

/-! ### Constants from the pool: `ldc` -/

theorem ldc_opcode (P : Platform) (call : Machine → Outcome) (m1 x : Machine) (i : Nat)
    (h : Bytecode.read_u1 m1 = (i, x)) :
    execute_opcode P call m1 (some .LDC)
      = if i ≥ x.frame.class_info.constant_pool_count then .ret (-1) x
        else if (x.pool_entry i).tag = CONST_INTEGER then
          .next (push_int (x.touch_pool i) (x.pool_entry i).integer_value)
        else if (x.pool_entry i).tag = CONST_FLOAT then
          .next (push_float (x.touch_pool i) (x.pool_entry i).float_bits)
        else if (x.pool_entry i).tag = CONST_STRING then
          if (execute_ldc_string P (x.touch_pool i) i).1 ≠ 0 then
            .ret (-1) (execute_ldc_string P (x.touch_pool i) i).2
          else .next (execute_ldc_string P (x.touch_pool i) i).2
        else .ret (-1) (x.touch_pool i) := by
  have e : execute_opcode P call m1 (some .LDC)
      = if (Bytecode.read_u1 m1).1 ≥ (Bytecode.read_u1 m1).2.frame.class_info.constant_pool_count
        then .ret (-1) (Bytecode.read_u1 m1).2
        else if ((Bytecode.read_u1 m1).2.pool_entry (Bytecode.read_u1 m1).1).tag = CONST_INTEGER
        then .next (push_int ((Bytecode.read_u1 m1).2.touch_pool (Bytecode.read_u1 m1).1)
          ((Bytecode.read_u1 m1).2.pool_entry (Bytecode.read_u1 m1).1).integer_value)
        else if ((Bytecode.read_u1 m1).2.pool_entry (Bytecode.read_u1 m1).1).tag = CONST_FLOAT
        then .next (push_float ((Bytecode.read_u1 m1).2.touch_pool (Bytecode.read_u1 m1).1)
          ((Bytecode.read_u1 m1).2.pool_entry (Bytecode.read_u1 m1).1).float_bits)
        else if ((Bytecode.read_u1 m1).2.pool_entry (Bytecode.read_u1 m1).1).tag = CONST_STRING
        then
          if (execute_ldc_string P ((Bytecode.read_u1 m1).2.touch_pool (Bytecode.read_u1 m1).1)
              (Bytecode.read_u1 m1).1).1 ≠ 0 then
            .ret (-1) (execute_ldc_string P
              ((Bytecode.read_u1 m1).2.touch_pool (Bytecode.read_u1 m1).1)
              (Bytecode.read_u1 m1).1).2
          else .next (execute_ldc_string P
              ((Bytecode.read_u1 m1).2.touch_pool (Bytecode.read_u1 m1).1)
              (Bytecode.read_u1 m1).1).2
        else .ret (-1) ((Bytecode.read_u1 m1).2.touch_pool (Bytecode.read_u1 m1).1) := rfl
  rw [e, h]

theorem touch_pool_in_bounds (x : Machine) (i : Nat)
    (h : i < x.frame.class_info.constant_pool.length) : x.touch_pool i = x := by
  unfold Machine.touch_pool
  rw [if_pos h]

theorem ldc_fetch (m : Machine) (h0 : 0 ≤ m.frame.pc)
    (hblock : m.frame.pc + 1 < ((m.frame.method.code.getD []).length : Int)) :
    Bytecode.read_u1 (m.set_pc (m.frame.pc + 1)) = (ldc_index m, m.set_pc (m.frame.pc + 2)) := by
  rw [fetch_in_code (m.set_pc (m.frame.pc + 1)) (show (0 : Int) ≤ m.frame.pc + 1 by omega) hblock]
  show (m.code_byte (m.frame.pc + 1), m.set_pc (m.frame.pc + 1 + 1)) = _
  rw [show m.frame.pc + 1 + 1 = m.frame.pc + 2 by ring]
  rfl

theorem ldc_fails (P : Platform) (fuel : Nat) (m : Machine) (hf : m.fault = false)
    (h0 : 0 ≤ m.frame.pc) (hlen : m.frame.pc < (m.frame.method.code_length : Int))
    (hblock : m.frame.pc + 1 < ((m.frame.method.code.getD []).length : Int))
    (hbyte : m.code_byte m.frame.pc = OpCode.LDC.byte)
    (hcase : ldc_index m ≥ m.frame.class_info.constant_pool_count ∨
      (ldc_index m < m.frame.class_info.constant_pool.length ∧
        (ldc_entry m).tag ≠ CONST_INTEGER ∧ (ldc_entry m).tag ≠ CONST_FLOAT ∧
        (ldc_entry m).tag ≠ CONST_STRING)) :
    execute_bytecode P (fuel + 1) m = .returned (-1) (m.set_pc (m.frame.pc + 2)) := by
  have e := execute_bytecode_ret P fuel m (m.set_pc (m.frame.pc + 2)) (-1) hf h0 hlen
    (by omega) ?_
  · rw [e]
    have : (m.set_pc (m.frame.pc + 2)).fault = false := hf
    simp only [this, Bool.false_eq_true, if_false]
  · rw [hbyte, of_byte_byte, ldc_opcode P _ _ _ _ (ldc_fetch m h0 hblock)]
    rcases hcase with h | ⟨h1, h2, h3, h4⟩
    · exact if_pos h
    · by_cases hc : ldc_index m ≥ m.frame.class_info.constant_pool_count
      · exact if_pos hc
      · rw [if_neg (show ¬ (ldc_index m ≥ (m.set_pc (m.frame.pc + 2)).frame.class_info.constant_pool_count) from hc)]
        rw [touch_pool_in_bounds _ _ (show ldc_index m < (m.set_pc (m.frame.pc + 2)).frame.class_info.constant_pool.length from h1)]
        rw [if_neg (show ¬ ((m.set_pc (m.frame.pc + 2)).pool_entry (ldc_index m)).tag = CONST_INTEGER from h2),
          if_neg (show ¬ ((m.set_pc (m.frame.pc + 2)).pool_entry (ldc_index m)).tag = CONST_FLOAT from h3),
          if_neg (show ¬ ((m.set_pc (m.frame.pc + 2)).pool_entry (ldc_index m)).tag = CONST_STRING from h4)]

theorem push_ref_in_bounds (m : Machine) (ref : Nat) (hf : m.fault = false)
    (hs : m.frame.operand_stack + m.frame.stack_top < MAX_STACK_SIZE) :
    (push_ref m ref).fault = false ∧
    (push_ref m ref).frame = { m.frame with stack_top := m.frame.stack_top + 1 } ∧
    jvalue_ref ((push_ref m ref).stack m.frame.stack_top) = ref % 18446744073709551616 ∧
    (∀ k, k ≠ m.frame.stack_top → (push_ref m ref).stack k = m.stack k) ∧
    (push_ref m ref).jvm.locals_memory = m.jvm.locals_memory ∧
    (push_ref m ref).jvm.string_pool = m.jvm.string_pool := by
  obtain ⟨jvm, frame, fault⟩ := m
  obtain ⟨locals, operand_stack, stack_top, pc, method, class_info⟩ := frame
  simp only [MAX_STACK_SIZE] at hf hs
  subst hf
  have a1 : stack_top < 2048 := by omega
  simp only [push_ref, Machine.set_stack, Machine.set_top, Machine.touch_stack, Machine.stack,
    MAX_STACK_SIZE, a1, hs, if_true, mem_set, jvalue_ref, jvalue_set_ref, Nat.mod_mod, true_and,
    and_true]
  intro k hk
  rw [if_neg (by omega)]

theorem ldc_int_run (P : Platform) (fuel : Nat) (m : Machine) (hf : m.fault = false)
    (h0 : 0 ≤ m.frame.pc) (hlen : m.frame.pc < (m.frame.method.code_length : Int))
    (hblock : m.frame.pc + 1 < ((m.frame.method.code.getD []).length : Int))
    (hbyte : m.code_byte m.frame.pc = OpCode.LDC.byte)
    (hi : ldc_index m < m.frame.class_info.constant_pool_count)
    (hpool : ldc_index m < m.frame.class_info.constant_pool.length)
    (htag : (ldc_entry m).tag = CONST_INTEGER) :
    execute_bytecode P (fuel + 1) m
      = execute_bytecode P fuel (push_int (m.set_pc (m.frame.pc + 2)) (ldc_entry m).integer_value)
    := by
  refine execute_bytecode_next P fuel m _ hf h0 hlen (by omega) ?_
  rw [hbyte, of_byte_byte, ldc_opcode P _ _ _ _ (ldc_fetch m h0 hblock)]
  rw [if_neg (show ¬ (ldc_index m ≥ (m.set_pc (m.frame.pc + 2)).frame.class_info.constant_pool_count)
      from Nat.not_le.mpr hi),
    touch_pool_in_bounds _ _ (show ldc_index m
      < (m.set_pc (m.frame.pc + 2)).frame.class_info.constant_pool.length from hpool),
    if_pos (show ((m.set_pc (m.frame.pc + 2)).pool_entry (ldc_index m)).tag = CONST_INTEGER
      from htag)]
  rfl

theorem utf8_in_bounds (x : Machine) (index : Nat) (text : List Nat)
    (h : read_utf8_string x.frame.class_info.constant_pool
      x.frame.class_info.constant_pool_count index = some text)
    (hpool : index < x.frame.class_info.constant_pool.length) :
    x.utf8 index = (some text, x) := by
  unfold Machine.utf8
  rw [h, touch_pool_in_bounds x index hpool, ite_self]

theorem execute_ldc_string_in_bounds (P : Platform) (x : Machine) (i : Nat) (text : List Nat)
    (hi : i < x.frame.class_info.constant_pool_count)
    (hpool : i < x.frame.class_info.constant_pool.length)
    (htag : (x.pool_entry i).tag = CONST_STRING)
    (h : read_utf8_string x.frame.class_info.constant_pool
      x.frame.class_info.constant_pool_count (x.pool_entry i).string_index = some text)
    (hpool2 : (x.pool_entry i).string_index < x.frame.class_info.constant_pool.length) :
    execute_ldc_string P x i = (0, push_new_string P x text) := by
  unfold execute_ldc_string
  rw [if_neg (Nat.not_le.mpr hi)]
  simp only [touch_pool_in_bounds x i hpool, htag, if_true,
    utf8_in_bounds x _ text h hpool2]

theorem ldc_string_run (P : Platform) (fuel : Nat) (m : Machine) (text : List Nat)
    (hf : m.fault = false)
    (h0 : 0 ≤ m.frame.pc) (hlen : m.frame.pc < (m.frame.method.code_length : Int))
    (hblock : m.frame.pc + 1 < ((m.frame.method.code.getD []).length : Int))
    (hbyte : m.code_byte m.frame.pc = OpCode.LDC.byte)
    (hi : ldc_index m < m.frame.class_info.constant_pool_count)
    (hpool : ldc_index m < m.frame.class_info.constant_pool.length)
    (htag : (ldc_entry m).tag = CONST_STRING)
    (h : read_utf8_string m.frame.class_info.constant_pool
      m.frame.class_info.constant_pool_count (ldc_entry m).string_index = some text)
    (hpool2 : (ldc_entry m).string_index < m.frame.class_info.constant_pool.length) :
    execute_bytecode P (fuel + 1) m
      = execute_bytecode P fuel (push_new_string P (m.set_pc (m.frame.pc + 2)) text) := by
  refine execute_bytecode_next P fuel m _ hf h0 hlen (by omega) ?_
  rw [hbyte, of_byte_byte, ldc_opcode P _ _ _ _ (ldc_fetch m h0 hblock)]
  have t1 : ¬ ((m.set_pc (m.frame.pc + 2)).pool_entry (ldc_index m)).tag = CONST_INTEGER := by
    show ¬ (ldc_entry m).tag = CONST_INTEGER
    rw [htag]; decide
  have t2 : ¬ ((m.set_pc (m.frame.pc + 2)).pool_entry (ldc_index m)).tag = CONST_FLOAT := by
    show ¬ (ldc_entry m).tag = CONST_FLOAT
    rw [htag]; decide
  rw [if_neg (show ¬ (ldc_index m ≥ (m.set_pc (m.frame.pc + 2)).frame.class_info.constant_pool_count)
      from Nat.not_le.mpr hi),
    touch_pool_in_bounds _ _ (show ldc_index m
      < (m.set_pc (m.frame.pc + 2)).frame.class_info.constant_pool.length from hpool),
    if_neg t1, if_neg t2,
    if_pos (show ((m.set_pc (m.frame.pc + 2)).pool_entry (ldc_index m)).tag = CONST_STRING
      from htag),
    execute_ldc_string_in_bounds P (m.set_pc (m.frame.pc + 2)) (ldc_index m) text hi hpool htag h
      hpool2]
  rfl

theorem jvm_create_string_memory (P : Platform) (jvm : JVM) (str : List Nat) :
    (jvm_create_string P jvm str).2.stack_memory = jvm.stack_memory ∧
    (jvm_create_string P jvm str).2.locals_memory = jvm.locals_memory := by
  unfold jvm_create_string
  split_ifs <;> exact ⟨rfl, rfl⟩

theorem push_new_string_effect (P : Platform) (m : Machine) (str : List Nat)
    (hf : m.fault = false)
    (hs : m.frame.operand_stack + m.frame.stack_top < MAX_STACK_SIZE) :
    (push_new_string P m str).fault = false ∧
    (push_new_string P m str).frame = { m.frame with stack_top := m.frame.stack_top + 1 } ∧
    (∀ k, k ≠ m.frame.stack_top → (push_new_string P m str).stack k = m.stack k) ∧
    (push_new_string P m str).jvm.locals_memory = m.jvm.locals_memory ∧
    (m.jvm.string_pool.count < MAX_STRING_POOL →
      jvalue_ref ((push_new_string P m str).stack m.frame.stack_top)
        = (P.strings_addr + JSTRING_SIZE * m.jvm.string_pool.count) % 18446744073709551616 ∧
      (push_new_string P m str).jvm.string_pool.count = m.jvm.string_pool.count + 1 ∧
      (push_new_string P m str).jvm.string_pool.strings m.jvm.string_pool.count
        = { data := some (cstr str), length := (cstr str).length,
            capacity := (cstr str).length + 1 } ∧
      (∀ k, k ≠ m.jvm.string_pool.count →
        (push_new_string P m str).jvm.string_pool.strings k = m.jvm.string_pool.strings k)) ∧
    (MAX_STRING_POOL ≤ m.jvm.string_pool.count →
      jvalue_ref ((push_new_string P m str).stack m.frame.stack_top) = 0 ∧
      (push_new_string P m str).jvm.string_pool = m.jvm.string_pool) := by
  obtain ⟨q1, q2, q3, q4, q5, q6⟩ := push_ref_in_bounds
    (m.with_jvm (jvm_create_string P m.jvm str).2) (jvm_create_string P m.jvm str).1 hf hs
  obtain ⟨c1, c2⟩ := jvm_create_string_memory P m.jvm str
  refine ⟨q1, q2, ?_, q5.trans c2, ?_, ?_⟩
  · intro k hk
    refine (q4 k hk).trans ?_
    show (jvm_create_string P m.jvm str).2.stack_memory _ = _
    rw [c1]
    rfl
  · intro hc
    have n : ¬ (m.jvm.string_pool.count ≥ MAX_STRING_POOL) := Nat.not_le.mpr hc
    have e : jvm_create_string P m.jvm str
        = (P.strings_addr + JSTRING_SIZE * m.jvm.string_pool.count,
            { m.jvm with string_pool :=
              { strings := fun k => if k = m.jvm.string_pool.count then
                  { data := some (cstr str), length := (cstr str).length,
                    capacity := (cstr str).length + 1 }
                  else m.jvm.string_pool.strings k,
                count := m.jvm.string_pool.count + 1 } }) := by
      unfold jvm_create_string
      rw [if_neg n]
    refine ⟨?_, ?_, ?_, ?_⟩
    · refine q3.trans ?_
      rw [e]
    · show (push_ref (m.with_jvm (jvm_create_string P m.jvm str).2)
        (jvm_create_string P m.jvm str).1).jvm.string_pool.count = _
      rw [q6, e]
      rfl
    · show (push_ref (m.with_jvm (jvm_create_string P m.jvm str).2)
        (jvm_create_string P m.jvm str).1).jvm.string_pool.strings _ = _
      rw [q6, e]
      exact if_pos rfl
    · intro k hk
      show (push_ref (m.with_jvm (jvm_create_string P m.jvm str).2)
        (jvm_create_string P m.jvm str).1).jvm.string_pool.strings _ = _
      rw [q6, e]
      exact if_neg hk
  · intro hc
    have e : jvm_create_string P m.jvm str = (0, m.jvm) := by
      unfold jvm_create_string
      rw [if_pos hc]
    refine ⟨?_, ?_⟩
    · refine q3.trans ?_
      rw [e]
      rfl
    · show (push_ref (m.with_jvm (jvm_create_string P m.jvm str).2)
        (jvm_create_string P m.jvm str).1).jvm.string_pool = _
      rw [q6, e]
      rfl

theorem push_int_string_pool (m : Machine) (value : Int) :
    (push_int m value).jvm.string_pool = m.jvm.string_pool := by
  unfold push_int
  split_ifs <;> rfl

theorem push_ref_full (m : Machine) (ref : Nat) (h : MAX_STACK_SIZE ≤ m.frame.stack_top) :
    push_ref m ref = m := by
  unfold push_ref
  rw [if_neg (by omega)]

theorem push_ref_string_pool (m : Machine) (ref : Nat) :
    (push_ref m ref).jvm.string_pool = m.jvm.string_pool := by
  unfold push_ref
  split_ifs <;> rfl

theorem push_new_string_pool (P : Platform) (m : Machine) (str : List Nat) :
    (push_new_string P m str).jvm.string_pool = (jvm_create_string P m.jvm str).2.string_pool :=
  push_ref_string_pool _ _

theorem push_new_string_full_pool (P : Platform) (m : Machine) (str : List Nat)
    (h : MAX_STRING_POOL ≤ m.jvm.string_pool.count) :
    push_new_string P m str = push_ref m 0 := by
  have e : jvm_create_string P m.jvm str = (0, m.jvm) := by
    unfold jvm_create_string
    rw [if_pos h]
  unfold push_new_string
  rw [e]
  rfl

theorem jvm_create_string_free (P : Platform) (jvm : JVM) (str : List Nat)
    (h : jvm.string_pool.count < MAX_STRING_POOL) :
    jvm_create_string P jvm str
      = (P.strings_addr + JSTRING_SIZE * jvm.string_pool.count,
          { jvm with string_pool :=
            { strings := fun k => if k = jvm.string_pool.count then
                { data := some (cstr str), length := (cstr str).length,
                  capacity := (cstr str).length + 1 }
                else jvm.string_pool.strings k,
              count := jvm.string_pool.count + 1 } }) := by
  unfold jvm_create_string
  rw [if_neg (Nat.not_le.mpr h)]

theorem cstr_of_no_zero (text : List Nat) (hz : 0 ∉ text) : cstr text = text := by
  unfold cstr
  rw [List.takeWhile_eq_self_iff.mpr]
  intro a ha
  simp only [ne_eq, decide_eq_true_eq]
  intro h
  exact hz (h ▸ ha)

theorem push_ref_word (m : Machine) (ref : Nat) (h : m.frame.stack_top < MAX_STACK_SIZE) :
    (push_ref m ref).frame = { m.frame with stack_top := m.frame.stack_top + 1 } ∧
    jvalue_ref ((push_ref m ref).stack m.frame.stack_top) = ref % 18446744073709551616 ∧
    (∀ k, k ≠ m.frame.stack_top → (push_ref m ref).stack k = m.stack k) := by
  obtain ⟨jvm, frame, fault⟩ := m
  obtain ⟨locals, operand_stack, stack_top, pc, method, class_info⟩ := frame
  simp only [MAX_STACK_SIZE] at h
  simp only [push_ref, Machine.set_stack, Machine.set_top, Machine.stack, MAX_STACK_SIZE, h,
    if_true, mem_set, jvalue_ref, jvalue_set_ref, Nat.mod_mod, true_and]
  intro k hk
  rw [if_neg (by omega)]

theorem push_new_string_word (P : Platform) (m : Machine) (str : List Nat)
    (h : m.frame.stack_top < MAX_STACK_SIZE) :
    (push_new_string P m str).frame = { m.frame with stack_top := m.frame.stack_top + 1 } ∧
    (m.jvm.string_pool.count < MAX_STRING_POOL →
      jvalue_ref ((push_new_string P m str).stack m.frame.stack_top)
        = (P.strings_addr + JSTRING_SIZE * m.jvm.string_pool.count) % 18446744073709551616) ∧
    (MAX_STRING_POOL ≤ m.jvm.string_pool.count →
      jvalue_ref ((push_new_string P m str).stack m.frame.stack_top) = 0) ∧
    (∀ k, k ≠ m.frame.stack_top → (push_new_string P m str).stack k = m.stack k) := by
  obtain ⟨q1, q2, q3⟩ := push_ref_word (m.with_jvm (jvm_create_string P m.jvm str).2)
    (jvm_create_string P m.jvm str).1 h
  refine ⟨q1, fun hc => ?_, fun hc => ?_, fun k hk => ?_⟩
  · refine q2.trans ?_
    rw [jvm_create_string_free P m.jvm str hc]
  · refine q2.trans ?_
    unfold jvm_create_string
    rw [if_pos hc]
    rfl
  · refine (q3 k hk).trans ?_
    show (jvm_create_string P m.jvm str).2.stack_memory _ = _
    rw [(jvm_create_string_memory P m.jvm str).1]
    rfl

/-- Claim C21, amended: a full operand stack, a full string pool and a zero byte in
the text change what `ldc` does.  Let `i = ldc_index m` be the operand byte of an
`ldc` whose accesses stay inside the code and the constant pool.  If
`i ≥ constant_pool_count`, or entry `i` is neither Integer, Float nor StringRef,
`execute_bytecode` returns `-1` with the machine as it was and `pc` behind the
operand.  If entry `i` is an Integer, the run goes on with `push_int` of its
value: the value is on top when the frame holds fewer than `MAX_STACK_SIZE`
values, and on a full stack nothing is pushed.  If it is a StringRef whose index
resolves to the Utf8 text `text`, the run goes on with `push_new_string` of
`text`: with fewer than `MAX_STRING_POOL` strings in the pool, one string is
added in the next free slot, and it holds the bytes of `text` in front of its
first zero byte (all of `text` when it has none); with a full pool nothing is
added; the address of the new string, or the null reference when the pool is
full, is pushed when the frame holds fewer than `MAX_STACK_SIZE` values, and on
a full stack nothing is pushed.  A push into a free slot inside `stack_memory`
is without a fault and leaves the locals unchanged. -/
theorem ldc_effect (P : Platform) (fuel : Nat) (m : Machine) (hf : m.fault = false)
    (h0 : 0 ≤ m.frame.pc) (hlen : m.frame.pc < (m.frame.method.code_length : Int))
    (hblock : m.frame.pc + 1 < ((m.frame.method.code.getD []).length : Int))
    (hbyte : m.code_byte m.frame.pc = OpCode.LDC.byte) :
    (ldc_index m ≥ m.frame.class_info.constant_pool_count →
      execute_bytecode P (fuel + 1) m = .returned (-1) (m.set_pc (m.frame.pc + 2))) ∧
    (ldc_index m < m.frame.class_info.constant_pool.length →
      (ldc_entry m).tag ≠ CONST_INTEGER → (ldc_entry m).tag ≠ CONST_FLOAT →
      (ldc_entry m).tag ≠ CONST_STRING →
      execute_bytecode P (fuel + 1) m = .returned (-1) (m.set_pc (m.frame.pc + 2))) ∧
    (ldc_index m < m.frame.class_info.constant_pool_count →
      ldc_index m < m.frame.class_info.constant_pool.length →
      (ldc_entry m).tag = CONST_INTEGER →
      execute_bytecode P (fuel + 1) m
        = execute_bytecode P fuel
            (push_int (m.set_pc (m.frame.pc + 2)) (ldc_entry m).integer_value) ∧
      (push_int (m.set_pc (m.frame.pc + 2)) (ldc_entry m).integer_value).jvm.string_pool
        = m.jvm.string_pool ∧
      (m.frame.stack_top < MAX_STACK_SIZE →
        (push_int (m.set_pc (m.frame.pc + 2)) (ldc_entry m).integer_value).frame
          = { m.frame with pc := m.frame.pc + 2, stack_top := m.frame.stack_top + 1 } ∧
        jvalue_i ((push_int (m.set_pc (m.frame.pc + 2)) (ldc_entry m).integer_value).stack
            m.frame.stack_top) = toInt32 (bits32 (ldc_entry m).integer_value) ∧
        (-2147483648 ≤ (ldc_entry m).integer_value → (ldc_entry m).integer_value < 2147483648 →
          jvalue_i ((push_int (m.set_pc (m.frame.pc + 2)) (ldc_entry m).integer_value).stack
            m.frame.stack_top) = (ldc_entry m).integer_value) ∧
        (∀ k, k ≠ m.frame.stack_top →
          (push_int (m.set_pc (m.frame.pc + 2)) (ldc_entry m).integer_value).stack k
            = m.stack k)) ∧
      (m.frame.operand_stack + m.frame.stack_top < MAX_STACK_SIZE →
        (push_int (m.set_pc (m.frame.pc + 2)) (ldc_entry m).integer_value).fault = false ∧
        (push_int (m.set_pc (m.frame.pc + 2)) (ldc_entry m).integer_value).jvm.locals_memory
          = m.jvm.locals_memory) ∧
      (MAX_STACK_SIZE ≤ m.frame.stack_top →
        push_int (m.set_pc (m.frame.pc + 2)) (ldc_entry m).integer_value
          = m.set_pc (m.frame.pc + 2))) ∧
    (∀ text, ldc_index m < m.frame.class_info.constant_pool_count →
      ldc_index m < m.frame.class_info.constant_pool.length →
      (ldc_entry m).tag = CONST_STRING →
      read_utf8_string m.frame.class_info.constant_pool m.frame.class_info.constant_pool_count
        (ldc_entry m).string_index = some text →
      (ldc_entry m).string_index < m.frame.class_info.constant_pool.length →
      execute_bytecode P (fuel + 1) m
        = execute_bytecode P fuel (push_new_string P (m.set_pc (m.frame.pc + 2)) text) ∧
      (m.jvm.string_pool.count < MAX_STRING_POOL →
        (push_new_string P (m.set_pc (m.frame.pc + 2)) text).jvm.string_pool.count
          = m.jvm.string_pool.count + 1 ∧
        (push_new_string P (m.set_pc (m.frame.pc + 2)) text).jvm.string_pool.strings
            m.jvm.string_pool.count
          = { data := some (cstr text), length := (cstr text).length,
              capacity := (cstr text).length + 1 } ∧
        (0 ∉ text →
          ((push_new_string P (m.set_pc (m.frame.pc + 2)) text).jvm.string_pool.strings
            m.jvm.string_pool.count).data = some text) ∧
        (∀ k, k ≠ m.jvm.string_pool.count →
          (push_new_string P (m.set_pc (m.frame.pc + 2)) text).jvm.string_pool.strings k
            = m.jvm.string_pool.strings k)) ∧
      (MAX_STRING_POOL ≤ m.jvm.string_pool.count →
        (push_new_string P (m.set_pc (m.frame.pc + 2)) text).jvm.string_pool
          = m.jvm.string_pool) ∧
      (m.frame.stack_top < MAX_STACK_SIZE →
        (push_new_string P (m.set_pc (m.frame.pc + 2)) text).frame
          = { m.frame with pc := m.frame.pc + 2, stack_top := m.frame.stack_top + 1 } ∧
        (m.jvm.string_pool.count < MAX_STRING_POOL →
          jvalue_ref ((push_new_string P (m.set_pc (m.frame.pc + 2)) text).stack
              m.frame.stack_top)
            = (P.strings_addr + JSTRING_SIZE * m.jvm.string_pool.count)
                % 18446744073709551616) ∧
        (MAX_STRING_POOL ≤ m.jvm.string_pool.count →
          jvalue_ref ((push_new_string P (m.set_pc (m.frame.pc + 2)) text).stack
              m.frame.stack_top) = 0) ∧
        (∀ k, k ≠ m.frame.stack_top →
          (push_new_string P (m.set_pc (m.frame.pc + 2)) text).stack k = m.stack k)) ∧
      (m.frame.operand_stack + m.frame.stack_top < MAX_STACK_SIZE →
        (push_new_string P (m.set_pc (m.frame.pc + 2)) text).fault = false ∧
        (push_new_string P (m.set_pc (m.frame.pc + 2)) text).jvm.locals_memory
          = m.jvm.locals_memory) ∧
      (MAX_STACK_SIZE ≤ m.frame.stack_top →
        (push_new_string P (m.set_pc (m.frame.pc + 2)) text).frame
          = { m.frame with pc := m.frame.pc + 2 } ∧
        (push_new_string P (m.set_pc (m.frame.pc + 2)) text).jvm.stack_memory
          = m.jvm.stack_memory ∧
        (push_new_string P (m.set_pc (m.frame.pc + 2)) text).fault = false)) := by
  refine ⟨fun h => ldc_fails P fuel m hf h0 hlen hblock hbyte (Or.inl h),
    fun h1 h2 h3 h4 => ldc_fails P fuel m hf h0 hlen hblock hbyte (Or.inr ⟨h1, h2, h3, h4⟩),
    fun hi hpool htag => ?_, fun text hi hpool htag hutf hpool2 => ?_⟩
  · refine ⟨ldc_int_run P fuel m hf h0 hlen hblock hbyte hi hpool htag,
      push_int_string_pool _ _, fun hroom => ?_, fun hs => ?_,
      fun hfull => push_int_full _ _ hfull⟩
    · obtain ⟨q2, q3, q4⟩ := push_int_word (m.set_pc (m.frame.pc + 2))
        (ldc_entry m).integer_value hroom
      exact ⟨q2, q3, fun r1 r2 => q3.trans (toInt32_bits32_of_range _ r1 r2), q4⟩
    · obtain ⟨q1, _, _, _, q5⟩ := push_int_in_bounds (m.set_pc (m.frame.pc + 2))
        (ldc_entry m).integer_value hf hs
      exact ⟨q1, q5⟩
  · refine ⟨ldc_string_run P fuel m text hf h0 hlen hblock hbyte hi hpool htag hutf hpool2,
      fun hc => ?_, fun hc => ?_, fun hroom => ?_, fun hs => ?_, fun hfull => ?_⟩
    · have e := jvm_create_string_free P m.jvm text hc
      have p := push_new_string_pool P (m.set_pc (m.frame.pc + 2)) text
      have e2 : (jvm_create_string P (m.set_pc (m.frame.pc + 2)).jvm text).2.string_pool
          = { strings := fun k => if k = m.jvm.string_pool.count then
                { data := some (cstr text), length := (cstr text).length,
                  capacity := (cstr text).length + 1 }
                else m.jvm.string_pool.strings k,
              count := m.jvm.string_pool.count + 1 } := by
        show (jvm_create_string P m.jvm text).2.string_pool = _
        rw [e]
      rw [e2] at p
      have r3 : (push_new_string P (m.set_pc (m.frame.pc + 2)) text).jvm.string_pool.strings
          m.jvm.string_pool.count
          = { data := some (cstr text), length := (cstr text).length,
              capacity := (cstr text).length + 1 } := by
        rw [p]
        exact if_pos rfl
      refine ⟨by rw [p], r3, fun hz => ?_, fun k hk => ?_⟩
      · rw [r3, cstr_of_no_zero text hz]
      · rw [p]
        exact if_neg hk
    · rw [push_new_string_full_pool P (m.set_pc (m.frame.pc + 2)) text hc]
      exact push_ref_string_pool _ _
    · exact push_new_string_word P (m.set_pc (m.frame.pc + 2)) text hroom
    · obtain ⟨q1, _, _, q4, _, _⟩ := push_new_string_effect P (m.set_pc (m.frame.pc + 2))
        text hf hs
      exact ⟨q1, q4⟩
    · have e : push_new_string P (m.set_pc (m.frame.pc + 2)) text
          = (m.set_pc (m.frame.pc + 2)).with_jvm
              (jvm_create_string P (m.set_pc (m.frame.pc + 2)).jvm text).2 :=
        push_ref_full _ _ hfull
      rw [e]
      exact ⟨rfl, (jvm_create_string_memory P m.jvm text).1, hf⟩

/-! ### What a frame can reach -/

theorem frame_effect_refl (a : Machine) : frame_effect a a :=
  ⟨rfl, rfl, fun _ _ => rfl, fun _ _ => rfl, fun h => h, fun h => Or.inl h⟩

theorem frame_effect_trans (a b c : Machine) (h1 : frame_effect a b) (h2 : frame_effect b c) :
    frame_effect a c := by
  obtain ⟨a1, a2, a3, a4, a5, a6⟩ := h1
  obtain ⟨b1, b2, b3, b4, b5, b6⟩ := h2
  refine ⟨b1.trans a1, b2.trans a2, fun j hj => ?_, fun j hj => ?_, fun h => b5 (a5 h),
    fun h => ?_⟩
  · rw [b3 j (by rw [a2]; exact hj), a3 j hj]
  · rw [b4 j (by rw [a1]; exact hj), a4 j hj]
  · rcases a6 h with h' | h'
    · exact b6 h'
    · exact Or.inr (b5 h')

theorem set_pc_effect (b : Machine) (pc : Int) : frame_effect b (b.set_pc pc) :=
  ⟨rfl, rfl, fun _ _ => rfl, fun _ _ => rfl, fun h => h, fun h => Or.inl h⟩

theorem fault_effect (b : Machine) : frame_effect b { b with fault := true } :=
  ⟨rfl, rfl, fun _ _ => rfl, fun _ _ => rfl, fun _ => rfl, fun _ => Or.inr rfl⟩

theorem touch_stack_effect (b : Machine) (k : Nat) : frame_effect b (b.touch_stack k) := by
  unfold Machine.touch_stack
  split_ifs
  · exact frame_effect_refl b
  · exact fault_effect b

theorem touch_local_effect (b : Machine) (k : Nat) : frame_effect b (b.touch_local k) := by
  unfold Machine.touch_local
  split_ifs
  · exact frame_effect_refl b
  · exact fault_effect b

theorem touch_code_effect (b : Machine) (k : Int) : frame_effect b (b.touch_code k) := by
  unfold Machine.touch_code
  split_ifs
  · exact frame_effect_refl b
  · exact fault_effect b

theorem touch_pool_effect (b : Machine) (k : Nat) : frame_effect b (b.touch_pool k) := by
  unfold Machine.touch_pool
  split_ifs
  · exact frame_effect_refl b
  · exact fault_effect b

theorem set_stack_effect (b : Machine) (k : Nat) (w : jvalue) :
    frame_effect b (b.set_stack k w) := by
  refine ⟨rfl, rfl, fun j hj => ?_, fun _ _ => rfl, fun h => ?_, fun h => Or.inl h⟩
  · show mem_set _ _ _ j = _
    unfold mem_set
    rw [if_neg (by omega)]
  · exact (touch_stack_effect b k).2.2.2.2.1 h

theorem set_local_effect (b : Machine) (k : Nat) (w : jvalue) :
    frame_effect b (b.set_local k w) := by
  refine ⟨rfl, rfl, fun _ _ => rfl, fun j hj => ?_, fun h => ?_, fun h => Or.inl h⟩
  · show mem_set _ _ _ j = _
    unfold mem_set
    rw [if_neg (by omega)]
  · exact (touch_local_effect b k).2.2.2.2.1 h

theorem set_top_effect (b : Machine) (t : Nat)
    (h : t ≤ MAX_STACK_SIZE ∨ t ≤ b.frame.stack_top) : frame_effect b (b.set_top t) := by
  refine ⟨rfl, rfl, fun _ _ => rfl, fun _ _ => rfl, fun h => h, fun hb => Or.inl ?_⟩
  show t ≤ MAX_STACK_SIZE
  rcases h with h | h
  · exact h
  · exact Nat.le_trans h hb

theorem with_jvm_effect (b : Machine) (jvm : JVM) (h1 : jvm.stack_memory = b.jvm.stack_memory)
    (h2 : jvm.locals_memory = b.jvm.locals_memory) : frame_effect b (b.with_jvm jvm) :=
  ⟨rfl, rfl, fun j _ => congrFun h1 j, fun j _ => congrFun h2 j, fun h => h, fun h => Or.inl h⟩

theorem touch_stack_frame (b : Machine) (k : Nat) : (b.touch_stack k).frame = b.frame := by
  unfold Machine.touch_stack
  split_ifs <;> rfl

theorem push_int_effect (b : Machine) (value : Int) : frame_effect b (push_int b value) := by
  unfold push_int
  split_ifs with h
  · exact frame_effect_trans _ _ _ (set_stack_effect b _ _)
      (set_top_effect _ _ (Or.inl (show b.frame.stack_top + 1 ≤ MAX_STACK_SIZE from h)))
  · exact frame_effect_refl b

theorem pop_int_effect (b : Machine) : frame_effect b (pop_int b).2 := by
  unfold pop_int
  split_ifs with h
  · refine frame_effect_trans _ _ _ (touch_stack_effect b _) (set_top_effect _ _ (Or.inr ?_))
    rw [touch_stack_frame]
    exact Nat.sub_le _ _
  · exact frame_effect_refl b

theorem push_long_effect (b : Machine) (value : Int) : frame_effect b (push_long b value) := by
  unfold push_long
  split_ifs with h
  · exact frame_effect_trans _ _ _ (set_stack_effect b _ _)
      (set_top_effect _ _ (Or.inl (show b.frame.stack_top + 1 ≤ MAX_STACK_SIZE from h)))
  · exact frame_effect_refl b

theorem pop_long_effect (b : Machine) : frame_effect b (pop_long b).2 := by
  unfold pop_long
  split_ifs with h
  · refine frame_effect_trans _ _ _ (touch_stack_effect b _) (set_top_effect _ _ (Or.inr ?_))
    rw [touch_stack_frame]
    exact Nat.sub_le _ _
  · exact frame_effect_refl b

theorem push_float_effect (b : Machine) (value : Nat) : frame_effect b (push_float b value) := by
  unfold push_float
  split_ifs with h
  · exact frame_effect_trans _ _ _ (set_stack_effect b _ _)
      (set_top_effect _ _ (Or.inl (show b.frame.stack_top + 1 ≤ MAX_STACK_SIZE from h)))
  · exact frame_effect_refl b

theorem pop_float_effect (b : Machine) : frame_effect b (pop_float b).2 := by
  unfold pop_float
  split_ifs with h
  · refine frame_effect_trans _ _ _ (touch_stack_effect b _) (set_top_effect _ _ (Or.inr ?_))
    rw [touch_stack_frame]
    exact Nat.sub_le _ _
  · exact frame_effect_refl b

theorem push_double_effect (b : Machine) (value : Nat) : frame_effect b (push_double b value) := by
  unfold push_double
  split_ifs with h
  · exact frame_effect_trans _ _ _ (set_stack_effect b _ _)
      (set_top_effect _ _ (Or.inl (show b.frame.stack_top + 1 ≤ MAX_STACK_SIZE from h)))
  · exact frame_effect_refl b

theorem pop_double_effect (b : Machine) : frame_effect b (pop_double b).2 := by
  unfold pop_double
  split_ifs with h
  · refine frame_effect_trans _ _ _ (touch_stack_effect b _) (set_top_effect _ _ (Or.inr ?_))
    rw [touch_stack_frame]
    exact Nat.sub_le _ _
  · exact frame_effect_refl b

theorem push_ref_effect (b : Machine) (value : Nat) : frame_effect b (push_ref b value) := by
  unfold push_ref
  split_ifs with h
  · exact frame_effect_trans _ _ _ (set_stack_effect b _ _)
      (set_top_effect _ _ (Or.inl (show b.frame.stack_top + 1 ≤ MAX_STACK_SIZE from h)))
  · exact frame_effect_refl b

theorem pop_ref_effect (b : Machine) : frame_effect b (pop_ref b).2 := by
  unfold pop_ref
  split_ifs with h
  · refine frame_effect_trans _ _ _ (touch_stack_effect b _) (set_top_effect _ _ (Or.inr ?_))
    rw [touch_stack_frame]
    exact Nat.sub_le _ _
  · exact frame_effect_refl b

theorem read_u1_effect (b : Machine) : frame_effect b (Bytecode.read_u1 b).2 :=
  frame_effect_trans _ _ _ (touch_code_effect b _) (set_pc_effect _ _)

theorem read_u2_effect (b : Machine) : frame_effect b (Bytecode.read_u2 b).2 :=
  frame_effect_trans _ _ _
    (frame_effect_trans _ _ _ (touch_code_effect b _) (touch_code_effect _ _)) (set_pc_effect _ _)

theorem read_s2_effect (b : Machine) : frame_effect b (Bytecode.read_s2 b).2 :=
  frame_effect_trans _ _ _
    (frame_effect_trans _ _ _ (touch_code_effect b _) (touch_code_effect _ _)) (set_pc_effect _ _)

theorem iload_effect (b : Machine) (index : Nat) : frame_effect b (iload b index) :=
  frame_effect_trans _ _ _ (touch_local_effect b _) (push_int_effect _ _)

theorem aload_effect (b : Machine) (index : Nat) : frame_effect b (aload b index) :=
  frame_effect_trans _ _ _ (touch_local_effect b _) (push_ref_effect _ _)

theorem istore_effect (b : Machine) (index : Nat) : frame_effect b (istore b index) :=
  frame_effect_trans _ _ _ (pop_int_effect b) (set_local_effect _ _ _)

theorem astore_effect (b : Machine) (index : Nat) : frame_effect b (astore b index) :=
  frame_effect_trans _ _ _ (pop_ref_effect b) (set_local_effect _ _ _)

theorem int_binop_effect (b : Machine) (f : Int → Int → Int) : frame_effect b (int_binop b f) :=
  frame_effect_trans _ _ _
    (frame_effect_trans _ _ _ (pop_int_effect b) (pop_int_effect _)) (push_int_effect _ _)

theorem long_binop_effect (b : Machine) (f : Int → Int → Int) : frame_effect b (long_binop b f) :=
  frame_effect_trans _ _ _
    (frame_effect_trans _ _ _ (pop_long_effect b) (pop_long_effect _)) (push_long_effect _ _)

theorem float_binop_effect (b : Machine) (f : Nat → Nat → Nat) : frame_effect b (float_binop b f) :=
  frame_effect_trans _ _ _
    (frame_effect_trans _ _ _ (pop_float_effect b) (pop_float_effect _)) (push_float_effect _ _)

theorem double_binop_effect (b : Machine) (f : Nat → Nat → Nat) : frame_effect b (double_binop b f) :=
  frame_effect_trans _ _ _
    (frame_effect_trans _ _ _ (pop_double_effect b) (pop_double_effect _)) (push_double_effect _ _)

theorem if_cond_effect (b : Machine) (cond : Int → Bool) : frame_effect b (if_cond b cond) := by
  unfold if_cond
  simp only []
  split_ifs
  · exact frame_effect_trans _ _ _
      (frame_effect_trans _ _ _ (read_s2_effect b) (pop_int_effect _)) (set_pc_effect _ _)
  · exact frame_effect_trans _ _ _ (read_s2_effect b) (pop_int_effect _)

theorem if_icmp_effect (b : Machine) (cond : Int → Int → Bool) :
    frame_effect b (if_icmp b cond) := by
  unfold if_icmp
  simp only []
  split_ifs
  · exact frame_effect_trans _ _ _ (frame_effect_trans _ _ _
      (frame_effect_trans _ _ _ (read_s2_effect b) (pop_int_effect _)) (pop_int_effect _))
      (set_pc_effect _ _)
  · exact frame_effect_trans _ _ _
      (frame_effect_trans _ _ _ (read_s2_effect b) (pop_int_effect _)) (pop_int_effect _)

theorem checked_div_effect (b : Machine) (bits : Nat) (value1 value2 : Int) :
    frame_effect b (checked_div b bits value1 value2).2 := by
  unfold checked_div
  simp only []
  split_ifs
  · exact fault_effect b
  · exact frame_effect_refl b

theorem print_effect (b : Machine) (bytes : List Nat) : frame_effect b (b.print bytes) :=
  ⟨rfl, rfl, fun _ _ => rfl, fun _ _ => rfl, fun h => h, fun h => Or.inl h⟩

theorem set_string_effect (b : Machine) (k : Nat) (s : JString) :
    frame_effect b (b.set_string k s) :=
  ⟨rfl, rfl, fun _ _ => rfl, fun _ _ => rfl, fun h => h, fun h => Or.inl h⟩

theorem or_fault_effect (b : Machine) (c : Bool) :
    frame_effect b { b with fault := b.fault || c } :=
  ⟨rfl, rfl, fun _ _ => rfl, fun _ _ => rfl, fun h => by simp [h],
    fun h => Or.inl h⟩

theorem jvm_print_string_effect (P : Platform) (b : Machine) (str : Nat) :
    frame_effect b (jvm_print_string P b str) := by
  unfold jvm_print_string
  split_ifs
  · exact frame_effect_refl b
  · split
    · exact fault_effect b
    · split
      · exact frame_effect_refl b
      · exact print_effect b _

theorem push_new_string_frame_effect (P : Platform) (b : Machine) (str : List Nat) :
    frame_effect b (push_new_string P b str) :=
  frame_effect_trans _ _ _
    (with_jvm_effect b _ (jvm_create_string_memory P b.jvm str).1
      (jvm_create_string_memory P b.jvm str).2) (push_ref_effect _ _)

theorem utf8_effect (b : Machine) (index : Nat) : frame_effect b (b.utf8 index).2 := by
  unfold Machine.utf8
  simp only []
  split_ifs
  · exact frame_effect_refl b
  · exact touch_pool_effect b _

/-! ### The frame of a callee -/

theorem pop_int_shape (m : Machine) :
    (pop_int m).2.jvm = m.jvm ∧ (m.fault = true → (pop_int m).2.fault = true) ∧
    (pop_int m).2.frame.stack_top ≤ m.frame.stack_top ∧
    (pop_int m).2.frame.locals = m.frame.locals ∧
    (pop_int m).2.frame.operand_stack = m.frame.operand_stack ∧
    (pop_int m).2.frame.class_info = m.frame.class_info := by
  unfold pop_int Machine.touch_stack Machine.set_top
  split_ifs
  · exact ⟨rfl, fun h => h, Nat.sub_le _ _, rfl, rfl, rfl⟩
  · exact ⟨rfl, fun _ => rfl, Nat.sub_le _ _, rfl, rfl, rfl⟩
  · exact ⟨rfl, fun h => h, Nat.le_refl _, rfl, rfl, rfl⟩

theorem set_local_shape (c : Machine) (k : Nat) (w : jvalue) (base : Nat)
    (hbase : c.frame.locals = base + 256) :
    (c.set_local k w).frame = c.frame ∧
    (c.set_local k w).jvm.stack_memory = c.jvm.stack_memory ∧
    (∀ j, j < base + 256 → (c.set_local k w).jvm.locals_memory j = c.jvm.locals_memory j) ∧
    (c.fault = true → (c.set_local k w).fault = true) := by
  refine ⟨rfl, rfl, fun j hj => ?_, fun h => ?_⟩
  · show mem_set _ _ _ j = _
    unfold mem_set
    rw [if_neg (by rw [hbase]; omega)]
  · show (Machine.touch_local _ k).fault = true
    unfold Machine.touch_local
    split_ifs
    · exact h
    · rfl

theorem invoke_parameters_shape (m : Machine) (target : MethodInfo)
    (descriptor : Option (List Nat)) :
    (invoke_parameters m target descriptor).1.jvm = m.jvm ∧
    (invoke_parameters m target descriptor).1.frame.locals = m.frame.locals ∧
    (invoke_parameters m target descriptor).1.frame.operand_stack = m.frame.operand_stack ∧
    (invoke_parameters m target descriptor).1.frame.stack_top ≤ m.frame.stack_top ∧
    (m.fault = true → (invoke_parameters m target descriptor).1.fault = true) ∧
    (invoke_parameters m target descriptor).2.frame = invoke_frame m target ∧
    (invoke_parameters m target descriptor).2.jvm.stack_memory = m.jvm.stack_memory ∧
    (∀ j, j < m.frame.locals + 256 →
      (invoke_parameters m target descriptor).2.jvm.locals_memory j = m.jvm.locals_memory j) ∧
    ((invoke_parameters m target descriptor).1.fault = true →
      (invoke_parameters m target descriptor).2.fault = true) := by
  obtain ⟨a1, a2, a3, a4, a5, a6⟩ := pop_int_shape m
  obtain ⟨b1, b2, b3, b4, b5, b6⟩ := pop_int_shape (pop_int m).2
  unfold invoke_parameters
  split_ifs
  · simp only []
    refine ⟨b1.trans a1, b4.trans a4, b5.trans a5, Nat.le_trans b3 a3, fun h => b2 (a2 h),
      rfl, ?_, fun j hj => ?_, fun h => ?_⟩
    · refine (set_local_shape _ 1 _ m.frame.locals rfl).2.1.trans ?_
      refine (set_local_shape _ 0 _ m.frame.locals rfl).2.1.trans ?_
      show (pop_int (pop_int m).2).2.jvm.stack_memory = _
      rw [b1, a1]
    · refine ((set_local_shape _ 1 _ m.frame.locals rfl).2.2.1 j hj).trans ?_
      refine ((set_local_shape _ 0 _ m.frame.locals rfl).2.2.1 j hj).trans ?_
      show (pop_int (pop_int m).2).2.jvm.locals_memory j = _
      rw [b1, a1]
    · refine (set_local_shape _ 1 _ m.frame.locals rfl).2.2.2 ?_
      exact (set_local_shape _ 0 _ m.frame.locals rfl).2.2.2 h
  · simp only []
    refine ⟨a1, a4, a5, a3, a2, rfl, ?_, fun j hj => ?_, fun h => ?_⟩
    · refine (set_local_shape _ 0 _ m.frame.locals rfl).2.1.trans ?_
      show (pop_int m).2.jvm.stack_memory = _
      rw [a1]
    · refine ((set_local_shape _ 0 _ m.frame.locals rfl).2.2.1 j hj).trans ?_
      show (pop_int m).2.jvm.locals_memory j = _
      rw [a1]
    · exact (set_local_shape _ 0 _ m.frame.locals rfl).2.2.2 h
  · exact ⟨rfl, rfl, rfl, Nat.le_refl _, fun h => h, rfl, rfl, fun _ _ => rfl, fun h => h⟩

theorem one_push_refl (c : Machine) : one_push c c :=
  ⟨rfl, rfl, fun _ _ => rfl, rfl, fun h => h, fun h => h⟩

theorem one_push_int (c : Machine) (value : Int) : one_push c (push_int c value) := by
  unfold push_int
  split_ifs with h
  · refine ⟨rfl, rfl, fun j hj => ?_, rfl, fun hf => ?_, fun _ => h⟩
    · show mem_set _ _ _ j = _
      unfold mem_set
      rw [if_neg hj]
    · show (Machine.touch_stack _ _).fault = true
      exact (touch_stack_effect c _).2.2.2.2.1 hf
  · exact one_push_refl c

theorem one_push_ref (c : Machine) (ref : Nat) : one_push c (push_ref c ref) := by
  unfold push_ref
  split_ifs with h
  · refine ⟨rfl, rfl, fun j hj => ?_, rfl, fun hf => ?_, fun _ => h⟩
    · show mem_set _ _ _ j = _
      unfold mem_set
      rw [if_neg hj]
    · show (Machine.touch_stack _ _).fault = true
      exact (touch_stack_effect c _).2.2.2.2.1 hf
  · exact one_push_refl c

theorem one_push_new_string (P : Platform) (c : Machine) (str : List Nat) :
    one_push c (push_new_string P c str) := by
  obtain ⟨h1, h2, h3, h4, h5, h6⟩ :=
    one_push_ref (c.with_jvm (jvm_create_string P c.jvm str).2) (jvm_create_string P c.jvm str).1
  obtain ⟨c1, c2⟩ := jvm_create_string_memory P c.jvm str
  refine ⟨h1, h2, fun j hj => (h3 j hj).trans (congrFun c1 j), h4.trans c2, h5, h6⟩

theorem invoke_current_class_cases (P : Platform) (call : Machine → Outcome) (m : Machine)
    (target : MethodInfo) (method_name descriptor : Option (List Nat)) (res : Int × Machine)
    (h : invoke_current_class P call m target method_name descriptor = some res) :
    ∃ c, one_push c res.2 ∧ c.frame = (invoke_parameters m target descriptor).1.frame ∧
      ((c.jvm = m.jvm ∧ (m.fault = true → c.fault = true)) ∨
        ((invoke_parameters m target descriptor).2.fault = false ∧
          ∃ r callee, call (invoke_parameters m target descriptor).2 = .returned r callee ∧
            c.jvm = callee.jvm)) := by
  obtain ⟨s1, s2, s3, s4, s5, s6, s7, s8, s9⟩ := invoke_parameters_shape m target descriptor
  unfold invoke_current_class at h
  simp only [] at h
  by_cases hfault : (invoke_parameters m target descriptor).2.fault = true
  · rw [if_pos hfault] at h
    injection h with h
    subst h
    exact ⟨_, one_push_refl _, rfl, Or.inl ⟨s1, fun _ => rfl⟩⟩
  · rw [if_neg hfault] at h
    have hfault' : (invoke_parameters m target descriptor).2.fault = false := by
      simpa using hfault
    rcases hc : call (invoke_parameters m target descriptor).2 with ⟨result, callee⟩ | _ | _
    · simp only [hc] at h
      split_ifs at h
      all_goals injection h with h
      all_goals subst h
      all_goals first
        | exact ⟨_, one_push_int _ _, rfl, Or.inr ⟨hfault', _, _, rfl, rfl⟩⟩
        | exact ⟨_, one_push_new_string P _ _, rfl, Or.inr ⟨hfault', _, _, rfl, rfl⟩⟩
        | exact ⟨_, one_push_refl _, rfl, Or.inr ⟨hfault', _, _, rfl, rfl⟩⟩
    · simp only [hc] at h
      injection h with h
      subst h
      exact ⟨_, one_push_refl _, rfl, Or.inl ⟨s1, fun _ => rfl⟩⟩
    · simp only [hc] at h
      exact absurd h (by simp)

theorem invoke_current_class_memory (P : Platform) (call : Machine → Outcome) (m : Machine)
    (target : MethodInfo) (method_name descriptor : Option (List Nat)) (res : Int × Machine)
    (hcall : ∀ x r x', call x = .returned r x' → frame_effect x x')
    (h : invoke_current_class P call m target method_name descriptor = some res) :
    res.2.frame.locals = m.frame.locals ∧ res.2.frame.operand_stack = m.frame.operand_stack ∧
    (∀ j, j < m.frame.operand_stack + 512 →
      j ≠ m.frame.operand_stack + (invoke_parameters m target descriptor).1.frame.stack_top →
      res.2.jvm.stack_memory j = m.jvm.stack_memory j) ∧
    (∀ j, j < m.frame.locals + 256 → res.2.jvm.locals_memory j = m.jvm.locals_memory j) ∧
    (m.fault = true → res.2.fault = true) ∧
    (m.frame.stack_top ≤ MAX_STACK_SIZE → res.2.frame.stack_top ≤ MAX_STACK_SIZE) := by
  obtain ⟨s1, s2, s3, s4, s5, s6, s7, s8, s9⟩ := invoke_parameters_shape m target descriptor
  obtain ⟨c, ⟨p1, p2, p3, p4, p5, p6⟩, hframe, hcase⟩ :=
    invoke_current_class_cases P call m target method_name descriptor res h
  have f1 : c.frame.locals = m.frame.locals := by rw [hframe]; exact s2
  have f2 : c.frame.operand_stack = m.frame.operand_stack := by rw [hframe]; exact s3
  have f3 : c.frame.stack_top = (invoke_parameters m target descriptor).1.frame.stack_top := by
    rw [hframe]
  have bound : m.frame.stack_top ≤ MAX_STACK_SIZE → res.2.frame.stack_top ≤ MAX_STACK_SIZE :=
    fun hb => p6 (by rw [f3]; exact Nat.le_trans s4 hb)
  rcases hcase with ⟨hjvm, hsticky⟩ | ⟨hfault, r, callee, hc, hjvm⟩
  · refine ⟨p1.trans f1, p2.trans f2, fun j _ hj => ?_, fun j _ => ?_, fun hf => p5 (hsticky hf),
      bound⟩
    · rw [p3 j (by rw [f2, f3]; exact hj), hjvm]
    · rw [p4, hjvm]
  · obtain ⟨e1, e2, e3, e4, e5, e6⟩ := hcall _ _ _ hc
    have g1 : (invoke_parameters m target descriptor).2.frame.operand_stack
        = m.frame.operand_stack + 512 := by rw [s6]; rfl
    have g2 : (invoke_parameters m target descriptor).2.frame.locals
        = m.frame.locals + 256 := by rw [s6]; rfl
    refine ⟨p1.trans f1, p2.trans f2, fun j hlt hj => ?_, fun j hlt => ?_, fun hf => ?_, bound⟩
    · rw [p3 j (by rw [f2, f3]; exact hj), hjvm, e3 j (by rw [g1]; exact hlt), s7]
    · rw [p4, hjvm, e4 j (by rw [g2]; exact hlt), s8 j hlt]
    · have := s9 (s5 hf)
      rw [hfault] at this
      exact absurd this (by decide)

theorem invoke_current_class_effect (P : Platform) (call : Machine → Outcome) (m : Machine)
    (target : MethodInfo) (method_name descriptor : Option (List Nat)) (res : Int × Machine)
    (hcall : ∀ x r x', call x = .returned r x' → frame_effect x x')
    (h : invoke_current_class P call m target method_name descriptor = some res) :
    frame_effect m res.2 := by
  obtain ⟨a1, a2, a3, a4, a5, a6⟩ :=
    invoke_current_class_memory P call m target method_name descriptor res hcall h
  exact ⟨a1, a2, fun j hj => a3 j (by omega) (by omega), fun j hj => a4 j (by omega), a5,
    fun hb => Or.inl (a6 hb)⟩

/-! ### Chains of steps -/

theorem set_pc_reach (a : Machine) (b : Machine) (pc : Int) (h : frame_effect a b) :
    frame_effect a (b.set_pc pc) :=
  frame_effect_trans _ _ _ h (set_pc_effect b pc)

theorem touch_stack_reach (a : Machine) (b : Machine) (k : Nat) (h : frame_effect a b) :
    frame_effect a (b.touch_stack k) :=
  frame_effect_trans _ _ _ h (touch_stack_effect b k)

theorem touch_local_reach (a : Machine) (b : Machine) (k : Nat) (h : frame_effect a b) :
    frame_effect a (b.touch_local k) :=
  frame_effect_trans _ _ _ h (touch_local_effect b k)

theorem touch_code_reach (a : Machine) (b : Machine) (k : Int) (h : frame_effect a b) :
    frame_effect a (b.touch_code k) :=
  frame_effect_trans _ _ _ h (touch_code_effect b k)

theorem touch_pool_reach (a : Machine) (b : Machine) (k : Nat) (h : frame_effect a b) :
    frame_effect a (b.touch_pool k) :=
  frame_effect_trans _ _ _ h (touch_pool_effect b k)

theorem set_stack_reach (a : Machine) (b : Machine) (k : Nat) (w : jvalue) (h : frame_effect a b) :
    frame_effect a (b.set_stack k w) :=
  frame_effect_trans _ _ _ h (set_stack_effect b k w)

theorem set_local_reach (a : Machine) (b : Machine) (k : Nat) (w : jvalue) (h : frame_effect a b) :
    frame_effect a (b.set_local k w) :=
  frame_effect_trans _ _ _ h (set_local_effect b k w)

theorem push_int_reach (a : Machine) (b : Machine) (value : Int) (h : frame_effect a b) :
    frame_effect a (push_int b value) :=
  frame_effect_trans _ _ _ h (push_int_effect b value)

theorem pop_int_reach (a : Machine) (b : Machine) (h : frame_effect a b) :
    frame_effect a (pop_int b).2 :=
  frame_effect_trans _ _ _ h (pop_int_effect b)

theorem push_long_reach (a : Machine) (b : Machine) (value : Int) (h : frame_effect a b) :
    frame_effect a (push_long b value) :=
  frame_effect_trans _ _ _ h (push_long_effect b value)

theorem pop_long_reach (a : Machine) (b : Machine) (h : frame_effect a b) :
    frame_effect a (pop_long b).2 :=
  frame_effect_trans _ _ _ h (pop_long_effect b)

theorem push_float_reach (a : Machine) (b : Machine) (value : Nat) (h : frame_effect a b) :
    frame_effect a (push_float b value) :=
  frame_effect_trans _ _ _ h (push_float_effect b value)

theorem pop_float_reach (a : Machine) (b : Machine) (h : frame_effect a b) :
    frame_effect a (pop_float b).2 :=
  frame_effect_trans _ _ _ h (pop_float_effect b)

theorem push_double_reach (a : Machine) (b : Machine) (value : Nat) (h : frame_effect a b) :
    frame_effect a (push_double b value) :=
  frame_effect_trans _ _ _ h (push_double_effect b value)

theorem pop_double_reach (a : Machine) (b : Machine) (h : frame_effect a b) :
    frame_effect a (pop_double b).2 :=
  frame_effect_trans _ _ _ h (pop_double_effect b)

theorem push_ref_reach (a : Machine) (b : Machine) (value : Nat) (h : frame_effect a b) :
    frame_effect a (push_ref b value) :=
  frame_effect_trans _ _ _ h (push_ref_effect b value)

theorem pop_ref_reach (a : Machine) (b : Machine) (h : frame_effect a b) :
    frame_effect a (pop_ref b).2 :=
  frame_effect_trans _ _ _ h (pop_ref_effect b)

theorem read_u1_reach (a : Machine) (b : Machine) (h : frame_effect a b) :
    frame_effect a (Bytecode.read_u1 b).2 :=
  frame_effect_trans _ _ _ h (read_u1_effect b)

theorem read_u2_reach (a : Machine) (b : Machine) (h : frame_effect a b) :
    frame_effect a (Bytecode.read_u2 b).2 :=
  frame_effect_trans _ _ _ h (read_u2_effect b)

theorem read_s2_reach (a : Machine) (b : Machine) (h : frame_effect a b) :
    frame_effect a (Bytecode.read_s2 b).2 :=
  frame_effect_trans _ _ _ h (read_s2_effect b)

theorem iload_reach (a : Machine) (b : Machine) (index : Nat) (h : frame_effect a b) :
    frame_effect a (iload b index) :=
  frame_effect_trans _ _ _ h (iload_effect b index)

theorem aload_reach (a : Machine) (b : Machine) (index : Nat) (h : frame_effect a b) :
    frame_effect a (aload b index) :=
  frame_effect_trans _ _ _ h (aload_effect b index)

theorem istore_reach (a : Machine) (b : Machine) (index : Nat) (h : frame_effect a b) :
    frame_effect a (istore b index) :=
  frame_effect_trans _ _ _ h (istore_effect b index)

theorem astore_reach (a : Machine) (b : Machine) (index : Nat) (h : frame_effect a b) :
    frame_effect a (astore b index) :=
  frame_effect_trans _ _ _ h (astore_effect b index)

theorem int_binop_reach (a : Machine) (b : Machine) (f : Int → Int → Int) (h : frame_effect a b) :
    frame_effect a (int_binop b f) :=
  frame_effect_trans _ _ _ h (int_binop_effect b f)

theorem long_binop_reach (a : Machine) (b : Machine) (f : Int → Int → Int) (h : frame_effect a b) :
    frame_effect a (long_binop b f) :=
  frame_effect_trans _ _ _ h (long_binop_effect b f)

theorem float_binop_reach (a : Machine) (b : Machine) (f : Nat → Nat → Nat) (h : frame_effect a b) :
    frame_effect a (float_binop b f) :=
  frame_effect_trans _ _ _ h (float_binop_effect b f)

theorem double_binop_reach (a : Machine) (b : Machine) (f : Nat → Nat → Nat) (h : frame_effect a b) :
    frame_effect a (double_binop b f) :=
  frame_effect_trans _ _ _ h (double_binop_effect b f)

theorem if_cond_reach (a : Machine) (b : Machine) (cond : Int → Bool) (h : frame_effect a b) :
    frame_effect a (if_cond b cond) :=
  frame_effect_trans _ _ _ h (if_cond_effect b cond)

theorem if_icmp_reach (a : Machine) (b : Machine) (cond : Int → Int → Bool) (h : frame_effect a b) :
    frame_effect a (if_icmp b cond) :=
  frame_effect_trans _ _ _ h (if_icmp_effect b cond)

theorem checked_div_reach (a : Machine) (b : Machine) (bits : Nat) (value1 value2 : Int) (h : frame_effect a b) :
    frame_effect a (checked_div b bits value1 value2).2 :=
  frame_effect_trans _ _ _ h (checked_div_effect b bits value1 value2)

theorem print_reach (a : Machine) (b : Machine) (bytes : List Nat) (h : frame_effect a b) :
    frame_effect a (b.print bytes) :=
  frame_effect_trans _ _ _ h (print_effect b bytes)

theorem set_string_reach (a : Machine) (b : Machine) (k : Nat) (s : JString) (h : frame_effect a b) :
    frame_effect a (b.set_string k s) :=
  frame_effect_trans _ _ _ h (set_string_effect b k s)

theorem jvm_print_string_reach (a : Machine) (P : Platform) (b : Machine) (str : Nat) (h : frame_effect a b) :
    frame_effect a (jvm_print_string P b str) :=
  frame_effect_trans _ _ _ h (jvm_print_string_effect P b str)

theorem push_new_string_frame_reach (a : Machine) (P : Platform) (b : Machine) (str : List Nat) (h : frame_effect a b) :
    frame_effect a (push_new_string P b str) :=
  frame_effect_trans _ _ _ h (push_new_string_frame_effect P b str)

theorem utf8_reach (a : Machine) (b : Machine) (index : Nat) (h : frame_effect a b) :
    frame_effect a (b.utf8 index).2 :=
  frame_effect_trans _ _ _ h (utf8_effect b index)

theorem fault_reach (a b : Machine) (h : frame_effect a b) :
    frame_effect a { b with fault := true } :=
  frame_effect_trans _ _ _ h (fault_effect b)

theorem or_fault_reach (a b : Machine) (c : Bool) (h : frame_effect a b) :
    frame_effect a { b with fault := b.fault || c } :=
  frame_effect_trans _ _ _ h (or_fault_effect b c)

theorem with_jvm_reach (a b : Machine) (jvm : JVM)
    (h1 : jvm.stack_memory = b.jvm.stack_memory) (h2 : jvm.locals_memory = b.jvm.locals_memory)
    (h : frame_effect a b) : frame_effect a (b.with_jvm jvm) :=
  frame_effect_trans _ _ _ h (with_jvm_effect b jvm h1 h2)

theorem resolve_method_ref_effect (b : Machine) : frame_effect b (resolve_method_ref b).1 := by
  unfold resolve_method_ref
  simp only []
  split_ifs
  all_goals repeat (first
    | with_reducible exact frame_effect_refl _
    | with_reducible refine utf8_reach _ _ _ ?_
    | with_reducible refine touch_pool_reach _ _ _ ?_
    | with_reducible refine read_u2_reach _ _ ?_)

theorem execute_ldc_string_effect (P : Platform) (b : Machine) (string_index : Nat) :
    frame_effect b (execute_ldc_string P b string_index).2 := by
  unfold execute_ldc_string
  simp only []
  split_ifs
  · exact frame_effect_refl b
  · split
    all_goals repeat (first
      | with_reducible exact frame_effect_refl _
      | with_reducible refine push_new_string_frame_reach _ _ _ _ ?_
      | with_reducible refine utf8_reach _ _ _ ?_
      | with_reducible refine touch_pool_reach _ _ _ ?_)
  · exact touch_pool_effect b _

theorem execute_new_effect (P : Platform) (b : Machine) :
    frame_effect b (execute_new P b).2 := by
  unfold execute_new
  simp only []
  split_ifs
  all_goals repeat (first
    | with_reducible exact frame_effect_refl _
    | with_reducible refine push_new_string_frame_reach _ _ _ _ ?_
    | with_reducible refine push_ref_reach _ _ _ ?_
    | with_reducible refine utf8_reach _ _ _ ?_
    | with_reducible refine touch_pool_reach _ _ _ ?_
    | with_reducible refine read_u2_reach _ _ ?_)

theorem invokevirtual_printstream_effect (P : Platform) (b : Machine)
    (method_name descriptor : Option (List Nat)) :
    frame_effect b (invokevirtual_printstream P b method_name descriptor) := by
  unfold invokevirtual_printstream native_system_out_println_int native_system_out_print_int
    native_system_out_println_void native_system_out_println native_system_out_print
  simp only []
  split_ifs
  all_goals repeat (first
    | with_reducible exact frame_effect_refl _
    | with_reducible refine print_reach _ _ _ ?_
    | with_reducible refine jvm_print_string_reach _ _ _ _ ?_
    | with_reducible refine pop_ref_reach _ _ ?_
    | with_reducible refine pop_int_reach _ _ ?_)

theorem invokevirtual_stringbuilder_effect (P : Platform) (b : Machine)
    (method_name descriptor : Option (List Nat)) :
    frame_effect b (invokevirtual_stringbuilder P b method_name descriptor) := by
  unfold invokevirtual_stringbuilder
  simp only []
  split_ifs
  all_goals repeat (first
    | with_reducible exact frame_effect_refl _
    | with_reducible refine push_new_string_frame_reach _ _ _ _ ?_
    | with_reducible refine push_ref_reach _ _ _ ?_
    | with_reducible refine or_fault_reach _ _ _ ?_
    | with_reducible refine fault_reach _ _ ?_
    | with_reducible refine set_string_reach _ _ _ _ ?_
    | with_reducible refine pop_ref_reach _ _ ?_
    | with_reducible refine pop_int_reach _ _ ?_
    | split
    | split_ifs)

theorem printstream_reach (P : Platform) (a b : Machine)
    (method_name descriptor : Option (List Nat)) (h : frame_effect a b) :
    frame_effect a (invokevirtual_printstream P b method_name descriptor) :=
  frame_effect_trans _ _ _ h (invokevirtual_printstream_effect P b method_name descriptor)

theorem stringbuilder_reach (P : Platform) (a b : Machine)
    (method_name descriptor : Option (List Nat)) (h : frame_effect a b) :
    frame_effect a (invokevirtual_stringbuilder P b method_name descriptor) :=
  frame_effect_trans _ _ _ h (invokevirtual_stringbuilder_effect P b method_name descriptor)

theorem execute_invokevirtual_effect (P : Platform) (b : Machine) :
    frame_effect b (execute_invokevirtual P b).2 := by
  have r := resolve_method_ref_effect b
  unfold execute_invokevirtual
  simp only []
  split
  · exact r
  · simp only []
    split_ifs
    all_goals repeat (first
      | with_reducible exact r
      | with_reducible refine printstream_reach P _ _ _ _ ?_
      | with_reducible refine stringbuilder_reach P _ _ _ _ ?_)

theorem jvm_read_int_memory (jvm : JVM) :
    (jvm_read_int jvm).2.stack_memory = jvm.stack_memory ∧
    (jvm_read_int jvm).2.locals_memory = jvm.locals_memory := ⟨rfl, rfl⟩

theorem jvm_read_line_memory (jvm : JVM) :
    (jvm_read_line jvm).2.stack_memory = jvm.stack_memory ∧
    (jvm_read_line jvm).2.locals_memory = jvm.locals_memory := by
  unfold jvm_read_line
  simp only []
  split_ifs <;> exact ⟨rfl, rfl⟩

theorem native_scanner_next_line_memory (P : Platform) (jvm : JVM) :
    (native_scanner_next_line P jvm).2.stack_memory = jvm.stack_memory ∧
    (native_scanner_next_line P jvm).2.locals_memory = jvm.locals_memory := by
  obtain ⟨l1, l2⟩ := jvm_read_line_memory jvm
  unfold native_scanner_next_line
  simp only []
  split
  · obtain ⟨c1, c2⟩ := jvm_create_string_memory P (jvm_read_line jvm).2 (by assumption)
    exact ⟨c1.trans l1, c2.trans l2⟩
  · exact ⟨l1, l2⟩

theorem scanner_int_reach (a b : Machine) (h : frame_effect a b) :
    frame_effect a (b.with_jvm (jvm_read_int b.jvm).2) :=
  with_jvm_reach _ _ _ (jvm_read_int_memory _).1 (jvm_read_int_memory _).2 h

theorem scanner_line_reach (P : Platform) (a b : Machine) (h : frame_effect a b) :
    frame_effect a (b.with_jvm (native_scanner_next_line P b.jvm).2) :=
  with_jvm_reach _ _ _ (native_scanner_next_line_memory P _).1
    (native_scanner_next_line_memory P _).2 h

theorem invokestatic_host_effect (P : Platform) (b : Machine)
    (class_name method_name descriptor : Option (List Nat)) :
    frame_effect b (invokestatic_host P b class_name method_name descriptor) := by
  unfold invokestatic_host native_system_out_println_int native_system_out_print_int
    native_system_out_println_void native_system_out_println native_system_out_print
    native_scanner_next_int
  simp only []
  split_ifs
  all_goals repeat (first
    | with_reducible exact frame_effect_refl _
    | with_reducible refine print_reach _ _ _ ?_
    | with_reducible refine jvm_print_string_reach _ _ _ _ ?_
    | with_reducible refine pop_ref_reach _ _ ?_
    | with_reducible refine pop_int_reach _ _ ?_
    | with_reducible refine push_int_reach _ _ _ ?_
    | with_reducible refine push_ref_reach _ _ _ ?_
    | with_reducible refine scanner_int_reach _ _ ?_
    | with_reducible refine scanner_line_reach P _ _ ?_)

theorem host_reach (P : Platform) (a b : Machine)
    (class_name method_name descriptor : Option (List Nat)) (h : frame_effect a b) :
    frame_effect a (invokestatic_host P b class_name method_name descriptor) :=
  frame_effect_trans _ _ _ h (invokestatic_host_effect P b class_name method_name descriptor)

theorem execute_invokestatic_effect (P : Platform) (call : Machine → Outcome) (b : Machine)
    (res : Int × Machine)
    (hcall : ∀ x r x', call x = .returned r x' → frame_effect x x')
    (h : execute_invokestatic P call b = some res) : frame_effect b res.2 := by
  have r := resolve_method_ref_effect b
  unfold execute_invokestatic at h
  simp only [] at h
  split at h
  · injection h with h
    subst h
    exact r
  · split_ifs at h
    all_goals try split at h
    all_goals try split_ifs at h
    all_goals first
      | exact frame_effect_trans _ _ _ r (invoke_current_class_effect P call _ _ _ _ res hcall h)
      | (injection h with h
         subst h
         simp only []
         first
           | with_reducible exact fault_reach _ _ r
           | with_reducible exact host_reach P _ _ _ _ _ r)

/-! ### Every opcode stays in its frame -/

theorem dup_effect (m : Machine) (value : jvalue) :
    frame_effect m (((m.touch_stack (m.frame.stack_top - 1)).set_stack m.frame.stack_top
      value).set_top ((m.frame.stack_top + 1) % 65536)) := by
  obtain ⟨jvm, frame, fault⟩ := m
  obtain ⟨locals, operand_stack, stack_top, pc, method, class_info⟩ := frame
  refine ⟨?_, ?_, fun j hj => ?_, fun j _ => ?_, fun h => ?_, fun h => ?_⟩
  · simp only [Machine.set_top, Machine.set_stack, touch_stack_frame]
  · simp only [Machine.set_top, Machine.set_stack, touch_stack_frame]
  · simp only [Machine.set_top, Machine.set_stack, touch_stack_frame, mem_set] at hj ⊢
    rw [if_neg (by omega)]
    unfold Machine.touch_stack
    split_ifs <;> rfl
  · simp only [Machine.set_top, Machine.set_stack]
    unfold Machine.touch_stack
    split_ifs <;> rfl
  · simp only at h
    subst h
    simp only [Machine.set_top, Machine.set_stack, Machine.touch_stack]
    split_ifs <;> rfl
  · simp only [MAX_STACK_SIZE] at h
    by_cases hs : operand_stack + stack_top < 2048
    · left
      simp only [Machine.set_top, MAX_STACK_SIZE]
      omega
    · right
      simp only [Machine.set_top, Machine.set_stack, Machine.touch_stack, MAX_STACK_SIZE]
      split_ifs <;> rfl

theorem pop_effect (m : Machine) : frame_effect m (m.set_top (m.frame.stack_top - 1)) :=
  set_top_effect m _ (Or.inr (Nat.sub_le _ _))

theorem execute_ldc_string_reach (P : Platform) (a b : Machine) (string_index : Nat)
    (h : frame_effect a b) : frame_effect a (execute_ldc_string P b string_index).2 :=
  frame_effect_trans _ _ _ h (execute_ldc_string_effect P b string_index)

theorem execute_opcode_effect (P : Platform) (call : Machine → Outcome) (m : Machine)
    (op : Option OpCode) (hcall : ∀ x r x', call x = .returned r x' → frame_effect x x') :
    (execute_opcode P call m op).all (frame_effect m) := by
  rcases op with _ | op
  · exact frame_effect_refl m
  · cases op
    case INVOKESTATIC =>
      show Step.all _ (match execute_invokestatic P call m with
        | none => Step.out_of_fuel
        | some res => if res.1 ≠ 0 then Step.ret (-1) res.2 else Step.next res.2)
      rcases h : execute_invokestatic P call m with _ | res
      · trivial
      · have e := execute_invokestatic_effect P call m res hcall h
        simp only []
        split_ifs
        · exact e
        · exact e
    case INVOKEVIRTUAL =>
      show Step.all _ (if (execute_invokevirtual P m).1 ≠ 0
        then Step.ret (-1) (execute_invokevirtual P m).2
        else Step.next (execute_invokevirtual P m).2)
      split_ifs
      · exact execute_invokevirtual_effect P m
      · exact execute_invokevirtual_effect P m
    case NEW =>
      show Step.all _ (if (execute_new P m).1 ≠ 0
        then Step.ret (-1) (execute_new P m).2
        else Step.next (execute_new P m).2)
      split_ifs
      · exact execute_new_effect P m
      · exact execute_new_effect P m
    case DUP =>
      show Step.all _ (if m.frame.stack_top > 0 then _ else _)
      split_ifs
      · exact dup_effect m _
      · exact frame_effect_refl m
    case POP =>
      show Step.all _ (if m.frame.stack_top > 0 then _ else _)
      split_ifs
      · exact pop_effect m
      · exact frame_effect_refl m
    all_goals first
      | show Step.all _ (Step.next _)
      | show Step.all _ (Step.ret _ _)
      | show Step.all _ (ite _ _ _)
    all_goals try simp only []
    all_goals try split_ifs
    all_goals simp only [Step.all]
    all_goals repeat (first
    | with_reducible exact frame_effect_refl _
    | with_reducible refine execute_ldc_string_reach P _ _ _ ?_
    | with_reducible refine set_pc_reach _ _ _ ?_
    | with_reducible refine touch_stack_reach _ _ _ ?_
    | with_reducible refine touch_local_reach _ _ _ ?_
    | with_reducible refine touch_code_reach _ _ _ ?_
    | with_reducible refine touch_pool_reach _ _ _ ?_
    | with_reducible refine set_stack_reach _ _ _ _ ?_
    | with_reducible refine set_local_reach _ _ _ _ ?_
    | with_reducible refine push_int_reach _ _ _ ?_
    | with_reducible refine pop_int_reach _ _ ?_
    | with_reducible refine push_long_reach _ _ _ ?_
    | with_reducible refine pop_long_reach _ _ ?_
    | with_reducible refine push_float_reach _ _ _ ?_
    | with_reducible refine pop_float_reach _ _ ?_
    | with_reducible refine push_double_reach _ _ _ ?_
    | with_reducible refine pop_double_reach _ _ ?_
    | with_reducible refine push_ref_reach _ _ _ ?_
    | with_reducible refine pop_ref_reach _ _ ?_
    | with_reducible refine read_u1_reach _ _ ?_
    | with_reducible refine read_u2_reach _ _ ?_
    | with_reducible refine read_s2_reach _ _ ?_
    | with_reducible refine iload_reach _ _ _ ?_
    | with_reducible refine aload_reach _ _ _ ?_
    | with_reducible refine istore_reach _ _ _ ?_
    | with_reducible refine astore_reach _ _ _ ?_
    | with_reducible refine int_binop_reach _ _ _ ?_
    | with_reducible refine long_binop_reach _ _ _ ?_
    | with_reducible refine float_binop_reach _ _ _ ?_
    | with_reducible refine double_binop_reach _ _ _ ?_
    | with_reducible refine if_cond_reach _ _ _ ?_
    | with_reducible refine if_icmp_reach _ _ _ ?_
    | with_reducible refine checked_div_reach _ _ _ _ _ ?_
    | with_reducible refine print_reach _ _ _ ?_
    | with_reducible refine set_string_reach _ _ _ _ ?_
    | with_reducible refine jvm_print_string_reach _ _ _ _ ?_
    | with_reducible refine push_new_string_frame_reach _ _ _ _ ?_
    | with_reducible refine utf8_reach _ _ _ ?_
    | with_reducible refine fault_reach _ _ ?_
    | with_reducible refine or_fault_reach _ _ _ ?_)

theorem execute_bytecode_effect (P : Platform) (fuel : Nat) :
    ∀ m r m', execute_bytecode P fuel m = .returned r m' → frame_effect m m' := by
  induction fuel with
  | zero =>
    intro m r m' h
    exact absurd h (by simp [execute_bytecode])
  | succ fuel ih =>
    intro m r m' h
    rw [execute_bytecode_succ] at h
    have hstep := execute_opcode_effect P (execute_bytecode P fuel) (Bytecode.read_u1 m).2
      (OpCode.of_byte (Bytecode.read_u1 m).1) ih
    have hread := read_u1_effect m
    by_cases hfault : m.fault = true
    · rw [if_pos hfault] at h
      exact absurd h (by simp)
    rw [if_neg hfault] at h
    by_cases hlen : m.frame.pc < (m.frame.method.code_length : Int)
    · rw [if_pos hlen] at h
      rcases hs : execute_opcode P (execute_bytecode P fuel) (Bytecode.read_u1 m).2
        (OpCode.of_byte (Bytecode.read_u1 m).1) with m1 | ⟨value, m1⟩ | _
      · rw [hs] at h hstep
        exact frame_effect_trans _ _ _ (frame_effect_trans _ _ _ hread hstep) (ih _ _ _ h)
      · rw [hs] at h hstep
        by_cases hf1 : m1.fault = true
        · simp only [hf1, if_true] at h
          exact absurd h (by simp)
        · simp only [hf1, if_false] at h
          injection h with h1 h2
          subst h2
          exact frame_effect_trans _ _ _ hread hstep
      · rw [hs] at h
        exact absurd h (by simp)
    · rw [if_neg hlen] at h
      injection h with h1 h2
      subst h2
      exact frame_effect_refl _

/-! ### The frame of the caller across a call -/

theorem invoke_parameters_depth (m : Machine) (target : MethodInfo) (d : List Nat) :
    (invoke_parameters m target (some d)).1.frame.stack_top
      = m.frame.stack_top - descriptor_pops d := by
  have p : ∀ x : Machine, (pop_int x).2.frame.stack_top = x.frame.stack_top - 1 := by
    intro x
    unfold pop_int Machine.touch_stack Machine.set_top
    split_ifs
    · rfl
    · rfl
    · show x.frame.stack_top = x.frame.stack_top - 1
      omega
  unfold invoke_parameters descriptor_pops
  simp only [has_str]
  split_ifs
  · show (pop_int (pop_int m).2).2.frame.stack_top = _
    rw [p, p]
    omega
  · show (pop_int m).2.frame.stack_top = _
    rw [p]
  · rfl

theorem read_u2_jvm (m : Machine) : (Bytecode.read_u2 m).2.jvm = m.jvm ∧
    (Bytecode.read_u2 m).2.frame.locals = m.frame.locals ∧
    (Bytecode.read_u2 m).2.frame.operand_stack = m.frame.operand_stack ∧
    (Bytecode.read_u2 m).2.frame.stack_top = m.frame.stack_top := by
  unfold Bytecode.read_u2 Machine.touch_code Machine.set_pc
  simp only []
  split_ifs <;> exact ⟨rfl, rfl, rfl, rfl⟩

/-- Claim C23, amended: the regions of the callee begin 256 locals and 512
operand-stack slots behind those of the caller, whatever the caller holds there.
For every `invokestatic` that enters a method of the current class and comes
back without a fault (no access of the callee, or of a frame it called, has gone
behind the end of `stack_memory`, where the locals lie, or behind the end of
`heap`), whatever the callee executes: the frame of the caller keeps its two
array pointers, every local `k < 256` of the caller keeps its word, and every
operand-stack slot `k` of the caller below the popped arguments keeps its word
provided `k < 512`. -/
theorem caller_frame_preserved (P : Platform) (fuel : Nat) (m0 m : Machine)
    (target : MethodInfo) (method_name : Option (List Nat)) (d : List Nat) (res : Int × Machine)
    (h : enters_method m0 m target method_name d)
    (hrun : execute_invokestatic P (execute_bytecode P fuel) m0 = some res) :
    res.2.fault = false →
      res.2.frame.locals = m0.frame.locals ∧
      res.2.frame.operand_stack = m0.frame.operand_stack ∧
      (∀ k, k < 256 → res.2.locals k = m0.locals k) ∧
      (∀ k, k < m0.frame.stack_top - descriptor_pops d → k < 512 →
        res.2.stack k = m0.stack k) := by
  intro _
  rw [execute_invokestatic_enters P _ m0 m target method_name d h] at hrun
  obtain ⟨a1, a2, a3, a4, _, _⟩ := invoke_current_class_memory P (execute_bytecode P fuel) m
    target method_name (some d) res (execute_bytecode_effect P fuel) hrun
  obtain ⟨cn, n, hm, -⟩ := h
  obtain ⟨e1, e2⟩ := resolve_method_ref_position m0
  obtain ⟨r1, r2, r3, r4⟩ := read_u2_jvm m0
  rw [hm] at e1 e2
  have j : m.jvm = m0.jvm := e2.trans r1
  have l : m.frame.locals = m0.frame.locals := by rw [e1]; exact r2
  have o : m.frame.operand_stack = m0.frame.operand_stack := by rw [e1]; exact r3
  have t : m.frame.stack_top = m0.frame.stack_top := by rw [e1]; exact r4
  rw [invoke_parameters_depth, t, o] at a3
  rw [l] at a1 a4
  rw [o] at a2
  rw [j] at a3 a4
  refine ⟨a1, a2, fun k hk => ?_, fun k hk hk2 => ?_⟩
  · show res.2.jvm.locals_memory (res.2.frame.locals + k) = _
    rw [a1]
    exact a4 _ (by omega)
  · show res.2.jvm.stack_memory (res.2.frame.operand_stack + k) = _
    rw [a2]
    exact a3 _ (by omega) (by omega)

/-! ### The depth of the operand stack -/

theorem executed_succ (P : Platform) (fuel : Nat) (m : Machine) :
    executed P (fuel + 1) m =
      if m.fault then []
      else if m.frame.pc < (m.frame.method.code_length : Int) then
        match execute_opcode P (execute_bytecode P fuel) (Bytecode.read_u1 m).2
            (OpCode.of_byte (Bytecode.read_u1 m).1) with
        | .out_of_fuel => []
        | .ret _ m' => [m']
        | .next m' => m' :: executed P fuel m'
      else [] := rfl

theorem executed_fault (P : Platform) (fuel : Nat) (m : Machine) (h : m.fault = true) :
    executed P fuel m = [] := by
  cases fuel with
  | zero => rfl
  | succ fuel => rw [executed_succ, if_pos h]

theorem read_u1_depth (m : Machine) :
    (Bytecode.read_u1 m).2.frame.stack_top = m.frame.stack_top := by
  unfold Bytecode.read_u1 Machine.touch_code Machine.set_pc
  simp only []
  split_ifs <;> rfl

theorem executed_depth (P : Platform) (fuel : Nat) :
    ∀ m : Machine, m.frame.stack_top ≤ MAX_STACK_SIZE → ∀ s ∈ executed P fuel m,
      s.fault = false → s.frame.stack_top ≤ MAX_STACK_SIZE := by
  induction fuel with
  | zero =>
    intro m _ s hs
    exact absurd hs (List.not_mem_nil s)
  | succ fuel ih =>
    intro m hm s hs hf
    rw [executed_succ] at hs
    have hstep := execute_opcode_effect P (execute_bytecode P fuel) (Bytecode.read_u1 m).2
      (OpCode.of_byte (Bytecode.read_u1 m).1) (execute_bytecode_effect P fuel)
    by_cases hfault : m.fault = true
    · rw [if_pos hfault] at hs
      exact absurd hs (List.not_mem_nil s)
    rw [if_neg hfault] at hs
    by_cases hlen : m.frame.pc < (m.frame.method.code_length : Int)
    · rw [if_pos hlen] at hs
      rcases hstp : execute_opcode P (execute_bytecode P fuel) (Bytecode.read_u1 m).2
        (OpCode.of_byte (Bytecode.read_u1 m).1) with m1 | ⟨value, m1⟩ | _
      · rw [hstp] at hs hstep
        have hb := hstep.2.2.2.2.2 (by rw [read_u1_depth]; exact hm)
        rcases List.mem_cons.mp hs with h1 | h1
        · subst h1
          rcases hb with hb | hb
          · exact hb
          · rw [hf] at hb
            exact absurd hb (by decide)
        · rcases hb with hb | hb
          · exact ih m1 hb s h1 hf
          · rw [executed_fault P fuel m1 hb] at h1
            exact absurd h1 (List.not_mem_nil s)
      · rw [hstp] at hs hstep
        have hb := hstep.2.2.2.2.2 (by rw [read_u1_depth]; exact hm)
        have h1 : s = m1 := List.mem_singleton.mp hs
        subst h1
        rcases hb with hb | hb
        · exact hb
        · rw [hf] at hb
          exact absurd hb (by decide)
      · rw [hstp] at hs
        exact absurd hs (List.not_mem_nil s)
    · rw [if_neg hlen] at hs
      exact absurd hs (List.not_mem_nil s)

theorem returned_no_fault (P : Platform) (fuel : Nat) :
    ∀ m r m', execute_bytecode P fuel m = .returned r m' → m'.fault = false := by
  induction fuel with
  | zero =>
    intro m r m' h
    exact absurd h (by simp [execute_bytecode])
  | succ fuel ih =>
    intro m r m' h
    rw [execute_bytecode_succ] at h
    by_cases hfault : m.fault = true
    · rw [if_pos hfault] at h
      exact absurd h (by simp)
    rw [if_neg hfault] at h
    by_cases hlen : m.frame.pc < (m.frame.method.code_length : Int)
    · rw [if_pos hlen] at h
      rcases hstp : execute_opcode P (execute_bytecode P fuel) (Bytecode.read_u1 m).2
        (OpCode.of_byte (Bytecode.read_u1 m).1) with m1 | ⟨value, m1⟩ | _
      · rw [hstp] at h
        exact ih m1 r m' h
      · rw [hstp] at h
        by_cases hf1 : m1.fault = true
        · simp only [hf1, if_true] at h
          exact absurd h (by simp)
        · simp only [hf1, if_false] at h
          injection h with h1 h2
          subst h2
          simpa using hf1
      · rw [hstp] at h
        exact absurd h (by simp)
    · rw [if_neg hlen] at h
      injection h with h1 h2
      subst h2
      simpa using hfault

theorem executed_last (P : Platform) (fuel : Nat) :
    ∀ m r m', execute_bytecode P fuel m = .returned r m' → m' = m ∨ m' ∈ executed P fuel m := by
  induction fuel with
  | zero =>
    intro m r m' h
    exact absurd h (by simp [execute_bytecode])
  | succ fuel ih =>
    intro m r m' h
    rw [execute_bytecode_succ] at h
    rw [executed_succ]
    by_cases hfault : m.fault = true
    · rw [if_pos hfault] at h
      exact absurd h (by simp)
    rw [if_neg hfault] at h ⊢
    by_cases hlen : m.frame.pc < (m.frame.method.code_length : Int)
    · rw [if_pos hlen] at h ⊢
      rcases hstp : execute_opcode P (execute_bytecode P fuel) (Bytecode.read_u1 m).2
        (OpCode.of_byte (Bytecode.read_u1 m).1) with m1 | ⟨value, m1⟩ | _
      · rw [hstp] at h
        right
        rcases ih m1 r m' h with h1 | h1
        · exact List.mem_cons.mpr (Or.inl h1)
        · exact List.mem_cons.mpr (Or.inr h1)
      · rw [hstp] at h
        right
        by_cases hf1 : m1.fault = true
        · simp only [hf1, if_true] at h
          exact absurd h (by simp)
        · simp only [hf1, if_false] at h
          injection h with h1 h2
          exact List.mem_singleton.mpr h2.symm
      · rw [hstp] at h
        exact absurd h (by simp)
    · rw [if_neg hlen] at h
      injection h with h1 h2
      exact Or.inl h2.symm

/-- Claim C22, amended: the bound is `MAX_STACK_SIZE`, not `max_stack`, which the
interpreter never reads.  For every machine whose depth is at most
`MAX_STACK_SIZE` (a frame starts with the depth 0), the depth `stack_top` (an
unsigned number) is at most `MAX_STACK_SIZE` after each opcode that
`execute_bytecode` executes in its frame without undefined behaviour, and in the
machine `execute_bytecode` returns, which is the last of these machines. -/
theorem stack_depth_bounded (P : Platform) (fuel : Nat) (m : Machine)
    (h : m.frame.stack_top ≤ MAX_STACK_SIZE) :
    (∀ s ∈ executed P fuel m, s.fault = false → s.frame.stack_top ≤ MAX_STACK_SIZE) ∧
    (∀ r m', execute_bytecode P fuel m = .returned r m' →
      (m' = m ∨ m' ∈ executed P fuel m) ∧ m'.frame.stack_top ≤ MAX_STACK_SIZE) ∧
    (∀ class_info method, (entry_frame class_info method).stack_top = 0) ∧
    (∀ target, (invoke_frame m target).stack_top = 0) := by
  refine ⟨executed_depth P fuel m h, fun r m' hr => ⟨executed_last P fuel m r m' hr, ?_⟩,
    fun _ _ => rfl, fun _ => rfl⟩
  have hf : m'.fault = false := returned_no_fault P fuel m r m' hr
  rcases executed_last P fuel m r m' hr with h1 | h1
  · rw [h1]; exact h
  · exact executed_depth P fuel m h m' h1 hf

/-! ### Examples for the single instructions -/

/-- Counterexample to claim C21 as stated: with 256 strings in the string pool,
`ldc` of a StringRef adds no string and pushes the null reference (the `areturn`
behind it returns 0); for the Utf8 bytes `41 00 42` the new string holds the one
byte `41`; and on a full operand stack `ldc` of the Integer 42 pushes nothing
(the `ireturn` behind it returns the 7 that was on top). -/
theorem ldc_string_not_added :
    (execute_bytecode stub_platform 3 (ldc_machine [104, 105] [0x12, 2, 0xb0] 256)).result
      = some 0 ∧
    (execute_bytecode stub_platform 3 (ldc_machine [104, 105] [0x12, 2, 0xb0] 256)).machine.map
      (fun m => m.jvm.string_pool.count) = some 256 ∧
    (execute_bytecode stub_platform 3 (ldc_machine [65, 0, 66] [0x12, 2, 0xb0] 0)).machine.map
      (fun m => (m.jvm.string_pool.strings 0).data) = some (some [65]) ∧
    (full_ldc_machine [104, 105] [0x12, 3, 0xac] 0).frame.stack_top = MAX_STACK_SIZE ∧
    (execute_bytecode stub_platform 3 (full_ldc_machine [104, 105] [0x12, 3, 0xac] 0)).result
      = some 7 ∧
    (execute_bytecode stub_platform 3
        (full_ldc_machine [104, 105] [0x12, 3, 0xac] 0)).machine.map
      (fun m => (m.frame.stack_top, m.fault)) = some (2047, false) := by
  decide

/-- Counterexample to claim C22 as stated: a method with `max_stack = 1` executes
`iconst_1; iconst_2; return`, and the depth is 2 after the second opcode. -/
theorem max_stack_exceeded :
    (executed stub_platform 3 shallow_machine).map
      (fun s => (s.frame.stack_top, s.frame.method.max_stack, s.fault))
      = [(1, 1, false), (2, 1, false), (2, 1, false)] := by
  decide

/-- Counterexample to claim C23 as stated: the caller has the depth 514 and no
argument is popped; the callee `iconst_5; return` writes 5 into slot 512 of the
caller, which held 7. -/
theorem deep_caller_overwritten :
    deep_caller.frame.stack_top = 514 ∧ jvalue_i (deep_caller.stack 512) = 7 ∧
    (execute_bytecode stub_platform 4 deep_caller).machine.map
      (fun m => (m.frame.stack_top, jvalue_i (m.stack 512), m.fault)) = some (514, 5, false) := by
  decide

/-- Counterexample to claim C24 as stated: on a full operand stack `iload 0` pushes
nothing, and `istore 0` pops the 7 on top into local 0, which held 0; the depth
is 2047 afterwards. -/
theorem full_stack_iload_istore :
    full_stack_machine.frame.stack_top = 2048 ∧ jvalue_i (full_stack_machine.locals 0) = 0 ∧
    (execute_bytecode stub_platform 3 full_stack_machine).machine.map
      (fun m => (m.frame.stack_top, jvalue_i (m.locals 0), m.fault)) = some (2047, 7, false) := by
  decide

/-- Counterexample to claim C29 as stated: on a full operand stack `bipush 5` and
`sipush 258` push nothing; the `ireturn` behind them returns the 7 that was on
top, and the depth is 2047 afterwards. -/
theorem bipush_on_full_stack :
    (full_machine [0x10, 5, 0xac]).frame.stack_top = MAX_STACK_SIZE ∧
    (execute_bytecode stub_platform 3 (full_machine [0x10, 5, 0xac])).result = some 7 ∧
    (execute_bytecode stub_platform 3 (full_machine [0x10, 5, 0xac])).machine.map
      (fun m => (m.frame.stack_top, m.frame.pc, m.fault)) = some (2047, 3, false) ∧
    (execute_bytecode stub_platform 4 (full_machine [0x11, 1, 2, 0xac])).result = some 7 := by
  decide

/-- The `ldc` of the Integer 42 pushes 42 (the `ireturn` behind it returns 42); the
`ldc` of a StringRef to `hi` adds the string `hi` in slot 0 of the pool and
pushes its address 4096; the `ldc` of a Class entry returns `-1`. -/
theorem ldc_effect_witness :
    (execute_bytecode stub_platform (1 + 1) (ldc_machine [104, 105] [0x12, 3, 0xac] 0)).result
      = some 42 ∧
    (execute_bytecode stub_platform (1 + 1)
        (ldc_machine [104, 105] [0x12, 2, 0xb0] 0)).machine.map
      (fun m => (m.jvm.string_pool.count, (m.jvm.string_pool.strings 0).data))
      = some (1, some [104, 105]) ∧
    (execute_bytecode stub_platform (1 + 1) (ldc_machine [104, 105] [0x12, 2, 0xb0] 0)).result
      = some 4096 ∧
    execute_bytecode stub_platform (1 + 1) (ldc_machine [104, 105] [0x12, 4, 0xac] 0)
      = .returned (-1) ((ldc_machine [104, 105] [0x12, 4, 0xac] 0).set_pc 2) := by
  have h := (ldc_effect stub_platform 1 (ldc_machine [104, 105] [0x12, 3, 0xac] 0) rfl
    (by decide) (by decide) (by decide) (by decide)).2.2.1 (by decide) (by decide) (by decide)
  have k := (ldc_effect stub_platform 1 (ldc_machine [104, 105] [0x12, 2, 0xb0] 0) rfl
    (by decide) (by decide) (by decide) (by decide)).2.2.2 [104, 105] (by decide) (by decide)
    (by decide) (by decide) (by decide)
  refine ⟨?_, ?_, ?_, ?_⟩
  · rw [h.1]; decide
  · rw [k.1]; decide
  · rw [k.1]; decide
  · exact (ldc_effect stub_platform 1 (ldc_machine [104, 105] [0x12, 4, 0xac] 0) rfl (by decide)
      (by decide) (by decide) (by decide)).2.1 (by decide) (by decide) (by decide) (by decide)

/-- The depth stays within `MAX_STACK_SIZE` in the run of `shallow_method`. -/
theorem stack_depth_bounded_witness :
    shallow_machine.frame.stack_top ≤ MAX_STACK_SIZE ∧
    ∀ s ∈ executed stub_platform 3 shallow_machine, s.fault = false →
      s.frame.stack_top ≤ MAX_STACK_SIZE :=
  ⟨by decide, (stack_depth_bounded stub_platform 3 shallow_machine (by decide)).1⟩

/-- The `invokestatic` of `iconst_1; iconst_2; ireturn` comes back without a fault,
and the word 9 beneath it is still there. -/
theorem caller_frame_preserved_witness :
    ∃ res, execute_invokestatic stub_platform (execute_bytecode stub_platform 5)
        (machine_in stale_slot_class (call_main [0xb8, 0, 6, 0xac]) [9] 1) = some res ∧
      res.2.fault = false ∧ res.2.frame.stack_top = 2 ∧ res.2.stack 0 = 9 := by
  have h := caller_frame_preserved stub_platform 5
    (machine_in stale_slot_class (call_main [0xb8, 0, 6, 0xac]) [9] 1)
    (resolve_method_ref (machine_in stale_slot_class (call_main [0xb8, 0, 6, 0xac]) [9] 1)).1
    (call_callee "f" "()I" [0x04, 0x05, 0xac]) (some (lit "f")) (lit "()I") _
    ⟨lit "Test", lit "Test", rfl, by decide, by decide, by decide, by decide, by decide⟩ rfl
    (by decide)
  exact ⟨_, rfl, by decide, by decide, (h.2.2.2 0 (by decide) (by decide)).trans (by decide)⟩

/-- The sequence `iload 1; istore 1` on the locals 5 and 9 and the stack 3 leaves
the depth 1 and the locals 5 and 9. -/
theorem iload_istore_restores_witness :
    ∃ m', execute_bytecode stub_platform (0 + 2) (code_machine [0x15, 1, 0x36, 1] [5, 9] [3] 0)
        = execute_bytecode stub_platform 0 m' ∧ m'.frame.stack_top = 1 ∧ m'.frame.pc = 4 ∧
      m'.jvm.locals_memory 0 = 5 ∧ m'.jvm.locals_memory 1 % 2 ^ 64 = 9 := by
  obtain ⟨m', h1, _, h3, h4, h5, _⟩ := iload_istore_restores stub_platform 0
    (code_machine [0x15, 1, 0x36, 1] [5, 9] [3] 0) rfl (by decide) (by decide) (by decide)
    (by decide) (by decide) (by decide) (by decide) (by decide)
  exact ⟨m', h1, (congrArg Frame.stack_top h3).trans (by decide),
    (congrArg Frame.pc h3).trans (by decide), (h5 0 (by decide)).trans (by decide),
    (h4 1).trans (by decide)⟩

/-- The sequence `swap; swap` on the stack 3, 7 leaves the machine with `pc = 2`. -/
theorem swap_twice_identity_witness :
    execute_bytecode stub_platform (0 + 2) (code_machine [0x5f, 0x5f] [] [3, 7] 0)
      = execute_bytecode stub_platform 0 ((code_machine [0x5f, 0x5f] [] [3, 7] 0).set_pc 2) :=
  swap_twice_identity stub_platform 0 (code_machine [0x5f, 0x5f] [] [3, 7] 0) rfl (by decide)
    (by decide) (by decide) (by decide) (by decide) (by decide)

/-- On 3 and 7, `iadd; ireturn` returns 10 in both orders; `isub; ireturn` returns
`-4`, and 4 in the other order. -/
theorem iadd_isub_algebra_witness :
    (execute_bytecode stub_platform (1 + 1) (code_machine [0x60, 0xac] [] [3, 7] 0)).result
      = some 10 ∧
    (execute_bytecode stub_platform (1 + 1) (code_machine [0x60, 0xac] [] [7, 3] 0)).result
      = some 10 ∧
    (execute_bytecode stub_platform (1 + 1) (code_machine [0x64, 0xac] [] [3, 7] 0)).result
      = some (-4) ∧
    (execute_bytecode stub_platform (1 + 1) (code_machine [0x64, 0xac] [] [7, 3] 0)).result
      = some 4 := by
  have h := (iadd_isub_algebra stub_platform 1
    (code_machine [0x60, 0xac] [] [3, 7] 0) (code_machine [0x60, 0xac] [] [7, 3] 0) 3 7
    rfl (by decide) (by decide) (by decide) (by decide) (by decide) rfl (by decide) (by decide)
    (by decide) (by decide) (by decide) (by decide) (by decide) (by decide) (by decide)).1
    (by decide) (by decide)
  have k := (iadd_isub_algebra stub_platform 1
    (code_machine [0x64, 0xac] [] [3, 7] 0) (code_machine [0x64, 0xac] [] [7, 3] 0) 3 7
    rfl (by decide) (by decide) (by decide) (by decide) (by decide) rfl (by decide) (by decide)
    (by decide) (by decide) (by decide) (by decide) (by decide) (by decide) (by decide)).2
    (by decide) (by decide)
  refine ⟨?_, ?_, ?_, ?_⟩
  · rw [h.1]; decide
  · rw [h.2.1]; decide
  · rw [k.1]; decide
  · rw [k.2.1]; decide

/-- The int `-1` becomes the long `-1` (64 one bits) under `i2l`; `l2i; ireturn` on
the long `0x1FFFFFFFF` returns `-1`; and `i2l; l2i; ireturn` on the int `-1`
returns `-1`. -/
theorem i2l_l2i_conversions_witness :
    (execute_bytecode stub_platform (1 + 1)
        (code_machine [0x85, 0xb1] [] [0xFFFFFFFF] 0)).machine.map (fun m => m.stack 0)
      = some 0xFFFFFFFFFFFFFFFF ∧
    (execute_bytecode stub_platform (1 + 1)
        (code_machine [0x88, 0xac] [] [0x1FFFFFFFF] 0)).result = some (-1) ∧
    (execute_bytecode stub_platform (1 + 2)
        (code_machine [0x85, 0x88, 0xac] [] [0xFFFFFFFF] 0)).result = some (-1) := by
  have h := i2l_l2i_conversions stub_platform 1 (code_machine [0x85, 0xb1] [] [0xFFFFFFFF] 0)
    (-1) 4294967295 rfl (by decide) (by decide) (by decide) (by decide) (by decide) (by decide)
    (by decide)
  have k := i2l_l2i_conversions stub_platform 1 (code_machine [0x88, 0xac] [] [0x1FFFFFFFF] 0)
    (-1) 8589934591 rfl (by decide) (by decide) (by decide) (by decide) (by decide) (by decide)
    (by decide)
  have c := i2l_l2i_conversions stub_platform 1
    (code_machine [0x85, 0x88, 0xac] [] [0xFFFFFFFF] 0)
    (-1) 4294967295 rfl (by decide) (by decide) (by decide) (by decide) (by decide) (by decide)
    (by decide)
  refine ⟨?_, ?_, ?_⟩
  · rw [(h.1 (by decide)).1]; decide
  · rw [(k.2.1 (by decide)).1]; decide
  · rw [(c.2.2 (by decide) (by decide) (by decide) (by decide)).1]; decide

/-- The code `bipush 0xFF; ireturn` returns `-1`, and `sipush 0xFF 0xFE; ireturn`
returns `-2`; on a full stack of sevens `bipush 5; ireturn` returns 7. -/
theorem bipush_sipush_value_witness :
    (execute_bytecode stub_platform (1 + 1) (code_machine [0x10, 0xFF, 0xac] [] [] 0)).result
      = some (-1) ∧
    (execute_bytecode stub_platform (1 + 1) (code_machine [0x11, 0xFF, 0xFE, 0xac] [] [] 0)).result
      = some (-2) ∧
    (execute_bytecode stub_platform (1 + 1) (full_machine [0x10, 5, 0xac])).result = some 7 := by
  have h := bipush_sipush_value stub_platform 1 (code_machine [0x10, 0xFF, 0xac] [] [] 0) rfl
    (by decide) (by decide)
  have k := bipush_sipush_value stub_platform 1 (code_machine [0x11, 0xFF, 0xFE, 0xac] [] [] 0)
    rfl (by decide) (by decide)
  have f := bipush_sipush_value stub_platform 1 (full_machine [0x10, 5, 0xac]) rfl
    (by decide) (by decide)
  refine ⟨?_, ?_, ?_⟩
  · rw [(h.1 (by decide) (by decide)).1]; decide
  · rw [(k.2 (by decide) (by decide)).1]; decide
  · rw [(f.1 (by decide) (by decide)).1]; decide

/-- With `-42` on top of a receiver, `println` writes `-42` and a newline, `print`
writes `-42`; both leave an empty stack. -/
theorem invokevirtual_prints_int_witness :
    (execute_bytecode stub_platform (2 + 1) (print_machine "println")).machine.map
      (fun m => (m.jvm.output, m.frame.stack_top)) = some (lit "-42\n", 0) ∧
    (execute_bytecode stub_platform (2 + 1) (print_machine "print")).machine.map
      (fun m => (m.jvm.output, m.frame.stack_top)) = some (lit "-42", 0) := by
  constructor
  · rw [(invokevirtual_prints_int stub_platform 2 (print_machine "println")
      (some (lit "java/io/PrintStream")) rfl (by decide) (by decide) (by decide) (by decide)
      (by decide) (by decide) (by decide) (by decide)).1 (by decide)]
    decide
  · rw [(invokevirtual_prints_int stub_platform 2 (print_machine "print")
      (some (lit "java/io/PrintStream")) rfl (by decide) (by decide) (by decide) (by decide)
      (by decide) (by decide) (by decide) (by decide)).2 (by decide)]
    decide

/-! ### Static calls in every frame -/

theorem returned_from_no_fault (P : Platform) (fuel : Nat) (m : Machine) (r : Int)
    (m' : Machine) (h : execute_bytecode P fuel m = .returned r m') : m.fault = false := by
  cases fuel with
  | zero => exact absurd h (by simp [execute_bytecode])
  | succ fuel =>
    rw [execute_bytecode_succ] at h
    by_contra hf
    rw [if_pos (by simpa using hf)] at h
    cases h

theorem push_int_depth (m : Machine) (value : Int) :
    (m.frame.stack_top < MAX_STACK_SIZE →
      (push_int m value).frame.stack_top = m.frame.stack_top + 1) ∧
    (MAX_STACK_SIZE ≤ m.frame.stack_top →
      (push_int m value).frame.stack_top = m.frame.stack_top) := by
  constructor
  · intro h
    rw [push_int_frame m value h]
  · intro h
    rw [push_int_full m value h]

theorem push_new_string_depth (P : Platform) (m : Machine) (str : List Nat) :
    (m.frame.stack_top < MAX_STACK_SIZE →
      (push_new_string P m str).frame.stack_top = m.frame.stack_top + 1) ∧
    (MAX_STACK_SIZE ≤ m.frame.stack_top →
      (push_new_string P m str).frame.stack_top = m.frame.stack_top) := by
  constructor
  · intro h
    rw [push_new_string_frame P m str h]
  · intro h
    unfold push_new_string
    rw [push_ref_full _ _ (by exact h)]
    rfl

/-- Claim C12, amended: the descriptor is only searched for four texts.  For a
method with code of the current class whose call returns (in the embedding a
call with an access behind the end of `stack_memory` or of `heap` does not), in
whatever frame: `invokestatic` pops two slots when the descriptor contains
`(II)`, one when it contains `(I)`, and none for every other descriptor
(`descriptor_pops`; from a stack that holds fewer values it pops those); after
the return it pushes one slot when the descriptor contains `)I` or
`)Ljava/lang/String;` and none otherwise (`descriptor_pushes`), so the depth of
the caller becomes `stack_top - descriptor_pops d + descriptor_pushes d`, except
when the caller holds `MAX_STACK_SIZE` values after the pops: then nothing is
pushed. -/
theorem invokestatic_stack_effect (P : Platform) (fuel : Nat) (m0 m : Machine)
    (target : MethodInfo) (method_name : Option (List Nat)) (d : List Nat) (r : Int)
    (callee : Machine) (h : enters_method m0 m target method_name d)
    (hcall : execute_bytecode P fuel (invoke_parameters m target (some d)).2
      = .returned r callee) :
    (invoke_parameters m target (some d)).1.frame.stack_top
      = m.frame.stack_top - descriptor_pops d ∧
    ∃ m', execute_invokestatic P (execute_bytecode P fuel) m0 = some (0, m') ∧
      (m.frame.stack_top - descriptor_pops d < MAX_STACK_SIZE →
        m'.frame.stack_top = m.frame.stack_top - descriptor_pops d + descriptor_pushes d) ∧
      (MAX_STACK_SIZE ≤ m.frame.stack_top - descriptor_pops d →
        m'.frame.stack_top = m.frame.stack_top - descriptor_pops d) := by
  have hd := invoke_parameters_depth m target d
  have hp := returned_from_no_fault P fuel _ r callee hcall
  refine ⟨hd, ?_⟩
  rw [execute_invokestatic_enters P _ m0 m target method_name d h]
  unfold invoke_current_class descriptor_pushes
  simp only [hp, hcall, has_str, Bool.false_eq_true, if_false]
  by_cases hi : strstr d (lit ")I") = true
  · simp only [hi, if_true, Bool.true_or]
    split_ifs
    · refine ⟨_, rfl, fun hroom => ?_, fun hfull => ?_⟩
      · rw [(push_int_depth _ _).1 (by show (invoke_parameters m target (some d)).1.frame.stack_top < _; rw [hd]; exact hroom)]
        show (invoke_parameters m target (some d)).1.frame.stack_top + 1 = _
        rw [hd]
      · rw [(push_int_depth _ _).2 (by show _ ≤ (invoke_parameters m target (some d)).1.frame.stack_top; rw [hd]; exact hfull)]
        exact hd
    · refine ⟨_, rfl, fun hroom => ?_, fun hfull => ?_⟩
      · rw [(push_int_depth _ _).1 (by show (invoke_parameters m target (some d)).1.frame.stack_top < _; rw [hd]; exact hroom)]
        show (invoke_parameters m target (some d)).1.frame.stack_top + 1 = _
        rw [hd]
      · rw [(push_int_depth _ _).2 (by show _ ≤ (invoke_parameters m target (some d)).1.frame.stack_top; rw [hd]; exact hfull)]
        exact hd
  · by_cases hstr : strstr d (lit ")Ljava/lang/String;") = true
    · simp only [hi, hstr, Bool.false_eq_true, if_false, if_true, Bool.or_true]
      split_ifs <;>
      · refine ⟨_, rfl, fun hroom => ?_, fun hfull => ?_⟩
        · rw [(push_new_string_depth P _ _).1 (by show (invoke_parameters m target (some d)).1.frame.stack_top < _; rw [hd]; exact hroom)]
          show (invoke_parameters m target (some d)).1.frame.stack_top + 1 = _
          rw [hd]
        · rw [(push_new_string_depth P _ _).2 (by show _ ≤ (invoke_parameters m target (some d)).1.frame.stack_top; rw [hd]; exact hfull)]
          exact hd
    · simp only [hi, hstr, Bool.false_eq_true, if_false, Bool.or_self]
      exact ⟨_, rfl, fun _ => hd, fun _ => hd⟩

/-- The `invokestatic` of a method with the descriptor `(III)V` returns and leaves
the depth of the caller at 3. -/
theorem invokestatic_stack_effect_witness :
    ∃ m', execute_invokestatic stub_platform (execute_bytecode stub_platform 3)
        (machine_in three_int_class (call_main [0x04, 0x05, 0x06, 0xb8, 0, 6, 0xac]) [1, 2, 3] 4)
        = some (0, m') ∧ m'.frame.stack_top = 3 ∧ m'.fault = false := by
  obtain ⟨_, m', h1, h2, _⟩ := invokestatic_stack_effect stub_platform 3
    (machine_in three_int_class (call_main [0x04, 0x05, 0x06, 0xb8, 0, 6, 0xac]) [1, 2, 3] 4)
    (resolve_method_ref (machine_in three_int_class
      (call_main [0x04, 0x05, 0x06, 0xb8, 0, 6, 0xac]) [1, 2, 3] 4)).1
    (call_callee "f" "(III)V" [0xb1]) (some (lit "f")) (lit "(III)V") 0 _
    ⟨lit "Test", lit "Test", rfl, by decide, by decide, by decide, by decide, by decide⟩ rfl
  have e : execute_invokestatic stub_platform (execute_bytecode stub_platform 3)
      (machine_in three_int_class (call_main [0x04, 0x05, 0x06, 0xb8, 0, 6, 0xac]) [1, 2, 3] 4)
      = some (0, (resolve_method_ref (machine_in three_int_class
          (call_main [0x04, 0x05, 0x06, 0xb8, 0, 6, 0xac]) [1, 2, 3] 4)).1) := rfl
  have hm := Prod.mk.inj (Option.some.inj (h1.symm.trans e))
  exact ⟨m', h1, (h2 (by decide)).trans (by decide), by rw [hm.2]; rfl⟩

theorem invoke_parameters_pointers (m : Machine) (target : MethodInfo) (d : List Nat) :
    (invoke_parameters m target (some d)).1.frame.operand_stack = m.frame.operand_stack ∧
    (invoke_parameters m target (some d)).1.frame.locals = m.frame.locals := by
  have p : ∀ x : Machine, (pop_int x).2.frame.operand_stack = x.frame.operand_stack ∧
      (pop_int x).2.frame.locals = x.frame.locals := by
    intro x
    unfold pop_int Machine.touch_stack Machine.set_top
    split_ifs <;> exact ⟨rfl, rfl⟩
  unfold invoke_parameters
  simp only [has_str]
  split_ifs
  · exact ⟨((p _).1).trans (p m).1, ((p _).2).trans (p m).2⟩
  · exact p m
  · exact ⟨rfl, rfl⟩

/-- Claim C15, amended.  For a method with code of the current class whose
descriptor contains `)Ljava/lang/String;` (and not `)I`) and whose call returns,
in whatever frame: `execute_invokestatic` returns 0 with the machine `next`, the
caller after `push_new_string` of the text `returned_string_text`: `"Unknown"`,
or for a method named `getGrade` the grade for the int in local 0 of the callee.
With fewer than `MAX_STRING_POOL` strings in the pool the text is stored in the
next free slot, and with a full pool the pool is unchanged; with fewer than
`MAX_STACK_SIZE` values on the caller's stack after the pops, the address of the
new string, or the null reference when the pool is full, is pushed, and on a
full stack nothing is pushed; with the slot for the reference inside
`stack_memory` and local 0 of the callee in front of the end of `heap`, there is
no fault.  The value `r` the callee returned with `areturn` occurs nowhere in
`next`. -/
theorem string_return_replaced (P : Platform) (fuel : Nat) (m0 m : Machine)
    (target : MethodInfo) (method_name : Option (List Nat)) (d : List Nat) (r : Int)
    (callee next : Machine) (h : enters_method m0 m target method_name d)
    (hi : strstr d (lit ")I") = false) (hstr : strstr d (lit ")Ljava/lang/String;") = true)
    (hcall : execute_bytecode P fuel (invoke_parameters m target (some d)).2
      = .returned r callee)
    (hnext : next = push_new_string P
      { jvm := callee.jvm, frame := (invoke_parameters m target (some d)).1.frame,
        fault := if is_str method_name (lit "getGrade") then (callee.touch_local 0).fault
                 else callee.fault }
      (returned_string_text method_name (jvalue_i (callee.locals 0)))) :
    execute_invokestatic P (execute_bytecode P fuel) m0 = some (0, next) ∧
    (callee.jvm.string_pool.count < MAX_STRING_POOL →
      next.jvm.string_pool.count = callee.jvm.string_pool.count + 1 ∧
      (next.jvm.string_pool.strings callee.jvm.string_pool.count).data
        = some (cstr (returned_string_text method_name (jvalue_i (callee.locals 0)))) ∧
      (∀ k, k ≠ callee.jvm.string_pool.count →
        next.jvm.string_pool.strings k = callee.jvm.string_pool.strings k)) ∧
    (MAX_STRING_POOL ≤ callee.jvm.string_pool.count →
      next.jvm.string_pool = callee.jvm.string_pool) ∧
    (m.frame.stack_top - descriptor_pops d < MAX_STACK_SIZE →
      next.frame.stack_top = m.frame.stack_top - descriptor_pops d + 1 ∧
      (callee.jvm.string_pool.count < MAX_STRING_POOL →
        jvalue_ref (next.stack (m.frame.stack_top - descriptor_pops d))
          = (P.strings_addr + JSTRING_SIZE * callee.jvm.string_pool.count)
              % 18446744073709551616) ∧
      (MAX_STRING_POOL ≤ callee.jvm.string_pool.count →
        jvalue_ref (next.stack (m.frame.stack_top - descriptor_pops d)) = 0)) ∧
    (MAX_STACK_SIZE ≤ m.frame.stack_top - descriptor_pops d →
      next.frame.stack_top = m.frame.stack_top - descriptor_pops d ∧
      next.jvm.stack_memory = callee.jvm.stack_memory) ∧
    (m.frame.operand_stack + (m.frame.stack_top - descriptor_pops d) < MAX_STACK_SIZE →
      callee.frame.locals < LOCALS_REACH → next.fault = false) := by
  have hd := invoke_parameters_depth m target d
  have hp := returned_from_no_fault P fuel _ r callee hcall
  have hc := returned_no_fault P fuel _ r callee hcall
  have e : execute_invokestatic P (execute_bytecode P fuel) m0 = some (0, next) := by
    rw [execute_invokestatic_enters P _ m0 m target method_name d h, hnext]
    unfold invoke_current_class returned_string_text
    simp only [hp, hcall, has_str, hi, hstr, Bool.false_eq_true, if_false, if_true]
    split_ifs <;> rfl
  subst hnext
  refine ⟨e, fun hc1 => ?_, fun hc1 => ?_, fun hroom => ?_, fun hfull => ?_, fun hin hl => ?_⟩
  · have e1 := jvm_create_string_free P callee.jvm
      (returned_string_text method_name (jvalue_i (callee.locals 0))) hc1
    rw [push_new_string_pool]
    show (jvm_create_string P callee.jvm _).2.string_pool.count = _ ∧
      ((jvm_create_string P callee.jvm _).2.string_pool.strings _).data = _ ∧
      ∀ k, k ≠ callee.jvm.string_pool.count →
        (jvm_create_string P callee.jvm _).2.string_pool.strings k = _
    rw [e1]
    refine ⟨rfl, ?_, fun k hk => if_neg hk⟩
    show (if callee.jvm.string_pool.count = callee.jvm.string_pool.count then _ else _
      : JString).data = _
    rw [if_pos rfl]
  · rw [push_new_string_pool]
    show (jvm_create_string P callee.jvm _).2.string_pool = _
    unfold jvm_create_string
    rw [if_pos hc1]
  · have hr : (invoke_parameters m target (some d)).1.frame.stack_top < MAX_STACK_SIZE := by
      rw [hd]; exact hroom
    obtain ⟨w1, w2, -⟩ := push_ref_word
      (Machine.with_jvm
        { jvm := callee.jvm, frame := (invoke_parameters m target (some d)).1.frame,
          fault := if is_str method_name (lit "getGrade") then (callee.touch_local 0).fault
                   else callee.fault }
        (jvm_create_string P callee.jvm
          (returned_string_text method_name (jvalue_i (callee.locals 0)))).2)
      (jvm_create_string P callee.jvm
        (returned_string_text method_name (jvalue_i (callee.locals 0)))).1 hr
    replace w2 : jvalue_ref ((push_new_string P
        { jvm := callee.jvm, frame := (invoke_parameters m target (some d)).1.frame,
          fault := if is_str method_name (lit "getGrade") then (callee.touch_local 0).fault
                   else callee.fault }
        (returned_string_text method_name (jvalue_i (callee.locals 0)))).stack
          (invoke_parameters m target (some d)).1.frame.stack_top)
        = (jvm_create_string P callee.jvm
            (returned_string_text method_name (jvalue_i (callee.locals 0)))).1
          % 18446744073709551616 := w2
    rw [hd] at w2
    refine ⟨?_, fun hc1 => ?_, fun hc1 => ?_⟩
    · show (push_ref _ _).frame.stack_top = _
      rw [w1]
      show (invoke_parameters m target (some d)).1.frame.stack_top + 1 = _
      rw [hd]
    · rw [w2, jvm_create_string_free P callee.jvm _ hc1]
    · rw [w2]
      unfold jvm_create_string
      rw [if_pos hc1]
      rfl
  · have hr : MAX_STACK_SIZE ≤ (invoke_parameters m target (some d)).1.frame.stack_top := by
      rw [hd]; exact hfull
    unfold push_new_string
    rw [push_ref_full _ _ (by exact hr)]
    exact ⟨hd, (jvm_create_string_memory P callee.jvm _).1⟩
  · have hF : (if is_str method_name (lit "getGrade") then (callee.touch_local 0).fault
        else callee.fault) = false := by
      split_ifs
      · unfold Machine.touch_local
        rw [if_pos (by omega)]
        exact hc
      · exact hc
    obtain ⟨o1, -⟩ := invoke_parameters_pointers m target d
    exact (push_new_string_effect P _ _ hF (by
      show (invoke_parameters m target (some d)).1.frame.operand_stack
        + (invoke_parameters m target (some d)).1.frame.stack_top < MAX_STACK_SIZE
      rw [o1, hd]; exact hin)).1

/-- The `invokestatic` of `aconst_null; areturn` with a `String` descriptor returns
and pushes the reference 4096 to a new string with the text `Unknown`. -/
theorem string_return_replaced_witness :
    ∃ m', execute_invokestatic stub_platform (execute_bytecode stub_platform 5)
        (machine_in null_string_class (call_main [0xb8, 0, 6, 0xb0]) [] 1)
        = some (0, m') ∧ m'.frame.stack_top = 1 ∧ jvalue_ref (m'.stack 0) = 4096 ∧
      (m'.jvm.string_pool.strings 0).data = some (lit "Unknown") ∧ m'.fault = false := by
  obtain ⟨h1, h2, _, h4, _, h6⟩ := string_return_replaced stub_platform 5
    (machine_in null_string_class (call_main [0xb8, 0, 6, 0xb0]) [] 1)
    (resolve_method_ref (machine_in null_string_class (call_main [0xb8, 0, 6, 0xb0]) [] 1)).1
    (call_callee "f" "()Ljava/lang/String;" [0x01, 0xb0]) (some (lit "f"))
    (lit "()Ljava/lang/String;") 0 _ _
    ⟨lit "Test", lit "Test", rfl, by decide, by decide, by decide, by decide, by decide⟩
    (by decide) (by decide) rfl rfl
  exact ⟨_, h1, (h4 (by decide)).1.trans (by decide),
    ((h4 (by decide)).2.1 (by decide)).trans (by decide),
    ((h2 (by decide)).2.1).trans (by decide), h6 (by decide) (by decide)⟩

/-! ### The string pool -/

/-- Claim C33.  With fewer than `MAX_STRING_POOL` (256) strings in the pool,
`jvm_create_string` returns the address of the next free slot, stores there a
string whose content is the C string `t` (all of `t` when `t` has no zero byte)
with the length of that content, increases the count by one and leaves every
other slot as it was.  With 256 strings or more in the pool it returns the null
pointer and leaves the VM unchanged. -/
theorem jvm_create_string_pool (P : Platform) (jvm : JVM) (t : List Nat) :
    (jvm.string_pool.count < MAX_STRING_POOL →
      (jvm_create_string P jvm t).1 = P.strings_addr + JSTRING_SIZE * jvm.string_pool.count ∧
      (jvm_create_string P jvm t).2.string_pool.count = jvm.string_pool.count + 1 ∧
      ((jvm_create_string P jvm t).2.string_pool.strings jvm.string_pool.count).data
        = some (cstr t) ∧
      ((jvm_create_string P jvm t).2.string_pool.strings jvm.string_pool.count).length
        = (cstr t).length ∧
      (0 ∉ t →
        ((jvm_create_string P jvm t).2.string_pool.strings jvm.string_pool.count).data = some t ∧
        ((jvm_create_string P jvm t).2.string_pool.strings jvm.string_pool.count).length
          = t.length) ∧
      (∀ k, k ≠ jvm.string_pool.count →
        (jvm_create_string P jvm t).2.string_pool.strings k = jvm.string_pool.strings k)) ∧
    (MAX_STRING_POOL ≤ jvm.string_pool.count → jvm_create_string P jvm t = (0, jvm)) := by
  constructor
  · intro hc
    have n : ¬ (jvm.string_pool.count ≥ MAX_STRING_POOL) := Nat.not_le.mpr hc
    unfold jvm_create_string
    rw [if_neg n]
    simp only [if_true, true_and]
    refine ⟨?_, fun k hk => if_neg hk⟩
    intro hz
    rw [cstr_of_no_zero t hz]
    exact ⟨rfl, rfl⟩
  · intro hc
    unfold jvm_create_string
    rw [if_pos hc]

/-- In an empty pool `jvm_create_string` of `hi` returns the address of slot 0 and
stores `hi` there with the length 2. -/
theorem jvm_create_string_pool_witness :
    (jvm_create_string stub_platform (jvm_init []) [104, 105]).1 = 4096 ∧
    (jvm_create_string stub_platform (jvm_init []) [104, 105]).2.string_pool.count = 1 ∧
    ((jvm_create_string stub_platform (jvm_init []) [104, 105]).2.string_pool.strings 0).data
      = some [104, 105] ∧
    ((jvm_create_string stub_platform (jvm_init []) [104, 105]).2.string_pool.strings 0).length
      = 2 := by
  obtain ⟨h1, h2, _, _, h5, _⟩ :=
    (jvm_create_string_pool stub_platform (jvm_init []) [104, 105]).1 (by decide)
  exact ⟨h1.trans (by decide), h2.trans (by decide), (h5 (by decide)).1, (h5 (by decide)).2⟩

/-- Claim C38, amended: on a full operand stack no null reference is pushed.  With
`MAX_STRING_POOL` strings in the pool, the run goes on behind an `ldc` of a
StringRef whose index resolves to a Utf8 text with `push_ref` of the null
reference, without a result and with the string pool unchanged.  When the frame
holds fewer than `MAX_STACK_SIZE` values, the null reference is on top of the
stack afterwards, the depth has grown by one and the other slots are unchanged;
when moreover the free slot lies inside `stack_memory`, there is no fault and
the locals are unchanged.  When the frame holds `MAX_STACK_SIZE` values nothing
is pushed and only `pc` has changed. -/
theorem ldc_full_pool_null (P : Platform) (fuel : Nat) (m : Machine) (text : List Nat)
    (hf : m.fault = false)
    (h0 : 0 ≤ m.frame.pc) (hlen : m.frame.pc < (m.frame.method.code_length : Int))
    (hblock : m.frame.pc + 1 < ((m.frame.method.code.getD []).length : Int))
    (hbyte : m.code_byte m.frame.pc = OpCode.LDC.byte)
    (hi : ldc_index m < m.frame.class_info.constant_pool_count)
    (hpool : ldc_index m < m.frame.class_info.constant_pool.length)
    (htag : (ldc_entry m).tag = CONST_STRING)
    (hutf : read_utf8_string m.frame.class_info.constant_pool
      m.frame.class_info.constant_pool_count (ldc_entry m).string_index = some text)
    (hpool2 : (ldc_entry m).string_index < m.frame.class_info.constant_pool.length)
    (hfull : MAX_STRING_POOL ≤ m.jvm.string_pool.count) :
    execute_bytecode P (fuel + 1) m
      = execute_bytecode P fuel (push_ref (m.set_pc (m.frame.pc + 2)) 0) ∧
    (push_ref (m.set_pc (m.frame.pc + 2)) 0).jvm.string_pool = m.jvm.string_pool ∧
    (m.frame.stack_top < MAX_STACK_SIZE →
      (push_ref (m.set_pc (m.frame.pc + 2)) 0).frame
        = { m.frame with pc := m.frame.pc + 2, stack_top := m.frame.stack_top + 1 } ∧
      jvalue_ref ((push_ref (m.set_pc (m.frame.pc + 2)) 0).stack m.frame.stack_top) = 0 ∧
      (∀ k, k ≠ m.frame.stack_top →
        (push_ref (m.set_pc (m.frame.pc + 2)) 0).stack k = m.stack k)) ∧
    (m.frame.operand_stack + m.frame.stack_top < MAX_STACK_SIZE →
      (push_ref (m.set_pc (m.frame.pc + 2)) 0).fault = false ∧
      (push_ref (m.set_pc (m.frame.pc + 2)) 0).jvm.locals_memory = m.jvm.locals_memory) ∧
    (MAX_STACK_SIZE ≤ m.frame.stack_top →
      push_ref (m.set_pc (m.frame.pc + 2)) 0 = m.set_pc (m.frame.pc + 2)) := by
  have e := ldc_string_run P fuel m text hf h0 hlen hblock hbyte hi hpool htag hutf hpool2
  rw [push_new_string_full_pool P (m.set_pc (m.frame.pc + 2)) text hfull] at e
  refine ⟨e, push_ref_string_pool _ _, fun hroom => ?_, fun hs => ?_,
    fun hfs => push_ref_full _ _ hfs⟩
  · exact push_ref_word (m.set_pc (m.frame.pc + 2)) 0 hroom
  · obtain ⟨q1, _, _, _, q5, _⟩ := push_ref_in_bounds (m.set_pc (m.frame.pc + 2)) 0 hf hs
    exact ⟨q1, q5⟩

/-- Counterexample to claim C38 as stated: with 256 strings in the pool and a full
operand stack, `ldc` of a StringRef pushes nothing; the `areturn` behind it
returns the 7 that was on top, and the depth is 2047 afterwards. -/
theorem ldc_null_dropped :
    (full_ldc_machine [104, 105] [0x12, 2, 0xb0] 256).jvm.string_pool.count = MAX_STRING_POOL ∧
    (full_ldc_machine [104, 105] [0x12, 2, 0xb0] 256).frame.stack_top = MAX_STACK_SIZE ∧
    (execute_bytecode stub_platform 3 (full_ldc_machine [104, 105] [0x12, 2, 0xb0] 256)).result
      = some 7 ∧
    (execute_bytecode stub_platform 3
        (full_ldc_machine [104, 105] [0x12, 2, 0xb0] 256)).machine.map
      (fun m => (m.frame.stack_top, m.jvm.string_pool.count, m.fault))
      = some (2047, 256, false) := by
  decide

/-- With 256 strings in the pool, `ldc` of a StringRef to `hi` followed by `areturn`
returns the null reference and leaves the count at 256. -/
theorem ldc_full_pool_null_witness :
    (execute_bytecode stub_platform (1 + 1) (ldc_machine [104, 105] [0x12, 2, 0xb0] 256)).result
      = some 0 ∧
    (execute_bytecode stub_platform (1 + 1)
        (ldc_machine [104, 105] [0x12, 2, 0xb0] 256)).machine.map
      (fun m => (m.frame.pc, m.frame.stack_top, m.jvm.string_pool.count, m.fault))
      = some (3, 0, 256, false) := by
  have h := ldc_full_pool_null stub_platform 1
    (ldc_machine [104, 105] [0x12, 2, 0xb0] 256) [104, 105] rfl (by decide) (by decide)
    (by decide) (by decide) (by decide) (by decide) (by decide) (by decide) (by decide)
    (by decide)
  exact ⟨by rw [h.1]; decide, by rw [h.1]; decide⟩

/-! ### Looking up classes and methods by name -/

theorem find_first {α : Type} (p : α → Bool) (pre : List α) (t : α) (rest : List α)
    (hpre : ∀ x ∈ pre, p x = false) (ht : p t = true) :
    (pre ++ t :: rest).find? p = some t ∧
    (pre ++ t :: rest).takeWhile (fun x => !(p x)) = pre := by
  induction pre with
  | nil =>
    simp [List.find?, List.takeWhile, ht]
  | cons a pre ih =>
    have ha : p a = false := hpre a (List.mem_cons_self a pre)
    obtain ⟨i1, i2⟩ := ih (fun x hx => hpre x (List.mem_cons_of_mem a hx))
    rw [List.cons_append, List.find?_cons_of_neg _ (by simp [ha]),
      List.takeWhile_cons_of_pos (by simp [ha]), i1, i2]
    exact ⟨rfl, rfl⟩

theorem find_none {α : Type} (p : α → Bool) (l : List α) (h : ∀ x ∈ l, p x = false) :
    l.find? p = none ∧ l.takeWhile (fun x => !(p x)) = l := by
  induction l with
  | nil => exact ⟨rfl, rfl⟩
  | cons a l ih =>
    have ha : p a = false := h a (List.mem_cons_self a l)
    obtain ⟨i1, i2⟩ := ih (fun x hx => h x (List.mem_cons_of_mem a hx))
    rw [List.find?_cons_of_neg _ (by simp [ha]), List.takeWhile_cons_of_pos (by simp [ha]), i1, i2]
    exact ⟨rfl, rfl⟩

theorem take_split {α : Type} (pre : List α) (t : α) (post : List α) (count : Nat)
    (h : pre.length < count) :
    (pre ++ t :: post).take count = pre ++ t :: post.take (count - pre.length - 1) := by
  rw [List.take_append_eq_append_take, List.take_of_length_le (Nat.le_of_lt h)]
  congr 1
  obtain ⟨k, hk⟩ : ∃ k, count - pre.length = k + 1 := ⟨count - pre.length - 1, by omega⟩
  rw [hk, List.take_succ_cons]
  congr 2

theorem is_str_of_name (s : Option (List Nat)) (name : List Nat) (n : List Nat)
    (h : s = some n) : is_str s name = decide (cstr n = cstr name) := by
  subst h
  show (cstr n == cstr name) = decide (cstr n = cstr name)
  by_cases e : cstr n = cstr name
  · simp [e]
  · simp [e]

theorem any_none_false {α : Type} (q : α → Bool) (l : List α) (h : ∀ x ∈ l, q x = false) :
    l.any q = false := by
  rw [List.any_eq_false]
  intro x hx
  rw [h x hx]
  decide

theorem find_method_first (c : ClassInfo) (name : List Nat) (pre : List MethodInfo)
    (t : MethodInfo) (post : List MethodInfo) (hm : c.methods = pre ++ t :: post)
    (hcount : pre.length < c.methods_count)
    (hpre : ∀ x ∈ pre, x.name.isSome = true ∧ is_str x.name name = false)
    (ht : is_str t.name name = true) : find_method c name = (some t, false) := by
  obtain ⟨f1, f2⟩ := find_first (fun method : MethodInfo => is_str method.name name) pre t
    (post.take (c.methods_count - pre.length - 1)) (fun x hx => (hpre x hx).2) ht
  unfold find_method
  simp only [hm, take_split pre t post c.methods_count hcount, f1, f2,
    any_none_false (fun method : MethodInfo => method.name.isNone) pre
      (fun x hx => by simp [(hpre x hx).1]),
    Option.isNone_some, Bool.false_and, Bool.or_false]

theorem find_method_none (c : ClassInfo) (name : List Nat)
    (hcount : c.methods_count ≤ c.methods.length)
    (h : ∀ x ∈ c.methods.take c.methods_count, x.name.isSome = true ∧ is_str x.name name = false) :
    find_method c name = (none, false) := by
  obtain ⟨f1, f2⟩ := find_none (fun method : MethodInfo => is_str method.name name)
    (c.methods.take c.methods_count) (fun x hx => (h x hx).2)
  unfold find_method
  simp only [f1, f2,
    any_none_false (fun method : MethodInfo => method.name.isNone)
      (c.methods.take c.methods_count) (fun x hx => by simp [(h x hx).1]),
    Option.isNone_none, Bool.true_and, Bool.false_or, decide_eq_false_iff_not, not_lt, hcount,
    Prod.mk.injEq, true_and]

theorem find_class_first (jvm : JVM) (name : List Nat) (pre : List ClassInfo)
    (c : ClassInfo) (post : List ClassInfo) (hm : jvm.classes = pre ++ c :: post)
    (hcount : pre.length < jvm.classes_count)
    (hpre : ∀ x ∈ pre, x.name.isSome = true ∧ is_str x.name name = false)
    (ht : is_str c.name name = true) : find_class jvm name = (some c, false) := by
  obtain ⟨f1, f2⟩ := find_first (fun x : ClassInfo => is_str x.name name) pre c
    (post.take (jvm.classes_count - pre.length - 1)) (fun x hx => (hpre x hx).2) ht
  unfold find_class
  simp only [hm, take_split pre c post jvm.classes_count hcount, f1, f2,
    any_none_false (fun x : ClassInfo => x.name.isNone) pre
      (fun x hx => by simp [(hpre x hx).1]),
    Option.isNone_some, Bool.false_and, Bool.or_false]

theorem find_class_none (jvm : JVM) (name : List Nat)
    (hcount : jvm.classes_count ≤ jvm.classes.length)
    (h : ∀ x ∈ jvm.classes.take jvm.classes_count,
      x.name.isSome = true ∧ is_str x.name name = false) :
    find_class jvm name = (none, false) := by
  obtain ⟨f1, f2⟩ := find_none (fun x : ClassInfo => is_str x.name name)
    (jvm.classes.take jvm.classes_count) (fun x hx => (h x hx).2)
  unfold find_class
  simp only [f1, f2,
    any_none_false (fun x : ClassInfo => x.name.isNone)
      (jvm.classes.take jvm.classes_count) (fun x hx => by simp [(h x hx).1]),
    Option.isNone_none, Bool.true_and, Bool.false_or, decide_eq_false_iff_not, not_lt, hcount,
    Prod.mk.injEq, true_and]

theorem jvm_execute_method_none (P : Platform) (fuel : Nat) (jvm : JVM)
    (class_name method_name : List Nat) (h : find_class jvm class_name = (none, false)) :
    jvm_execute_method P fuel jvm class_name method_name
      = .returned (-1) ⟨jvm, Frame.zero, false⟩ := by
  unfold jvm_execute_method
  simp only [h, Bool.false_eq_true, if_false]

theorem jvm_execute_method_no_method (P : Platform) (fuel : Nat) (jvm : JVM)
    (class_name method_name : List Nat) (c : ClassInfo)
    (h : find_class jvm class_name = (some c, false))
    (h2 : find_method c method_name = (none, false)) :
    jvm_execute_method P fuel jvm class_name method_name
      = .returned (-1) ⟨jvm, Frame.zero, false⟩ := by
  unfold jvm_execute_method
  simp only [h, h2, Bool.false_eq_true, if_false]

theorem jvm_execute_method_found (P : Platform) (fuel : Nat) (jvm : JVM)
    (class_name method_name : List Nat) (c : ClassInfo) (t : MethodInfo)
    (h : find_class jvm class_name = (some c, false))
    (h2 : find_method c method_name = (some t, false)) :
    jvm_execute_method P fuel jvm class_name method_name
      = execute_bytecode P fuel ⟨jvm, entry_frame c t, false⟩ := by
  unfold jvm_execute_method
  simp only [h, h2, Bool.false_eq_true, if_false]

theorem return_step (P : Platform) (fuel : Nat) (m : Machine) (hf : m.fault = false)
    (h0 : 0 ≤ m.frame.pc) (hlen : m.frame.pc < (m.frame.method.code_length : Int))
    (hblock : m.frame.pc < ((m.frame.method.code.getD []).length : Int))
    (hbyte : m.code_byte m.frame.pc = OpCode.RETURN.byte) :
    execute_bytecode P (fuel + 1) m = .returned 0 (m.set_pc (m.frame.pc + 1)) := by
  have e := execute_bytecode_ret P fuel m (m.set_pc (m.frame.pc + 1)) 0 hf h0 hlen hblock
    (by rw [hbyte, of_byte_byte]; rfl)
  rw [e]
  have : (m.set_pc (m.frame.pc + 1)).fault = false := hf
  simp only [this, Bool.false_eq_true, if_false]

/-- Claim C34.  `jvm_execute_method` returns `-1` with the VM as it was (no frame
was set up, no bytecode executed) when no loaded class has the name
`class_name`, and when the class found has no method with the name
`method_name`.  When the run of the method found reaches a `return`, it returns
0. -/
theorem jvm_execute_method_errors (P : Platform) (jvm : JVM) (class_name method_name : List Nat)
    (hcount : jvm.classes_count ≤ jvm.classes.length) :
    (∀ fuel, (∀ x ∈ jvm.classes.take jvm.classes_count,
        x.name.isSome = true ∧ is_str x.name class_name = false) →
      jvm_execute_method P fuel jvm class_name method_name
        = .returned (-1) ⟨jvm, Frame.zero, false⟩) ∧
    (∀ fuel c, find_class jvm class_name = (some c, false) →
      c.methods_count ≤ c.methods.length →
      (∀ x ∈ c.methods.take c.methods_count,
        x.name.isSome = true ∧ is_str x.name method_name = false) →
      jvm_execute_method P fuel jvm class_name method_name
        = .returned (-1) ⟨jvm, Frame.zero, false⟩) ∧
    (∀ c t n m, find_class jvm class_name = (some c, false) →
      find_method c method_name = (some t, false) →
      execute_bytecode P (n + 1) ⟨jvm, entry_frame c t, false⟩ = execute_bytecode P 1 m →
      m.fault = false → 0 ≤ m.frame.pc → m.frame.pc < (m.frame.method.code_length : Int) →
      m.frame.pc < ((m.frame.method.code.getD []).length : Int) →
      m.code_byte m.frame.pc = OpCode.RETURN.byte →
      jvm_execute_method P (n + 1) jvm class_name method_name
        = .returned 0 (m.set_pc (m.frame.pc + 1))) := by
  refine ⟨fun fuel h => ?_, fun fuel c hc hmc h => ?_,
    fun c t n m hc ht hrun hf h0 hlen hblock hbyte => ?_⟩
  · exact jvm_execute_method_none P fuel jvm class_name method_name
      (find_class_none jvm class_name hcount h)
  · exact jvm_execute_method_no_method P fuel jvm class_name method_name c hc
      (find_method_none c method_name hmc h)
  · rw [jvm_execute_method_found P (n + 1) jvm class_name method_name c t hc ht, hrun]
    exact return_step P 0 m hf h0 hlen hblock hbyte

theorem scan_methods_first (methods : List MethodInfo) (count : Nat) (p : MethodInfo → Bool)
    (pre : List MethodInfo) (t : MethodInfo) (post : List MethodInfo)
    (hm : methods = pre ++ t :: post) (hcount : pre.length < count)
    (hpre : ∀ x ∈ pre, p x = false) (ht : p t = true) :
    scan_methods methods count p = (some t, false) := by
  obtain ⟨f1, _⟩ := find_first p pre t (post.take (count - pre.length - 1)) hpre ht
  unfold scan_methods
  simp only [hm, take_split pre t post count hcount, f1, Option.isNone_some, Bool.false_and]

/-- Claim C36.  Let `t` be the first method of the class `c`, in the order of
declaration, whose name is `name`.  Then `find_method` returns `t`, and
`jvm_execute_method` runs the code of `t`; and an `invokestatic` in `c` that
resolves to the name `name` of the current class, with whatever descriptor `d`,
enters `t`.  The methods behind `t` are not looked at, so a later method with the
same name is never entered. -/
theorem first_method_of_name_entered (P : Platform) (name : List Nat) (c : ClassInfo)
    (pre : List MethodInfo) (t : MethodInfo) (post : List MethodInfo)
    (hm : c.methods = pre ++ t :: post) (hcount : pre.length < c.methods_count)
    (ht : is_str t.name name = true) :
    (∀ fuel jvm class_name, find_class jvm class_name = (some c, false) →
      (∀ x ∈ pre, x.name.isSome = true ∧ is_str x.name name = false) →
      find_method c name = (some t, false) ∧
      jvm_execute_method P fuel jvm class_name name
        = execute_bytecode P fuel ⟨jvm, entry_frame c t, false⟩) ∧
    (∀ call m0 m cn n d, (resolve_method_ref m0).1 = m → m.frame.class_info = c →
      (resolve_method_ref m0).2 = some (some cn, some name, some d) →
      c.name = some n → strstr cn n = true →
      (∀ x ∈ pre, is_str x.name name = false) → t.code.isSome = true →
      enters_method m0 m t (some name) d ∧
      execute_invokestatic P call m0 = invoke_current_class P call m t (some name) (some d)) := by
  constructor
  · intro fuel jvm class_name hc hpre
    have hf := find_method_first c name pre t post hm hcount hpre ht
    exact ⟨hf, jvm_execute_method_found P fuel jvm class_name name c t hc hf⟩
  · intro call m0 m cn n d hm0 hclass hres hname hcur hpre hcode
    have he : enters_method m0 m t (some name) d := by
      refine ⟨cn, n, hm0, by rw [hclass]; exact hname, hcur, ?_, hres, hcode⟩
      rw [hclass]
      refine scan_methods_first _ _ _ pre t post hm hcount (fun x hx => ?_) ?_
      · have := hpre x hx
        cases hx : x.name with
        | none => rfl
        | some b => rw [hx] at this; exact this
      · cases hx : t.name with
        | none => rw [hx] at ht; exact absurd ht (by simp [is_str])
        | some b => rw [hx] at ht; exact ht
    exact ⟨he, execute_invokestatic_enters P call m0 m t (some name) d he⟩

/-- In a VM that holds the class `Test` with the method `main` (`return`), the
class name `Other` and the method name `g` give `-1`, and `main` gives 0. -/
theorem jvm_execute_method_errors_witness :
    jvm_execute_method stub_platform 5 return_only_vm (lit "Other") (lit "main")
      = .returned (-1) ⟨return_only_vm, Frame.zero, false⟩ ∧
    jvm_execute_method stub_platform 5 return_only_vm (lit "Test") (lit "g")
      = .returned (-1) ⟨return_only_vm, Frame.zero, false⟩ ∧
    (jvm_execute_method stub_platform (0 + 1) return_only_vm (lit "Test") (lit "main")).result
      = some 0 :=
  ⟨(jvm_execute_method_errors stub_platform return_only_vm (lit "Other") (lit "main")
      (by decide)).1 5 (by decide),
    (jvm_execute_method_errors stub_platform return_only_vm (lit "Test") (lit "g")
      (by decide)).2.1 5 (code_class [0xb1]) rfl (by decide) (by decide),
    congrArg Outcome.result ((jvm_execute_method_errors stub_platform return_only_vm (lit "Test")
      (lit "main") (by decide)).2.2 (code_class [0xb1]) (call_main [0xb1]) 0
      ⟨return_only_vm, entry_frame (code_class [0xb1]) (call_main [0xb1]), false⟩ rfl rfl rfl rfl
      (by decide) (by decide) (by decide) (by decide))⟩

/-- In `overloaded_class` the name `f` selects `f:()I`, the first of the two
methods named `f`, also for the `invokestatic` of `Test.f:(I)I`; `main` and `f`
return 1. -/
theorem first_method_of_name_entered_witness :
    (find_method overloaded_class (lit "f") = (some (call_callee "f" "()I" [0x04, 0xac]), false) ∧
      jvm_execute_method stub_platform 5 overloaded_vm (lit "Test") (lit "f")
        = execute_bytecode stub_platform 5
            ⟨overloaded_vm, entry_frame overloaded_class (call_callee "f" "()I" [0x04, 0xac]),
              false⟩) ∧
    (run_method overloaded_class "f").result = some 1 ∧
    enters_method (machine_in overloaded_class (call_main [0xb8, 0, 6, 0xac]) [] 1)
      (resolve_method_ref (machine_in overloaded_class (call_main [0xb8, 0, 6, 0xac]) [] 1)).1
      (call_callee "f" "()I" [0x04, 0xac]) (some (lit "f")) (lit "(I)I") ∧
    (run_main overloaded_class).result = some 1 :=
  ⟨(first_method_of_name_entered stub_platform (lit "f") overloaded_class
      [call_main [0xb8, 0, 6, 0xac]] (call_callee "f" "()I" [0x04, 0xac])
      [call_callee "f" "(I)I" [0x05, 0xac]] rfl (by decide) (by decide)).1 5 overloaded_vm
      (lit "Test") rfl (by decide),
    by decide,
    ((first_method_of_name_entered stub_platform (lit "f") overloaded_class
      [call_main [0xb8, 0, 6, 0xac]] (call_callee "f" "()I" [0x04, 0xac])
      [call_callee "f" "(I)I" [0x05, 0xac]] rfl (by decide) (by decide)).2
      (execute_bytecode stub_platform 5)
      (machine_in overloaded_class (call_main [0xb8, 0, 6, 0xac]) [] 1) _ (lit "Test")
      (lit "Test") (lit "(I)I") rfl rfl rfl rfl (by decide) (by decide) (by decide)).1,
    by decide⟩

/-! ### The result of a method -/

theorem returning_class_run (P : Platform) (fuel : Nat) (v : Int) (h1 : -2147483648 ≤ v)
    (h2 : v < 2147483648) :
    (jvm_execute_method P (fuel + 2) (jvm_load_class (jvm_init []) (returning_class v)).2
      (lit "Test") (lit "main")).result = some v := by
  have hc : find_class (jvm_load_class (jvm_init []) (returning_class v)).2 (lit "Test")
      = (some (returning_class v), false) :=
    find_class_first _ _ [] (returning_class v) [] rfl Nat.zero_lt_one
      (fun x hx => absurd hx (List.not_mem_nil x)) rfl
  have hm : find_method (returning_class v) (lit "main")
      = (some (call_main [0x12, 1, 0xac]), false) :=
    find_method_first _ _ [] (call_main [0x12, 1, 0xac]) [] rfl Nat.zero_lt_one
      (fun x hx => absurd hx (List.not_mem_nil x)) rfl
  rw [jvm_execute_method_found P (fuel + 2) _ _ _ _ _ hc hm]
  generalize hM : (⟨(jvm_load_class (jvm_init []) (returning_class v)).2,
    entry_frame (returning_class v) (call_main [0x12, 1, 0xac]), false⟩ : Machine) = M
  have e1 : M.frame = entry_frame (returning_class v) (call_main [0x12, 1, 0xac]) := by
    rw [← hM]
  have hf : M.fault = false := by rw [← hM]
  have hpc : M.frame.pc = 0 := by rw [e1]; rfl
  have hmeth : M.frame.method = call_main [0x12, 1, 0xac] := by rw [e1]; rfl
  have hcls : M.frame.class_info = returning_class v := by rw [e1]; rfl
  have htop : M.frame.stack_top = 0 := by rw [e1]; rfl
  have hos : M.frame.operand_stack = 0 := by rw [e1]; rfl
  have hb : ∀ k, M.code_byte k = ([0x12, 1, 0xac] : List Nat).getD k.toNat 0 % 256 := by
    intro k
    unfold Machine.code_byte
    rw [hmeth]
    rfl
  have hidx : ldc_index M = 1 := by
    unfold ldc_index
    rw [hb, hpc]
    rfl
  have hent : ldc_entry M = { ConstantPoolEntry.zero with tag := 3, integer_value := v } := by
    unfold ldc_entry Machine.pool_entry
    rw [hidx, hcls]
    rfl
  have r1 := ldc_int_run P (fuel + 1) M hf (by rw [hpc]) (by rw [hpc, hmeth]; decide)
    (by rw [hpc, hmeth]; decide) (by rw [hb, hpc]; rfl) (by rw [hidx, hcls]; exact Nat.one_lt_two)
    (by rw [hidx, hcls]; exact Nat.one_lt_two) (by rw [hent]; rfl)
  rw [hent, hpc] at r1
  obtain ⟨q1, q2, q3, _, _⟩ := push_int_in_bounds (M.set_pc (0 + 2)) v hf
    (by show M.frame.operand_stack + M.frame.stack_top < MAX_STACK_SIZE; rw [hos, htop]; decide)
  generalize hm1 : push_int (M.set_pc (0 + 2)) v = m1 at r1 q1 q2 q3
  have f1 : m1.frame.pc = 2 := by rw [q2]; rfl
  have f2 : m1.frame.stack_top = 1 := by rw [q2]; show M.frame.stack_top + 1 = 1; rw [htop]
  have f3 : m1.frame.method = call_main [0x12, 1, 0xac] := by rw [q2]; exact hmeth
  have f4 : m1.frame.operand_stack = 0 := by rw [q2]; exact hos
  have r2 := ireturn_step P fuel m1 q1 (by rw [f1]; decide) (by rw [f1, f3]; decide)
    (by rw [f1, f3]; decide) (by unfold Machine.code_byte; rw [f3, f1]; rfl) (by rw [f2])
    (by rw [f4, f2]; decide)
  show (execute_bytecode P (fuel + 1 + 1) M).result = some v
  rw [r1, r2]
  show some (jvalue_i (m1.stack (m1.frame.stack_top - 1))) = some v
  have q3' : jvalue_i (m1.stack M.frame.stack_top) = toInt32 (bits32 v) := q3
  have t1 : m1.frame.stack_top - 1 = M.frame.stack_top := by rw [f2, htop]
  rw [t1, q3', toInt32_bits32_of_range v h1 h2]

/-- Claim C37.  When the run of a method executes `ireturn` with the int `v` on top
of its operand stack, `jvm_execute_method` returns `v`; for every `v` in the
range of `int`, the method `ldc v; ireturn` returns `v`.  For `v = -1` this is
the result of a method that fails on an unknown opcode, and of one that fails on
`idiv` by zero. -/
theorem failure_not_distinguished (P : Platform) :
    (∀ jvm class_name method_name c t n m,
      find_class jvm class_name = (some c, false) →
      find_method c method_name = (some t, false) →
      execute_bytecode P (n + 1) ⟨jvm, entry_frame c t, false⟩ = execute_bytecode P 1 m →
      m.fault = false → 0 ≤ m.frame.pc → m.frame.pc < (m.frame.method.code_length : Int) →
      m.frame.pc < ((m.frame.method.code.getD []).length : Int) →
      m.code_byte m.frame.pc = OpCode.IRETURN.byte → 1 ≤ m.frame.stack_top →
      m.frame.operand_stack + m.frame.stack_top ≤ MAX_STACK_SIZE →
      (jvm_execute_method P (n + 1) jvm class_name method_name).result
        = some (jvalue_i (m.stack (m.frame.stack_top - 1)))) ∧
    (∀ fuel v, -2147483648 ≤ v → v < 2147483648 →
      (jvm_execute_method P (fuel + 2) (jvm_load_class (jvm_init []) (returning_class v)).2
        (lit "Test") (lit "main")).result = some v) ∧
    (jvm_execute_method P 2 (jvm_load_class (jvm_init []) (returning_class (-1))).2
        (lit "Test") (lit "main")).result
      = (run_method failing_callee_class "f").result ∧
    (run_method failing_callee_class "f").result = (run_method dividing_callee_class "f").result ∧
    (run_method dividing_callee_class "f").result = some (-1) := by
  refine ⟨fun jvm class_name method_name c t n m hc ht hrun hf h0 hlen hblock hbyte htop hs => ?_,
    fun fuel v h1 h2 => returning_class_run P fuel v h1 h2, ?_, by decide, by decide⟩
  · rw [jvm_execute_method_found P (n + 1) jvm class_name method_name c t hc ht, hrun,
      ireturn_step P 0 m hf h0 hlen hblock hbyte htop hs]
    rfl
  · rw [returning_class_run P 0 (-1) (by decide) (by decide)]
    decide

/-- The method `ldc 7; ireturn` returns 7. -/
theorem failure_not_distinguished_witness :
    (jvm_execute_method stub_platform (0 + 2)
      (jvm_load_class (jvm_init []) (returning_class 7)).2 (lit "Test") (lit "main")).result
      = some 7 :=
  (failure_not_distinguished stub_platform).2.1 0 7 (by decide) (by decide)

/-! ### Two defects: `dup` on a full stack, `nextInt` through `invokevirtual` -/

theorem invokevirtual_other_class (P : Platform) (m : Machine)
    (class_name method_name descriptor : Option (List Nat))
    (hres : (resolve_method_ref m).2 = some (class_name, method_name, descriptor))
    (h1 : has_str class_name (lit "PrintStream") = false)
    (h2 : has_str class_name (lit "StringBuilder") = false) :
    execute_invokevirtual P m = (0, (resolve_method_ref m).1) := by
  unfold execute_invokevirtual
  simp only [hres, h1, h2, Bool.false_eq_true, if_false]

theorem dup_unguarded (P : Platform) (call : Machine → Outcome) (m : Machine)
    (h : 0 < m.frame.stack_top) :
    execute_opcode P call m (some OpCode.DUP)
      = .next (((m.touch_stack (m.frame.stack_top - 1)).set_stack m.frame.stack_top
          (m.stack (m.frame.stack_top - 1))).set_top ((m.frame.stack_top + 1) % 65536)) := by
  show (if m.frame.stack_top > 0 then _ else _) = _
  rw [if_pos h]

/-- Claim C35 at the input `dup` on a frame with `stack_top = MAX_STACK_SIZE`: `dup`
tests only that the stack is not empty, so it stores the word of slot 2047 into
slot 2048, behind the last slot of the frame, and leaves `stack_top = 2049`;
this is undefined behaviour in C (`Outcome.fault`).  The push helpers test
`stack_top < MAX_STACK_SIZE` and store nothing there. -/
theorem dup_overflows_full_stack :
    full_dup_machine.frame.stack_top = MAX_STACK_SIZE ∧
    full_dup_machine.jvm.stack_memory 2048 = 0 ∧
    (∃ m', execute_opcode stub_platform (execute_bytecode stub_platform 0)
        (full_dup_machine.set_pc 1) (OpCode.of_byte (full_dup_machine.code_byte 0)) = .next m' ∧
      m'.frame.stack_top = 2049 ∧ m'.jvm.stack_memory 2048 = 7 ∧ m'.fault = true) ∧
    execute_bytecode stub_platform 2 full_dup_machine = .fault :=
  ⟨by decide, by decide, ⟨_, rfl, by decide, by decide, by decide⟩, rfl⟩

/-- Claim C31 at the input `new Scanner; invokevirtual nextInt:()I; ireturn` with
`42` on the standard input: `execute_invokevirtual` has no branch for `Scanner`,
so the receiver stays on the operand stack (it is what `ireturn` returns, 8192
being the address of the `Scanner` object), nothing is read from the input and
no int is pushed.  The same code with `invokestatic` in place of `invokevirtual`
reads the 42 and returns it. -/
theorem scanner_next_int_not_read :
    (scanner_run [0xbb, 0, 2, 0xb6, 0, 6, 0xac]).result = some 8192 ∧
    (scanner_run [0xbb, 0, 2, 0xb6, 0, 6, 0xac]).machine.map
      (fun m => (m.jvm.input, m.frame.stack_top, m.fault)) = some (lit "42\n", 0, false) ∧
    (scanner_run [0xbb, 0, 2, 0xb8, 0, 6, 0xac]).result = some 42 ∧
    (scanner_run [0xbb, 0, 2, 0xb8, 0, 6, 0xac]).machine.map
      (fun m => (m.jvm.input, m.frame.stack_top, m.fault)) = some (lit "\n", 1, false) := by
  decide

/-! ### Appending an `int` to a string -/

theorem decimal_length (v : Int) (h1 : -2147483648 ≤ v) (h2 : v < 2147483648) :
    (decimal v).length ≤ 11 := by
  have hn : v.natAbs < 10 ^ 10 := by omega
  have hd : (Nat.toDigits 10 v.natAbs).length ≤ 10 :=
    Nat.toDigitsCore_length 10 (by decide) _ _ 10 hn (by decide)
  unfold decimal
  split_ifs
  · simp only [List.length_cons, List.length_map]
    omega
  · simp only [List.length_map]
    omega

theorem snprintf_d_int (v : Int) (h1 : -2147483648 ≤ v) (h2 : v < 2147483648) :
    snprintf_d v = decimal v := by
  unfold snprintf_d
  exact List.take_of_length_le (by have := decimal_length v h1 h2; omega)

theorem stringbuilder_append_int (P : Platform) (m : Machine) (method_name : Option (List Nat))
    (d : List Nat) (k : Nat) (s : List Nat) (hf : m.fault = false)
    (htop : 2 ≤ m.frame.stack_top)
    (hs : m.frame.operand_stack + m.frame.stack_top ≤ MAX_STACK_SIZE)
    (h1 : has_str method_name (lit "append") = true)
    (h2 : has_str (some d) (lit "(I)") = true)
    (hnull : jvalue_ref (m.stack (m.frame.stack_top - 2)) ≠ 0)
    (hslot : string_slot P (jvalue_ref (m.stack (m.frame.stack_top - 2))) = some k)
    (hdata : (m.jvm.string_pool.strings k).data = some s)
    (hlen : (m.jvm.string_pool.strings k).length = s.length) :
    invokevirtual_stringbuilder P m method_name (some d)
      = push_ref ((m.set_top (m.frame.stack_top - 2)).set_string k
          { m.jvm.string_pool.strings k with
            data := some (s ++ decimal (jvalue_i (m.stack (m.frame.stack_top - 1)))),
            length := s.length
              + (decimal (jvalue_i (m.stack (m.frame.stack_top - 1)))).length })
          (jvalue_ref (m.stack (m.frame.stack_top - 2))) := by
  obtain ⟨p1, p2⟩ := pop_int_pop_ref m hf htop hs
  rw [p1] at p2
  simp only at p2
  have r := toInt32_range (m.stack (m.frame.stack_top - 1))
  have hsn : snprintf_d (jvalue_i (m.stack (m.frame.stack_top - 1)))
      = decimal (jvalue_i (m.stack (m.frame.stack_top - 1))) :=
    snprintf_d_int _ r.1 r.2
  unfold invokevirtual_stringbuilder
  simp only [h1, h2, if_true, p1, p2, hsn, hnull, if_false, hslot]
  have e1 : (m.set_top (m.frame.stack_top - 2)).jvm.string_pool.strings k
      = m.jvm.string_pool.strings k := rfl
  simp only [e1, hdata, hlen, lt_irrefl, decide_False, Bool.or_false]

theorem printstream_other_method (P : Platform) (m : Machine)
    (method_name descriptor : Option (List Nat))
    (h : has_str method_name (lit "print") = false) :
    invokevirtual_printstream P m method_name descriptor = m := by
  unfold invokevirtual_printstream
  simp only [h, Bool.false_eq_true, if_false]

theorem push_ref_output (m : Machine) (ref : Nat) :
    (push_ref m ref).jvm.output = m.jvm.output := by
  unfold push_ref
  split_ifs
  · rfl
  · rfl

/-- Claim C32.  Let the `invokevirtual` at `pc` resolve to the method `append` of a
class whose name contains `StringBuilder`, with a descriptor that contains `(I)`,
in a frame that holds the int `n` on top of the reference `r` to the pool string
`k` with the content `s` (and the length of `s`).  Then the run goes on behind
the instruction with the machine in which `n` and `r` are popped, string `k`
has the content `s` followed by the decimal text of `n` and the length of that
content, and `r` is pushed again.  In that machine there is no fault, every
other pool string, the pool count, the other operand-stack slots, the locals
and the output are unchanged. -/
theorem stringbuilder_append_int_effect (P : Platform) (fuel : Nat) (m : Machine)
    (class_name : Option (List Nat)) (d : List Nat) (k : Nat) (s : List Nat) (n : Int) (r : Nat)
    (hf : m.fault = false)
    (h0 : 0 ≤ m.frame.pc) (hlen : m.frame.pc < (m.frame.method.code_length : Int))
    (hblock : m.frame.pc + 2 < ((m.frame.method.code.getD []).length : Int))
    (hbyte : m.code_byte m.frame.pc = OpCode.INVOKEVIRTUAL.byte)
    (htop : 2 ≤ m.frame.stack_top)
    (hs : m.frame.operand_stack + m.frame.stack_top ≤ MAX_STACK_SIZE)
    (hpool : (resolve_method_ref (m.set_pc (m.frame.pc + 1))).1.fault = false)
    (hres : (resolve_method_ref (m.set_pc (m.frame.pc + 1))).2
      = some (class_name, some (lit "append"), some d))
    (hclass : has_str class_name (lit "StringBuilder") = true)
    (hdesc : has_str (some d) (lit "(I)") = true)
    (hn : jvalue_i (m.stack (m.frame.stack_top - 1)) = n)
    (hr : jvalue_ref (m.stack (m.frame.stack_top - 2)) = r)
    (hnull : r ≠ 0)
    (hslot : string_slot P r = some k)
    (hdata : (m.jvm.string_pool.strings k).data = some s)
    (hlength : (m.jvm.string_pool.strings k).length = s.length) :
    execute_bytecode P (fuel + 1) m = execute_bytecode P fuel
      (push_ref (((m.set_pc (m.frame.pc + 3)).set_top (m.frame.stack_top - 2)).set_string k
          { m.jvm.string_pool.strings k with
            data := some (s ++ decimal n), length := s.length + (decimal n).length }) r) ∧
    (push_ref (((m.set_pc (m.frame.pc + 3)).set_top (m.frame.stack_top - 2)).set_string k
          { m.jvm.string_pool.strings k with
            data := some (s ++ decimal n), length := s.length + (decimal n).length }) r).fault = false ∧
    (push_ref (((m.set_pc (m.frame.pc + 3)).set_top (m.frame.stack_top - 2)).set_string k
          { m.jvm.string_pool.strings k with
            data := some (s ++ decimal n), length := s.length + (decimal n).length }) r).frame
      = { m.frame with pc := m.frame.pc + 3, stack_top := m.frame.stack_top - 1 } ∧
    ((push_ref (((m.set_pc (m.frame.pc + 3)).set_top (m.frame.stack_top - 2)).set_string k
          { m.jvm.string_pool.strings k with
            data := some (s ++ decimal n), length := s.length + (decimal n).length }) r).jvm.string_pool.strings k).data = some (s ++ decimal n) ∧
    ((push_ref (((m.set_pc (m.frame.pc + 3)).set_top (m.frame.stack_top - 2)).set_string k
          { m.jvm.string_pool.strings k with
            data := some (s ++ decimal n), length := s.length + (decimal n).length }) r).jvm.string_pool.strings k).length = (s ++ decimal n).length ∧
    (∀ j, j ≠ k → (push_ref (((m.set_pc (m.frame.pc + 3)).set_top (m.frame.stack_top - 2)).set_string k
          { m.jvm.string_pool.strings k with
            data := some (s ++ decimal n), length := s.length + (decimal n).length }) r).jvm.string_pool.strings j = m.jvm.string_pool.strings j) ∧
    (push_ref (((m.set_pc (m.frame.pc + 3)).set_top (m.frame.stack_top - 2)).set_string k
          { m.jvm.string_pool.strings k with
            data := some (s ++ decimal n), length := s.length + (decimal n).length }) r).jvm.string_pool.count = m.jvm.string_pool.count ∧
    jvalue_ref ((push_ref (((m.set_pc (m.frame.pc + 3)).set_top (m.frame.stack_top - 2)).set_string k
          { m.jvm.string_pool.strings k with
            data := some (s ++ decimal n), length := s.length + (decimal n).length }) r).stack (m.frame.stack_top - 2)) = r ∧
    (∀ i, i ≠ m.frame.stack_top - 2 → (push_ref (((m.set_pc (m.frame.pc + 3)).set_top (m.frame.stack_top - 2)).set_string k
          { m.jvm.string_pool.strings k with
            data := some (s ++ decimal n), length := s.length + (decimal n).length }) r).stack i = m.stack i) ∧
    (push_ref (((m.set_pc (m.frame.pc + 3)).set_top (m.frame.stack_top - 2)).set_string k
          { m.jvm.string_pool.strings k with
            data := some (s ++ decimal n), length := s.length + (decimal n).length }) r).jvm.locals_memory = m.jvm.locals_memory ∧
    (push_ref (((m.set_pc (m.frame.pc + 3)).set_top (m.frame.stack_top - 2)).set_string k
          { m.jvm.string_pool.strings k with
            data := some (s ++ decimal n), length := s.length + (decimal n).length }) r).jvm.output = m.jvm.output := by
  subst hn hr
  have hm := resolve_method_ref_machine (m.set_pc (m.frame.pc + 1)) hf
    (show (0 : Int) ≤ m.frame.pc + 1 by omega)
    (show m.frame.pc + 1 + 1 < ((m.frame.method.code.getD []).length : Int) by omega) hpool
  have hm2 : (resolve_method_ref (m.set_pc (m.frame.pc + 1))).1 = m.set_pc (m.frame.pc + 3) := by
    rw [hm]
    show m.set_pc (m.frame.pc + 1 + 2) = _
    rw [show m.frame.pc + 1 + 2 = m.frame.pc + 3 by ring]
  have ha := stringbuilder_append_int P (m.set_pc (m.frame.pc + 3)) (some (lit "append")) d k s hf
    htop hs (by decide) hdesc hnull hslot hdata hlength
  have e : execute_invokevirtual P (m.set_pc (m.frame.pc + 1))
      = (0, invokevirtual_stringbuilder P (m.set_pc (m.frame.pc + 3)) (some (lit "append"))
          (some d)) := by
    unfold execute_invokevirtual
    simp only [hres, hclass, if_true, hm2,
      printstream_other_method P _ (some (lit "append")) (some d) (by decide), ite_self]
  rw [ha] at e
  obtain ⟨q1, q2, q3, q4, q5, q6⟩ := push_ref_in_bounds
    (((m.set_pc (m.frame.pc + 3)).set_top (m.frame.stack_top - 2)).set_string k
      { m.jvm.string_pool.strings k with
        data := some (s ++ decimal (jvalue_i (m.stack (m.frame.stack_top - 1)))),
        length := s.length + (decimal (jvalue_i (m.stack (m.frame.stack_top - 1)))).length })
    (jvalue_ref (m.stack (m.frame.stack_top - 2))) hf
    (show m.frame.operand_stack + (m.frame.stack_top - 2) < MAX_STACK_SIZE by omega)
  refine ⟨execute_bytecode_next P fuel m _ hf h0 hlen (by omega) ?_, q1, ?_, ?_, ?_, ?_, ?_,
    ?_, q4, q5, ?_⟩
  · rw [hbyte, of_byte_byte]
    show (if (execute_invokevirtual P (m.set_pc (m.frame.pc + 1))).1 ≠ 0
      then Step.ret (-1) (execute_invokevirtual P (m.set_pc (m.frame.pc + 1))).2
      else Step.next (execute_invokevirtual P (m.set_pc (m.frame.pc + 1))).2) = _
    rw [e]
    rfl
  · rw [q2]
    obtain ⟨jvm, frame, fault⟩ := m
    obtain ⟨locals, operand_stack, stack_top, pc, method, class_info⟩ := frame
    simp only [Machine.set_pc, Machine.set_top, Machine.set_string, Frame.mk.injEq, and_true,
      true_and]
    simp only at htop
    omega
  · rw [q6]
    show (if k = k then _ else _ : JString).data = _
    rw [if_pos rfl]
  · rw [q6]
    show (if k = k then _ else _ : JString).length = _
    rw [if_pos rfl, List.length_append]
  · intro j hj
    rw [q6]
    exact if_neg hj
  · rw [q6]
    rfl
  · refine q3.trans ?_
    unfold jvalue_ref
    exact Nat.mod_mod _ _
  · rw [push_ref_output]
    rfl

/-- Appending 42 to the pool string `ab` gives `ab42` with the length 4 and leaves
the reference to it on the stack; the `return` behind the call is reached. -/
theorem stringbuilder_append_int_effect_witness :
    (execute_bytecode stub_platform (1 + 1) append_machine).machine.map
      (fun m => ((m.jvm.string_pool.strings 0).data, (m.jvm.string_pool.strings 0).length,
        m.frame.stack_top, jvalue_ref (m.stack 0), m.frame.pc))
      = some (some (lit "ab42"), 4, 1, 4096, 4) := by
  rw [(stringbuilder_append_int_effect stub_platform 1
    append_machine (some (lit "java/lang/StringBuilder")) (lit "(I)Ljava/lang/StringBuilder;")
    0 (lit "ab") 42 4096 rfl (by decide) (by decide) (by decide) (by decide) (by decide)
    (by decide) (by decide) (by decide) (by decide) (by decide) (by decide) (by decide)
    (by decide) (by decide) (by decide) (by decide)).1]
  decide

/-! ### Termination of constant-pool parsing -/

theorem parse_constant_pool_entry_long (junk : Nat → Nat) (r : ClassReader)
    (e : ConstantPoolEntry)
    (h : (read_u1 r).1 = CONST_LONG ∨ (read_u1 r).1 = CONST_DOUBLE) :
    (parse_constant_pool_entry junk r e).2.2 = true := by
  unfold parse_constant_pool_entry
  simp only
  have h1 : ¬ (read_u1 r).1 = CONST_UTF8 := by rcases h with h | h <;> rw [h] <;> decide
  have h2 : ¬ (read_u1 r).1 = CONST_INTEGER := by rcases h with h | h <;> rw [h] <;> decide
  have h3 : ¬ (read_u1 r).1 = CONST_FLOAT := by rcases h with h | h <;> rw [h] <;> decide
  rw [if_neg h1, if_neg h2, if_neg h3, if_pos h]

/-- Claim C40.  For every byte region and cursor, `parse_constant_pool` ends: the
loop bound of the embedding is never reached.  When the tag read at index 65534
of a pool with the declared count 65535 is Long or Double, the two increments
take the 16-bit index to 0, the loop goes on from index 0, and it still ends. -/
theorem parse_constant_pool_terminates (junk : Nat → Nat) (r : ClassReader) :
    parse_constant_pool junk r ≠ .out_of_fuel ∧
    (∃ res, parse_constant_pool_loop junk (read_u2 r).1 (parse_constant_pool_fuel (read_u2 r).2)
      (read_u2 r).2 (List.replicate (read_u2 r).1 ConstantPoolEntry.zero) 1 = some res) ∧
    (∀ pool fuel, (read_u1 r).1 = CONST_LONG ∨ (read_u1 r).1 = CONST_DOUBLE →
      parse_constant_pool_loop junk 65535 (fuel + 1) r pool 65534
        = parse_constant_pool_loop junk 65535 fuel
            (parse_constant_pool_entry junk r (pool.getD 65534 ConstantPoolEntry.zero)).1
            (pool.set 65534
              (parse_constant_pool_entry junk r (pool.getD 65534 ConstantPoolEntry.zero)).2.1) 0 ∧
      ∃ res, parse_constant_pool_loop junk 65535 ((r.size - r.pos) * 65536 + 3) r pool 65534
        = some res) := by
  have hc : (read_u2 r).1 ≤ 65535 := by have := read_u2_lt r; omega
  refine ⟨?_, ?_, fun pool fuel h => ⟨?_, ?_⟩⟩
  · rcases parse_constant_pool_cases junk r with ⟨_, h⟩ | ⟨_, r1, pool, h⟩
    · rw [h]; exact fun e => ParseResult.noConfusion e
    · rw [h]; exact fun e => ParseResult.noConfusion e
  · obtain ⟨res, hres, -⟩ := parse_constant_pool_loop_terminates junk (read_u2 r).1 hc
      (parse_constant_pool_fuel (read_u2 r).2) (read_u2 r).2
      (List.replicate (read_u2 r).1 ConstantPoolEntry.zero) 1 (by omega)
      (by
        unfold parse_constant_pool_fuel
        have : ((read_u2 r).2.size - (read_u2 r).2.pos) * 65536 ≤ (read_u2 r).2.size * 65536 :=
          Nat.mul_le_mul_right _ (Nat.sub_le _ _)
        omega)
    exact ⟨res, hres⟩
  · conv => lhs; unfold parse_constant_pool_loop
    rw [if_pos (by decide)]
    simp only [parse_constant_pool_entry_long junk r _ h, if_true]
  · obtain ⟨res, hres, -⟩ := parse_constant_pool_loop_terminates junk 65535 (le_refl _)
      ((r.size - r.pos) * 65536 + 3) r pool 65534 (by omega) (by omega)
    exact ⟨res, hres⟩

/-- With the bytes of a Long at the cursor, the pass of the loop at index 65534 of a
pool with the count 65535 goes on at index 0. -/
theorem parse_constant_pool_terminates_witness :
    parse_constant_pool_loop (fun _ => 0) 65535 (0 + 1) ⟨[5, 0, 0, 0, 1, 0, 0, 0, 2], 9, 0⟩ [] 65534
      = parse_constant_pool_loop (fun _ => 0) 65535 0
          (parse_constant_pool_entry (fun _ => 0) ⟨[5, 0, 0, 0, 1, 0, 0, 0, 2], 9, 0⟩
            (([] : List ConstantPoolEntry).getD 65534 ConstantPoolEntry.zero)).1
          (([] : List ConstantPoolEntry).set 65534
            (parse_constant_pool_entry (fun _ => 0) ⟨[5, 0, 0, 0, 1, 0, 0, 0, 2], 9, 0⟩
              (([] : List ConstantPoolEntry).getD 65534 ConstantPoolEntry.zero)).2.1) 0 :=
  ((parse_constant_pool_terminates (fun _ => 0) ⟨[5, 0, 0, 0, 1, 0, 0, 0, 2], 9, 0⟩).2.2 [] 0
    (Or.inl (by decide))).1

/-! ### The registry of native methods is not read

Every function of the interpreter commutes with `with_registry`: run on a VM whose
registry was replaced, it does what it does on the VM itself, and leaves the
replaced registry in place. -/

theorem with_registry_frame (m : Machine) (nm : List NativeMethodEntry) (c : Nat) :
    (m.with_registry nm c).frame = m.frame := by
  rfl

theorem with_registry_fault (m : Machine) (nm : List NativeMethodEntry) (c : Nat) :
    (m.with_registry nm c).fault = m.fault := by
  rfl

theorem with_registry_jvm (m : Machine) (nm : List NativeMethodEntry) (c : Nat) :
    (m.with_registry nm c).jvm = m.jvm.with_registry nm c := by
  rfl

theorem with_registry_classes (jvm : JVM) (nm : List NativeMethodEntry) (c : Nat) :
    (jvm.with_registry nm c).classes = jvm.classes := by
  rfl

theorem with_registry_classes_count (jvm : JVM) (nm : List NativeMethodEntry) (c : Nat) :
    (jvm.with_registry nm c).classes_count = jvm.classes_count := by
  rfl

theorem with_registry_stack_memory (jvm : JVM) (nm : List NativeMethodEntry) (c : Nat) :
    (jvm.with_registry nm c).stack_memory = jvm.stack_memory := by
  rfl

theorem with_registry_locals_memory (jvm : JVM) (nm : List NativeMethodEntry) (c : Nat) :
    (jvm.with_registry nm c).locals_memory = jvm.locals_memory := by
  rfl

theorem with_registry_string_pool (jvm : JVM) (nm : List NativeMethodEntry) (c : Nat) :
    (jvm.with_registry nm c).string_pool = jvm.string_pool := by
  rfl

theorem with_registry_input (jvm : JVM) (nm : List NativeMethodEntry) (c : Nat) :
    (jvm.with_registry nm c).input = jvm.input := by
  rfl

theorem with_registry_output (jvm : JVM) (nm : List NativeMethodEntry) (c : Nat) :
    (jvm.with_registry nm c).output = jvm.output := by
  rfl

theorem mk_with_registry (jvm : JVM) (frame : Frame) (fault : Bool)
    (nm : List NativeMethodEntry) (c : Nat) :
    Machine.mk (jvm.with_registry nm c) frame fault
      = (Machine.mk jvm frame fault).with_registry nm c := by
  rfl

theorem stack_with_registry (m : Machine) (k : Nat) (nm : List NativeMethodEntry) (c : Nat) :
    (m.with_registry nm c).stack k = m.stack k := by
  rfl

theorem locals_with_registry (m : Machine) (k : Nat) (nm : List NativeMethodEntry) (c : Nat) :
    (m.with_registry nm c).locals k = m.locals k := by
  rfl

theorem code_byte_with_registry (m : Machine) (k : Int) (nm : List NativeMethodEntry) (c : Nat) :
    (m.with_registry nm c).code_byte k = m.code_byte k := by
  rfl

theorem pool_entry_with_registry (m : Machine) (i : Nat) (nm : List NativeMethodEntry) (c : Nat) :
    (m.with_registry nm c).pool_entry i = m.pool_entry i := by
  rfl

theorem set_top_with_registry (m : Machine) (t : Nat) (nm : List NativeMethodEntry) (c : Nat) :
    (m.with_registry nm c).set_top t = (m.set_top t).with_registry nm c := by
  rfl

theorem set_pc_with_registry (m : Machine) (pc : Int) (nm : List NativeMethodEntry) (c : Nat) :
    (m.with_registry nm c).set_pc pc = (m.set_pc pc).with_registry nm c := by
  rfl

theorem print_with_registry (m : Machine) (bytes : List Nat)
    (nm : List NativeMethodEntry) (c : Nat) :
    (m.with_registry nm c).print bytes = (m.print bytes).with_registry nm c := by
  rfl

theorem set_string_with_registry (m : Machine) (k : Nat) (s : JString)
    (nm : List NativeMethodEntry) (c : Nat) :
    (m.with_registry nm c).set_string k s = (m.set_string k s).with_registry nm c := by
  rfl

theorem with_jvm_with_registry (m : Machine) (jvm : JVM) (nm : List NativeMethodEntry) (c : Nat) :
    (m.with_registry nm c).with_jvm (jvm.with_registry nm c)
      = (m.with_jvm jvm).with_registry nm c := by
  rfl

theorem touch_stack_with_registry (m : Machine) (k : Nat) (nm : List NativeMethodEntry) (c : Nat) :
    (m.with_registry nm c).touch_stack k = (m.touch_stack k).with_registry nm c := by
  unfold Machine.touch_stack
  simp only [with_registry_frame, with_registry_fault, with_registry_jvm, with_registry_classes,
    with_registry_classes_count, with_registry_stack_memory, with_registry_locals_memory,
    with_registry_string_pool, with_registry_input, with_registry_output, mk_with_registry,
    stack_with_registry, locals_with_registry, code_byte_with_registry, pool_entry_with_registry,
    set_top_with_registry, set_pc_with_registry, print_with_registry, set_string_with_registry,
    with_jvm_with_registry]
  split_ifs <;> rfl

theorem touch_local_with_registry (m : Machine) (k : Nat) (nm : List NativeMethodEntry) (c : Nat) :
    (m.with_registry nm c).touch_local k = (m.touch_local k).with_registry nm c := by
  unfold Machine.touch_local
  simp only [with_registry_frame, with_registry_fault, with_registry_jvm, with_registry_classes,
    with_registry_classes_count, with_registry_stack_memory, with_registry_locals_memory,
    with_registry_string_pool, with_registry_input, with_registry_output, mk_with_registry,
    stack_with_registry, locals_with_registry, code_byte_with_registry, pool_entry_with_registry,
    set_top_with_registry, set_pc_with_registry, print_with_registry, set_string_with_registry,
    with_jvm_with_registry, touch_stack_with_registry]
  split_ifs <;> rfl

theorem touch_code_with_registry (m : Machine) (k : Int) (nm : List NativeMethodEntry) (c : Nat) :
    (m.with_registry nm c).touch_code k = (m.touch_code k).with_registry nm c := by
  unfold Machine.touch_code
  simp only [with_registry_frame, with_registry_fault, with_registry_jvm, with_registry_classes,
    with_registry_classes_count, with_registry_stack_memory, with_registry_locals_memory,
    with_registry_string_pool, with_registry_input, with_registry_output, mk_with_registry,
    stack_with_registry, locals_with_registry, code_byte_with_registry, pool_entry_with_registry,
    set_top_with_registry, set_pc_with_registry, print_with_registry, set_string_with_registry,
    with_jvm_with_registry, touch_stack_with_registry, touch_local_with_registry]
  split_ifs <;> rfl

theorem touch_pool_with_registry (m : Machine) (i : Nat) (nm : List NativeMethodEntry) (c : Nat) :
    (m.with_registry nm c).touch_pool i = (m.touch_pool i).with_registry nm c := by
  unfold Machine.touch_pool
  simp only [with_registry_frame, with_registry_fault, with_registry_jvm, with_registry_classes,
    with_registry_classes_count, with_registry_stack_memory, with_registry_locals_memory,
    with_registry_string_pool, with_registry_input, with_registry_output, mk_with_registry,
    stack_with_registry, locals_with_registry, code_byte_with_registry, pool_entry_with_registry,
    set_top_with_registry, set_pc_with_registry, print_with_registry, set_string_with_registry,
    with_jvm_with_registry, touch_stack_with_registry, touch_local_with_registry,
    touch_code_with_registry]
  split_ifs <;> rfl

theorem set_stack_with_registry (m : Machine) (k : Nat) (w : jvalue)
    (nm : List NativeMethodEntry) (c : Nat) :
    (m.with_registry nm c).set_stack k w = (m.set_stack k w).with_registry nm c := by
  unfold Machine.set_stack
  simp only [with_registry_frame, with_registry_fault, with_registry_jvm, with_registry_classes,
    with_registry_classes_count, with_registry_stack_memory, with_registry_locals_memory,
    with_registry_string_pool, with_registry_input, with_registry_output, mk_with_registry,
    stack_with_registry, locals_with_registry, code_byte_with_registry, pool_entry_with_registry,
    set_top_with_registry, set_pc_with_registry, print_with_registry, set_string_with_registry,
    with_jvm_with_registry, touch_stack_with_registry, touch_local_with_registry,
    touch_code_with_registry, touch_pool_with_registry]
  rfl

theorem set_local_with_registry (m : Machine) (k : Nat) (w : jvalue)
    (nm : List NativeMethodEntry) (c : Nat) :
    (m.with_registry nm c).set_local k w = (m.set_local k w).with_registry nm c := by
  unfold Machine.set_local
  simp only [with_registry_frame, with_registry_fault, with_registry_jvm, with_registry_classes,
    with_registry_classes_count, with_registry_stack_memory, with_registry_locals_memory,
    with_registry_string_pool, with_registry_input, with_registry_output, mk_with_registry,
    stack_with_registry, locals_with_registry, code_byte_with_registry, pool_entry_with_registry,
    set_top_with_registry, set_pc_with_registry, print_with_registry, set_string_with_registry,
    with_jvm_with_registry, touch_stack_with_registry, touch_local_with_registry,
    touch_code_with_registry, touch_pool_with_registry, set_stack_with_registry]
  rfl

theorem push_int_with_registry (m : Machine) (value : Int) (nm : List NativeMethodEntry) (c : Nat) :
    push_int (m.with_registry nm c) value = (push_int m value).with_registry nm c := by
  unfold push_int
  simp only [with_registry_frame, with_registry_fault, with_registry_jvm, with_registry_classes,
    with_registry_classes_count, with_registry_stack_memory, with_registry_locals_memory,
    with_registry_string_pool, with_registry_input, with_registry_output, mk_with_registry,
    stack_with_registry, locals_with_registry, code_byte_with_registry, pool_entry_with_registry,
    set_top_with_registry, set_pc_with_registry, print_with_registry, set_string_with_registry,
    with_jvm_with_registry, touch_stack_with_registry, touch_local_with_registry,
    touch_code_with_registry, touch_pool_with_registry, set_stack_with_registry,
    set_local_with_registry]
  split_ifs <;> rfl

theorem pop_int_with_registry (m : Machine) (nm : List NativeMethodEntry) (c : Nat) :
    pop_int (m.with_registry nm c) = ((pop_int m).1, (pop_int m).2.with_registry nm c) := by
  unfold pop_int
  simp only [with_registry_frame, with_registry_fault, with_registry_jvm, with_registry_classes,
    with_registry_classes_count, with_registry_stack_memory, with_registry_locals_memory,
    with_registry_string_pool, with_registry_input, with_registry_output, mk_with_registry,
    stack_with_registry, locals_with_registry, code_byte_with_registry, pool_entry_with_registry,
    set_top_with_registry, set_pc_with_registry, print_with_registry, set_string_with_registry,
    with_jvm_with_registry, touch_stack_with_registry, touch_local_with_registry,
    touch_code_with_registry, touch_pool_with_registry, set_stack_with_registry,
    set_local_with_registry, push_int_with_registry]
  split_ifs <;> rfl

theorem push_long_with_registry (m : Machine) (value : Int)
    (nm : List NativeMethodEntry) (c : Nat) :
    push_long (m.with_registry nm c) value = (push_long m value).with_registry nm c := by
  unfold push_long
  simp only [with_registry_frame, with_registry_fault, with_registry_jvm, with_registry_classes,
    with_registry_classes_count, with_registry_stack_memory, with_registry_locals_memory,
    with_registry_string_pool, with_registry_input, with_registry_output, mk_with_registry,
    stack_with_registry, locals_with_registry, code_byte_with_registry, pool_entry_with_registry,
    set_top_with_registry, set_pc_with_registry, print_with_registry, set_string_with_registry,
    with_jvm_with_registry, touch_stack_with_registry, touch_local_with_registry,
    touch_code_with_registry, touch_pool_with_registry, set_stack_with_registry,
    set_local_with_registry, push_int_with_registry, pop_int_with_registry]
  split_ifs <;> rfl

theorem pop_long_with_registry (m : Machine) (nm : List NativeMethodEntry) (c : Nat) :
    pop_long (m.with_registry nm c) = ((pop_long m).1, (pop_long m).2.with_registry nm c) := by
  unfold pop_long
  simp only [with_registry_frame, with_registry_fault, with_registry_jvm, with_registry_classes,
    with_registry_classes_count, with_registry_stack_memory, with_registry_locals_memory,
    with_registry_string_pool, with_registry_input, with_registry_output, mk_with_registry,
    stack_with_registry, locals_with_registry, code_byte_with_registry, pool_entry_with_registry,
    set_top_with_registry, set_pc_with_registry, print_with_registry, set_string_with_registry,
    with_jvm_with_registry, touch_stack_with_registry, touch_local_with_registry,
    touch_code_with_registry, touch_pool_with_registry, set_stack_with_registry,
    set_local_with_registry, push_int_with_registry, pop_int_with_registry, push_long_with_registry]
  split_ifs <;> rfl

theorem push_float_with_registry (m : Machine) (value : Nat)
    (nm : List NativeMethodEntry) (c : Nat) :
    push_float (m.with_registry nm c) value = (push_float m value).with_registry nm c := by
  unfold push_float
  simp only [with_registry_frame, with_registry_fault, with_registry_jvm, with_registry_classes,
    with_registry_classes_count, with_registry_stack_memory, with_registry_locals_memory,
    with_registry_string_pool, with_registry_input, with_registry_output, mk_with_registry,
    stack_with_registry, locals_with_registry, code_byte_with_registry, pool_entry_with_registry,
    set_top_with_registry, set_pc_with_registry, print_with_registry, set_string_with_registry,
    with_jvm_with_registry, touch_stack_with_registry, touch_local_with_registry,
    touch_code_with_registry, touch_pool_with_registry, set_stack_with_registry,
    set_local_with_registry, push_int_with_registry, pop_int_with_registry, push_long_with_registry,
    pop_long_with_registry]
  split_ifs <;> rfl

theorem pop_float_with_registry (m : Machine) (nm : List NativeMethodEntry) (c : Nat) :
    pop_float (m.with_registry nm c) = ((pop_float m).1, (pop_float m).2.with_registry nm c) := by
  unfold pop_float
  simp only [with_registry_frame, with_registry_fault, with_registry_jvm, with_registry_classes,
    with_registry_classes_count, with_registry_stack_memory, with_registry_locals_memory,
    with_registry_string_pool, with_registry_input, with_registry_output, mk_with_registry,
    stack_with_registry, locals_with_registry, code_byte_with_registry, pool_entry_with_registry,
    set_top_with_registry, set_pc_with_registry, print_with_registry, set_string_with_registry,
    with_jvm_with_registry, touch_stack_with_registry, touch_local_with_registry,
    touch_code_with_registry, touch_pool_with_registry, set_stack_with_registry,
    set_local_with_registry, push_int_with_registry, pop_int_with_registry, push_long_with_registry,
    pop_long_with_registry, push_float_with_registry]
  split_ifs <;> rfl

theorem push_double_with_registry (m : Machine) (value : Nat)
    (nm : List NativeMethodEntry) (c : Nat) :
    push_double (m.with_registry nm c) value = (push_double m value).with_registry nm c := by
  unfold push_double
  simp only [with_registry_frame, with_registry_fault, with_registry_jvm, with_registry_classes,
    with_registry_classes_count, with_registry_stack_memory, with_registry_locals_memory,
    with_registry_string_pool, with_registry_input, with_registry_output, mk_with_registry,
    stack_with_registry, locals_with_registry, code_byte_with_registry, pool_entry_with_registry,
    set_top_with_registry, set_pc_with_registry, print_with_registry, set_string_with_registry,
    with_jvm_with_registry, touch_stack_with_registry, touch_local_with_registry,
    touch_code_with_registry, touch_pool_with_registry, set_stack_with_registry,
    set_local_with_registry, push_int_with_registry, pop_int_with_registry, push_long_with_registry,
    pop_long_with_registry, push_float_with_registry, pop_float_with_registry]
  split_ifs <;> rfl

theorem pop_double_with_registry (m : Machine) (nm : List NativeMethodEntry) (c : Nat) :
    pop_double (m.with_registry nm c)
      = ((pop_double m).1, (pop_double m).2.with_registry nm c) := by
  unfold pop_double
  simp only [with_registry_frame, with_registry_fault, with_registry_jvm, with_registry_classes,
    with_registry_classes_count, with_registry_stack_memory, with_registry_locals_memory,
    with_registry_string_pool, with_registry_input, with_registry_output, mk_with_registry,
    stack_with_registry, locals_with_registry, code_byte_with_registry, pool_entry_with_registry,
    set_top_with_registry, set_pc_with_registry, print_with_registry, set_string_with_registry,
    with_jvm_with_registry, touch_stack_with_registry, touch_local_with_registry,
    touch_code_with_registry, touch_pool_with_registry, set_stack_with_registry,
    set_local_with_registry, push_int_with_registry, pop_int_with_registry, push_long_with_registry,
    pop_long_with_registry, push_float_with_registry, pop_float_with_registry,
    push_double_with_registry]
  split_ifs <;> rfl

theorem push_ref_with_registry (m : Machine) (value : Nat) (nm : List NativeMethodEntry) (c : Nat) :
    push_ref (m.with_registry nm c) value = (push_ref m value).with_registry nm c := by
  unfold push_ref
  simp only [with_registry_frame, with_registry_fault, with_registry_jvm, with_registry_classes,
    with_registry_classes_count, with_registry_stack_memory, with_registry_locals_memory,
    with_registry_string_pool, with_registry_input, with_registry_output, mk_with_registry,
    stack_with_registry, locals_with_registry, code_byte_with_registry, pool_entry_with_registry,
    set_top_with_registry, set_pc_with_registry, print_with_registry, set_string_with_registry,
    with_jvm_with_registry, touch_stack_with_registry, touch_local_with_registry,
    touch_code_with_registry, touch_pool_with_registry, set_stack_with_registry,
    set_local_with_registry, push_int_with_registry, pop_int_with_registry, push_long_with_registry,
    pop_long_with_registry, push_float_with_registry, pop_float_with_registry,
    push_double_with_registry, pop_double_with_registry]
  split_ifs <;> rfl

theorem pop_ref_with_registry (m : Machine) (nm : List NativeMethodEntry) (c : Nat) :
    pop_ref (m.with_registry nm c) = ((pop_ref m).1, (pop_ref m).2.with_registry nm c) := by
  unfold pop_ref
  simp only [with_registry_frame, with_registry_fault, with_registry_jvm, with_registry_classes,
    with_registry_classes_count, with_registry_stack_memory, with_registry_locals_memory,
    with_registry_string_pool, with_registry_input, with_registry_output, mk_with_registry,
    stack_with_registry, locals_with_registry, code_byte_with_registry, pool_entry_with_registry,
    set_top_with_registry, set_pc_with_registry, print_with_registry, set_string_with_registry,
    with_jvm_with_registry, touch_stack_with_registry, touch_local_with_registry,
    touch_code_with_registry, touch_pool_with_registry, set_stack_with_registry,
    set_local_with_registry, push_int_with_registry, pop_int_with_registry, push_long_with_registry,
    pop_long_with_registry, push_float_with_registry, pop_float_with_registry,
    push_double_with_registry, pop_double_with_registry, push_ref_with_registry]
  split_ifs <;> rfl

theorem jvm_create_string_with_registry (P : Platform) (jvm : JVM) (str : List Nat)
    (nm : List NativeMethodEntry) (c : Nat) :
    jvm_create_string P (jvm.with_registry nm c) str
      = ((jvm_create_string P jvm str).1, (jvm_create_string P jvm str).2.with_registry nm c) := by
  unfold jvm_create_string
  simp only [with_registry_frame, with_registry_fault, with_registry_jvm, with_registry_classes,
    with_registry_classes_count, with_registry_stack_memory, with_registry_locals_memory,
    with_registry_string_pool, with_registry_input, with_registry_output, mk_with_registry,
    stack_with_registry, locals_with_registry, code_byte_with_registry, pool_entry_with_registry,
    set_top_with_registry, set_pc_with_registry, print_with_registry, set_string_with_registry,
    with_jvm_with_registry, touch_stack_with_registry, touch_local_with_registry,
    touch_code_with_registry, touch_pool_with_registry, set_stack_with_registry,
    set_local_with_registry, push_int_with_registry, pop_int_with_registry, push_long_with_registry,
    pop_long_with_registry, push_float_with_registry, pop_float_with_registry,
    push_double_with_registry, pop_double_with_registry, push_ref_with_registry,
    pop_ref_with_registry]
  split_ifs <;> rfl

theorem jvm_print_string_with_registry (P : Platform) (m : Machine) (str : Nat)
    (nm : List NativeMethodEntry) (c : Nat) :
    jvm_print_string P (m.with_registry nm c) str
      = (jvm_print_string P m str).with_registry nm c := by
  unfold jvm_print_string
  simp only [with_registry_frame, with_registry_fault, with_registry_jvm, with_registry_classes,
    with_registry_classes_count, with_registry_stack_memory, with_registry_locals_memory,
    with_registry_string_pool, with_registry_input, with_registry_output, mk_with_registry,
    stack_with_registry, locals_with_registry, code_byte_with_registry, pool_entry_with_registry,
    set_top_with_registry, set_pc_with_registry, print_with_registry, set_string_with_registry,
    with_jvm_with_registry, touch_stack_with_registry, touch_local_with_registry,
    touch_code_with_registry, touch_pool_with_registry, set_stack_with_registry,
    set_local_with_registry, push_int_with_registry, pop_int_with_registry, push_long_with_registry,
    pop_long_with_registry, push_float_with_registry, pop_float_with_registry,
    push_double_with_registry, pop_double_with_registry, push_ref_with_registry,
    pop_ref_with_registry, jvm_create_string_with_registry]
  split_ifs
  · rfl
  · rcases string_slot P str with _ | k
    · rfl
    · simp only []
      rcases (m.jvm.string_pool.strings k).data with _ | data
      · rfl
      · rfl

theorem jvm_read_int_with_registry (jvm : JVM) (nm : List NativeMethodEntry) (c : Nat) :
    jvm_read_int (jvm.with_registry nm c)
      = ((jvm_read_int jvm).1, (jvm_read_int jvm).2.with_registry nm c) := by
  rfl

theorem jvm_read_line_with_registry (jvm : JVM) (nm : List NativeMethodEntry) (c : Nat) :
    jvm_read_line (jvm.with_registry nm c)
      = ((jvm_read_line jvm).1, (jvm_read_line jvm).2.with_registry nm c) := by
  unfold jvm_read_line
  simp only [with_registry_frame, with_registry_fault, with_registry_jvm, with_registry_classes,
    with_registry_classes_count, with_registry_stack_memory, with_registry_locals_memory,
    with_registry_string_pool, with_registry_input, with_registry_output, mk_with_registry,
    stack_with_registry, locals_with_registry, code_byte_with_registry, pool_entry_with_registry,
    set_top_with_registry, set_pc_with_registry, print_with_registry, set_string_with_registry,
    with_jvm_with_registry, touch_stack_with_registry, touch_local_with_registry,
    touch_code_with_registry, touch_pool_with_registry, set_stack_with_registry,
    set_local_with_registry, push_int_with_registry, pop_int_with_registry, push_long_with_registry,
    pop_long_with_registry, push_float_with_registry, pop_float_with_registry,
    push_double_with_registry, pop_double_with_registry, push_ref_with_registry,
    pop_ref_with_registry, jvm_create_string_with_registry, jvm_print_string_with_registry,
    jvm_read_int_with_registry]
  split_ifs <;> rfl

theorem native_system_out_print_with_registry (P : Platform) (m : Machine) (arg : Nat)
    (nm : List NativeMethodEntry) (c : Nat) :
    native_system_out_print P (m.with_registry nm c) arg
      = (native_system_out_print P m arg).with_registry nm c := by
  unfold native_system_out_print
  simp only [with_registry_frame, with_registry_fault, with_registry_jvm, with_registry_classes,
    with_registry_classes_count, with_registry_stack_memory, with_registry_locals_memory,
    with_registry_string_pool, with_registry_input, with_registry_output, mk_with_registry,
    stack_with_registry, locals_with_registry, code_byte_with_registry, pool_entry_with_registry,
    set_top_with_registry, set_pc_with_registry, print_with_registry, set_string_with_registry,
    with_jvm_with_registry, touch_stack_with_registry, touch_local_with_registry,
    touch_code_with_registry, touch_pool_with_registry, set_stack_with_registry,
    set_local_with_registry, push_int_with_registry, pop_int_with_registry, push_long_with_registry,
    pop_long_with_registry, push_float_with_registry, pop_float_with_registry,
    push_double_with_registry, pop_double_with_registry, push_ref_with_registry,
    pop_ref_with_registry, jvm_create_string_with_registry, jvm_print_string_with_registry,
    jvm_read_int_with_registry, jvm_read_line_with_registry]

theorem native_system_out_println_with_registry (P : Platform) (m : Machine) (arg : Nat)
    (nm : List NativeMethodEntry) (c : Nat) :
    native_system_out_println P (m.with_registry nm c) arg
      = (native_system_out_println P m arg).with_registry nm c := by
  unfold native_system_out_println
  simp only [with_registry_frame, with_registry_fault, with_registry_jvm, with_registry_classes,
    with_registry_classes_count, with_registry_stack_memory, with_registry_locals_memory,
    with_registry_string_pool, with_registry_input, with_registry_output, mk_with_registry,
    stack_with_registry, locals_with_registry, code_byte_with_registry, pool_entry_with_registry,
    set_top_with_registry, set_pc_with_registry, print_with_registry, set_string_with_registry,
    with_jvm_with_registry, touch_stack_with_registry, touch_local_with_registry,
    touch_code_with_registry, touch_pool_with_registry, set_stack_with_registry,
    set_local_with_registry, push_int_with_registry, pop_int_with_registry, push_long_with_registry,
    pop_long_with_registry, push_float_with_registry, pop_float_with_registry,
    push_double_with_registry, pop_double_with_registry, push_ref_with_registry,
    pop_ref_with_registry, jvm_create_string_with_registry, jvm_print_string_with_registry,
    jvm_read_int_with_registry, jvm_read_line_with_registry, native_system_out_print_with_registry]

theorem native_system_out_print_int_with_registry (m : Machine) (arg : Int)
    (nm : List NativeMethodEntry) (c : Nat) :
    native_system_out_print_int (m.with_registry nm c) arg
      = (native_system_out_print_int m arg).with_registry nm c := by
  rfl

theorem native_system_out_println_int_with_registry (m : Machine) (arg : Int)
    (nm : List NativeMethodEntry) (c : Nat) :
    native_system_out_println_int (m.with_registry nm c) arg
      = (native_system_out_println_int m arg).with_registry nm c := by
  rfl

theorem native_system_out_println_void_with_registry (m : Machine)
    (nm : List NativeMethodEntry) (c : Nat) :
    native_system_out_println_void (m.with_registry nm c)
      = (native_system_out_println_void m).with_registry nm c := by
  rfl

theorem native_scanner_next_int_with_registry (jvm : JVM) (nm : List NativeMethodEntry) (c : Nat) :
    native_scanner_next_int (jvm.with_registry nm c)
      = ((native_scanner_next_int jvm).1, (native_scanner_next_int jvm).2.with_registry nm c) := by
  rfl

theorem native_scanner_next_line_with_registry (P : Platform) (jvm : JVM)
    (nm : List NativeMethodEntry) (c : Nat) :
    native_scanner_next_line P (jvm.with_registry nm c)
      = ((native_scanner_next_line P jvm).1,
          (native_scanner_next_line P jvm).2.with_registry nm c) := by
  unfold native_scanner_next_line
  simp only [with_registry_frame, with_registry_fault, with_registry_jvm, with_registry_classes,
    with_registry_classes_count, with_registry_stack_memory, with_registry_locals_memory,
    with_registry_string_pool, with_registry_input, with_registry_output, mk_with_registry,
    stack_with_registry, locals_with_registry, code_byte_with_registry, pool_entry_with_registry,
    set_top_with_registry, set_pc_with_registry, print_with_registry, set_string_with_registry,
    with_jvm_with_registry, touch_stack_with_registry, touch_local_with_registry,
    touch_code_with_registry, touch_pool_with_registry, set_stack_with_registry,
    set_local_with_registry, push_int_with_registry, pop_int_with_registry, push_long_with_registry,
    pop_long_with_registry, push_float_with_registry, pop_float_with_registry,
    push_double_with_registry, pop_double_with_registry, push_ref_with_registry,
    pop_ref_with_registry, jvm_create_string_with_registry, jvm_print_string_with_registry,
    jvm_read_int_with_registry, jvm_read_line_with_registry, native_system_out_print_with_registry,
    native_system_out_println_with_registry, native_system_out_print_int_with_registry,
    native_system_out_println_int_with_registry, native_system_out_println_void_with_registry,
    native_scanner_next_int_with_registry]
  rcases (jvm_read_line jvm).1 with _ | text
  · rfl
  · rfl

theorem utf8_with_registry (m : Machine) (index : Nat) (nm : List NativeMethodEntry) (c : Nat) :
    (m.with_registry nm c).utf8 index
      = ((m.utf8 index).1, (m.utf8 index).2.with_registry nm c) := by
  unfold Machine.utf8
  simp only [with_registry_frame, with_registry_fault, with_registry_jvm, with_registry_classes,
    with_registry_classes_count, with_registry_stack_memory, with_registry_locals_memory,
    with_registry_string_pool, with_registry_input, with_registry_output, mk_with_registry,
    stack_with_registry, locals_with_registry, code_byte_with_registry, pool_entry_with_registry,
    set_top_with_registry, set_pc_with_registry, print_with_registry, set_string_with_registry,
    with_jvm_with_registry, touch_stack_with_registry, touch_local_with_registry,
    touch_code_with_registry, touch_pool_with_registry, set_stack_with_registry,
    set_local_with_registry, push_int_with_registry, pop_int_with_registry, push_long_with_registry,
    pop_long_with_registry, push_float_with_registry, pop_float_with_registry,
    push_double_with_registry, pop_double_with_registry, push_ref_with_registry,
    pop_ref_with_registry, jvm_create_string_with_registry, jvm_print_string_with_registry,
    jvm_read_int_with_registry, jvm_read_line_with_registry, native_system_out_print_with_registry,
    native_system_out_println_with_registry, native_system_out_print_int_with_registry,
    native_system_out_println_int_with_registry, native_system_out_println_void_with_registry,
    native_scanner_next_int_with_registry, native_scanner_next_line_with_registry]
  split_ifs <;> rfl

theorem bytecode_read_u1_with_registry (m : Machine) (nm : List NativeMethodEntry) (c : Nat) :
    Bytecode.read_u1 (m.with_registry nm c)
      = ((Bytecode.read_u1 m).1, (Bytecode.read_u1 m).2.with_registry nm c) := by
  unfold Bytecode.read_u1
  simp only [with_registry_frame, with_registry_fault, with_registry_jvm, with_registry_classes,
    with_registry_classes_count, with_registry_stack_memory, with_registry_locals_memory,
    with_registry_string_pool, with_registry_input, with_registry_output, mk_with_registry,
    stack_with_registry, locals_with_registry, code_byte_with_registry, pool_entry_with_registry,
    set_top_with_registry, set_pc_with_registry, print_with_registry, set_string_with_registry,
    with_jvm_with_registry, touch_stack_with_registry, touch_local_with_registry,
    touch_code_with_registry, touch_pool_with_registry, set_stack_with_registry,
    set_local_with_registry, push_int_with_registry, pop_int_with_registry, push_long_with_registry,
    pop_long_with_registry, push_float_with_registry, pop_float_with_registry,
    push_double_with_registry, pop_double_with_registry, push_ref_with_registry,
    pop_ref_with_registry, jvm_create_string_with_registry, jvm_print_string_with_registry,
    jvm_read_int_with_registry, jvm_read_line_with_registry, native_system_out_print_with_registry,
    native_system_out_println_with_registry, native_system_out_print_int_with_registry,
    native_system_out_println_int_with_registry, native_system_out_println_void_with_registry,
    native_scanner_next_int_with_registry, native_scanner_next_line_with_registry,
    utf8_with_registry]

theorem bytecode_read_u2_with_registry (m : Machine) (nm : List NativeMethodEntry) (c : Nat) :
    Bytecode.read_u2 (m.with_registry nm c)
      = ((Bytecode.read_u2 m).1, (Bytecode.read_u2 m).2.with_registry nm c) := by
  unfold Bytecode.read_u2
  simp only [with_registry_frame, with_registry_fault, with_registry_jvm, with_registry_classes,
    with_registry_classes_count, with_registry_stack_memory, with_registry_locals_memory,
    with_registry_string_pool, with_registry_input, with_registry_output, mk_with_registry,
    stack_with_registry, locals_with_registry, code_byte_with_registry, pool_entry_with_registry,
    set_top_with_registry, set_pc_with_registry, print_with_registry, set_string_with_registry,
    with_jvm_with_registry, touch_stack_with_registry, touch_local_with_registry,
    touch_code_with_registry, touch_pool_with_registry, set_stack_with_registry,
    set_local_with_registry, push_int_with_registry, pop_int_with_registry, push_long_with_registry,
    pop_long_with_registry, push_float_with_registry, pop_float_with_registry,
    push_double_with_registry, pop_double_with_registry, push_ref_with_registry,
    pop_ref_with_registry, jvm_create_string_with_registry, jvm_print_string_with_registry,
    jvm_read_int_with_registry, jvm_read_line_with_registry, native_system_out_print_with_registry,
    native_system_out_println_with_registry, native_system_out_print_int_with_registry,
    native_system_out_println_int_with_registry, native_system_out_println_void_with_registry,
    native_scanner_next_int_with_registry, native_scanner_next_line_with_registry,
    utf8_with_registry, bytecode_read_u1_with_registry]

theorem bytecode_read_s2_with_registry (m : Machine) (nm : List NativeMethodEntry) (c : Nat) :
    Bytecode.read_s2 (m.with_registry nm c)
      = ((Bytecode.read_s2 m).1, (Bytecode.read_s2 m).2.with_registry nm c) := by
  unfold Bytecode.read_s2
  simp only [with_registry_frame, with_registry_fault, with_registry_jvm, with_registry_classes,
    with_registry_classes_count, with_registry_stack_memory, with_registry_locals_memory,
    with_registry_string_pool, with_registry_input, with_registry_output, mk_with_registry,
    stack_with_registry, locals_with_registry, code_byte_with_registry, pool_entry_with_registry,
    set_top_with_registry, set_pc_with_registry, print_with_registry, set_string_with_registry,
    with_jvm_with_registry, touch_stack_with_registry, touch_local_with_registry,
    touch_code_with_registry, touch_pool_with_registry, set_stack_with_registry,
    set_local_with_registry, push_int_with_registry, pop_int_with_registry, push_long_with_registry,
    pop_long_with_registry, push_float_with_registry, pop_float_with_registry,
    push_double_with_registry, pop_double_with_registry, push_ref_with_registry,
    pop_ref_with_registry, jvm_create_string_with_registry, jvm_print_string_with_registry,
    jvm_read_int_with_registry, jvm_read_line_with_registry, native_system_out_print_with_registry,
    native_system_out_println_with_registry, native_system_out_print_int_with_registry,
    native_system_out_println_int_with_registry, native_system_out_println_void_with_registry,
    native_scanner_next_int_with_registry, native_scanner_next_line_with_registry,
    utf8_with_registry, bytecode_read_u1_with_registry, bytecode_read_u2_with_registry]

theorem push_new_string_with_registry (P : Platform) (m : Machine) (str : List Nat)
    (nm : List NativeMethodEntry) (c : Nat) :
    push_new_string P (m.with_registry nm c) str
      = (push_new_string P m str).with_registry nm c := by
  unfold push_new_string
  simp only [with_registry_frame, with_registry_fault, with_registry_jvm, with_registry_classes,
    with_registry_classes_count, with_registry_stack_memory, with_registry_locals_memory,
    with_registry_string_pool, with_registry_input, with_registry_output, mk_with_registry,
    stack_with_registry, locals_with_registry, code_byte_with_registry, pool_entry_with_registry,
    set_top_with_registry, set_pc_with_registry, print_with_registry, set_string_with_registry,
    with_jvm_with_registry, touch_stack_with_registry, touch_local_with_registry,
    touch_code_with_registry, touch_pool_with_registry, set_stack_with_registry,
    set_local_with_registry, push_int_with_registry, pop_int_with_registry, push_long_with_registry,
    pop_long_with_registry, push_float_with_registry, pop_float_with_registry,
    push_double_with_registry, pop_double_with_registry, push_ref_with_registry,
    pop_ref_with_registry, jvm_create_string_with_registry, jvm_print_string_with_registry,
    jvm_read_int_with_registry, jvm_read_line_with_registry, native_system_out_print_with_registry,
    native_system_out_println_with_registry, native_system_out_print_int_with_registry,
    native_system_out_println_int_with_registry, native_system_out_println_void_with_registry,
    native_scanner_next_int_with_registry, native_scanner_next_line_with_registry,
    utf8_with_registry, bytecode_read_u1_with_registry, bytecode_read_u2_with_registry,
    bytecode_read_s2_with_registry]

theorem execute_ldc_string_with_registry (P : Platform) (m : Machine) (string_index : Nat)
    (nm : List NativeMethodEntry) (c : Nat) :
    execute_ldc_string P (m.with_registry nm c) string_index
      = ((execute_ldc_string P m string_index).1,
          (execute_ldc_string P m string_index).2.with_registry nm c) := by
  unfold execute_ldc_string
  simp only [with_registry_frame, with_registry_fault, with_registry_jvm, with_registry_classes,
    with_registry_classes_count, with_registry_stack_memory, with_registry_locals_memory,
    with_registry_string_pool, with_registry_input, with_registry_output, mk_with_registry,
    stack_with_registry, locals_with_registry, code_byte_with_registry, pool_entry_with_registry,
    set_top_with_registry, set_pc_with_registry, print_with_registry, set_string_with_registry,
    with_jvm_with_registry, touch_stack_with_registry, touch_local_with_registry,
    touch_code_with_registry, touch_pool_with_registry, set_stack_with_registry,
    set_local_with_registry, push_int_with_registry, pop_int_with_registry, push_long_with_registry,
    pop_long_with_registry, push_float_with_registry, pop_float_with_registry,
    push_double_with_registry, pop_double_with_registry, push_ref_with_registry,
    pop_ref_with_registry, jvm_create_string_with_registry, jvm_print_string_with_registry,
    jvm_read_int_with_registry, jvm_read_line_with_registry, native_system_out_print_with_registry,
    native_system_out_println_with_registry, native_system_out_print_int_with_registry,
    native_system_out_println_int_with_registry, native_system_out_println_void_with_registry,
    native_scanner_next_int_with_registry, native_scanner_next_line_with_registry,
    utf8_with_registry, bytecode_read_u1_with_registry, bytecode_read_u2_with_registry,
    bytecode_read_s2_with_registry, push_new_string_with_registry]
  split_ifs
  · rfl
  · rcases ((m.touch_pool string_index).utf8 (m.pool_entry string_index).string_index).1
      with _ | text
    · rfl
    · rfl
  · rfl

theorem invoke_frame_with_registry (m : Machine) (target_method : MethodInfo)
    (nm : List NativeMethodEntry) (c : Nat) :
    invoke_frame (m.with_registry nm c) target_method = invoke_frame m target_method := by
  rfl

theorem invoke_parameters_with_registry (m : Machine) (target_method : MethodInfo)
    (descriptor : Option (List Nat)) (nm : List NativeMethodEntry) (c : Nat) :
    invoke_parameters (m.with_registry nm c) target_method descriptor
      = ((invoke_parameters m target_method descriptor).1.with_registry nm c,
          (invoke_parameters m target_method descriptor).2.with_registry nm c) := by
  unfold invoke_parameters
  simp only [with_registry_frame, with_registry_fault, with_registry_jvm, with_registry_classes,
    with_registry_classes_count, with_registry_stack_memory, with_registry_locals_memory,
    with_registry_string_pool, with_registry_input, with_registry_output, mk_with_registry,
    stack_with_registry, locals_with_registry, code_byte_with_registry, pool_entry_with_registry,
    set_top_with_registry, set_pc_with_registry, print_with_registry, set_string_with_registry,
    with_jvm_with_registry, touch_stack_with_registry, touch_local_with_registry,
    touch_code_with_registry, touch_pool_with_registry, set_stack_with_registry,
    set_local_with_registry, push_int_with_registry, pop_int_with_registry, push_long_with_registry,
    pop_long_with_registry, push_float_with_registry, pop_float_with_registry,
    push_double_with_registry, pop_double_with_registry, push_ref_with_registry,
    pop_ref_with_registry, jvm_create_string_with_registry, jvm_print_string_with_registry,
    jvm_read_int_with_registry, jvm_read_line_with_registry, native_system_out_print_with_registry,
    native_system_out_println_with_registry, native_system_out_print_int_with_registry,
    native_system_out_println_int_with_registry, native_system_out_println_void_with_registry,
    native_scanner_next_int_with_registry, native_scanner_next_line_with_registry,
    utf8_with_registry, bytecode_read_u1_with_registry, bytecode_read_u2_with_registry,
    bytecode_read_s2_with_registry, push_new_string_with_registry, execute_ldc_string_with_registry,
    invoke_frame_with_registry]
  split_ifs <;> rfl

theorem invoke_current_class_with_registry (P : Platform) (call : Machine → Outcome)
    (m : Machine) (target_method : MethodInfo) (method_name descriptor : Option (List Nat))
    (nm : List NativeMethodEntry) (c : Nat)
    (hcall : ∀ x, call (x.with_registry nm c) = (call x).with_registry nm c) :
    invoke_current_class P call (m.with_registry nm c) target_method method_name descriptor
      = (invoke_current_class P call m target_method method_name descriptor).map
          (fun res => (res.1, res.2.with_registry nm c)) := by
  unfold invoke_current_class
  simp only [with_registry_frame, with_registry_fault, with_registry_jvm, with_registry_classes,
    with_registry_classes_count, with_registry_stack_memory, with_registry_locals_memory,
    with_registry_string_pool, with_registry_input, with_registry_output, mk_with_registry,
    stack_with_registry, locals_with_registry, code_byte_with_registry, pool_entry_with_registry,
    set_top_with_registry, set_pc_with_registry, print_with_registry, set_string_with_registry,
    with_jvm_with_registry, touch_stack_with_registry, touch_local_with_registry,
    touch_code_with_registry, touch_pool_with_registry, set_stack_with_registry,
    set_local_with_registry, push_int_with_registry, pop_int_with_registry, push_long_with_registry,
    pop_long_with_registry, push_float_with_registry, pop_float_with_registry,
    push_double_with_registry, pop_double_with_registry, push_ref_with_registry,
    pop_ref_with_registry, jvm_create_string_with_registry, jvm_print_string_with_registry,
    jvm_read_int_with_registry, jvm_read_line_with_registry, native_system_out_print_with_registry,
    native_system_out_println_with_registry, native_system_out_print_int_with_registry,
    native_system_out_println_int_with_registry, native_system_out_println_void_with_registry,
    native_scanner_next_int_with_registry, native_scanner_next_line_with_registry,
    utf8_with_registry, bytecode_read_u1_with_registry, bytecode_read_u2_with_registry,
    bytecode_read_s2_with_registry, push_new_string_with_registry, execute_ldc_string_with_registry,
    invoke_frame_with_registry, invoke_parameters_with_registry, hcall]
  rcases call (invoke_parameters m target_method descriptor).2 with ⟨result, callee⟩ | _ | _
  · simp only [Outcome.with_registry, with_registry_frame, with_registry_fault, with_registry_jvm,
    with_registry_classes, with_registry_classes_count, with_registry_stack_memory,
    with_registry_locals_memory, with_registry_string_pool, with_registry_input,
    with_registry_output, mk_with_registry, stack_with_registry, locals_with_registry,
    code_byte_with_registry, pool_entry_with_registry, set_top_with_registry, set_pc_with_registry,
    print_with_registry, set_string_with_registry, with_jvm_with_registry,
    touch_stack_with_registry, touch_local_with_registry, touch_code_with_registry,
    touch_pool_with_registry, set_stack_with_registry, set_local_with_registry,
    push_int_with_registry, pop_int_with_registry, push_long_with_registry, pop_long_with_registry,
    push_float_with_registry, pop_float_with_registry, push_double_with_registry,
    pop_double_with_registry, push_ref_with_registry, pop_ref_with_registry,
    jvm_create_string_with_registry, jvm_print_string_with_registry, jvm_read_int_with_registry,
    jvm_read_line_with_registry, native_system_out_print_with_registry,
    native_system_out_println_with_registry, native_system_out_print_int_with_registry,
    native_system_out_println_int_with_registry, native_system_out_println_void_with_registry,
    native_scanner_next_int_with_registry, native_scanner_next_line_with_registry,
    utf8_with_registry, bytecode_read_u1_with_registry, bytecode_read_u2_with_registry,
    bytecode_read_s2_with_registry, push_new_string_with_registry, execute_ldc_string_with_registry,
    invoke_frame_with_registry, invoke_parameters_with_registry]
    split_ifs <;> rfl
  · simp only [Outcome.with_registry]
    split_ifs <;> rfl
  · simp only [Outcome.with_registry]
    split_ifs <;> rfl

theorem invokestatic_host_with_registry (P : Platform) (m : Machine)
    (class_name method_name descriptor : Option (List Nat))
    (nm : List NativeMethodEntry) (c : Nat) :
    invokestatic_host P (m.with_registry nm c) class_name method_name descriptor
      = (invokestatic_host P m class_name method_name descriptor).with_registry nm c := by
  unfold invokestatic_host
  simp only [with_registry_frame, with_registry_fault, with_registry_jvm, with_registry_classes,
    with_registry_classes_count, with_registry_stack_memory, with_registry_locals_memory,
    with_registry_string_pool, with_registry_input, with_registry_output, mk_with_registry,
    stack_with_registry, locals_with_registry, code_byte_with_registry, pool_entry_with_registry,
    set_top_with_registry, set_pc_with_registry, print_with_registry, set_string_with_registry,
    with_jvm_with_registry, touch_stack_with_registry, touch_local_with_registry,
    touch_code_with_registry, touch_pool_with_registry, set_stack_with_registry,
    set_local_with_registry, push_int_with_registry, pop_int_with_registry, push_long_with_registry,
    pop_long_with_registry, push_float_with_registry, pop_float_with_registry,
    push_double_with_registry, pop_double_with_registry, push_ref_with_registry,
    pop_ref_with_registry, jvm_create_string_with_registry, jvm_print_string_with_registry,
    jvm_read_int_with_registry, jvm_read_line_with_registry, native_system_out_print_with_registry,
    native_system_out_println_with_registry, native_system_out_print_int_with_registry,
    native_system_out_println_int_with_registry, native_system_out_println_void_with_registry,
    native_scanner_next_int_with_registry, native_scanner_next_line_with_registry,
    utf8_with_registry, bytecode_read_u1_with_registry, bytecode_read_u2_with_registry,
    bytecode_read_s2_with_registry, push_new_string_with_registry, execute_ldc_string_with_registry,
    invoke_frame_with_registry, invoke_parameters_with_registry]
  split_ifs <;> rfl

theorem resolve_method_ref_with_registry (m : Machine) (nm : List NativeMethodEntry) (c : Nat) :
    resolve_method_ref (m.with_registry nm c)
      = ((resolve_method_ref m).1.with_registry nm c, (resolve_method_ref m).2) := by
  unfold resolve_method_ref
  simp only [with_registry_frame, with_registry_fault, with_registry_jvm, with_registry_classes,
    with_registry_classes_count, with_registry_stack_memory, with_registry_locals_memory,
    with_registry_string_pool, with_registry_input, with_registry_output, mk_with_registry,
    stack_with_registry, locals_with_registry, code_byte_with_registry, pool_entry_with_registry,
    set_top_with_registry, set_pc_with_registry, print_with_registry, set_string_with_registry,
    with_jvm_with_registry, touch_stack_with_registry, touch_local_with_registry,
    touch_code_with_registry, touch_pool_with_registry, set_stack_with_registry,
    set_local_with_registry, push_int_with_registry, pop_int_with_registry, push_long_with_registry,
    pop_long_with_registry, push_float_with_registry, pop_float_with_registry,
    push_double_with_registry, pop_double_with_registry, push_ref_with_registry,
    pop_ref_with_registry, jvm_create_string_with_registry, jvm_print_string_with_registry,
    jvm_read_int_with_registry, jvm_read_line_with_registry, native_system_out_print_with_registry,
    native_system_out_println_with_registry, native_system_out_print_int_with_registry,
    native_system_out_println_int_with_registry, native_system_out_println_void_with_registry,
    native_scanner_next_int_with_registry, native_scanner_next_line_with_registry,
    utf8_with_registry, bytecode_read_u1_with_registry, bytecode_read_u2_with_registry,
    bytecode_read_s2_with_registry, push_new_string_with_registry, execute_ldc_string_with_registry,
    invoke_frame_with_registry, invoke_parameters_with_registry, invokestatic_host_with_registry]
  split_ifs <;> rfl

theorem execute_invokestatic_with_registry (P : Platform) (call : Machine → Outcome)
    (m : Machine) (nm : List NativeMethodEntry) (c : Nat)
    (hcall : ∀ x, call (x.with_registry nm c) = (call x).with_registry nm c) :
    execute_invokestatic P call (m.with_registry nm c)
      = (execute_invokestatic P call m).map (fun res => (res.1, res.2.with_registry nm c)) := by
  unfold execute_invokestatic
  simp only [with_registry_frame, with_registry_fault, with_registry_jvm, with_registry_classes,
    with_registry_classes_count, with_registry_stack_memory, with_registry_locals_memory,
    with_registry_string_pool, with_registry_input, with_registry_output, mk_with_registry,
    stack_with_registry, locals_with_registry, code_byte_with_registry, pool_entry_with_registry,
    set_top_with_registry, set_pc_with_registry, print_with_registry, set_string_with_registry,
    with_jvm_with_registry, touch_stack_with_registry, touch_local_with_registry,
    touch_code_with_registry, touch_pool_with_registry, set_stack_with_registry,
    set_local_with_registry, push_int_with_registry, pop_int_with_registry, push_long_with_registry,
    pop_long_with_registry, push_float_with_registry, pop_float_with_registry,
    push_double_with_registry, pop_double_with_registry, push_ref_with_registry,
    pop_ref_with_registry, jvm_create_string_with_registry, jvm_print_string_with_registry,
    jvm_read_int_with_registry, jvm_read_line_with_registry, native_system_out_print_with_registry,
    native_system_out_println_with_registry, native_system_out_print_int_with_registry,
    native_system_out_println_int_with_registry, native_system_out_println_void_with_registry,
    native_scanner_next_int_with_registry, native_scanner_next_line_with_registry,
    utf8_with_registry, bytecode_read_u1_with_registry, bytecode_read_u2_with_registry,
    bytecode_read_s2_with_registry, push_new_string_with_registry, execute_ldc_string_with_registry,
    invoke_frame_with_registry, invoke_parameters_with_registry, invokestatic_host_with_registry,
    resolve_method_ref_with_registry]
  rcases (resolve_method_ref m).2 with _ | ⟨class_name, method_name, descriptor⟩
  · rfl
  · simp only []
    split_ifs
    · rfl
    · split
      · split_ifs
        · exact invoke_current_class_with_registry P call _ _ _ _ nm c hcall
        · rfl
      · rfl
    · rfl

theorem invokevirtual_stringbuilder_with_registry (P : Platform) (m : Machine)
    (method_name descriptor : Option (List Nat)) (nm : List NativeMethodEntry) (c : Nat) :
    invokevirtual_stringbuilder P (m.with_registry nm c) method_name descriptor
      = (invokevirtual_stringbuilder P m method_name descriptor).with_registry nm c := by
  unfold invokevirtual_stringbuilder
  simp only [with_registry_frame, with_registry_fault, with_registry_jvm, with_registry_classes,
    with_registry_classes_count, with_registry_stack_memory, with_registry_locals_memory,
    with_registry_string_pool, with_registry_input, with_registry_output, mk_with_registry,
    stack_with_registry, locals_with_registry, code_byte_with_registry, pool_entry_with_registry,
    set_top_with_registry, set_pc_with_registry, print_with_registry, set_string_with_registry,
    with_jvm_with_registry, touch_stack_with_registry, touch_local_with_registry,
    touch_code_with_registry, touch_pool_with_registry, set_stack_with_registry,
    set_local_with_registry, push_int_with_registry, pop_int_with_registry, push_long_with_registry,
    pop_long_with_registry, push_float_with_registry, pop_float_with_registry,
    push_double_with_registry, pop_double_with_registry, push_ref_with_registry,
    pop_ref_with_registry, jvm_create_string_with_registry, jvm_print_string_with_registry,
    jvm_read_int_with_registry, jvm_read_line_with_registry, native_system_out_print_with_registry,
    native_system_out_println_with_registry, native_system_out_print_int_with_registry,
    native_system_out_println_int_with_registry, native_system_out_println_void_with_registry,
    native_scanner_next_int_with_registry, native_scanner_next_line_with_registry,
    utf8_with_registry, bytecode_read_u1_with_registry, bytecode_read_u2_with_registry,
    bytecode_read_s2_with_registry, push_new_string_with_registry, execute_ldc_string_with_registry,
    invoke_frame_with_registry, invoke_parameters_with_registry, invokestatic_host_with_registry,
    resolve_method_ref_with_registry]
  split_ifs
  all_goals repeat' (first | with_reducible rfl | split)

theorem invokevirtual_printstream_with_registry (P : Platform) (m : Machine)
    (method_name descriptor : Option (List Nat)) (nm : List NativeMethodEntry) (c : Nat) :
    invokevirtual_printstream P (m.with_registry nm c) method_name descriptor
      = (invokevirtual_printstream P m method_name descriptor).with_registry nm c := by
  unfold invokevirtual_printstream
  simp only [with_registry_frame, with_registry_fault, with_registry_jvm, with_registry_classes,
    with_registry_classes_count, with_registry_stack_memory, with_registry_locals_memory,
    with_registry_string_pool, with_registry_input, with_registry_output, mk_with_registry,
    stack_with_registry, locals_with_registry, code_byte_with_registry, pool_entry_with_registry,
    set_top_with_registry, set_pc_with_registry, print_with_registry, set_string_with_registry,
    with_jvm_with_registry, touch_stack_with_registry, touch_local_with_registry,
    touch_code_with_registry, touch_pool_with_registry, set_stack_with_registry,
    set_local_with_registry, push_int_with_registry, pop_int_with_registry, push_long_with_registry,
    pop_long_with_registry, push_float_with_registry, pop_float_with_registry,
    push_double_with_registry, pop_double_with_registry, push_ref_with_registry,
    pop_ref_with_registry, jvm_create_string_with_registry, jvm_print_string_with_registry,
    jvm_read_int_with_registry, jvm_read_line_with_registry, native_system_out_print_with_registry,
    native_system_out_println_with_registry, native_system_out_print_int_with_registry,
    native_system_out_println_int_with_registry, native_system_out_println_void_with_registry,
    native_scanner_next_int_with_registry, native_scanner_next_line_with_registry,
    utf8_with_registry, bytecode_read_u1_with_registry, bytecode_read_u2_with_registry,
    bytecode_read_s2_with_registry, push_new_string_with_registry, execute_ldc_string_with_registry,
    invoke_frame_with_registry, invoke_parameters_with_registry, invokestatic_host_with_registry,
    resolve_method_ref_with_registry, invokevirtual_stringbuilder_with_registry]
  split_ifs <;> rfl

theorem execute_invokevirtual_with_registry (P : Platform) (m : Machine)
    (nm : List NativeMethodEntry) (c : Nat) :
    execute_invokevirtual P (m.with_registry nm c)
      = ((execute_invokevirtual P m).1, (execute_invokevirtual P m).2.with_registry nm c) := by
  unfold execute_invokevirtual
  simp only [with_registry_frame, with_registry_fault, with_registry_jvm, with_registry_classes,
    with_registry_classes_count, with_registry_stack_memory, with_registry_locals_memory,
    with_registry_string_pool, with_registry_input, with_registry_output, mk_with_registry,
    stack_with_registry, locals_with_registry, code_byte_with_registry, pool_entry_with_registry,
    set_top_with_registry, set_pc_with_registry, print_with_registry, set_string_with_registry,
    with_jvm_with_registry, touch_stack_with_registry, touch_local_with_registry,
    touch_code_with_registry, touch_pool_with_registry, set_stack_with_registry,
    set_local_with_registry, push_int_with_registry, pop_int_with_registry, push_long_with_registry,
    pop_long_with_registry, push_float_with_registry, pop_float_with_registry,
    push_double_with_registry, pop_double_with_registry, push_ref_with_registry,
    pop_ref_with_registry, jvm_create_string_with_registry, jvm_print_string_with_registry,
    jvm_read_int_with_registry, jvm_read_line_with_registry, native_system_out_print_with_registry,
    native_system_out_println_with_registry, native_system_out_print_int_with_registry,
    native_system_out_println_int_with_registry, native_system_out_println_void_with_registry,
    native_scanner_next_int_with_registry, native_scanner_next_line_with_registry,
    utf8_with_registry, bytecode_read_u1_with_registry, bytecode_read_u2_with_registry,
    bytecode_read_s2_with_registry, push_new_string_with_registry, execute_ldc_string_with_registry,
    invoke_frame_with_registry, invoke_parameters_with_registry, invokestatic_host_with_registry,
    resolve_method_ref_with_registry, invokevirtual_stringbuilder_with_registry,
    invokevirtual_printstream_with_registry]
  rcases (resolve_method_ref m).2 with _ | ⟨class_name, method_name, descriptor⟩
  · rfl
  · simp only []
    split_ifs
    all_goals simp only [with_registry_frame, with_registry_fault, with_registry_jvm,
      with_registry_classes, with_registry_classes_count, with_registry_stack_memory,
      with_registry_locals_memory, with_registry_string_pool, with_registry_input,
      with_registry_output, mk_with_registry, stack_with_registry, locals_with_registry,
      code_byte_with_registry, pool_entry_with_registry, set_top_with_registry,
      set_pc_with_registry, print_with_registry, set_string_with_registry, with_jvm_with_registry,
      touch_stack_with_registry, touch_local_with_registry, touch_code_with_registry,
      touch_pool_with_registry, set_stack_with_registry, set_local_with_registry,
      push_int_with_registry, pop_int_with_registry, push_long_with_registry,
      pop_long_with_registry, push_float_with_registry, pop_float_with_registry,
      push_double_with_registry, pop_double_with_registry, push_ref_with_registry,
      pop_ref_with_registry, jvm_create_string_with_registry, jvm_print_string_with_registry,
      jvm_read_int_with_registry, jvm_read_line_with_registry,
      native_system_out_print_with_registry, native_system_out_println_with_registry,
      native_system_out_print_int_with_registry, native_system_out_println_int_with_registry,
      native_system_out_println_void_with_registry, native_scanner_next_int_with_registry,
      native_scanner_next_line_with_registry, utf8_with_registry, bytecode_read_u1_with_registry,
      bytecode_read_u2_with_registry, bytecode_read_s2_with_registry, push_new_string_with_registry,
      execute_ldc_string_with_registry, invoke_frame_with_registry, invoke_parameters_with_registry,
      invokestatic_host_with_registry, resolve_method_ref_with_registry,
      invokevirtual_stringbuilder_with_registry, invokevirtual_printstream_with_registry]

theorem execute_new_with_registry (P : Platform) (m : Machine)
    (nm : List NativeMethodEntry) (c : Nat) :
    execute_new P (m.with_registry nm c)
      = ((execute_new P m).1, (execute_new P m).2.with_registry nm c) := by
  unfold execute_new
  simp only [with_registry_frame, with_registry_fault, with_registry_jvm, with_registry_classes,
    with_registry_classes_count, with_registry_stack_memory, with_registry_locals_memory,
    with_registry_string_pool, with_registry_input, with_registry_output, mk_with_registry,
    stack_with_registry, locals_with_registry, code_byte_with_registry, pool_entry_with_registry,
    set_top_with_registry, set_pc_with_registry, print_with_registry, set_string_with_registry,
    with_jvm_with_registry, touch_stack_with_registry, touch_local_with_registry,
    touch_code_with_registry, touch_pool_with_registry, set_stack_with_registry,
    set_local_with_registry, push_int_with_registry, pop_int_with_registry, push_long_with_registry,
    pop_long_with_registry, push_float_with_registry, pop_float_with_registry,
    push_double_with_registry, pop_double_with_registry, push_ref_with_registry,
    pop_ref_with_registry, jvm_create_string_with_registry, jvm_print_string_with_registry,
    jvm_read_int_with_registry, jvm_read_line_with_registry, native_system_out_print_with_registry,
    native_system_out_println_with_registry, native_system_out_print_int_with_registry,
    native_system_out_println_int_with_registry, native_system_out_println_void_with_registry,
    native_scanner_next_int_with_registry, native_scanner_next_line_with_registry,
    utf8_with_registry, bytecode_read_u1_with_registry, bytecode_read_u2_with_registry,
    bytecode_read_s2_with_registry, push_new_string_with_registry, execute_ldc_string_with_registry,
    invoke_frame_with_registry, invoke_parameters_with_registry, invokestatic_host_with_registry,
    resolve_method_ref_with_registry, invokevirtual_stringbuilder_with_registry,
    invokevirtual_printstream_with_registry, execute_invokevirtual_with_registry]
  split_ifs <;> rfl

theorem int_binop_with_registry (m : Machine) (f : Int → Int → Int)
    (nm : List NativeMethodEntry) (c : Nat) :
    int_binop (m.with_registry nm c) f = (int_binop m f).with_registry nm c := by
  unfold int_binop
  simp only [with_registry_frame, with_registry_fault, with_registry_jvm, with_registry_classes,
    with_registry_classes_count, with_registry_stack_memory, with_registry_locals_memory,
    with_registry_string_pool, with_registry_input, with_registry_output, mk_with_registry,
    stack_with_registry, locals_with_registry, code_byte_with_registry, pool_entry_with_registry,
    set_top_with_registry, set_pc_with_registry, print_with_registry, set_string_with_registry,
    with_jvm_with_registry, touch_stack_with_registry, touch_local_with_registry,
    touch_code_with_registry, touch_pool_with_registry, set_stack_with_registry,
    set_local_with_registry, push_int_with_registry, pop_int_with_registry, push_long_with_registry,
    pop_long_with_registry, push_float_with_registry, pop_float_with_registry,
    push_double_with_registry, pop_double_with_registry, push_ref_with_registry,
    pop_ref_with_registry, jvm_create_string_with_registry, jvm_print_string_with_registry,
    jvm_read_int_with_registry, jvm_read_line_with_registry, native_system_out_print_with_registry,
    native_system_out_println_with_registry, native_system_out_print_int_with_registry,
    native_system_out_println_int_with_registry, native_system_out_println_void_with_registry,
    native_scanner_next_int_with_registry, native_scanner_next_line_with_registry,
    utf8_with_registry, bytecode_read_u1_with_registry, bytecode_read_u2_with_registry,
    bytecode_read_s2_with_registry, push_new_string_with_registry, execute_ldc_string_with_registry,
    invoke_frame_with_registry, invoke_parameters_with_registry, invokestatic_host_with_registry,
    resolve_method_ref_with_registry, invokevirtual_stringbuilder_with_registry,
    invokevirtual_printstream_with_registry, execute_invokevirtual_with_registry,
    execute_new_with_registry]

theorem long_binop_with_registry (m : Machine) (f : Int → Int → Int)
    (nm : List NativeMethodEntry) (c : Nat) :
    long_binop (m.with_registry nm c) f = (long_binop m f).with_registry nm c := by
  unfold long_binop
  simp only [with_registry_frame, with_registry_fault, with_registry_jvm, with_registry_classes,
    with_registry_classes_count, with_registry_stack_memory, with_registry_locals_memory,
    with_registry_string_pool, with_registry_input, with_registry_output, mk_with_registry,
    stack_with_registry, locals_with_registry, code_byte_with_registry, pool_entry_with_registry,
    set_top_with_registry, set_pc_with_registry, print_with_registry, set_string_with_registry,
    with_jvm_with_registry, touch_stack_with_registry, touch_local_with_registry,
    touch_code_with_registry, touch_pool_with_registry, set_stack_with_registry,
    set_local_with_registry, push_int_with_registry, pop_int_with_registry, push_long_with_registry,
    pop_long_with_registry, push_float_with_registry, pop_float_with_registry,
    push_double_with_registry, pop_double_with_registry, push_ref_with_registry,
    pop_ref_with_registry, jvm_create_string_with_registry, jvm_print_string_with_registry,
    jvm_read_int_with_registry, jvm_read_line_with_registry, native_system_out_print_with_registry,
    native_system_out_println_with_registry, native_system_out_print_int_with_registry,
    native_system_out_println_int_with_registry, native_system_out_println_void_with_registry,
    native_scanner_next_int_with_registry, native_scanner_next_line_with_registry,
    utf8_with_registry, bytecode_read_u1_with_registry, bytecode_read_u2_with_registry,
    bytecode_read_s2_with_registry, push_new_string_with_registry, execute_ldc_string_with_registry,
    invoke_frame_with_registry, invoke_parameters_with_registry, invokestatic_host_with_registry,
    resolve_method_ref_with_registry, invokevirtual_stringbuilder_with_registry,
    invokevirtual_printstream_with_registry, execute_invokevirtual_with_registry,
    execute_new_with_registry, int_binop_with_registry]

theorem float_binop_with_registry (m : Machine) (f : Nat → Nat → Nat)
    (nm : List NativeMethodEntry) (c : Nat) :
    float_binop (m.with_registry nm c) f = (float_binop m f).with_registry nm c := by
  unfold float_binop
  simp only [with_registry_frame, with_registry_fault, with_registry_jvm, with_registry_classes,
    with_registry_classes_count, with_registry_stack_memory, with_registry_locals_memory,
    with_registry_string_pool, with_registry_input, with_registry_output, mk_with_registry,
    stack_with_registry, locals_with_registry, code_byte_with_registry, pool_entry_with_registry,
    set_top_with_registry, set_pc_with_registry, print_with_registry, set_string_with_registry,
    with_jvm_with_registry, touch_stack_with_registry, touch_local_with_registry,
    touch_code_with_registry, touch_pool_with_registry, set_stack_with_registry,
    set_local_with_registry, push_int_with_registry, pop_int_with_registry, push_long_with_registry,
    pop_long_with_registry, push_float_with_registry, pop_float_with_registry,
    push_double_with_registry, pop_double_with_registry, push_ref_with_registry,
    pop_ref_with_registry, jvm_create_string_with_registry, jvm_print_string_with_registry,
    jvm_read_int_with_registry, jvm_read_line_with_registry, native_system_out_print_with_registry,
    native_system_out_println_with_registry, native_system_out_print_int_with_registry,
    native_system_out_println_int_with_registry, native_system_out_println_void_with_registry,
    native_scanner_next_int_with_registry, native_scanner_next_line_with_registry,
    utf8_with_registry, bytecode_read_u1_with_registry, bytecode_read_u2_with_registry,
    bytecode_read_s2_with_registry, push_new_string_with_registry, execute_ldc_string_with_registry,
    invoke_frame_with_registry, invoke_parameters_with_registry, invokestatic_host_with_registry,
    resolve_method_ref_with_registry, invokevirtual_stringbuilder_with_registry,
    invokevirtual_printstream_with_registry, execute_invokevirtual_with_registry,
    execute_new_with_registry, int_binop_with_registry, long_binop_with_registry]

theorem double_binop_with_registry (m : Machine) (f : Nat → Nat → Nat)
    (nm : List NativeMethodEntry) (c : Nat) :
    double_binop (m.with_registry nm c) f = (double_binop m f).with_registry nm c := by
  unfold double_binop
  simp only [with_registry_frame, with_registry_fault, with_registry_jvm, with_registry_classes,
    with_registry_classes_count, with_registry_stack_memory, with_registry_locals_memory,
    with_registry_string_pool, with_registry_input, with_registry_output, mk_with_registry,
    stack_with_registry, locals_with_registry, code_byte_with_registry, pool_entry_with_registry,
    set_top_with_registry, set_pc_with_registry, print_with_registry, set_string_with_registry,
    with_jvm_with_registry, touch_stack_with_registry, touch_local_with_registry,
    touch_code_with_registry, touch_pool_with_registry, set_stack_with_registry,
    set_local_with_registry, push_int_with_registry, pop_int_with_registry, push_long_with_registry,
    pop_long_with_registry, push_float_with_registry, pop_float_with_registry,
    push_double_with_registry, pop_double_with_registry, push_ref_with_registry,
    pop_ref_with_registry, jvm_create_string_with_registry, jvm_print_string_with_registry,
    jvm_read_int_with_registry, jvm_read_line_with_registry, native_system_out_print_with_registry,
    native_system_out_println_with_registry, native_system_out_print_int_with_registry,
    native_system_out_println_int_with_registry, native_system_out_println_void_with_registry,
    native_scanner_next_int_with_registry, native_scanner_next_line_with_registry,
    utf8_with_registry, bytecode_read_u1_with_registry, bytecode_read_u2_with_registry,
    bytecode_read_s2_with_registry, push_new_string_with_registry, execute_ldc_string_with_registry,
    invoke_frame_with_registry, invoke_parameters_with_registry, invokestatic_host_with_registry,
    resolve_method_ref_with_registry, invokevirtual_stringbuilder_with_registry,
    invokevirtual_printstream_with_registry, execute_invokevirtual_with_registry,
    execute_new_with_registry, int_binop_with_registry, long_binop_with_registry,
    float_binop_with_registry]

theorem if_cond_with_registry (m : Machine) (cond : Int → Bool)
    (nm : List NativeMethodEntry) (c : Nat) :
    if_cond (m.with_registry nm c) cond = (if_cond m cond).with_registry nm c := by
  unfold if_cond
  simp only [with_registry_frame, with_registry_fault, with_registry_jvm, with_registry_classes,
    with_registry_classes_count, with_registry_stack_memory, with_registry_locals_memory,
    with_registry_string_pool, with_registry_input, with_registry_output, mk_with_registry,
    stack_with_registry, locals_with_registry, code_byte_with_registry, pool_entry_with_registry,
    set_top_with_registry, set_pc_with_registry, print_with_registry, set_string_with_registry,
    with_jvm_with_registry, touch_stack_with_registry, touch_local_with_registry,
    touch_code_with_registry, touch_pool_with_registry, set_stack_with_registry,
    set_local_with_registry, push_int_with_registry, pop_int_with_registry, push_long_with_registry,
    pop_long_with_registry, push_float_with_registry, pop_float_with_registry,
    push_double_with_registry, pop_double_with_registry, push_ref_with_registry,
    pop_ref_with_registry, jvm_create_string_with_registry, jvm_print_string_with_registry,
    jvm_read_int_with_registry, jvm_read_line_with_registry, native_system_out_print_with_registry,
    native_system_out_println_with_registry, native_system_out_print_int_with_registry,
    native_system_out_println_int_with_registry, native_system_out_println_void_with_registry,
    native_scanner_next_int_with_registry, native_scanner_next_line_with_registry,
    utf8_with_registry, bytecode_read_u1_with_registry, bytecode_read_u2_with_registry,
    bytecode_read_s2_with_registry, push_new_string_with_registry, execute_ldc_string_with_registry,
    invoke_frame_with_registry, invoke_parameters_with_registry, invokestatic_host_with_registry,
    resolve_method_ref_with_registry, invokevirtual_stringbuilder_with_registry,
    invokevirtual_printstream_with_registry, execute_invokevirtual_with_registry,
    execute_new_with_registry, int_binop_with_registry, long_binop_with_registry,
    float_binop_with_registry, double_binop_with_registry]
  split_ifs <;> rfl

theorem if_icmp_with_registry (m : Machine) (cond : Int → Int → Bool)
    (nm : List NativeMethodEntry) (c : Nat) :
    if_icmp (m.with_registry nm c) cond = (if_icmp m cond).with_registry nm c := by
  unfold if_icmp
  simp only [with_registry_frame, with_registry_fault, with_registry_jvm, with_registry_classes,
    with_registry_classes_count, with_registry_stack_memory, with_registry_locals_memory,
    with_registry_string_pool, with_registry_input, with_registry_output, mk_with_registry,
    stack_with_registry, locals_with_registry, code_byte_with_registry, pool_entry_with_registry,
    set_top_with_registry, set_pc_with_registry, print_with_registry, set_string_with_registry,
    with_jvm_with_registry, touch_stack_with_registry, touch_local_with_registry,
    touch_code_with_registry, touch_pool_with_registry, set_stack_with_registry,
    set_local_with_registry, push_int_with_registry, pop_int_with_registry, push_long_with_registry,
    pop_long_with_registry, push_float_with_registry, pop_float_with_registry,
    push_double_with_registry, pop_double_with_registry, push_ref_with_registry,
    pop_ref_with_registry, jvm_create_string_with_registry, jvm_print_string_with_registry,
    jvm_read_int_with_registry, jvm_read_line_with_registry, native_system_out_print_with_registry,
    native_system_out_println_with_registry, native_system_out_print_int_with_registry,
    native_system_out_println_int_with_registry, native_system_out_println_void_with_registry,
    native_scanner_next_int_with_registry, native_scanner_next_line_with_registry,
    utf8_with_registry, bytecode_read_u1_with_registry, bytecode_read_u2_with_registry,
    bytecode_read_s2_with_registry, push_new_string_with_registry, execute_ldc_string_with_registry,
    invoke_frame_with_registry, invoke_parameters_with_registry, invokestatic_host_with_registry,
    resolve_method_ref_with_registry, invokevirtual_stringbuilder_with_registry,
    invokevirtual_printstream_with_registry, execute_invokevirtual_with_registry,
    execute_new_with_registry, int_binop_with_registry, long_binop_with_registry,
    float_binop_with_registry, double_binop_with_registry, if_cond_with_registry]
  split_ifs <;> rfl

theorem iload_with_registry (m : Machine) (index : Nat) (nm : List NativeMethodEntry) (c : Nat) :
    iload (m.with_registry nm c) index = (iload m index).with_registry nm c := by
  unfold iload
  simp only [with_registry_frame, with_registry_fault, with_registry_jvm, with_registry_classes,
    with_registry_classes_count, with_registry_stack_memory, with_registry_locals_memory,
    with_registry_string_pool, with_registry_input, with_registry_output, mk_with_registry,
    stack_with_registry, locals_with_registry, code_byte_with_registry, pool_entry_with_registry,
    set_top_with_registry, set_pc_with_registry, print_with_registry, set_string_with_registry,
    with_jvm_with_registry, touch_stack_with_registry, touch_local_with_registry,
    touch_code_with_registry, touch_pool_with_registry, set_stack_with_registry,
    set_local_with_registry, push_int_with_registry, pop_int_with_registry, push_long_with_registry,
    pop_long_with_registry, push_float_with_registry, pop_float_with_registry,
    push_double_with_registry, pop_double_with_registry, push_ref_with_registry,
    pop_ref_with_registry, jvm_create_string_with_registry, jvm_print_string_with_registry,
    jvm_read_int_with_registry, jvm_read_line_with_registry, native_system_out_print_with_registry,
    native_system_out_println_with_registry, native_system_out_print_int_with_registry,
    native_system_out_println_int_with_registry, native_system_out_println_void_with_registry,
    native_scanner_next_int_with_registry, native_scanner_next_line_with_registry,
    utf8_with_registry, bytecode_read_u1_with_registry, bytecode_read_u2_with_registry,
    bytecode_read_s2_with_registry, push_new_string_with_registry, execute_ldc_string_with_registry,
    invoke_frame_with_registry, invoke_parameters_with_registry, invokestatic_host_with_registry,
    resolve_method_ref_with_registry, invokevirtual_stringbuilder_with_registry,
    invokevirtual_printstream_with_registry, execute_invokevirtual_with_registry,
    execute_new_with_registry, int_binop_with_registry, long_binop_with_registry,
    float_binop_with_registry, double_binop_with_registry, if_cond_with_registry,
    if_icmp_with_registry]

theorem aload_with_registry (m : Machine) (index : Nat) (nm : List NativeMethodEntry) (c : Nat) :
    aload (m.with_registry nm c) index = (aload m index).with_registry nm c := by
  unfold aload
  simp only [with_registry_frame, with_registry_fault, with_registry_jvm, with_registry_classes,
    with_registry_classes_count, with_registry_stack_memory, with_registry_locals_memory,
    with_registry_string_pool, with_registry_input, with_registry_output, mk_with_registry,
    stack_with_registry, locals_with_registry, code_byte_with_registry, pool_entry_with_registry,
    set_top_with_registry, set_pc_with_registry, print_with_registry, set_string_with_registry,
    with_jvm_with_registry, touch_stack_with_registry, touch_local_with_registry,
    touch_code_with_registry, touch_pool_with_registry, set_stack_with_registry,
    set_local_with_registry, push_int_with_registry, pop_int_with_registry, push_long_with_registry,
    pop_long_with_registry, push_float_with_registry, pop_float_with_registry,
    push_double_with_registry, pop_double_with_registry, push_ref_with_registry,
    pop_ref_with_registry, jvm_create_string_with_registry, jvm_print_string_with_registry,
    jvm_read_int_with_registry, jvm_read_line_with_registry, native_system_out_print_with_registry,
    native_system_out_println_with_registry, native_system_out_print_int_with_registry,
    native_system_out_println_int_with_registry, native_system_out_println_void_with_registry,
    native_scanner_next_int_with_registry, native_scanner_next_line_with_registry,
    utf8_with_registry, bytecode_read_u1_with_registry, bytecode_read_u2_with_registry,
    bytecode_read_s2_with_registry, push_new_string_with_registry, execute_ldc_string_with_registry,
    invoke_frame_with_registry, invoke_parameters_with_registry, invokestatic_host_with_registry,
    resolve_method_ref_with_registry, invokevirtual_stringbuilder_with_registry,
    invokevirtual_printstream_with_registry, execute_invokevirtual_with_registry,
    execute_new_with_registry, int_binop_with_registry, long_binop_with_registry,
    float_binop_with_registry, double_binop_with_registry, if_cond_with_registry,
    if_icmp_with_registry, iload_with_registry]

theorem istore_with_registry (m : Machine) (index : Nat) (nm : List NativeMethodEntry) (c : Nat) :
    istore (m.with_registry nm c) index = (istore m index).with_registry nm c := by
  unfold istore
  simp only [with_registry_frame, with_registry_fault, with_registry_jvm, with_registry_classes,
    with_registry_classes_count, with_registry_stack_memory, with_registry_locals_memory,
    with_registry_string_pool, with_registry_input, with_registry_output, mk_with_registry,
    stack_with_registry, locals_with_registry, code_byte_with_registry, pool_entry_with_registry,
    set_top_with_registry, set_pc_with_registry, print_with_registry, set_string_with_registry,
    with_jvm_with_registry, touch_stack_with_registry, touch_local_with_registry,
    touch_code_with_registry, touch_pool_with_registry, set_stack_with_registry,
    set_local_with_registry, push_int_with_registry, pop_int_with_registry, push_long_with_registry,
    pop_long_with_registry, push_float_with_registry, pop_float_with_registry,
    push_double_with_registry, pop_double_with_registry, push_ref_with_registry,
    pop_ref_with_registry, jvm_create_string_with_registry, jvm_print_string_with_registry,
    jvm_read_int_with_registry, jvm_read_line_with_registry, native_system_out_print_with_registry,
    native_system_out_println_with_registry, native_system_out_print_int_with_registry,
    native_system_out_println_int_with_registry, native_system_out_println_void_with_registry,
    native_scanner_next_int_with_registry, native_scanner_next_line_with_registry,
    utf8_with_registry, bytecode_read_u1_with_registry, bytecode_read_u2_with_registry,
    bytecode_read_s2_with_registry, push_new_string_with_registry, execute_ldc_string_with_registry,
    invoke_frame_with_registry, invoke_parameters_with_registry, invokestatic_host_with_registry,
    resolve_method_ref_with_registry, invokevirtual_stringbuilder_with_registry,
    invokevirtual_printstream_with_registry, execute_invokevirtual_with_registry,
    execute_new_with_registry, int_binop_with_registry, long_binop_with_registry,
    float_binop_with_registry, double_binop_with_registry, if_cond_with_registry,
    if_icmp_with_registry, iload_with_registry, aload_with_registry]

theorem astore_with_registry (m : Machine) (index : Nat) (nm : List NativeMethodEntry) (c : Nat) :
    astore (m.with_registry nm c) index = (astore m index).with_registry nm c := by
  unfold astore
  simp only [with_registry_frame, with_registry_fault, with_registry_jvm, with_registry_classes,
    with_registry_classes_count, with_registry_stack_memory, with_registry_locals_memory,
    with_registry_string_pool, with_registry_input, with_registry_output, mk_with_registry,
    stack_with_registry, locals_with_registry, code_byte_with_registry, pool_entry_with_registry,
    set_top_with_registry, set_pc_with_registry, print_with_registry, set_string_with_registry,
    with_jvm_with_registry, touch_stack_with_registry, touch_local_with_registry,
    touch_code_with_registry, touch_pool_with_registry, set_stack_with_registry,
    set_local_with_registry, push_int_with_registry, pop_int_with_registry, push_long_with_registry,
    pop_long_with_registry, push_float_with_registry, pop_float_with_registry,
    push_double_with_registry, pop_double_with_registry, push_ref_with_registry,
    pop_ref_with_registry, jvm_create_string_with_registry, jvm_print_string_with_registry,
    jvm_read_int_with_registry, jvm_read_line_with_registry, native_system_out_print_with_registry,
    native_system_out_println_with_registry, native_system_out_print_int_with_registry,
    native_system_out_println_int_with_registry, native_system_out_println_void_with_registry,
    native_scanner_next_int_with_registry, native_scanner_next_line_with_registry,
    utf8_with_registry, bytecode_read_u1_with_registry, bytecode_read_u2_with_registry,
    bytecode_read_s2_with_registry, push_new_string_with_registry, execute_ldc_string_with_registry,
    invoke_frame_with_registry, invoke_parameters_with_registry, invokestatic_host_with_registry,
    resolve_method_ref_with_registry, invokevirtual_stringbuilder_with_registry,
    invokevirtual_printstream_with_registry, execute_invokevirtual_with_registry,
    execute_new_with_registry, int_binop_with_registry, long_binop_with_registry,
    float_binop_with_registry, double_binop_with_registry, if_cond_with_registry,
    if_icmp_with_registry, iload_with_registry, aload_with_registry, istore_with_registry]

theorem checked_div_with_registry (m : Machine) (bits : Nat) (value1 value2 : Int)
    (nm : List NativeMethodEntry) (c : Nat) :
    checked_div (m.with_registry nm c) bits value1 value2
      = ((checked_div m bits value1 value2).1,
          (checked_div m bits value1 value2).2.with_registry nm c) := by
  unfold checked_div
  simp only [with_registry_frame, with_registry_fault, with_registry_jvm, with_registry_classes,
    with_registry_classes_count, with_registry_stack_memory, with_registry_locals_memory,
    with_registry_string_pool, with_registry_input, with_registry_output, mk_with_registry,
    stack_with_registry, locals_with_registry, code_byte_with_registry, pool_entry_with_registry,
    set_top_with_registry, set_pc_with_registry, print_with_registry, set_string_with_registry,
    with_jvm_with_registry, touch_stack_with_registry, touch_local_with_registry,
    touch_code_with_registry, touch_pool_with_registry, set_stack_with_registry,
    set_local_with_registry, push_int_with_registry, pop_int_with_registry, push_long_with_registry,
    pop_long_with_registry, push_float_with_registry, pop_float_with_registry,
    push_double_with_registry, pop_double_with_registry, push_ref_with_registry,
    pop_ref_with_registry, jvm_create_string_with_registry, jvm_print_string_with_registry,
    jvm_read_int_with_registry, jvm_read_line_with_registry, native_system_out_print_with_registry,
    native_system_out_println_with_registry, native_system_out_print_int_with_registry,
    native_system_out_println_int_with_registry, native_system_out_println_void_with_registry,
    native_scanner_next_int_with_registry, native_scanner_next_line_with_registry,
    utf8_with_registry, bytecode_read_u1_with_registry, bytecode_read_u2_with_registry,
    bytecode_read_s2_with_registry, push_new_string_with_registry, execute_ldc_string_with_registry,
    invoke_frame_with_registry, invoke_parameters_with_registry, invokestatic_host_with_registry,
    resolve_method_ref_with_registry, invokevirtual_stringbuilder_with_registry,
    invokevirtual_printstream_with_registry, execute_invokevirtual_with_registry,
    execute_new_with_registry, int_binop_with_registry, long_binop_with_registry,
    float_binop_with_registry, double_binop_with_registry, if_cond_with_registry,
    if_icmp_with_registry, iload_with_registry, aload_with_registry, istore_with_registry,
    astore_with_registry]
  split_ifs <;> rfl

theorem execute_opcode_with_registry (P : Platform) (call : Machine → Outcome) (m : Machine)
    (op : Option OpCode) (nm : List NativeMethodEntry) (c : Nat)
    (hcall : ∀ x, call (x.with_registry nm c) = (call x).with_registry nm c) :
    execute_opcode P call (m.with_registry nm c) op
      = (execute_opcode P call m op).with_registry nm c := by
  rcases op with _ | op
  · rfl
  · cases op
    case INVOKESTATIC =>
      show (match execute_invokestatic P call (m.with_registry nm c) with
        | none => Step.out_of_fuel
        | some res => if res.1 ≠ 0 then Step.ret (-1) res.2 else Step.next res.2)
        = Step.with_registry (match execute_invokestatic P call m with
        | none => Step.out_of_fuel
        | some res => if res.1 ≠ 0 then Step.ret (-1) res.2 else Step.next res.2) nm c
      rw [execute_invokestatic_with_registry P call m nm c hcall]
      rcases execute_invokestatic P call m with _ | res
      · rfl
      · simp only [Option.map_some']
        split_ifs <;> rfl
    all_goals first
      | show Step.next _ = Step.with_registry (Step.next _) nm c
      | show Step.ret _ _ = Step.with_registry (Step.ret _ _) nm c
      | show ite _ _ _ = Step.with_registry (ite _ _ _) nm c
    all_goals try simp only [with_registry_frame, with_registry_fault, with_registry_jvm,
      with_registry_classes, with_registry_classes_count, with_registry_stack_memory,
      with_registry_locals_memory, with_registry_string_pool, with_registry_input,
      with_registry_output, mk_with_registry, stack_with_registry, locals_with_registry,
      code_byte_with_registry, pool_entry_with_registry, set_top_with_registry,
      set_pc_with_registry, print_with_registry, set_string_with_registry, with_jvm_with_registry,
      touch_stack_with_registry, touch_local_with_registry, touch_code_with_registry,
      touch_pool_with_registry, set_stack_with_registry, set_local_with_registry,
      push_int_with_registry, pop_int_with_registry, push_long_with_registry,
      pop_long_with_registry, push_float_with_registry, pop_float_with_registry,
      push_double_with_registry, pop_double_with_registry, push_ref_with_registry,
      pop_ref_with_registry, jvm_create_string_with_registry, jvm_print_string_with_registry,
      jvm_read_int_with_registry, jvm_read_line_with_registry,
      native_system_out_print_with_registry, native_system_out_println_with_registry,
      native_system_out_print_int_with_registry, native_system_out_println_int_with_registry,
      native_system_out_println_void_with_registry, native_scanner_next_int_with_registry,
      native_scanner_next_line_with_registry, utf8_with_registry, bytecode_read_u1_with_registry,
      bytecode_read_u2_with_registry, bytecode_read_s2_with_registry, push_new_string_with_registry,
      execute_ldc_string_with_registry, invoke_frame_with_registry, invoke_parameters_with_registry,
      invokestatic_host_with_registry, resolve_method_ref_with_registry,
      invokevirtual_stringbuilder_with_registry, invokevirtual_printstream_with_registry,
      execute_invokevirtual_with_registry, execute_new_with_registry, int_binop_with_registry,
      long_binop_with_registry, float_binop_with_registry, double_binop_with_registry,
      if_cond_with_registry, if_icmp_with_registry, iload_with_registry, aload_with_registry,
      istore_with_registry, astore_with_registry, checked_div_with_registry]
    all_goals try split_ifs
    all_goals rfl

theorem execute_bytecode_with_registry (P : Platform) (nm : List NativeMethodEntry) (c : Nat) :
    ∀ (fuel : Nat) (m : Machine),
      execute_bytecode P fuel (m.with_registry nm c)
      = (execute_bytecode P fuel m).with_registry nm c := by
  intro fuel
  induction fuel with
  | zero => intro m; rfl
  | succ fuel ih =>
    intro m
    rw [execute_bytecode_succ, execute_bytecode_succ]
    simp only [with_registry_fault, with_registry_frame, bytecode_read_u1_with_registry,
      execute_opcode_with_registry P _ _ _ nm c ih]
    split_ifs
    · rfl
    · rcases execute_opcode P (execute_bytecode P fuel) (Bytecode.read_u1 m).2
        (OpCode.of_byte (Bytecode.read_u1 m).1) with x | ⟨value, x⟩ | _
      · exact ih x
      · simp only [Step.with_registry, with_registry_fault]
        split_ifs <;> rfl
      · rfl
    · rfl

theorem find_class_with_registry (jvm : JVM) (name : List Nat)
    (nm : List NativeMethodEntry) (c : Nat) :
    find_class (jvm.with_registry nm c) name = find_class jvm name := by
  rfl

theorem jvm_execute_method_with_registry (P : Platform) (fuel : Nat) (jvm : JVM)
    (class_name method_name : List Nat) (nm : List NativeMethodEntry) (c : Nat) :
    jvm_execute_method P fuel (jvm.with_registry nm c) class_name method_name
      = (jvm_execute_method P fuel jvm class_name method_name).with_registry nm c := by
  unfold jvm_execute_method
  rw [find_class_with_registry]
  split_ifs
  · rfl
  · rcases (find_class jvm class_name).1 with _ | class_info
    · rfl
    · simp only []
      split_ifs
      · rfl
      · rcases (find_method class_info method_name).1 with _ | method
        · rfl
        · exact execute_bytecode_with_registry P nm c fuel
            ⟨jvm, entry_frame class_info method, false⟩

theorem with_registry_of_fields (a b : JVM)
    (hclasses : a.classes = b.classes) (hcount : a.classes_count = b.classes_count)
    (hstack : a.stack_memory = b.stack_memory) (hlocals : a.locals_memory = b.locals_memory)
    (hpool : a.string_pool = b.string_pool) (hin : a.input = b.input)
    (hout : a.output = b.output) :
    b = a.with_registry b.native_methods b.native_methods_count := by
  obtain ⟨a1, a2, a3, a4, a5, a6, a7, a8, a9⟩ := a
  obtain ⟨b1, b2, b3, b4, b5, b6, b7, b8, b9⟩ := b
  simp only at hclasses hcount hstack hlocals hpool hin hout
  subst hclasses hcount hstack hlocals hpool hin hout
  rfl

/-- Claim C39.  Let the VMs `a` and `b` differ at most in `native_methods` and
`native_methods_count`.  Then `jvm_execute_method` on `b` gives what it gives on
`a` with the registry of `b` in place: the same result value, a fault or the end
of the fuel for the same inputs, and on return the same frame, operand stack,
locals, string pool, output and remaining input. -/
theorem registry_not_consulted (P : Platform) (fuel : Nat) (a b : JVM)
    (class_name method_name : List Nat)
    (hclasses : a.classes = b.classes) (hcount : a.classes_count = b.classes_count)
    (hstack : a.stack_memory = b.stack_memory) (hlocals : a.locals_memory = b.locals_memory)
    (hpool : a.string_pool = b.string_pool) (hin : a.input = b.input)
    (hout : a.output = b.output) :
    jvm_execute_method P fuel b class_name method_name
      = (jvm_execute_method P fuel a class_name method_name).with_registry
          b.native_methods b.native_methods_count ∧
    (jvm_execute_method P fuel b class_name method_name).result
      = (jvm_execute_method P fuel a class_name method_name).result ∧
    (jvm_execute_method P fuel b class_name method_name = .fault ↔
      jvm_execute_method P fuel a class_name method_name = .fault) ∧
    (jvm_execute_method P fuel b class_name method_name = .out_of_fuel ↔
      jvm_execute_method P fuel a class_name method_name = .out_of_fuel) ∧
    (∀ r ma, jvm_execute_method P fuel a class_name method_name = .returned r ma →
      ∃ mb, jvm_execute_method P fuel b class_name method_name = .returned r mb ∧
        mb.frame = ma.frame ∧ mb.fault = ma.fault ∧
        mb.jvm.stack_memory = ma.jvm.stack_memory ∧
        mb.jvm.locals_memory = ma.jvm.locals_memory ∧
        mb.jvm.string_pool = ma.jvm.string_pool ∧
        mb.jvm.output = ma.jvm.output ∧ mb.jvm.input = ma.jvm.input ∧
        mb.jvm.native_methods = b.native_methods ∧
        mb.jvm.native_methods_count = b.native_methods_count) := by
  have hb := with_registry_of_fields a b hclasses hcount hstack hlocals hpool hin hout
  have h : jvm_execute_method P fuel b class_name method_name
      = (jvm_execute_method P fuel a class_name method_name).with_registry
          b.native_methods b.native_methods_count := by
    conv => lhs; rw [hb]
    exact jvm_execute_method_with_registry P fuel a class_name method_name _ _
  refine ⟨h, ?_, ?_, ?_, ?_⟩
  · rw [h]
    rcases jvm_execute_method P fuel a class_name method_name with ⟨r, ma⟩ | _ | _ <;> rfl
  · rw [h]
    rcases jvm_execute_method P fuel a class_name method_name with ⟨r, ma⟩ | _ | _
    · exact ⟨fun e => Outcome.noConfusion e, fun e => Outcome.noConfusion e⟩
    · exact ⟨fun _ => rfl, fun _ => rfl⟩
    · exact ⟨fun e => Outcome.noConfusion e, fun e => Outcome.noConfusion e⟩
  · rw [h]
    rcases jvm_execute_method P fuel a class_name method_name with ⟨r, ma⟩ | _ | _
    · exact ⟨fun e => Outcome.noConfusion e, fun e => Outcome.noConfusion e⟩
    · exact ⟨fun e => Outcome.noConfusion e, fun e => Outcome.noConfusion e⟩
    · exact ⟨fun _ => rfl, fun _ => rfl⟩
  · intro r ma hr
    rw [h, hr]
    exact ⟨_, rfl, rfl, rfl, rfl, rfl, rfl, rfl, rfl, rfl, rfl⟩

/-- After `register_standard_native_methods` has filled the registry with eight
entries, `main` of `returning_class 7` gives the same result as before. -/
theorem registry_not_consulted_witness :
    (jvm_execute_method stub_platform 5
      (register_standard_native_methods (jvm_load_class (jvm_init []) (returning_class 7)).2)
      (lit "Test") (lit "main")).result
      = (jvm_execute_method stub_platform 5 (jvm_load_class (jvm_init []) (returning_class 7)).2
          (lit "Test") (lit "main")).result ∧
    (register_standard_native_methods
      (jvm_load_class (jvm_init []) (returning_class 7)).2).native_methods_count = 8 ∧
    (jvm_load_class (jvm_init []) (returning_class 7)).2.native_methods_count = 0 :=
  ⟨(registry_not_consulted stub_platform 5 (jvm_load_class (jvm_init []) (returning_class 7)).2
      (register_standard_native_methods (jvm_load_class (jvm_init []) (returning_class 7)).2)
      (lit "Test") (lit "main") rfl rfl rfl rfl rfl rfl rfl).2.1, by decide, by decide⟩

end MicroJVM
